import Mathlib

/-!
# Shallow embedding of `osfmk/x86_64/pmap.c`

The physical-map layer is embedded as pure functions over an explicit machine
state.  Page-table words live in a flat physical memory (`State.mem`, indexed
by the physical byte address of the 64-bit word); a `pmap_t` is a handle into
`State.pmaps`, `0` being `PMAP_NULL`.  Pointers to page-table entries are
`Option Nat` (`none` is the C null pointer).  Loops that may spin are given a
fuel argument; running out of fuel is the outcome `Result.timeout`, a fatal
stop (`panic`, or a store through a null pointer) is `Result.panic`.

Virtual addresses are 64-bit: address arithmetic is reduced modulo `2 ^ 64`
wherever the C expression can wrap.

The processors are a second state (`Mp`): the per-processor records, the
executing processor, and a trace of the effects outside the page tables
(signals, flushes, releases) in the order they happen.  What the other
processors and the clock do while the executing processor pauses is an
environment (`Env`), arbitrary in the theorems.  Calls on that side end in an
`Outcome`, which keeps the state reached by a fatal stop.

The boot-time passes (`pmap_mark_range` and the loops of `pmap_lowmem_finalize`
over the low memory regions and over the data pages) and the audit
`pmap_permissions_verify` take what lies outside this source as parameters: the
platform table of memory regions, the boot-arg `dataconstro`, the bounds of the
data segment, and `mach_vm_region_recurse`.
-/

namespace Pmap

/-! ## Constants of the headers -/

/-- Modelled from the spec: `PAGE_SIZE` of the machine headers (outside this source); the 4 KiB leaf page of the spec. -/
def PAGE_SIZE : Nat := 4096

/-- Modelled from the spec: `INTEL_PTE_VALID` of i386/pmap.h (outside this source);
the present flag of a mapping entry, bit 0 of the hardware encoding. -/
def INTEL_PTE_VALID : Nat := 0x1

/-- Modelled from the spec: `INTEL_PTE_WRITE` of i386/pmap.h (outside this source);
the writable flag of a mapping entry, bit 1 of the hardware encoding. -/
def INTEL_PTE_WRITE : Nat := 0x2

/-- Modelled from the spec: `INTEL_PTE_USER` of i386/pmap.h (outside this source);
the user/kernel flag of a mapping entry, bit 2 of the hardware encoding. -/
def INTEL_PTE_USER : Nat := 0x4

/-- Modelled from the spec: `INTEL_PTE_PS` of i386/pmap.h (outside this source);
the large-page flag of a mapping entry, bit 7 of the hardware encoding. -/
def INTEL_PTE_PS : Nat := 0x80

/-- Modelled from the spec: `INTEL_PTE_NX` of i386/pmap.h (outside this source);
the no-execute flag of a mapping entry, bit 63 of the hardware encoding. -/
def INTEL_PTE_NX : Nat := 0x8000000000000000

/-- Modelled from the spec: `PG_FRAME` of i386/pmap.h (outside this source); the
physical-frame field of a mapping entry, bits 12..51. -/
def PG_FRAME : Nat := 0x000FFFFFFFFFF000

/-- Modelled from the spec: `PML4SHIFT` of i386/pmap.h (outside this source); the
top level of the four-level radix structure indexes address bits 39..47. -/
def PML4SHIFT : Nat := 39

/-- Modelled from the spec: `PDPTSHIFT` of i386/pmap.h (outside this source); the
upper level indexes address bits 30..38. -/
def PDPTSHIFT : Nat := 30

/-- Modelled from the spec: `PDSHIFT` of i386/pmap.h (outside this source); the
middle level indexes address bits 21..29. -/
def PDSHIFT : Nat := 21

/-- Modelled from the spec: `PTESHIFT` of i386/pmap.h (outside this source); the
leaf level indexes address bits 12..20. -/
def PTESHIFT : Nat := 12

/-- Modelled from the spec: `NPML4PG`, `NPDPTPG`, `NPDPG` and `NPTEPG` of
i386/pmap.h (outside this source); a table-level page is a page-sized array of
eight-byte slots, 512 of them. -/
def NPTEPG : Nat := 512

/-- Modelled from the spec: `PDE_MAPPED_SIZE` of i386/pmap.h (outside this source);
the 2 MiB mapped by one page-directory entry.  The source keeps it in the
global `pde_mapped_size`, which is never written after its initialiser. -/
def pde_mapped_size : Nat := 0x200000

/-- All-ones 64-bit word; `x ^^^ UINT64_MAX` is the C complement `~x` of a
64-bit `x`. -/
def UINT64_MAX : Nat := 0xFFFFFFFFFFFFFFFF

/-- Modelled from the spec: `VM_PROT_NONE` of mach/vm_prot.h (outside this source). -/
def VM_PROT_NONE : Nat := 0
/-- Modelled from the spec: `VM_PROT_READ` of mach/vm_prot.h (outside this source). -/
def VM_PROT_READ : Nat := 1
/-- Modelled from the spec: `VM_PROT_WRITE` of mach/vm_prot.h (outside this source). -/
def VM_PROT_WRITE : Nat := 2
/-- Modelled from the spec: `VM_PROT_EXECUTE` of mach/vm_prot.h (outside this source). -/
def VM_PROT_EXECUTE : Nat := 4

/-- Modelled from the spec: `KERN_SUCCESS` of mach/kern_return.h (outside this source). -/
def KERN_SUCCESS : Nat := 0
/-- Modelled from the spec: `KERN_RESOURCE_SHORTAGE` of mach/kern_return.h (outside this source); the resource-shortage result of `expand`. -/
def KERN_RESOURCE_SHORTAGE : Nat := 6

/-- Modelled from the spec: `PMAP_EXPAND_OPTIONS_NOWAIT` of i386/pmap.h (outside this source); the option bit requesting non-blocking behaviour. -/
def PMAP_EXPAND_OPTIONS_NOWAIT : Nat := 0x1

/-- The null `pmap_t`. -/
def PMAP_NULL : Nat := 0

/-- Modelled from the spec: `KERNEL_PML4_INDEX` of i386/pmap.h (outside this source); the top-level slot of the kernel. -/
def KERNEL_PML4_INDEX : Nat := 511
/-- Modelled from the spec: `KERNEL_KEXTS_INDEX` of i386/pmap.h (outside this source); the top-level slot of the kext basement. -/
def KERNEL_KEXTS_INDEX : Nat := 510
/-- Modelled from the spec: `KERNEL_PHYSMAP_PML4_INDEX` of i386/pmap.h (outside this source); the top-level slot of the physical map window. -/
def KERNEL_PHYSMAP_PML4_INDEX : Nat := 509

/-- Modelled from the spec: `KERNEL_BASEMENT` of i386/pmap.h (outside this source);
lowest address of the 512 GiB kext window below the kernel. -/
def KERNEL_BASEMENT : Nat := 0xFFFFFF0000000000
/-- Modelled from the spec: `VM_MAX_KERNEL_ADDRESS` of the machine headers (outside this source); highest kernel virtual address. -/
def VM_MAX_KERNEL_ADDRESS : Nat := 0xFFFFFFFFFFFFEFFF

/-- Modelled from the spec: `TASK_MAP_32BIT` of i386/pmap.h (outside this source). -/
def TASK_MAP_32BIT : Nat := 0
/-- Modelled from the spec: `TASK_MAP_64BIT` of i386/pmap.h (outside this source). -/
def TASK_MAP_64BIT : Nat := 1

/-! ## Data model -/

/-- Fields of `struct pmap` used by this file.  `pm_pml4` is not kept apart
from `pm_cr3`: the top-level table is addressed by its physical address, as
are all lower tables (reached through the physmap window in the source).  The
three ownership objects `pm_obj_pml4`, `pm_obj_pdpt`, `pm_obj` are the lists of
`(offset, physical page)` pairs inserted by `vm_page_insert`, newest first. -/
structure pmap where
  pm_cr3 : Nat
  ref_count : Int
  nx_enabled : Bool
  pm_shared : Bool
  pm_task_map : Nat
  resident_count : Nat
  resident_max : Nat
  wired_count : Nat
  ledger : Nat
  pm_obj_pml4 : List (Nat × Nat)
  pm_obj_pdpt : List (Nat × Nat)
  pm_obj : List (Nat × Nat)

/-- Machine state seen by the pmap layer.

* `mem` holds the page-table words, by physical byte address.
* `vm_page_grab_oracle i` is what the `i`-th call of `vm_page_grab` returns
  (`none` for `VM_PAGE_NULL`, `some pn` for a page with `phys_page = pn`);
  `grabs` counts the calls made so far, `waits` the calls of `VM_PAGE_WAIT`.
* `wired`, `freed` log `vm_page_wire` and `VM_PAGE_FREE`.
* `tlb_shootdowns` logs the `PMAP_UPDATE_TLBS (map, s, e)` requests.
* `pmap_zone`, `pmap_anchor_zone` are the free elements `zalloc` hands out
  next; `vm_objects_avail` how many objects `vm_object_allocate` can still
  create; `vm_objects_allocated` how many it created.
* `ledger_refs` counts `ledger_reference` per ledger; `pcid_initialized` logs
  `pmap_pcid_initialize`.
* `inuse_ptepages_count`, `alloc_ptepages_count` are the counters of the
  source (an `unsigned int` and a `long long`).  The steps of one made by
  `pmap_expand*` are not reduced to the machine width, the number of table
  pages being bounded by the number of physical pages; the subtraction of the
  pages of a whole space in `pmap_destroy` is reduced modulo `2 ^ 32`.
* `PMAP_ASSERT`, `MACH_ASSERT` tell whether the checks of `pmap_assert` and of
  `assert` are compiled in; a failed check is a fatal stop. -/
structure State where
  mem : Nat → Nat
  pmaps : Nat → pmap
  kernel_pmap : Nat
  nx_enabled : Bool
  pmap_pcid_ncpus : Nat
  inuse_ptepages_count : Int
  alloc_ptepages_count : Int
  vm_page_grab_oracle : Nat → Option Nat
  grabs : Nat
  waits : Nat
  wired : List Nat
  freed : List Nat
  tlb_shootdowns : List (Nat × Nat × Nat)
  pmap_zone : List Nat
  pmap_anchor_zone : List Nat
  vm_objects_avail : Nat
  vm_objects_allocated : Nat
  ledger_refs : Nat → Nat
  pcid_initialized : List Nat
  PMAP_ASSERT : Bool
  MACH_ASSERT : Bool

/-- Outcome of a call: a normal return with a value and the state it leaves, a
fatal stop, or exhaustion of the fuel given to its loops. -/
inductive Result (α : Type) where
  | ret (val : α) (st : State)
  | panic
  | timeout

/-! ## Entry primitives and the table walk -/

/-- Source `pmap_store_pte (entryp, value)`: a plain store of the word. -/
def pmap_store_pte (s : State) (entryp value : Nat) : State :=
  { s with mem := fun a => if a = entryp then value else s.mem a }

/-- Modelled from the spec: `pmap_update_pte (ptep, pclear_bits, pset_bits)` of
i386/pmap_internal.h (outside this source), the raw bit-twiddling on a table word:
the stored word becomes `(old & ~pclear_bits) | pset_bits`. -/
def pmap_update_pte (s : State) (ptep pclear_bits pset_bits : Nat) : State :=
  pmap_store_pte s ptep (((s.mem ptep) &&& (pclear_bits ^^^ UINT64_MAX)) ||| pset_bits)

/-- Source `pmap_zero_page (pn)`: every word of physical page `pn` becomes 0. -/
def pmap_zero_page (s : State) (pn : Nat) : State :=
  { s with mem := fun a => if a / PAGE_SIZE = pn then 0 else s.mem a }

/-- Modelled from the spec: `i386_ptob` of the machine headers (outside this source); page number to byte address, in 64 bits. -/
def i386_ptob (pn : Nat) : Nat := (pn * PAGE_SIZE) % 2 ^ 64

/-- Modelled from the spec: `intel_btop` of the machine headers (outside this source); byte count to page count. -/
def intel_btop (x : Nat) : Nat := x >>> PTESHIFT

/-- Modelled from the spec: `pa_to_pte` of i386/pmap.h (outside this source); the
frame field of an entry for physical address `pa`. -/
def pa_to_pte (pa : Nat) : Nat := pa &&& PG_FRAME

/-- Modelled from the spec: `ptenum` of i386/pmap.h (outside this source); index of
the leaf slot of an address. -/
def ptenum (a : Nat) : Nat := (a >>> PTESHIFT) &&& (NPTEPG - 1)

/-- Modelled from the spec: `pml4idx` of i386/pmap.h (outside this source); the
address-space-relative slot number keying `pm_obj_pml4`. -/
def pml4idx (a : Nat) : Nat := (a >>> PML4SHIFT) &&& (2 ^ (48 - PML4SHIFT) - 1)

/-- Modelled from the spec: `pdptidx` of i386/pmap.h (outside this source); the
address-space-relative slot number keying `pm_obj_pdpt`. -/
def pdptidx (a : Nat) : Nat := (a >>> PDPTSHIFT) &&& (2 ^ (48 - PDPTSHIFT) - 1)

/-- Modelled from the spec: `pdeidx` of i386/pmap.h (outside this source); the
address-space-relative slot number keying `pm_obj`. -/
def pdeidx (a : Nat) : Nat := (a >>> PDSHIFT) &&& (2 ^ (48 - PDSHIFT) - 1)

/-- Modelled from the spec: `pmap64_pml4` of i386/pmap_internal.h (outside this source); the top-level slot of `vaddr`, null for an address in the
non-canonical hole (the hole bounds are those `pmap_permissions_verify` skips
in the source). -/
def pmap64_pml4 (s : State) (map vaddr : Nat) : Option Nat :=
  if 0x00007FFFFFFFFFFF < vaddr ∧ vaddr < 0xFFFF800000000000 then none
  else some ((s.pmaps map).pm_cr3 + 8 * ((vaddr >>> PML4SHIFT) &&& (NPTEPG - 1)))

/-- Modelled from the spec: `pmap64_pdpt` of i386/pmap_internal.h (outside this source); the upper-level slot of `vaddr`, null when the top-level entry is not
present. -/
def pmap64_pdpt (s : State) (map vaddr : Nat) : Option Nat :=
  match pmap64_pml4 s map vaddr with
  | none => none
  | some pml4 =>
    if s.mem pml4 &&& INTEL_PTE_VALID ≠ 0 then
      some ((s.mem pml4 &&& PG_FRAME) + 8 * ((vaddr >>> PDPTSHIFT) &&& (NPTEPG - 1)))
    else none

/-- Modelled from the spec: `pmap64_pde` of i386/pmap_internal.h (outside this source); the middle-level slot of `vaddr`, null when the upper-level entry is
not present. -/
def pmap64_pde (s : State) (map vaddr : Nat) : Option Nat :=
  match pmap64_pdpt s map vaddr with
  | none => none
  | some pdpt =>
    if s.mem pdpt &&& INTEL_PTE_VALID ≠ 0 then
      some ((s.mem pdpt &&& PG_FRAME) + 8 * ((vaddr >>> PDSHIFT) &&& (NPTEPG - 1)))
    else none

/-- Modelled from the spec: `pmap_pde` of i386/pmap_internal.h (outside this source); it is `pmap64_pde`. -/
def pmap_pde (s : State) (m v : Nat) : Option Nat := pmap64_pde s m v

/-- Modelled from the spec: `pmap_pte` of i386/pmap_internal.h (outside this source); the leaf slot of `vaddr`, or the middle-level slot itself when that
entry is a superpage; null when the middle-level entry is not present. -/
def pmap_pte (s : State) (map vaddr : Nat) : Option Nat :=
  match pmap_pde s map vaddr with
  | none => none
  | some pde =>
    if s.mem pde &&& INTEL_PTE_VALID ≠ 0 then
      if s.mem pde &&& INTEL_PTE_PS ≠ 0 then some pde
      else some ((s.mem pde &&& PG_FRAME) + 8 * (intel_btop vaddr &&& (NPTEPG - 1)))
    else none

/-- Modelled from the spec: the macro `PMAP_UPDATE_TLBS (pmap, s, e)` of
i386/pmap_internal.h (outside this source), as far as the page tables are
concerned: the shootdown request for the range is recorded, newest first.  The
shootdown the macro runs, `pmap_flush_tlbs`, writes no page-table word; it can
stop fatally or never come back, which is modelled with the processors in view
by `PMAP_UPDATE_TLBS_sync`. -/
def PMAP_UPDATE_TLBS (s : State) (map sva eva : Nat) : State :=
  { s with tlb_shootdowns := (map, sva, eva) :: s.tlb_shootdowns }

/-! ## `pmap_protect` -/

/-- Source `pmap_protect`, the loop `for (; spte < epte; spte++)` over `n`
consecutive eight-byte slots from `spte`; the result is the state and the new
`num_found` (an `int` in the source, not wrapped here). -/
def pmap_protect_ptes (prot : Nat) (set_NX : Bool) : Nat → Nat → State → Nat → State × Nat
  | 0, _, s, num_found => (s, num_found)
  | n + 1, spte, s, num_found =>
    if s.mem spte &&& INTEL_PTE_VALID = 0 then
      pmap_protect_ptes prot set_NX n (spte + 8) s num_found
    else
      let s1 :=
        if prot &&& VM_PROT_WRITE ≠ 0 then pmap_update_pte s spte 0 INTEL_PTE_WRITE
        else pmap_update_pte s spte INTEL_PTE_WRITE 0
      let s2 :=
        if set_NX then pmap_update_pte s1 spte 0 INTEL_PTE_NX
        else pmap_update_pte s1 spte INTEL_PTE_NX 0
      pmap_protect_ptes prot set_NX n (spte + 8) s2 (num_found + 1)

/-- Source `pmap_protect`: `lva`, the next 2 MiB boundary after `sva` (computed
in 64 bits), clamped to `eva`. -/
def pmap_protect_lva (sva eva : Nat) : Nat :=
  let lva := ((sva + pde_mapped_size) % 2 ^ 64) &&& ((pde_mapped_size - 1) ^^^ UINT64_MAX)
  if lva > eva then eva else lva

/-- Source `pmap_protect`, the stride loop `while (sva < eva)`. -/
def pmap_protect_loop (map prot : Nat) (set_NX : Bool) (eva : Nat) :
    Nat → Nat → State → Nat → Result Nat
  | 0, _, _, _ => Result.timeout
  | fuel + 1, sva, s, num_found =>
    if sva < eva then
      let lva := pmap_protect_lva sva eva
      match pmap_pde s map sva with
      | none => pmap_protect_loop map prot set_NX eva fuel lva s num_found
      | some pde =>
        if s.mem pde &&& INTEL_PTE_VALID ≠ 0 then
          if s.mem pde &&& INTEL_PTE_PS ≠ 0 then
            let r := pmap_protect_ptes prot set_NX 1 pde s num_found
            pmap_protect_loop map prot set_NX eva fuel lva r.1 r.2
          else
            match pmap_pte s map (sva &&& ((pde_mapped_size - 1) ^^^ UINT64_MAX)) with
            | none => Result.panic
            | some spte =>
              let r := pmap_protect_ptes prot set_NX
                (intel_btop ((lva + 2 ^ 64 - sva) % 2 ^ 64)) (spte + 8 * ptenum sva) s num_found
              pmap_protect_loop map prot set_NX eva fuel lva r.1 r.2
        else pmap_protect_loop map prot set_NX eva fuel lva s num_found
    else Result.ret num_found s

/-- Source `pmap_protect`: the value given to `set_NX`. -/
def pmap_protect_set_NX (s : State) (map prot : Nat) : Bool :=
  if prot &&& VM_PROT_EXECUTE ≠ 0 ∨ s.nx_enabled = false ∨ (s.pmaps map).nx_enabled = false
  then false else true

/-- Source `pmap_protect (map, sva, eva, prot)`, up to the hand-over to the
shootdown.  `pmap_remove` is defined outside this file of the source and is
taken as a parameter.  The shootdown `PMAP_UPDATE_TLBS (map, sva, eva)`, the
last statement of the call, is recorded as a request and not run: the outcome
`Result.ret` says that the stride loop has come to its end and carries the page
tables the call leaves; whether the call then comes back is the matter of
`pmap_flush_tlbs`. -/
def pmap_protect (pmap_remove : State → Nat → Nat → Nat → Result Unit)
    (fuel : Nat) (s : State) (map sva eva prot : Nat) : Result Unit :=
  if map = PMAP_NULL then Result.ret () s
  else if prot = VM_PROT_NONE then pmap_remove s map sva eva
  else
    match pmap_protect_loop map prot (pmap_protect_set_NX s map prot) eva fuel sva s 0 with
    | Result.ret num_found s1 =>
      if num_found ≠ 0 then Result.ret () (PMAP_UPDATE_TLBS s1 map sva eva)
      else Result.ret () s1
    | Result.panic => Result.panic
    | Result.timeout => Result.timeout

/-! ## Expansion -/

/-- Source `pmap_expand*`, the allocation loop
`while ((m = vm_page_grab()) == VM_PAGE_NULL) { if (options & PMAP_EXPAND_OPTIONS_NOWAIT) return KERN_RESOURCE_SHORTAGE; VM_PAGE_WAIT(); }`.
The value is `some pn` when a page with `phys_page = pn` was grabbed and
`none` when the caller returns `KERN_RESOURCE_SHORTAGE`. -/
def vm_page_grab_loop (options : Nat) : Nat → State → Result (Option Nat)
  | 0, _ => Result.timeout
  | fuel + 1, s =>
    match s.vm_page_grab_oracle s.grabs with
    | some pn => Result.ret (some pn) { s with grabs := s.grabs + 1 }
    | none =>
      if options &&& PMAP_EXPAND_OPTIONS_NOWAIT ≠ 0 then
        Result.ret none { s with grabs := s.grabs + 1 }
      else
        vm_page_grab_loop options fuel { s with grabs := s.grabs + 1, waits := s.waits + 1 }

/-- Store of the structure `p` at the pmap handle `h`. -/
def set_pmap (s : State) (h : Nat) (p : pmap) : State :=
  { s with pmaps := fun k => if k = h then p else s.pmaps k }

/-- Source `pmap_expand*`, from the grabbed page to the acquisition of the
locks: the page is zeroed and wired and both counters are bumped.  (The
`PMAP_ZINFO_PALLOC` ledger accounting is outside the model.) -/
def pmap_expand_prepare (s : State) (pn : Nat) : State :=
  let s1 := pmap_zero_page s pn
  { s1 with
    wired := pn :: s1.wired
    inuse_ptepages_count := s1.inuse_ptepages_count + 1
    alloc_ptepages_count := s1.alloc_ptepages_count + 1 }

/-- Source `pmap_expand*`, the lost-race exit: `VM_PAGE_FREE (m)` and
`OSAddAtomic (-1, &inuse_ptepages_count)`. -/
def pmap_expand_lost_race (s : State) (pn : Nat) : State :=
  { s with
    freed := pn :: s.freed
    inuse_ptepages_count := s.inuse_ptepages_count - 1 }

/-- Source `pmap_expand_pml4`, after the allocation loop (`pn = m->phys_page`). -/
def pmap_expand_pml4_grabbed (s : State) (map vaddr pn : Nat) : Result Nat :=
  let pa := i386_ptob pn
  let i := pml4idx vaddr
  let s1 := pmap_expand_prepare s pn
  if pmap64_pdpt s1 map vaddr ≠ none then
    Result.ret KERN_SUCCESS (pmap_expand_lost_race s1 pn)
  else
    let s2 := set_pmap s1 map
      { (s1.pmaps map) with pm_obj_pml4 := (i, pn) :: (s1.pmaps map).pm_obj_pml4 }
    match pmap64_pml4 s2 map vaddr with
    | none => Result.panic
    | some pml4p =>
      Result.ret KERN_SUCCESS
        (pmap_store_pte s2 pml4p
          (pa_to_pte pa ||| INTEL_PTE_VALID ||| INTEL_PTE_USER ||| INTEL_PTE_WRITE))

/-- Source `pmap_expand_pml4 (map, vaddr, options)`. -/
def pmap_expand_pml4 (fuel : Nat) (s : State) (map vaddr options : Nat) : Result Nat :=
  match vm_page_grab_loop options fuel s with
  | Result.timeout => Result.timeout
  | Result.panic => Result.panic
  | Result.ret none s1 => Result.ret KERN_RESOURCE_SHORTAGE s1
  | Result.ret (some pn) s1 => pmap_expand_pml4_grabbed s1 map vaddr pn

/-- Source `pmap_expand_pdpt`, after the allocation loop (`pn = m->phys_page`). -/
def pmap_expand_pdpt_grabbed (s : State) (map vaddr pn : Nat) : Result Nat :=
  let pa := i386_ptob pn
  let i := pdptidx vaddr
  let s1 := pmap_expand_prepare s pn
  if pmap64_pde s1 map vaddr ≠ none then
    Result.ret KERN_SUCCESS (pmap_expand_lost_race s1 pn)
  else
    let s2 := set_pmap s1 map
      { (s1.pmaps map) with pm_obj_pdpt := (i, pn) :: (s1.pmaps map).pm_obj_pdpt }
    match pmap64_pdpt s2 map vaddr with
    | none => Result.panic
    | some pdptp =>
      Result.ret KERN_SUCCESS
        (pmap_store_pte s2 pdptp
          (pa_to_pte pa ||| INTEL_PTE_VALID ||| INTEL_PTE_USER ||| INTEL_PTE_WRITE))

/-- Source `pmap_expand_pdpt (map, vaddr, options)`; one unit of fuel per
iteration of `while ((pdptp = pmap64_pdpt (map, vaddr)) == PDPT_ENTRY_NULL)`. -/
def pmap_expand_pdpt (map vaddr options : Nat) : Nat → State → Result Nat
  | 0, _ => Result.timeout
  | fuel + 1, s =>
    match pmap64_pdpt s map vaddr with
    | none =>
      match pmap_expand_pml4 fuel s map vaddr options with
      | Result.timeout => Result.timeout
      | Result.panic => Result.panic
      | Result.ret pep4kr s1 =>
        if pep4kr ≠ KERN_SUCCESS then Result.ret pep4kr s1
        else pmap_expand_pdpt map vaddr options fuel s1
    | some _ =>
      match vm_page_grab_loop options fuel s with
      | Result.timeout => Result.timeout
      | Result.panic => Result.panic
      | Result.ret none s1 => Result.ret KERN_RESOURCE_SHORTAGE s1
      | Result.ret (some pn) s1 => pmap_expand_pdpt_grabbed s1 map vaddr pn

/-- Source `pmap_expand`, after the allocation loop (`pn = m->phys_page`). -/
def pmap_expand_grabbed (s : State) (map vaddr pn : Nat) : Result Nat :=
  let pa := i386_ptob pn
  let i := pdeidx vaddr
  let s1 := pmap_expand_prepare s pn
  if pmap_pte s1 map vaddr ≠ none then
    Result.ret KERN_SUCCESS (pmap_expand_lost_race s1 pn)
  else
    let s2 := set_pmap s1 map
      { (s1.pmaps map) with pm_obj := (i, pn) :: (s1.pmaps map).pm_obj }
    match pmap_pde s2 map vaddr with
    | none => Result.panic
    | some pdp =>
      Result.ret KERN_SUCCESS
        (pmap_store_pte s2 pdp
          (pa_to_pte pa ||| INTEL_PTE_VALID ||| INTEL_PTE_USER ||| INTEL_PTE_WRITE))

/-- Source `pmap_expand`, from `while ((pdp = pmap64_pde (map, vaddr)) == PD_ENTRY_NULL)`
on; one unit of fuel per iteration of that loop. -/
def pmap_expand_body (map vaddr options : Nat) : Nat → State → Result Nat
  | 0, _ => Result.timeout
  | fuel + 1, s =>
    match pmap64_pde s map vaddr with
    | none =>
      match pmap_expand_pdpt map vaddr options fuel s with
      | Result.timeout => Result.timeout
      | Result.panic => Result.panic
      | Result.ret pepkr s1 =>
        if pepkr ≠ KERN_SUCCESS then Result.ret pepkr s1
        else pmap_expand_body map vaddr options fuel s1
    | some _ =>
      match vm_page_grab_loop options fuel s with
      | Result.timeout => Result.timeout
      | Result.panic => Result.panic
      | Result.ret none s1 => Result.ret KERN_RESOURCE_SHORTAGE s1
      | Result.ret (some pn) s1 => pmap_expand_grabbed s1 map vaddr pn

/-- Source `pmap_expand (map, vaddr, options)`. -/
def pmap_expand (fuel : Nat) (s : State) (map vaddr options : Nat) : Result Nat :=
  if map = s.kernel_pmap ∧ ¬ (vaddr ≥ KERNEL_BASEMENT ∧ vaddr ≤ VM_MAX_KERNEL_ADDRESS) then
    Result.panic
  else pmap_expand_body map vaddr options fuel s

/-! ## `pmap_create` -/

/-- Source `pmap_create`: `vm_object_allocate`, which yields a fresh empty
object or null when none can be created. -/
def vm_object_allocate (s : State) : Option State :=
  if s.vm_objects_avail = 0 then none
  else some { s with
    vm_objects_avail := s.vm_objects_avail - 1
    vm_objects_allocated := s.vm_objects_allocated + 1 }

/-- Source `pmap_create (ledger, sz, is_64bit)`; the value is the handle of the
new pmap, or `PMAP_NULL`.  `PAGE_MASK` is `PAGE_SIZE - 1`. -/
def pmap_create (s : State) (ledger sz : Nat) (is_64bit : Bool) : Result Nat :=
  let size := sz % 2 ^ 64
  if size ≠ 0 then Result.ret PMAP_NULL s
  else
    match s.pmap_zone with
    | [] => Result.panic
    | p :: zone =>
      if p = PMAP_NULL then Result.panic
      else
        match s.pmap_anchor_zone with
        | [] => Result.panic
        | pm_pml4 :: anchors =>
          if s.PMAP_ASSERT = true ∧ pm_pml4 &&& (PAGE_SIZE - 1) ≠ 0 then Result.panic
          else
            let s1 : State := { s with
              pmap_zone := zone
              ledger_refs := fun l => if l = ledger then s.ledger_refs l + 1 else s.ledger_refs l
              pcid_initialized :=
                if s.pmap_pcid_ncpus ≠ 0 then p :: s.pcid_initialized else s.pcid_initialized
              pmap_anchor_zone := anchors
              mem := fun a => if pm_pml4 ≤ a ∧ a < pm_pml4 + PAGE_SIZE then 0 else s.mem a }
            match vm_object_allocate s1 with
            | none => Result.panic
            | some s2 =>
              match vm_object_allocate s2 with
              | none => Result.panic
              | some s3 =>
                match vm_object_allocate s3 with
                | none => Result.panic
                | some s4 =>
                  let newp : pmap :=
                    { pm_cr3 := pm_pml4
                      ref_count := 1
                      nx_enabled := true
                      pm_shared := false
                      pm_task_map := if is_64bit then TASK_MAP_64BIT else TASK_MAP_32BIT
                      resident_count := 0
                      resident_max := 0
                      wired_count := 0
                      ledger := ledger
                      pm_obj_pml4 := []
                      pm_obj_pdpt := []
                      pm_obj := [] }
                  let s5 : State := set_pmap s4 p newp
                  let kpml4 := (s5.pmaps s5.kernel_pmap).pm_cr3
                  let s6 := pmap_store_pte s5 (pm_pml4 + 8 * KERNEL_PML4_INDEX)
                    (s5.mem (kpml4 + 8 * KERNEL_PML4_INDEX))
                  let s7 := pmap_store_pte s6 (pm_pml4 + 8 * KERNEL_KEXTS_INDEX)
                    (s6.mem (kpml4 + 8 * KERNEL_KEXTS_INDEX))
                  let s8 := pmap_store_pte s7 (pm_pml4 + 8 * KERNEL_PHYSMAP_PML4_INDEX)
                    (s7.mem (kpml4 + 8 * KERNEL_PHYSMAP_PML4_INDEX))
                  Result.ret p s8

/-! ## Auxiliary definitions for the statements and proofs -/

/-- The word `pmap_protect` leaves in a valid slot. -/
def protect_word (prot : Nat) (set_NX : Bool) (e : Nat) : Nat :=
  let e1 := if prot &&& VM_PROT_WRITE ≠ 0 then (e &&& (0 ^^^ UINT64_MAX)) ||| INTEL_PTE_WRITE
            else (e &&& (INTEL_PTE_WRITE ^^^ UINT64_MAX)) ||| 0
  if set_NX then (e1 &&& (0 ^^^ UINT64_MAX)) ||| INTEL_PTE_NX
  else (e1 &&& (INTEL_PTE_NX ^^^ UINT64_MAX)) ||| 0

/-- Word-level footprint of the loops of `pmap_protect`. -/
def ProtRel (prot : Nat) (set_NX : Bool) (m m' : Nat → Nat) : Prop :=
  ∀ a, m' a = m a ∨ (m a &&& INTEL_PTE_VALID ≠ 0 ∧ m' a = protect_word prot set_NX (m a))

/-- Two memories in which every word has the same present flag, large-page
flag and frame field: the table walk cannot tell them apart. -/
def SameWalk (m m' : Nat → Nat) : Prop :=
  ∀ a, m' a &&& INTEL_PTE_VALID = m a &&& INTEL_PTE_VALID ∧
    m' a &&& INTEL_PTE_PS = m a &&& INTEL_PTE_PS ∧
    m' a &&& PG_FRAME = m a &&& PG_FRAME

/-- A `struct pmap` with all counters zero and empty ownership objects. -/
def sample_pmap (cr3 : Nat) : pmap :=
  { pm_cr3 := cr3, ref_count := 1, nx_enabled := true, pm_shared := false,
    pm_task_map := TASK_MAP_64BIT, resident_count := 0, resident_max := 0, wired_count := 0,
    ledger := 0, pm_obj_pml4 := [], pm_obj_pdpt := [], pm_obj := [] }

/-- Page-table words of the sample space: one top-level, one upper, one middle
table (pages 1, 2, 3) and a leaf table (page 4) mapping virtual page 1
read-only no-execute, page 2 writable executable, page 3 writable no-execute. -/
def sample_mem (a : Nat) : Nat :=
  if a = 0x1000 then 0x2007
  else if a = 0x2000 then 0x3007
  else if a = 0x3000 then 0x4007
  else if a = 0x4008 then 0x8000000000005001
  else if a = 0x4010 then 0x6003
  else if a = 0x4018 then 0x8000000000007003
  else 0

/-- A user space (handle 1, root at 0x1000) next to the kernel pmap (handle 2);
the frame allocator hands out pages 16, 17, 18, ... -/
def sample_state : State :=
  { mem := sample_mem
    pmaps := fun h => if h = 1 then sample_pmap 0x1000 else sample_pmap 0x9000
    kernel_pmap := 2
    nx_enabled := true
    pmap_pcid_ncpus := 0
    inuse_ptepages_count := 3
    alloc_ptepages_count := 3
    vm_page_grab_oracle := fun i => some (16 + i)
    grabs := 0
    waits := 0
    wired := []
    freed := []
    tlb_shootdowns := []
    pmap_zone := [3]
    pmap_anchor_zone := [0xA000]
    vm_objects_avail := 3
    vm_objects_allocated := 0
    ledger_refs := fun _ => 0
    pcid_initialized := []
    PMAP_ASSERT := false
    MACH_ASSERT := false }

/-- A removal routine for the examples: it clears the leaf words of the pages
of the range in the first leaf table and requests a shootdown. -/
def sample_remove (s : State) (map sva eva : Nat) : Result Unit :=
  Result.ret () (PMAP_UPDATE_TLBS
    { s with mem := fun a =>
        if 0x4000 ≤ a ∧ a < 0x5000 ∧ sva ≤ (a - 0x4000) / 8 * 4096 ∧ (a - 0x4000) / 8 * 4096 < eva
        then 0 else s.mem a } map sva eva)

/-- Source `pmap_permissions_verify`: the hardware protection `tprot` derived
from a present entry. -/
def pte_tprot (e : Nat) : Nat :=
  let t0 := VM_PROT_READ
  let t1 := if e &&& INTEL_PTE_WRITE ≠ 0 then t0 ||| VM_PROT_WRITE else t0
  if e &&& INTEL_PTE_NX = 0 then t1 ||| VM_PROT_EXECUTE else t1

/-- The word `pmap_expand*` installs for a new table page `pn`. -/
def table_entry (pn : Nat) : Nat :=
  pa_to_pte (i386_ptob pn) ||| INTEL_PTE_VALID ||| INTEL_PTE_USER ||| INTEL_PTE_WRITE

/-- State left by the install path of `pmap_expand_pml4` for grabbed page `pn`
and top-level slot `p`. -/
def installed_pml4 (s : State) (map vaddr pn p : Nat) : State :=
  pmap_store_pte
    (set_pmap (pmap_expand_prepare s pn) map
      { ((pmap_expand_prepare s pn).pmaps map) with
        pm_obj_pml4 := (pml4idx vaddr, pn) :: ((pmap_expand_prepare s pn).pmaps map).pm_obj_pml4 })
    p (table_entry pn)

/-- State left by the install path of `pmap_expand_pdpt` for grabbed page `pn`
and upper-level slot `p`. -/
def installed_pdpt (s : State) (map vaddr pn p : Nat) : State :=
  pmap_store_pte
    (set_pmap (pmap_expand_prepare s pn) map
      { ((pmap_expand_prepare s pn).pmaps map) with
        pm_obj_pdpt := (pdptidx vaddr, pn) :: ((pmap_expand_prepare s pn).pmaps map).pm_obj_pdpt })
    p (table_entry pn)

/-- State left by the install path of `pmap_expand` for grabbed page `pn` and
middle-level slot `p`. -/
def installed_pde (s : State) (map vaddr pn p : Nat) : State :=
  pmap_store_pte
    (set_pmap (pmap_expand_prepare s pn) map
      { ((pmap_expand_prepare s pn).pmaps map) with
        pm_obj := (pdeidx vaddr, pn) :: ((pmap_expand_prepare s pn).pmaps map).pm_obj })
    p (table_entry pn)

/-- How a call of `pmap_expand*` that goes from `s` to `s'` and returns `r`
has used the frame allocator. -/
def grab_contract (options : Nat) (s s' : State) (r : Nat) : Prop :=
  s'.vm_page_grab_oracle = s.vm_page_grab_oracle ∧ s.grabs ≤ s'.grabs ∧
  (r = KERN_SUCCESS ∨ r = KERN_RESOURCE_SHORTAGE) ∧
  (options &&& PMAP_EXPAND_OPTIONS_NOWAIT = 0 → r = KERN_SUCCESS) ∧
  (options &&& PMAP_EXPAND_OPTIONS_NOWAIT ≠ 0 →
    s'.waits = s.waits ∧
    (r = KERN_SUCCESS → ∀ i, s.grabs ≤ i → i < s'.grabs → s.vm_page_grab_oracle i ≠ none) ∧
    (r = KERN_RESOURCE_SHORTAGE →
      s.grabs < s'.grabs ∧ s.vm_page_grab_oracle (s'.grabs - 1) = none ∧
      ∀ i, s.grabs ≤ i → i + 1 < s'.grabs → s.vm_page_grab_oracle i ≠ none))

/-- The statement of claim C9 for one of the three expansion routines, `run fuel`
being the routine applied to the state `s`, and `entry` the condition under
which the routine gets past its entry check.

* A call that returns has called `vm_page_grab` at least once and returns
  `KERN_SUCCESS` or `KERN_RESOURCE_SHORTAGE`.
* With `PMAP_EXPAND_OPTIONS_NOWAIT`: a call that returns has not called
  `VM_PAGE_WAIT`, it returns `KERN_RESOURCE_SHORTAGE` exactly when one of its
  grabs yielded no page, and it made no grab after such a failure; the call
  comes to an end (four units of fuel suffice); and when the first grab yields
  no page the call returns `KERN_RESOURCE_SHORTAGE`, leaving nothing behind but
  the count of that one grab.
* Without the option every value returned is `KERN_SUCCESS`. -/
def nowait_contract (run : Nat → Result Nat) (options : Nat) (s : State) (entry : Prop) : Prop :=
  (∀ fuel r s', run fuel = Result.ret r s' →
    s.grabs < s'.grabs ∧ (r = KERN_SUCCESS ∨ r = KERN_RESOURCE_SHORTAGE)) ∧
  (options &&& PMAP_EXPAND_OPTIONS_NOWAIT ≠ 0 →
    (∀ fuel r s', run fuel = Result.ret r s' →
      s'.waits = s.waits ∧
      (r = KERN_RESOURCE_SHORTAGE ↔
        ∃ i, s.grabs ≤ i ∧ i < s'.grabs ∧ s.vm_page_grab_oracle i = none) ∧
      (∀ i, s.grabs ≤ i → i < s'.grabs → s.vm_page_grab_oracle i = none → i + 1 = s'.grabs)) ∧
    (∀ fuel, run (fuel + 4) ≠ Result.timeout) ∧
    (entry → s.vm_page_grab_oracle s.grabs = none →
      ∀ fuel, run (fuel + 4) =
        Result.ret KERN_RESOURCE_SHORTAGE { s with grabs := s.grabs + 1 })) ∧
  (options &&& PMAP_EXPAND_OPTIONS_NOWAIT = 0 →
    ∀ fuel r s', run fuel = Result.ret r s' → r = KERN_SUCCESS)

/-- What the lost-race exit of an expansion routine leaves, `s` being the
state at the call, `pn` the page it grabbed and `s'` the state at the return. -/
def lost_race_effect (s : State) (pn : Nat) (s' : State) : Prop :=
  (∀ a, s'.mem a = if a / PAGE_SIZE = pn then 0 else s.mem a) ∧
  s'.pmaps = s.pmaps ∧
  s'.freed = pn :: s.freed ∧
  s'.inuse_ptepages_count = s.inuse_ptepages_count ∧
  s'.alloc_ptepages_count = s.alloc_ptepages_count + 1

/-- An empty user space (handle 1, root at 0x1000) next to the kernel pmap
(handle 2); the frame allocator hands out pages 16, 17, 18 and then has no
page left. -/
def sample_empty : State :=
  { sample_state with
    mem := fun _ => 0
    inuse_ptepages_count := 0
    alloc_ptepages_count := 0
    vm_page_grab_oracle := fun i => if i < 3 then some (16 + i) else none }

/-- The empty user space of `sample_empty` when the frame allocator has no
page at the first request and hands out pages 17, 18, ... from the second
request on. -/
def sample_scarce : State :=
  { sample_empty with vm_page_grab_oracle := fun i => if i = 0 then none else some (16 + i) }

/-- Modelled from the spec: the per-processor record `cpu_data_t` of
i386/cpu_data.h (outside this source), the CPU invalidation state: the
currently-active table root and the task's root (read in the source through
`CPU_GET_ACTIVE_CR3` and `CPU_GET_TASK_CR3`), whether the active root is
marked active (`CPU_CR3_IS_ACTIVE`), the running flag, and the
pending-invalidation flag `cpu_tlb_invalid` split into its local and global
sub-flags. -/
structure cpu_data where
  cpu_running : Bool
  cpu_active_cr3 : Nat
  cpu_cr3_is_active : Bool
  cpu_task_cr3 : Nat
  cpu_tlb_invalid_local : Bool
  cpu_tlb_invalid_global : Bool

/-- Modelled from the spec: the whole flag `cpu_tlb_invalid`, which overlays
the two sub-flags: it is `FALSE` exactly when both are. -/
def cpu_data.cpu_tlb_invalid (d : cpu_data) : Bool :=
  d.cpu_tlb_invalid_local || d.cpu_tlb_invalid_global

/-- Effects outside the page tables: the stores to the pending flags, fences,
and the calls of routines defined outside this source
(`i386_signal_cpu (cpu, MP_TLB_FLUSH, ASYNC)`, `cpu_NMI_interrupt`,
`tlb_flush_global`, `flush_tlb_raw`, the PCID helpers, `zfree`,
`vm_object_deallocate`, `ledger_dereference`), which are recorded with their
arguments and not interpreted.  The flushes carry the processor executing
them. -/
inductive Event where
  | update_tlbs (pmap sva eva : Nat)
  | pcid_invalidate_all_cpus (pmap : Nat)
  | mfence
  | tlb_invalid_local (cpu : Nat)
  | tlb_invalid_global (cpu : Nat)
  | signal_cpu (cpu : Nat)
  | pcid_validate_cpu (pmap cpu : Nat)
  | pcid_validate_current (cpu : Nat)
  | tlb_flush_global (cpu : Nat)
  | flush_tlb_raw (cpu : Nat)
  | NMI_interrupt (cpu : Nat)
  | destroy_pcid_sync (pmap : Nat)
  | zfree_anchor (pm_pml4 : Nat)
  | vm_object_deallocate (pages : List (Nat × Nat))
  | ledger_dereference (ledger : Nat)
  | zfree_pmap (p : Nat)
  deriving DecidableEq

/-- Processor-side state of the machine.

* `cpus` is the array `cpu_datap (cpu)`, `real_ncpus` its length in use,
  `cpu_number` the processor executing the code.
* `processor_avail_count`, `interrupts_enabled`, `preemption_level` are what
  the entry assertions read; `current_thread_pmap` is
  `current_thread()->map->pmap` (`none` without a current thread or map).
* `tick` counts the calls of `cpu_pause` so far; the clock and the other
  processors are a function of it (see `Env`).
* `trace` lists the events so far, newest first. -/
structure Mp where
  cpus : Nat → cpu_data
  real_ncpus : Nat
  cpu_number : Nat
  processor_avail_count : Nat
  interrupts_enabled : Bool
  preemption_level : Nat
  current_thread_pmap : Option Nat
  pmap_tlb_flush_timeout : Bool
  tick : Nat
  trace : List Event

/-- What the executing processor does not control: `remote t` is what the
other processors do to the per-processor records during the `t`-th pause,
`mach_absolute_time t` and `machine_timeout_suspended t` what the routines of
these names (defined outside this source) return after `t` pauses;
`LockTimeOut` is the global of that name.  The theorems hold for every
environment. -/
structure Env where
  remote : Nat → (Nat → cpu_data) → Nat → cpu_data
  mach_absolute_time : Nat → Nat
  machine_timeout_suspended : Nat → Bool
  LockTimeOut : Nat

/-- Outcome of a call on the processor side: a normal return, a fatal stop
(with the state reached), or exhaustion of the fuel given to its loops. -/
inductive Outcome (α : Type) where
  | returned (val : α) (m : Mp)
  | panicked (m : Mp)
  | timeout

/-- Append an event to the trace. -/
def Mp.log (m : Mp) (e : Event) : Mp := { m with trace := e :: m.trace }

/-- Modelled from the spec: `cpu_pause ()` of the machine headers (outside
this source), one step of a busy-wait: the other processors run for one step
of the environment. -/
def cpu_pause (env : Env) (m : Mp) : Mp :=
  { m with cpus := env.remote m.tick m.cpus, tick := m.tick + 1 }

/-- The loop variable `cpu_bit` (`unsigned int`, starting at 1 and shifted left
once per processor) when the loop is at `cpu`. -/
def cpu_bit (cpu : Nat) : Nat := 2 ^ cpu % 2 ^ 32

/-- Source `pmap_flush_tlbs`: `pmap_is_shared`. -/
def pmap_is_shared (s : State) (pmap : Nat) : Bool :=
  (s.pmaps pmap).pm_shared || decide (pmap = s.kernel_pmap)

/-- Source `pmap_flush_tlbs`: the store of `TRUE` into the pending flag of
`cpu`, the global sub-flag `if (pmap_pcid_ncpus && pmap_is_shared)`, the local
one otherwise. -/
def pmap_flush_tlbs_mark (s : State) (pmap cpu : Nat) (m : Mp) : Mp :=
  if s.pmap_pcid_ncpus ≠ 0 ∧ pmap_is_shared s pmap = true then
    { m with
      cpus := fun c => if c = cpu then { (m.cpus c) with cpu_tlb_invalid_global := true }
        else m.cpus c
      trace := Event.tlb_invalid_global cpu :: m.trace }
  else
    { m with
      cpus := fun c => if c = cpu then { (m.cpus c) with cpu_tlb_invalid_local := true }
        else m.cpus c
      trace := Event.tlb_invalid_local cpu :: m.trace }

/-- Source `pmap_flush_tlbs`: the body of the first loop for processor `cpu`;
the triple is `cpus_to_signal`, `flush_self` and the state. -/
def pmap_flush_tlbs_scan_cpu (s : State) (pmap cpu : Nat) (st : Nat × Bool × Mp) :
    Nat × Bool × Mp :=
  let m := st.2.2
  if (m.cpus cpu).cpu_running = false then st
  else
    let pmap_cr3 := (s.pmaps pmap).pm_cr3
    let cpu_active_cr3 := (m.cpus cpu).cpu_active_cr3
    let cpu_task_cr3 := (m.cpus cpu).cpu_task_cr3
    if pmap_cr3 = cpu_task_cr3 ∨ pmap_cr3 = cpu_active_cr3 ∨ pmap_is_shared s pmap = true then
      if cpu = m.cpu_number then (st.1, true, m)
      else
        let m1 := (pmap_flush_tlbs_mark s pmap cpu m).log Event.mfence
        if (m1.cpus cpu).cpu_cr3_is_active = true ∧
            (pmap_cr3 = (m1.cpus cpu).cpu_active_cr3 ∨ (s.pmaps pmap).pm_shared = true ∨
              pmap_cr3 = (m1.cpus cpu).cpu_task_cr3) then
          (st.1 ||| cpu_bit cpu, st.2.1, m1.log (Event.signal_cpu cpu))
        else (st.1, st.2.1, m1)
    else st

/-- Source `pmap_flush_tlbs`: the first loop,
`for (cpu = 0, cpu_bit = 1; cpu < real_ncpus; cpu++, cpu_bit <<= 1)`, with `n`
processors left from `cpu` on. -/
def pmap_flush_tlbs_scan (s : State) (pmap : Nat) : Nat → Nat → Nat × Bool × Mp → Nat × Bool × Mp
  | 0, _, st => st
  | n + 1, cpu, st => pmap_flush_tlbs_scan s pmap n (cpu + 1) (pmap_flush_tlbs_scan_cpu s pmap cpu st)

/-- Source `pmap_flush_tlbs`: `if (flush_self) ...`, the local flush. -/
def pmap_flush_tlbs_self (s : State) (pmap : Nat) (flush_self : Bool) (m : Mp) : Mp :=
  if flush_self = true then
    if s.pmap_pcid_ncpus ≠ 0 then
      let m1 := m.log (Event.pcid_validate_cpu pmap m.cpu_number)
      if pmap_is_shared s pmap = true then m1.log (Event.tlb_flush_global m.cpu_number)
      else m1.log (Event.flush_tlb_raw m.cpu_number)
    else m.log (Event.flush_tlb_raw m.cpu_number)
  else m

/-- Source `pmap_flush_tlbs`: one pass of the inner loop of the wait,
`for (cpu = 0, cpu_bit = 1; cpu < real_ncpus; cpu++, cpu_bit <<= 1)`, with `n`
processors left from `cpu` on; the pair is `cpus_to_respond` and the state.
`~cpu_bit` is the complement of an `unsigned int`. -/
def pmap_flush_tlbs_acks (env : Env) : Nat → Nat → Nat → Mp → Nat × Mp
  | 0, _, cpus_to_respond, m => (cpus_to_respond, m)
  | n + 1, cpu, cpus_to_respond, m =>
    if cpus_to_respond &&& cpu_bit cpu ≠ 0 then
      let r1 :=
        if (m.cpus cpu).cpu_running = false ∨ (m.cpus cpu).cpu_tlb_invalid = false ∨
            (m.cpus cpu).cpu_cr3_is_active = false
        then cpus_to_respond &&& (cpu_bit cpu ^^^ 0xFFFFFFFF) else cpus_to_respond
      let m1 := cpu_pause env m
      if r1 = 0 then (r1, m1) else pmap_flush_tlbs_acks env n (cpu + 1) r1 m1
    else if cpus_to_respond = 0 then (cpus_to_respond, m)
    else pmap_flush_tlbs_acks env n (cpu + 1) cpus_to_respond m

/-- Source `pmap_cpuset_NMIPI`: the loop sending `cpu_NMI_interrupt (cpu)` to
the processors of `cpu_mask`, with `n` processors left from `cpu` on. -/
def pmap_cpuset_NMIPI_send : Nat → Nat → Nat → Mp → Mp
  | 0, _, _, m => m
  | n + 1, cpu, cpu_mask, m =>
    pmap_cpuset_NMIPI_send n (cpu + 1) cpu_mask
      (if cpu_mask &&& cpu_bit cpu ≠ 0 then m.log (Event.NMI_interrupt cpu) else m)

/-- Source `pmap_cpuset_NMIPI`: `while (mach_absolute_time() < deadline) cpu_pause();`. -/
def pmap_cpuset_NMIPI_spin (env : Env) (deadline : Nat) : Nat → Mp → Option Mp
  | 0, _ => none
  | fuel + 1, m =>
    if env.mach_absolute_time m.tick < deadline then
      pmap_cpuset_NMIPI_spin env deadline fuel (cpu_pause env m)
    else some m

/-- Source `pmap_cpuset_NMIPI (cpu_mask)`; `none` when the fuel runs out. -/
def pmap_cpuset_NMIPI (env : Env) (fuel : Nat) (cpu_mask : Nat) (m : Mp) : Option Mp :=
  let m1 := pmap_cpuset_NMIPI_send m.real_ncpus 0 cpu_mask m
  pmap_cpuset_NMIPI_spin env ((env.mach_absolute_time m1.tick + env.LockTimeOut) % 2 ^ 64) fuel m1

/-- Source `pmap_flush_tlbs`: `while (cpus_to_respond != 0)`, the wait for the
acknowledgements. -/
def pmap_flush_tlbs_wait (env : Env) (deadline : Nat) : Nat → Nat → Mp → Outcome Unit
  | 0, _, _ => Outcome.timeout
  | fuel + 1, cpus_to_respond, m =>
    if cpus_to_respond ≠ 0 then
      let r := pmap_flush_tlbs_acks env m.real_ncpus 0 cpus_to_respond m
      if r.1 ≠ 0 ∧ env.mach_absolute_time r.2.tick > deadline then
        if env.machine_timeout_suspended r.2.tick = true then
          pmap_flush_tlbs_wait env deadline fuel r.1 r.2
        else
          match pmap_cpuset_NMIPI env fuel r.1 { r.2 with pmap_tlb_flush_timeout := true } with
          | none => Outcome.timeout
          | some m3 => Outcome.panicked m3
      else pmap_flush_tlbs_wait env deadline fuel r.1 r.2
    else Outcome.returned () m

/-- Source `pmap_flush_tlbs`: the condition of the entry assertion,
`(processor_avail_count < 2) || (ml_get_interrupts_enabled() && get_preemption_level() != 0)`. -/
def pmap_flush_tlbs_assert (m : Mp) : Bool :=
  decide (m.processor_avail_count < 2) ||
    (m.interrupts_enabled && decide (m.preemption_level ≠ 0))

/-- Source `pmap_flush_tlbs`: the state at the first loop, after
`if (pmap_pcid_ncpus) { pmap_pcid_invalidate_all_cpus (pmap); mfence }`. -/
def pmap_flush_tlbs_enter (s : State) (m : Mp) (pmap : Nat) : Mp :=
  if s.pmap_pcid_ncpus ≠ 0 then
    (m.log (Event.pcid_invalidate_all_cpus pmap)).log Event.mfence
  else m

/-- Source `pmap_flush_tlbs (pmap, startv, endv)`; the bounds are used for
tracing only. -/
def pmap_flush_tlbs (env : Env) (fuel : Nat) (s : State) (m : Mp) (pmap _startv _endv : Nat) :
    Outcome Unit :=
  if s.MACH_ASSERT = true ∧ pmap_flush_tlbs_assert m = false then Outcome.panicked m
  else
    let m0 := pmap_flush_tlbs_enter s m pmap
    let r := pmap_flush_tlbs_scan s pmap m0.real_ncpus 0 (0, false, m0)
    let cpus_to_signal := r.1
    let flush_self := r.2.1
    let m1 := pmap_flush_tlbs_self s pmap flush_self r.2.2
    let waited :=
      if cpus_to_signal ≠ 0 then
        pmap_flush_tlbs_wait env ((env.mach_absolute_time m1.tick + env.LockTimeOut) % 2 ^ 64)
          fuel cpus_to_signal m1
      else Outcome.returned () m1
    match waited with
    | Outcome.returned _ m2 =>
      if pmap = s.kernel_pmap ∧ flush_self ≠ true then Outcome.panicked m2
      else Outcome.returned () m2
    | Outcome.panicked m2 => Outcome.panicked m2
    | Outcome.timeout => Outcome.timeout

/-- Source `process_pmap_updates ()`. -/
def process_pmap_updates (s : State) (m : Mp) : Outcome Unit :=
  let ccpu := m.cpu_number
  if s.PMAP_ASSERT = true ∧ ¬ (m.interrupts_enabled = false ∨ m.preemption_level ≠ 0) then
    Outcome.panicked m
  else if s.pmap_pcid_ncpus ≠ 0 then
    let m1 := m.log (Event.pcid_validate_current ccpu)
    if (m1.cpus ccpu).cpu_tlb_invalid_global = true then
      Outcome.returned ()
        (({ m1 with
            cpus := fun c =>
              if c = ccpu then
                { (m1.cpus c) with cpu_tlb_invalid_local := false, cpu_tlb_invalid_global := false }
              else m1.cpus c }.log (Event.tlb_flush_global ccpu)).log Event.mfence)
    else
      Outcome.returned ()
        (({ m1 with
            cpus := fun c =>
              if c = ccpu then { (m1.cpus c) with cpu_tlb_invalid_local := false }
              else m1.cpus c }.log (Event.flush_tlb_raw ccpu)).log Event.mfence)
  else
    Outcome.returned ()
      (({ m with
          cpus := fun c =>
            if c = ccpu then
              { (m.cpus c) with cpu_tlb_invalid_local := false, cpu_tlb_invalid_global := false }
            else m.cpus c }.log (Event.flush_tlb_raw ccpu)).log Event.mfence)

/-! ## `pmap_destroy`, `pmap_reference`, `pmap_verify_free` -/

/-- Modelled from the spec: the macro `PMAP_UPDATE_TLBS (pmap, s, e)` of
i386/pmap_internal.h (outside this source) with the processors in view: the
request is recorded, in the trace and as by `PMAP_UPDATE_TLBS`, and the
shootdown `pmap_flush_tlbs (pmap, s, e)` is run. -/
def PMAP_UPDATE_TLBS_sync (env : Env) (fuel : Nat) (s : State) (m : Mp) (pmap sva eva : Nat) :
    Outcome State :=
  match pmap_flush_tlbs env fuel s (m.log (Event.update_tlbs pmap sva eva)) pmap sva eva with
  | Outcome.returned _ m1 => Outcome.returned (PMAP_UPDATE_TLBS s pmap sva eva) m1
  | Outcome.panicked m1 => Outcome.panicked m1
  | Outcome.timeout => Outcome.timeout

/-- Modelled from the spec: `vm_object_deallocate` of the VM layer (outside
this source) on an ownership object holding `pages`: the object is given back
and the table-level pages it holds are freed. -/
def vm_object_deallocate (st : State × Mp) (pages : List (Nat × Nat)) : State × Mp :=
  ({ st.1 with
      vm_objects_avail := st.1.vm_objects_avail + 1
      vm_objects_allocated := st.1.vm_objects_allocated - 1
      freed := pages.map Prod.snd ++ st.1.freed },
    st.2.log (Event.vm_object_deallocate pages))

/-- Source `pmap_destroy`, from `zfree (pmap_anchor_zone, p->pm_pml4)` to
`zfree (pmap_zone, p)`; `resident_page_count` of an ownership object is the
number of pages it holds, and `OSAddAtomic (-inuse_ptepages, &inuse_ptepages_count)`
is a subtraction on an `unsigned int`, reduced modulo `2 ^ 32`.  The zone
accounting of `PMAP_ZINFO_PFREE` is not modelled. -/
def pmap_destroy_teardown (s : State) (m : Mp) (p : Nat) : State × Mp :=
  let q := s.pmaps p
  let st1 : State × Mp :=
    ({ s with pmap_anchor_zone := q.pm_cr3 :: s.pmap_anchor_zone },
      m.log (Event.zfree_anchor q.pm_cr3))
  let st2 := vm_object_deallocate st1 q.pm_obj_pml4
  let st3 := vm_object_deallocate st2 q.pm_obj_pdpt
  let st4 := vm_object_deallocate st3 q.pm_obj
  let inuse_ptepages : Nat := q.pm_obj_pml4.length + q.pm_obj_pdpt.length + q.pm_obj.length
  ({ st4.1 with
      inuse_ptepages_count := (st4.1.inuse_ptepages_count - inuse_ptepages) % 2 ^ 32
      ledger_refs := fun l => if l = q.ledger then st4.1.ledger_refs l - 1 else st4.1.ledger_refs l
      pmap_zone := p :: st4.1.pmap_zone },
    (st4.2.log (Event.ledger_dereference q.ledger)).log (Event.zfree_pmap p))

/-- Source `pmap_destroy (p)`. -/
def pmap_destroy (env : Env) (fuel : Nat) (s : State) (m : Mp) (p : Nat) : Outcome State :=
  if p = PMAP_NULL then Outcome.returned s m
  else
    let c := (s.pmaps p).ref_count - 1
    let s1 := set_pmap s p { (s.pmaps p) with ref_count := c }
    if s.PMAP_ASSERT = true ∧ m.current_thread_pmap = some p then Outcome.panicked m
    else if c = 0 then
      match PMAP_UPDATE_TLBS_sync env fuel s1 m p 0 0xFFFFFFFFFFFFF000 with
      | Outcome.returned s2 m2 =>
        let m3 := if s.pmap_pcid_ncpus ≠ 0 then m2.log (Event.destroy_pcid_sync p) else m2
        let st := pmap_destroy_teardown s2 m3 p
        Outcome.returned st.1 st.2
      | Outcome.panicked m2 => Outcome.panicked m2
      | Outcome.timeout => Outcome.timeout
    else if s.PMAP_ASSERT = true ∧ p ≠ s.kernel_pmap then Outcome.panicked m
    else Outcome.returned s1 m

/-- Source `pmap_reference (p)`. -/
def pmap_reference (s : State) (p : Nat) : State :=
  if p ≠ PMAP_NULL then set_pmap s p { (s.pmaps p) with ref_count := (s.pmaps p).ref_count + 1 }
  else s

/-- Globals of the reverse-mapping table read by `pmap_verify_free`:
`managed pn` is `IS_MANAGED_PAGE (ppn_to_pai (pn))` and `pv_head_pmap pn` is
`pai_to_pvh (pn)->pmap` (both macros are outside this source). -/
structure PvState where
  pmap_initialized : Bool
  vm_page_fictitious_addr : Nat
  vm_page_guard_addr : Nat
  managed : Nat → Bool
  pv_head_pmap : Nat → Nat

/-- Source `pmap_verify_free (pn)`. -/
def pmap_verify_free (s : State) (pv : PvState) (pn : Nat) : Result Bool :=
  if s.MACH_ASSERT = true ∧ pn = pv.vm_page_fictitious_addr then Result.panic
  else if pv.pmap_initialized = false then Result.ret true s
  else if pn = pv.vm_page_guard_addr then Result.ret true s
  else if pv.managed pn = false then Result.ret false s
  else Result.ret (decide (pv.pv_head_pmap pn = PMAP_NULL)) s

/-! ## Auxiliary definitions for the processor-side statements -/

/-- A running processor with active root `active`, task root `task`, the
active root marked active when `live`, and no pending invalidation. -/
def sample_cpu (active task : Nat) (live : Bool) : cpu_data :=
  { cpu_running := true, cpu_active_cr3 := active, cpu_cr3_is_active := live,
    cpu_task_cr3 := task, cpu_tlb_invalid_local := false, cpu_tlb_invalid_global := false }

/-- Four processors: 0 (the executing one) runs the kernel pmap of
`sample_state`; 1 runs the user space of root 0x1000; 2 has it as task root
with its active root marked inactive; 3 runs another space. -/
def sample_mp : Mp :=
  { cpus := fun c =>
      if c = 0 then sample_cpu 0x9000 0x9000 true
      else if c = 1 then sample_cpu 0x1000 0x1000 true
      else if c = 2 then sample_cpu 0x9000 0x1000 false
      else sample_cpu 0x7000 0x7000 true
    real_ncpus := 4
    cpu_number := 0
    processor_avail_count := 4
    interrupts_enabled := true
    preemption_level := 1
    current_thread_pmap := some 2
    pmap_tlb_flush_timeout := false
    tick := 0
    trace := [] }

/-- Other processors that answer: during every pause each of them clears its
pending flag, as `process_pmap_updates` does. -/
def sample_env : Env :=
  { remote := fun _ cpus c =>
      if c = 0 then cpus c
      else { (cpus c) with cpu_tlb_invalid_local := false, cpu_tlb_invalid_global := false }
    mach_absolute_time := fun t => 10 * t
    machine_timeout_suspended := fun _ => false
    LockTimeOut := 100 }

/-- Other processors that never answer. -/
def stuck_env : Env :=
  { remote := fun _ cpus => cpus
    mach_absolute_time := fun t => 10 * t
    machine_timeout_suspended := fun _ => false
    LockTimeOut := 100 }

/-- The state after `k` pauses. -/
def cpu_pauses (env : Env) : Nat → Mp → Mp
  | 0, m => m
  | k + 1, m => cpu_pauses env k (cpu_pause env m)

/-- The acknowledgement test of the wait loop on a per-processor record. -/
def cpu_acked (d : cpu_data) : Prop :=
  d.cpu_running = false ∨ d.cpu_tlb_invalid = false ∨ d.cpu_cr3_is_active = false

/-- The first test of the scan of `pmap_flush_tlbs` on a record: the processor
is running and its task root or its active root is the root of the space, or
the space is the kernel pmap or flagged shared. -/
def flush_matches (s : State) (pmap : Nat) (d : cpu_data) : Bool :=
  d.cpu_running && (decide ((s.pmaps pmap).pm_cr3 = d.cpu_task_cr3) ||
    decide ((s.pmaps pmap).pm_cr3 = d.cpu_active_cr3) || pmap_is_shared s pmap)

/-- The second test of the scan of `pmap_flush_tlbs` on a record: the active
root is marked active and it or the task root is the root of the space, or the
space is flagged shared. -/
def flush_signals (s : State) (pmap : Nat) (d : cpu_data) : Bool :=
  d.cpu_cr3_is_active && (decide ((s.pmaps pmap).pm_cr3 = d.cpu_active_cr3) ||
    (s.pmaps pmap).pm_shared || decide ((s.pmaps pmap).pm_cr3 = d.cpu_task_cr3))

/-- The sub-flag the scan sets: the global one when PCID is in effect and the
space is shared, the local one otherwise. -/
def flush_global (s : State) (pmap : Nat) : Bool :=
  decide (s.pmap_pcid_ncpus ≠ 0) && pmap_is_shared s pmap

/-- The store event of the scan for `cpu`. -/
def flush_mark_event (s : State) (pmap cpu : Nat) : Event :=
  if flush_global s pmap = true then Event.tlb_invalid_global cpu else Event.tlb_invalid_local cpu

/-- A record with the pending flag set by the scan. -/
def flush_marked (s : State) (pmap : Nat) (d : cpu_data) : cpu_data :=
  if flush_global s pmap = true then { d with cpu_tlb_invalid_global := true }
  else { d with cpu_tlb_invalid_local := true }

/-- Events of the scan for processor `c`, newest first. -/
def scan_cpu_events (s : State) (pmap : Nat) (cpus : Nat → cpu_data) (my c : Nat) : List Event :=
  if c ≠ my ∧ flush_matches s pmap (cpus c) = true then
    if flush_signals s pmap (cpus c) = true then
      [Event.signal_cpu c, Event.mfence, flush_mark_event s pmap c]
    else [Event.mfence, flush_mark_event s pmap c]
  else []

/-- Events of the scan for the `n` processors from `cpu` on, newest first. -/
def scan_events (s : State) (pmap : Nat) (cpus : Nat → cpu_data) (my : Nat) : Nat → Nat → List Event
  | 0, _ => []
  | n + 1, cpu => scan_events s pmap cpus my n (cpu + 1) ++ scan_cpu_events s pmap cpus my cpu

/-- The interrupts `pmap_cpuset_NMIPI` sends for `cpu_mask` on `n` processors,
newest first. -/
def nmi_events (cpu_mask : Nat) (cpu n : Nat) : List Event :=
  (((List.range' cpu n).filter (fun c => decide (cpu_mask &&& cpu_bit c ≠ 0))).reverse).map
    Event.NMI_interrupt

/-- Source `pmap_flush_tlbs`: `cpus_to_signal`, `flush_self` and the state when
the first loop is done. -/
def pmap_flush_tlbs_scanned (s : State) (m : Mp) (pmap : Nat) : Nat × Bool × Mp :=
  pmap_flush_tlbs_scan s pmap (pmap_flush_tlbs_enter s m pmap).real_ncpus 0
    (0, false, pmap_flush_tlbs_enter s m pmap)

/-- Source `pmap_flush_tlbs`: the state when the wait for the acknowledgements
starts, all signals sent and the local flush done. -/
def pmap_flush_tlbs_signalled (s : State) (m : Mp) (pmap : Nat) : Mp :=
  pmap_flush_tlbs_self s pmap (pmap_flush_tlbs_scanned s m pmap).2.1
    (pmap_flush_tlbs_scanned s m pmap).2.2

/-- Events of `pmap_flush_tlbs` before its first loop, newest first. -/
def flush_enter_events (s : State) (pmap : Nat) : List Event :=
  if s.pmap_pcid_ncpus ≠ 0 then [Event.mfence, Event.pcid_invalidate_all_cpus pmap] else []

/-- Events of the local flush of `pmap_flush_tlbs`, newest first. -/
def flush_self_events (s : State) (pmap my : Nat) (flush_self : Bool) : List Event :=
  if flush_self = true then
    if s.pmap_pcid_ncpus ≠ 0 then
      [if pmap_is_shared s pmap = true then Event.tlb_flush_global my else Event.flush_tlb_raw my,
        Event.pcid_validate_cpu pmap my]
    else [Event.flush_tlb_raw my]
  else []

/-- A flush of the translation cache of some processor. -/
def Event.is_tlb_flush : Event → Bool
  | Event.tlb_flush_global _ => true
  | Event.flush_tlb_raw _ => true
  | _ => false

/-- The sample space with one table-level page in each ownership object. -/
def sample_owned : State :=
  { sample_state with
    PMAP_ASSERT := true
    pmaps := fun h =>
      if h = 1 then
        { sample_pmap 0x1000 with
          pm_obj_pml4 := [(0, 2)], pm_obj_pdpt := [(0, 3)], pm_obj := [(0, 4)] }
      else sample_pmap 0x9000 }

/-- In a trace (newest first), `e1` happened before `e2`. -/
def happens_before (e1 e2 : Event) (trace : List Event) : Bool :=
  decide (e1 ∈ trace) && decide (e2 ∈ trace) && decide (trace.indexOf e2 < trace.indexOf e1)

/-- A release of memory by `pmap_destroy`. -/
def Event.is_release : Event → Bool
  | Event.zfree_anchor _ => true
  | Event.vm_object_deallocate _ => true
  | Event.zfree_pmap _ => true
  | _ => false

/-- A reverse-mapping table after initialisation: frames 16 to 1023 are
managed, frame 16 is mapped by the space of handle 1. -/
def sample_pv : PvState :=
  { pmap_initialized := true
    vm_page_fictitious_addr := 0xFFFFFFFF
    vm_page_guard_addr := 0xFFFFFFFE
    managed := fun pn => decide (16 ≤ pn ∧ pn < 1024)
    pv_head_pmap := fun pn => if pn = 16 then 1 else PMAP_NULL }

/-! ## `pmap_mark_range`, `pmap_lowmem_finalize`, `pmap_permissions_verify` -/

/-- Modelled from the spec: `PAGE_MASK` of the machine headers (outside this source); the offset mask of the 4 KiB leaf page. -/
def PAGE_MASK : Nat := 4095

/-- Modelled from the spec: `PAGE_MASK_64` of the machine headers (outside this source); `PAGE_MASK` as a 64-bit value. -/
def PAGE_MASK_64 : Nat := 4095

/-- Modelled from the spec: `I386_PGBYTES` of the machine headers (outside this source); the size of the 4 KiB leaf page. -/
def I386_PGBYTES : Nat := 4096

/-- Modelled from the spec: `NBPML4` of i386/pmap.h (outside this source); the
512 GiB mapped by one entry of the top level (`1 << PML4SHIFT`). -/
def NBPML4 : Nat := 0x8000000000

/-- Modelled from the spec: `PML4MASK` of i386/pmap.h (outside this source); `NBPML4 - 1`. -/
def PML4MASK : Nat := NBPML4 - 1

/-- Modelled from the spec: `NBPD` of i386/pmap.h (outside this source); the
2 MiB mapped by one entry of the middle level (`1 << PDSHIFT`). -/
def NBPD : Nat := 0x200000

/-- Modelled from the spec: `PDMASK` of i386/pmap.h (outside this source); `NBPD - 1`. -/
def PDMASK : Nat := NBPD - 1

/-- Modelled from the spec: `PDEMASK` of i386/pmap.h (outside this source); the
offset mask of the 2 MiB large page, `NBPDE - 1`. -/
def PDEMASK : Nat := 0x1FFFFF

/-- Modelled from the spec: `NBPT` of i386/pmap.h (outside this source); the
4 KiB mapped by one leaf entry (`1 << PTSHIFT`). -/
def NBPT : Nat := 4096

/-- Modelled from the spec: `KERN_FAILURE` of mach/kern_return.h (outside this source); the failure result of the permission audit. -/
def KERN_FAILURE : Nat := 5

/-- Modelled from the spec: `EFI_MEMORY_KERN_RESERVED` of the platform headers
(outside this source); the reservation attribute of a physical memory region. -/
def EFI_MEMORY_KERN_RESERVED : Nat := 0x0800000000000000

/-- Source `pmap_mark_range`: the two direct updates of one entry,
`if (NX) *p |= INTEL_PTE_NX; if (ro) *p &= ~INTEL_PTE_WRITE;`. -/
def pmap_mark_range_entry (s : State) (p : Nat) (NX ro : Bool) : State :=
  let s1 := if NX then pmap_store_pte s p (s.mem p ||| INTEL_PTE_NX) else s
  if ro then pmap_store_pte s1 p (s1.mem p &&& (INTEL_PTE_WRITE ^^^ UINT64_MAX)) else s1

/-- Source `pmap_mark_range`, the inner loop
`for (ptep = pmap_pte(npmap, cv); ptep != NULL && (cv < (pdev + NBPD)) && (cv < ev);)`;
the value is the cursor `cv` and the state at its exit, `none` when the fuel
runs out. -/
def pmap_mark_range_ptes (npmap : Nat) (NX ro : Bool) (pdev ev : Nat) :
    Nat → Nat → State → Option (Nat × State)
  | 0, _, _ => none
  | fuel + 1, cv, s =>
    match pmap_pte s npmap cv with
    | none => some (cv, s)
    | some ptep =>
      if cv < (pdev + NBPD) % 2 ^ 64 ∧ cv < ev then
        pmap_mark_range_ptes npmap NX ro pdev ev fuel ((cv + NBPT) % 2 ^ 64)
          (pmap_mark_range_entry s ptep NX ro)
      else some (cv, s)

/-- Source `pmap_mark_range`, the outer loop
`for (pdep = pmap_pde(npmap, cv); pdep != NULL && (cv < ev);)`.  The loop has no
increment expression: `pdep` is read again only at the end of the large-page
branch.  The value is the cursor `cv` at the exit. -/
def pmap_mark_range_loop (npmap : Nat) (NX ro : Bool) (ev : Nat) :
    Nat → Option Nat → Nat → State → Result Nat
  | 0, _, _, _ => Result.timeout
  | fuel + 1, pdep, cv, s =>
    match pdep with
    | none => Result.ret cv s
    | some pde =>
      if cv < ev then
        let pdev := cv &&& (PDEMASK ^^^ UINT64_MAX)
        if s.mem pde &&& INTEL_PTE_PS ≠ 0 then
          let s1 := pmap_mark_range_entry s pde NX ro
          let cv1 := ((cv + NBPD) % 2 ^ 64) &&& (PDEMASK ^^^ UINT64_MAX)
          pmap_mark_range_loop npmap NX ro ev fuel (pmap_pde s1 npmap cv1) cv1 s1
        else
          match pmap_mark_range_ptes npmap NX ro pdev ev fuel cv s with
          | none => Result.timeout
          | some (cv1, s1) => pmap_mark_range_loop npmap NX ro ev fuel pdep cv1 s1
      else Result.ret cv s

/-- Source `pmap_mark_range (npmap, sv, nxrosz, NX, ro)`.  The source returns
nothing; the value here is the cursor `cv` at the exit of the loop, which the
closing `DPRINTF` prints. -/
def pmap_mark_range (fuel : Nat) (s : State) (npmap sv nxrosz : Nat) (NX ro : Bool) :
    Result Nat :=
  let ev := (sv + nxrosz) % 2 ^ 64
  if s.MACH_ASSERT = true ∧ ((sv &&& 0xFFF) ||| (nxrosz &&& 0xFFF)) ≠ 0 then Result.panic
  else pmap_mark_range_loop npmap NX ro ev fuel (pmap_pde s npmap sv) sv s

/-- One element of the platform table `pmap_memory_regions` (declared outside
this source): first page `base`, last page `end_` and attribute word `attribute_` (the
fields `end` and `attribute` of the source). -/
structure pmap_memory_region where
  base : Nat
  end_ : Nat
  attribute_ : Nat

/-- Source `pmap_lowmem_finalize`, the body of the loop over the regions below
the kernel base, for one region: the calls of `ml_static_mfree` it makes, oldest
first, each as the pair of its two arguments.  `ml_static_ptovirt` is defined
outside this source and is taken as a parameter.  Page numbers are 32-bit
(`ppnum_t`), byte addresses 64-bit. -/
def pmap_lowmem_finalize_region (ml_static_ptovirt : Nat → Nat) (r : pmap_memory_region) :
    List (Nat × Nat) :=
  let pbase := i386_ptob r.base
  let pend := i386_ptob ((r.end_ + 1) % 2 ^ 32)
  if r.attribute_ &&& EFI_MEMORY_KERN_RESERVED ≠ 0 then []
  else if pbase ≥ 0xc0000 ∧ pend ≤ 0x100000 then []
  else
    let lower : List (Nat × Nat) :=
      if pbase < 0xc0000 ∧ pend > 0x100000 then
        [(ml_static_ptovirt pbase, (0xc0000 + 2 ^ 64 - pbase) % 2 ^ 64)]
      else []
    let pbase1 := if pbase < 0xc0000 ∧ pend > 0x100000 then 0x100000 else pbase
    let pend1 := if pbase1 < 0xc0000 then min pend 0xc0000 else pend
    let pbase2 := if pend1 > 0x100000 then max pbase1 0x100000 else pbase1
    lower ++ [(ml_static_ptovirt pbase2, (pend1 + 2 ^ 64 - pbase2) % 2 ^ 64)]

/-- Source `pmap_lowmem_finalize`, the loop
`for (i = 0; pmap_memory_regions[i].end < vm_kernel_base_page; i++)`: the calls
of `ml_static_mfree` made from index `i` on, oldest first; `none` when the fuel
runs out. -/
def pmap_lowmem_finalize_regions (ml_static_ptovirt : Nat → Nat)
    (pmap_memory_regions : Nat → pmap_memory_region) (vm_kernel_base_page : Nat) :
    Nat → Nat → Option (List (Nat × Nat))
  | 0, _ => none
  | fuel + 1, i =>
    if (pmap_memory_regions i).end_ < vm_kernel_base_page then
      match pmap_lowmem_finalize_regions ml_static_ptovirt pmap_memory_regions
          vm_kernel_base_page fuel (i + 1) with
      | none => none
      | some l => some (pmap_lowmem_finalize_region ml_static_ptovirt (pmap_memory_regions i) ++ l)
    else some []

/-- Source `pmap_lowmem_finalize`: the value of `doconstro` when the loop over
the data pages starts.  `dataconstro` is what `PE_parse_boot_argn` finds for the
boot-arg of that name (`none` when it is absent); `sdata`, `edata`,
`sconstdata`, `econstdata` and `doconstro_override` are globals set outside
this source. -/
def pmap_lowmem_finalize_doconstro (dataconstro : Option Bool) (doconstro_override : Bool)
    (sdata edata sconstdata econstdata : Nat) : Bool :=
  let d0 := match dataconstro with
    | some b => b
    | none => true
  let d1 :=
    if (sconstdata ||| econstdata) &&& PAGE_MASK ≠ 0 then
      if sconstdata &&& PAGE_MASK ≠ 0 ∨ doconstro_override = false then false else d0
    else d0
  if sconstdata > edata ∨ sconstdata < sdata ∨
      (econstdata + 2 ^ 64 - sconstdata) % 2 ^ 64 ≥ (edata + 2 ^ 64 - sdata) % 2 ^ 64 then false
  else d1

/-- Source `pmap_lowmem_finalize`, the loop
`for (dva = sdata; dva < edata; dva += I386_PGBYTES)` over the data pages.  The
source reads `*dptep` without testing `dptep`: a null `dptep` is a fatal stop
here. -/
def pmap_lowmem_finalize_data (doconstro : Bool) (sdata edata sconstdata econstdata : Nat) :
    Nat → Nat → State → Result Unit
  | 0, _, _ => Result.timeout
  | fuel + 1, dva, s =>
    if dva < edata then
      if s.MACH_ASSERT = true ∧ (sdata ||| edata) &&& PAGE_MASK ≠ 0 then Result.panic
      else if (sdata ||| edata) &&& PAGE_MASK ≠ 0 then Result.ret () s
      else
        match pmap_pte s s.kernel_pmap dva with
        | none => Result.panic
        | some dptep =>
          let dpte := s.mem dptep
          if s.MACH_ASSERT = true ∧ dpte &&& INTEL_PTE_VALID = 0 then Result.panic
          else if dpte &&& INTEL_PTE_VALID = 0 then
            pmap_lowmem_finalize_data doconstro sdata edata sconstdata econstdata fuel
              ((dva + I386_PGBYTES) % 2 ^ 64) s
          else
            let dpte1 := dpte ||| INTEL_PTE_NX
            let dpte2 :=
              if doconstro = true ∧ dva ≥ sconstdata ∧ dva < econstdata then
                dpte1 &&& (INTEL_PTE_WRITE ^^^ UINT64_MAX)
              else dpte1
            pmap_lowmem_finalize_data doconstro sdata edata sconstdata econstdata fuel
              ((dva + I386_PGBYTES) % 2 ^ 64) (pmap_store_pte s dptep dpte2)
    else Result.ret () s

/-- Source `pmap_lowmem_finalize`, from `boolean_t doconstro = TRUE;` to the end
of the loop over the data pages. -/
def pmap_lowmem_finalize_data_pass (dataconstro : Option Bool) (doconstro_override : Bool)
    (sdata edata sconstdata econstdata : Nat) (fuel : Nat) (s : State) : Result Unit :=
  pmap_lowmem_finalize_data
    (pmap_lowmem_finalize_doconstro dataconstro doconstro_override sdata edata sconstdata
      econstdata)
    sdata edata sconstdata econstdata fuel sdata s

/-- What a successful `mach_vm_region_recurse` (defined outside this source)
hands back: the start `address` and `size` of the region found, the
`nesting_depth` it was found at, and the fields `is_submap` and `protection`
of its `vm_region_submap_info_64`. -/
structure vm_region_submap_info where
  address : Nat
  size : Nat
  nesting_depth : Nat
  is_submap : Bool
  protection : Nat

/-- Source `pmap_permissions_verify`, the first loop `while (cv < ev)`, which
scans the entries for writable and executable pages; the value is `rv` at its
exit, `none` when the fuel runs out. -/
def pmap_permissions_verify_scan (s : State) (ipmap ev : Nat) : Nat → Nat → Nat → Option Nat
  | 0, _, _ => none
  | fuel + 1, cv0, rv =>
    if cv0 < ev then
      let cv :=
        if cv0 > 0x00007FFFFFFFFFFF ∧ cv0 < 0xFFFF800000000000 then 0xFFFF800000000000 else cv0
      if cv &&& PML4MASK = 0 ∧ pmap64_pml4 s ipmap cv = none then
        if (cv + NBPML4) % 2 ^ 64 > cv then
          pmap_permissions_verify_scan s ipmap ev fuel ((cv + NBPML4) % 2 ^ 64) rv
        else some rv
      else if cv &&& PDMASK = 0 ∧ pmap_pde s ipmap cv = none then
        if (cv + NBPD) % 2 ^ 64 > cv then
          pmap_permissions_verify_scan s ipmap ev fuel ((cv + NBPD) % 2 ^ 64) rv
        else some rv
      else
        let rv1 :=
          match pmap_pte s ipmap cv with
          | none => rv
          | some ptep =>
            if s.mem ptep &&& INTEL_PTE_VALID ≠ 0 then
              if s.mem ptep &&& INTEL_PTE_WRITE ≠ 0 then
                if s.mem ptep &&& INTEL_PTE_NX = 0 then KERN_FAILURE else rv
              else rv
            else rv
        pmap_permissions_verify_scan s ipmap ev fuel ((cv + PAGE_SIZE) % 2 ^ 64) rv1
    else some rv

/-- Source `pmap_permissions_verify`, the loop `for (;;)` around
`mach_vm_region_recurse`, which descends into submaps.  The outer `none` is
exhaustion of the fuel, `some none` a failed lookup (`kret != KERN_SUCCESS`).
`nesting_depth` is a `uint32_t`. -/
def pmap_permissions_verify_recurse
    (mach_vm_region_recurse : Nat → Nat → Nat → Option vm_region_submap_info) (ivmmap : Nat) :
    Nat → Nat → Nat → Option (Option vm_region_submap_info)
  | 0, _, _ => none
  | fuel + 1, cv, nesting_depth =>
    match mach_vm_region_recurse ivmmap cv nesting_depth with
    | none => some none
    | some vbr =>
      if vbr.is_submap = true then
        pmap_permissions_verify_recurse mach_vm_region_recurse ivmmap fuel vbr.address
          ((vbr.nesting_depth + 1) % 2 ^ 32)
      else some (some vbr)

/-- Source `pmap_permissions_verify`, the loop
`for (pcv = cv; pcv < cv + vmsize; pcv += PAGE_SIZE)` over the pages of one
region; `lim` is `cv + vmsize`. -/
def pmap_permissions_verify_pages (s : State) (ipmap prot lim : Nat) :
    Nat → Nat → Nat → Option Nat
  | 0, _, _ => none
  | fuel + 1, pcv, rv =>
    if pcv < lim then
      match pmap_pte s ipmap pcv with
      | none => pmap_permissions_verify_pages s ipmap prot lim fuel ((pcv + PAGE_SIZE) % 2 ^ 64) rv
      | some ptep =>
        if s.mem ptep &&& INTEL_PTE_VALID = 0 then
          pmap_permissions_verify_pages s ipmap prot lim fuel ((pcv + PAGE_SIZE) % 2 ^ 64) rv
        else
          let tprot0 := VM_PROT_READ
          let tprot1 := if s.mem ptep &&& INTEL_PTE_WRITE ≠ 0 then tprot0 ||| VM_PROT_WRITE else tprot0
          let tprot := if s.mem ptep &&& INTEL_PTE_NX = 0 then tprot1 ||| VM_PROT_EXECUTE else tprot1
          pmap_permissions_verify_pages s ipmap prot lim fuel ((pcv + PAGE_SIZE) % 2 ^ 64)
            (if tprot ≠ prot then KERN_FAILURE else rv)
    else some rv

/-- Source `pmap_permissions_verify`, the second loop `while (cv < ev)`, which
enumerates the regions of the map; `nesting_depth` is never reset. -/
def pmap_permissions_verify_regions
    (mach_vm_region_recurse : Nat → Nat → Nat → Option vm_region_submap_info)
    (s : State) (ipmap ivmmap ev : Nat) : Nat → Nat → Nat → Nat → Option Nat
  | 0, _, _, _ => none
  | fuel + 1, cv0, nesting_depth, rv =>
    if cv0 < ev then
      match pmap_permissions_verify_recurse mach_vm_region_recurse ivmmap fuel cv0 nesting_depth with
      | none => none
      | some none => some rv
      | some (some vbr) =>
        let cv := vbr.address
        let prot := vbr.protection
        let rv1 :=
          if prot &&& (VM_PROT_WRITE ||| VM_PROT_EXECUTE) = (VM_PROT_WRITE ||| VM_PROT_EXECUTE)
          then KERN_FAILURE else rv
        let pages :=
          if prot ≠ 0 then
            pmap_permissions_verify_pages s ipmap prot ((cv + vbr.size) % 2 ^ 64) fuel cv rv1
          else some rv1
        match pages with
        | none => none
        | some rv2 =>
          pmap_permissions_verify_regions mach_vm_region_recurse s ipmap ivmmap ev fuel
            ((cv + vbr.size) % 2 ^ 64) vbr.nesting_depth rv2
    else some rv

/-- Source `pmap_permissions_verify (ipmap, ivmmap, sv, ev)`.
`mach_vm_region_recurse` is defined outside this source and is taken as a
parameter: given the map, an address and a nesting depth it yields the region
found, or `none` when it fails.  The value is `none` when the fuel runs out. -/
def pmap_permissions_verify
    (mach_vm_region_recurse : Nat → Nat → Nat → Option vm_region_submap_info)
    (fuel : Nat) (s : State) (ipmap ivmmap sv ev : Nat) : Option Nat :=
  let cv := sv
  let sv1 := sv &&& (PAGE_MASK_64 ^^^ UINT64_MAX)
  let ev1 := ev &&& (PAGE_MASK_64 ^^^ UINT64_MAX)
  match pmap_permissions_verify_scan s ipmap ev1 fuel cv KERN_SUCCESS with
  | none => none
  | some rv =>
    pmap_permissions_verify_regions mach_vm_region_recurse s ipmap ivmmap ev1 fuel sv1 0 rv

/-! ## Auxiliary definitions for the boot and audit statements -/

/-- The word at `a` is an entry `pmap_protect (map, sva, eva, prot)` is to
update: it translates an address `va` of `[sva, eva)` and is either the
large-page directory entry of `va` or the leaf entry of a page that lies in
`[sva, eva)` as a whole. -/
def protect_target (s : State) (map sva eva a : Nat) : Prop :=
  ∃ va, sva ≤ va ∧ va < eva ∧ pmap_pte s map va = some a ∧
    ((pmap_pde s map va = some a ∧ s.mem a &&& INTEL_PTE_PS ≠ 0) ∨
      (va % PAGE_SIZE = 0 ∧ va + PAGE_SIZE ≤ eva))

/-- The word at `a` is a slot on the path of `vaddr` in the space `map`: its
entry at the top, upper or middle level. -/
def on_path (s : State) (map vaddr a : Nat) : Prop :=
  pmap64_pml4 s map vaddr = some a ∨ pmap64_pdpt s map vaddr = some a ∨
    pmap64_pde s map vaddr = some a

/-- What an expansion from `s` to `s'` does to the table words, in terms of the
pages the allocator handed out in between (the calls `s.grabs` to
`s'.grabs - 1` of `vm_page_grab`).  Each word is of one of three kinds: it lies
outside every page handed out and is unchanged; it lies in a page handed out
and is zero; or it satisfies `P` and holds `table_entry pn` for a page `pn`
handed out. -/
def expand_effect (P : Nat → Prop) (s s' : State) : Prop :=
  s'.vm_page_grab_oracle = s.vm_page_grab_oracle ∧ s.grabs ≤ s'.grabs ∧
  ∀ a,
    (s'.mem a = s.mem a ∧
      ∀ i, s.grabs ≤ i → i < s'.grabs → s.vm_page_grab_oracle i ≠ some (a / PAGE_SIZE)) ∨
    (s'.mem a = 0 ∧
      ∃ i, s.grabs ≤ i ∧ i < s'.grabs ∧ s.vm_page_grab_oracle i = some (a / PAGE_SIZE)) ∨
    (P a ∧ ∃ i pn, s.grabs ≤ i ∧ i < s'.grabs ∧ s.vm_page_grab_oracle i = some pn ∧
      s'.mem a = table_entry pn)

/-- The regions the second loop of `pmap_permissions_verify` enumerates, in
order, when it starts with cursor `cv` and nesting depth `nesting_depth`: those
for which the body of the loop runs past the lookup. -/
def verify_regions
    (mach_vm_region_recurse : Nat → Nat → Nat → Option vm_region_submap_info)
    (ivmmap ev : Nat) : Nat → Nat → Nat → List vm_region_submap_info
  | 0, _, _ => []
  | fuel + 1, cv, nesting_depth =>
    if cv < ev then
      match pmap_permissions_verify_recurse mach_vm_region_recurse ivmmap fuel cv nesting_depth with
      | some (some vbr) =>
        vbr :: verify_regions mach_vm_region_recurse ivmmap ev fuel
          ((vbr.address + vbr.size) % 2 ^ 64) vbr.nesting_depth
      | _ => []
    else []

/-- A map in which every page below 0x4000 is a region of its own, declared
with protection `prot`; no region lies above. -/
def sample_regions (prot : Nat) (_ivmmap address nesting_depth : Nat) :
    Option vm_region_submap_info :=
  if address < 0x4000 then
    some { address := address / 4096 * 4096, size := 4096, nesting_depth := nesting_depth,
           is_submap := false, protection := prot }
  else none

/-- What `pmap_mark_range` makes of one entry: the no-execute bit is set when
`NX` is requested, the writable bit cleared when `ro` is requested. -/
def mark_word (NX ro : Bool) (e : Nat) : Nat :=
  let e1 := if NX then e ||| INTEL_PTE_NX else e
  if ro then e1 &&& (INTEL_PTE_WRITE ^^^ UINT64_MAX) else e1

/-- The word at `a` stands for an address `va` of `[lo, hi)` in the space
`npmap`: it is the slot `pmap_pte` yields for `va` (its leaf slot, or its
present large-page directory entry), or the directory entry of `va` with the
large-page bit set. -/
def mark_target (s : State) (npmap lo hi a : Nat) : Prop :=
  ∃ va, lo ≤ va ∧ va < hi ∧
    (pmap_pte s npmap va = some a ∨
      (pmap_pde s npmap va = some a ∧ s.mem a &&& INTEL_PTE_PS ≠ 0))

/-- What a run of `pmap_mark_range` from `s` to `s'` does over the addresses
`[lo, hi)`: nothing but `mem` changes, the words standing for an address of the
range become `mark_word` of their old value, and every other word is
unchanged. -/
def mark_effect (NX ro : Bool) (npmap lo hi : Nat) (s s' : State) : Prop :=
  s' = { s with mem := s'.mem } ∧
  ∀ a, (mark_target s npmap lo hi a ∧ s'.mem a = mark_word NX ro (s.mem a)) ∨
       (¬ mark_target s npmap lo hi a ∧ s'.mem a = s.mem a)

/-- A space whose first GiB has no page directory and whose second GiB maps the
page at 0x40000000 writable and executable: top-level table at 0x1000, upper
table at 0x2000, page directory at 0x3000, leaf table at 0x4000. -/
def sample_gap : State :=
  { sample_state with
    mem := fun a =>
      if a = 0x1000 then 0x2007
      else if a = 0x2008 then 0x3007
      else if a = 0x3000 then 0x4007
      else if a = 0x4000 then 0x5003
      else 0 }

/-- The sample state with the sample space as the kernel pmap. -/
def sample_kernel : State := { sample_state with kernel_pmap := 1 }

/-- The word at `a` is the slot `pmap_pte` yields in the kernel pmap for a
page-aligned address of `[lo, hi)`. -/
def data_target (s : State) (lo hi a : Nat) : Prop :=
  ∃ dva, lo ≤ dva ∧ dva < hi ∧ dva % PAGE_SIZE = 0 ∧ pmap_pte s s.kernel_pmap dva = some a

/-- What the loop of `pmap_lowmem_finalize` over the data pages of `[lo, hi)`
does from `s` to `s'`: nothing but `mem` changes; a word that is not the
present entry of a data page is unchanged; the present entry of a data page
gets the no-execute bit, and loses the writable bit exactly when `doconstro`
holds and it is the entry of a data page of `[sconstdata, econstdata)`. -/
def data_effect (doconstro : Bool) (sconstdata econstdata lo hi : Nat) (s s' : State) : Prop :=
  s' = { s with mem := s'.mem } ∧
  ∀ a,
    (¬ (data_target s lo hi a ∧ s.mem a &&& INTEL_PTE_VALID ≠ 0) ∧ s'.mem a = s.mem a) ∨
    (s.mem a &&& INTEL_PTE_VALID ≠ 0 ∧ data_target s lo hi a ∧
      ¬ (doconstro = true ∧ data_target s (max lo sconstdata) (min hi econstdata) a) ∧
      s'.mem a = mark_word true false (s.mem a)) ∨
    (s.mem a &&& INTEL_PTE_VALID ≠ 0 ∧ doconstro = true ∧
      data_target s (max lo sconstdata) (min hi econstdata) a ∧
      s'.mem a = mark_word true true (s.mem a))

/-- A platform table with two regions below a kernel that starts at page
0x1000: pages 0x90 to 0x1ff, which span the range 0xc0000 to 0x100000 that is
never freed, and pages 0x200 to 0x2ff, which are reserved. -/
def sample_memory_regions (i : Nat) : pmap_memory_region :=
  if i = 0 then { base := 0x90, end_ := 0x1ff, attribute_ := 0 }
  else if i = 1 then { base := 0x200, end_ := 0x2ff, attribute_ := EFI_MEMORY_KERN_RESERVED }
  else { base := 0x1000, end_ := 0x1fff, attribute_ := 0 }

/-! ## Lemmas and claims -/

theorem and_two_pow_ne_zero (e k : Nat) : e &&& 2 ^ k ≠ 0 ↔ e.testBit k = true := by
  rw [Nat.and_two_pow]
  cases h : e.testBit k <;> simp

theorem valid_iff (e : Nat) : e &&& INTEL_PTE_VALID ≠ 0 ↔ e.testBit 0 = true :=
  and_two_pow_ne_zero e 0

theorem write_iff (e : Nat) : e &&& INTEL_PTE_WRITE ≠ 0 ↔ e.testBit 1 = true :=
  and_two_pow_ne_zero e 1

theorem nx_iff (e : Nat) : e &&& INTEL_PTE_NX ≠ 0 ↔ e.testBit 63 = true :=
  and_two_pow_ne_zero e 63

theorem testBit_UINT64_MAX (i : Nat) : UINT64_MAX.testBit i = decide (i < 64) :=
  Nat.testBit_two_pow_sub_one 64 i

theorem testBit_PG_FRAME (i : Nat) : PG_FRAME.testBit i = decide (12 ≤ i ∧ i < 52) := by
  have h : PG_FRAME = 2 ^ 12 * (2 ^ 40 - 1) := by decide
  rw [h, Nat.testBit_mul_pow_two, Nat.testBit_two_pow_sub_one]
  by_cases h1 : 12 ≤ i <;> by_cases h2 : i < 52 <;> simp [h1, h2] <;> omega

theorem testBit_WRITE (i : Nat) : INTEL_PTE_WRITE.testBit i = decide (1 = i) :=
  @Nat.testBit_two_pow 1 i

theorem testBit_NX (i : Nat) : INTEL_PTE_NX.testBit i = decide (63 = i) := by
  have hN : INTEL_PTE_NX = 2 ^ 63 := by decide
  rw [hN]; exact Nat.testBit_two_pow

theorem testBit_protect_word (prot : Nat) (set_NX : Bool) (e i : Nat) :
    (protect_word prot set_NX e).testBit i =
      if i = 1 then decide (prot &&& VM_PROT_WRITE ≠ 0)
      else if i = 63 then set_NX
      else (e.testBit i && decide (i < 64)) := by
  unfold protect_word
  by_cases h1 : i = 1
  · subst h1
    by_cases hw : prot &&& VM_PROT_WRITE ≠ 0 <;> cases set_NX <;>
      simp [hw, Nat.testBit_or, Nat.testBit_and, Nat.testBit_xor,
        testBit_UINT64_MAX, testBit_WRITE, testBit_NX]
  · by_cases h63 : i = 63
    · subst h63
      by_cases hw : prot &&& VM_PROT_WRITE ≠ 0 <;> cases set_NX <;>
        simp [hw, Nat.testBit_or, Nat.testBit_and, Nat.testBit_xor,
          testBit_UINT64_MAX, testBit_WRITE, testBit_NX]
    · have h1' : ¬ 1 = i := fun h => h1 h.symm
      have h63' : ¬ 63 = i := fun h => h63 h.symm
      by_cases hw : prot &&& VM_PROT_WRITE ≠ 0 <;> cases set_NX <;>
        simp [hw, h1, h63, h1', h63', Nat.testBit_or, Nat.testBit_and, Nat.testBit_xor,
          testBit_UINT64_MAX, testBit_WRITE, testBit_NX]

theorem protect_word_idem (prot : Nat) (set_NX : Bool) (e : Nat) :
    protect_word prot set_NX (protect_word prot set_NX e) = protect_word prot set_NX e := by
  apply Nat.eq_of_testBit_eq
  intro i
  rw [testBit_protect_word prot set_NX (protect_word prot set_NX e), testBit_protect_word]
  by_cases h1 : i = 1 <;> by_cases h63 : i = 63 <;> simp [h1, h63]

theorem protect_word_valid (prot : Nat) (set_NX : Bool) (e : Nat) :
    protect_word prot set_NX e &&& INTEL_PTE_VALID = e &&& INTEL_PTE_VALID := by
  apply Nat.eq_of_testBit_eq
  intro i
  have hV : INTEL_PTE_VALID = 2 ^ 0 := rfl
  rw [Nat.testBit_and, Nat.testBit_and, testBit_protect_word, hV, Nat.testBit_two_pow]
  by_cases h0 : 0 = i
  · subst h0; simp
  · simp [h0]

theorem protect_word_ps (prot : Nat) (set_NX : Bool) (e : Nat) :
    protect_word prot set_NX e &&& INTEL_PTE_PS = e &&& INTEL_PTE_PS := by
  apply Nat.eq_of_testBit_eq
  intro i
  have hV : INTEL_PTE_PS = 2 ^ 7 := rfl
  rw [Nat.testBit_and, Nat.testBit_and, testBit_protect_word, hV, Nat.testBit_two_pow]
  by_cases h0 : 7 = i
  · subst h0; simp
  · simp [h0]

theorem protect_word_frame (prot : Nat) (set_NX : Bool) (e : Nat) :
    protect_word prot set_NX e &&& PG_FRAME = e &&& PG_FRAME := by
  apply Nat.eq_of_testBit_eq
  intro i
  rw [Nat.testBit_and, Nat.testBit_and, testBit_protect_word, testBit_PG_FRAME]
  by_cases h1 : i = 1
  · subst h1; simp
  · by_cases h63 : i = 63
    · subst h63; simp
    · by_cases h64 : i < 64
      · simp [h1, h63, h64]
      · have : ¬ i < 52 := by omega
        simp [h1, h63, h64, this]

theorem protect_word_write (prot : Nat) (set_NX : Bool) (e : Nat) :
    protect_word prot set_NX e &&& INTEL_PTE_WRITE ≠ 0 ↔ prot &&& VM_PROT_WRITE ≠ 0 := by
  rw [write_iff, testBit_protect_word]; simp

theorem protect_word_nx (prot : Nat) (set_NX : Bool) (e : Nat) :
    protect_word prot set_NX e &&& INTEL_PTE_NX ≠ 0 ↔ set_NX = true := by
  rw [nx_iff, testBit_protect_word]; simp

theorem protRel_refl (prot : Nat) (set_NX : Bool) (m : Nat → Nat) : ProtRel prot set_NX m m :=
  fun _ => Or.inl rfl

theorem protRel_trans {prot : Nat} {set_NX : Bool} {m m1 m2 : Nat → Nat}
    (h1 : ProtRel prot set_NX m m1) (h2 : ProtRel prot set_NX m1 m2) : ProtRel prot set_NX m m2 := by
  intro a
  rcases h2 a with h2a | ⟨hv, h2a⟩
  · rw [h2a]; exact h1 a
  · rcases h1 a with h1a | ⟨hv1, h1a⟩
    · rw [h1a] at hv h2a; exact Or.inr ⟨hv, h2a⟩
    · right
      refine ⟨hv1, ?_⟩
      rw [h2a, h1a, protect_word_idem]

theorem pmap_protect_ptes_step_mem (prot : Nat) (set_NX : Bool) (s : State) (spte : Nat) :
    (if set_NX then
        pmap_update_pte (if prot &&& VM_PROT_WRITE ≠ 0 then pmap_update_pte s spte 0 INTEL_PTE_WRITE
          else pmap_update_pte s spte INTEL_PTE_WRITE 0) spte 0 INTEL_PTE_NX
      else
        pmap_update_pte (if prot &&& VM_PROT_WRITE ≠ 0 then pmap_update_pte s spte 0 INTEL_PTE_WRITE
          else pmap_update_pte s spte INTEL_PTE_WRITE 0) spte INTEL_PTE_NX 0)
      = pmap_store_pte s spte (protect_word prot set_NX (s.mem spte)) := by
  by_cases hw : prot &&& VM_PROT_WRITE ≠ 0 <;> cases set_NX <;>
    simp [hw, pmap_update_pte, pmap_store_pte, protect_word] <;>
    (funext a; by_cases ha : a = spte <;> simp [ha])

theorem pmap_protect_ptes_spec (prot : Nat) (set_NX : Bool) :
    ∀ (n spte : Nat) (s : State) (nf : Nat),
      (pmap_protect_ptes prot set_NX n spte s nf).1 =
          { s with mem := (pmap_protect_ptes prot set_NX n spte s nf).1.mem } ∧
        ProtRel prot set_NX s.mem (pmap_protect_ptes prot set_NX n spte s nf).1.mem ∧
        nf ≤ (pmap_protect_ptes prot set_NX n spte s nf).2 ∧
        ((pmap_protect_ptes prot set_NX n spte s nf).2 = nf →
          (pmap_protect_ptes prot set_NX n spte s nf).1.mem = s.mem) := by
  intro n
  induction n with
  | zero => intro spte s nf; simp [pmap_protect_ptes, protRel_refl]
  | succ n ih =>
    intro spte s nf
    by_cases hv : s.mem spte &&& INTEL_PTE_VALID = 0
    · simp only [pmap_protect_ptes, hv, if_true]
      exact ih (spte + 8) s nf
    · simp only [pmap_protect_ptes, hv, if_false]
      rw [pmap_protect_ptes_step_mem]
      obtain ⟨h1, h2, h3, h4⟩ :=
        ih (spte + 8) (pmap_store_pte s spte (protect_word prot set_NX (s.mem spte))) (nf + 1)
      refine ⟨?_, ?_, by omega, fun h => by omega⟩
      · rw [h1]; simp [pmap_store_pte]
      · refine protRel_trans ?_ h2
        intro a
        by_cases ha : a = spte
        · subst ha; right; exact ⟨hv, by simp [pmap_store_pte]⟩
        · left; simp [pmap_store_pte, ha]

theorem protRel_sameWalk {prot : Nat} {set_NX : Bool} {m m' : Nat → Nat}
    (h : ProtRel prot set_NX m m') : SameWalk m m' := by
  intro a
  rcases h a with h | ⟨_, h⟩
  · rw [h]; exact ⟨rfl, rfl, rfl⟩
  · rw [h]; exact ⟨protect_word_valid _ _ _, protect_word_ps _ _ _, protect_word_frame _ _ _⟩

theorem pmap64_pml4_congr {s s' : State} {map : Nat}
    (hp : (s'.pmaps map).pm_cr3 = (s.pmaps map).pm_cr3) (va : Nat) :
    pmap64_pml4 s' map va = pmap64_pml4 s map va := by
  simp [pmap64_pml4, hp]

theorem pmap64_pdpt_congr {s s' : State} {map : Nat} (hm : SameWalk s.mem s'.mem)
    (hp : (s'.pmaps map).pm_cr3 = (s.pmaps map).pm_cr3) (va : Nat) :
    pmap64_pdpt s' map va = pmap64_pdpt s map va := by
  unfold pmap64_pdpt
  rw [pmap64_pml4_congr hp]
  cases pmap64_pml4 s map va with
  | none => rfl
  | some p => simp only [(hm p).1, (hm p).2.2]

theorem pmap64_pde_congr {s s' : State} {map : Nat} (hm : SameWalk s.mem s'.mem)
    (hp : (s'.pmaps map).pm_cr3 = (s.pmaps map).pm_cr3) (va : Nat) :
    pmap64_pde s' map va = pmap64_pde s map va := by
  unfold pmap64_pde
  rw [pmap64_pdpt_congr hm hp]
  cases pmap64_pdpt s map va with
  | none => rfl
  | some p => simp only [(hm p).1, (hm p).2.2]

theorem pmap_pte_congr {s s' : State} {map : Nat} (hm : SameWalk s.mem s'.mem)
    (hp : (s'.pmaps map).pm_cr3 = (s.pmaps map).pm_cr3) (va : Nat) :
    pmap_pte s' map va = pmap_pte s map va := by
  unfold pmap_pte pmap_pde
  rw [pmap64_pde_congr hm hp]
  cases pmap64_pde s map va with
  | none => rfl
  | some p => simp only [(hm p).1, (hm p).2.1, (hm p).2.2]

theorem pmap_protect_loop_spec (map prot : Nat) (set_NX : Bool) (eva : Nat) :
    ∀ (fuel sva : Nat) (s : State) (nf nf' : Nat) (s' : State),
      pmap_protect_loop map prot set_NX eva fuel sva s nf = Result.ret nf' s' →
      s' = { s with mem := s'.mem } ∧ ProtRel prot set_NX s.mem s'.mem ∧ nf ≤ nf' ∧
        (nf' = nf → s'.mem = s.mem) := by
  intro fuel
  induction fuel with
  | zero => intro sva s nf nf' s' h; simp [pmap_protect_loop] at h
  | succ fuel ih =>
    intro sva s nf nf' s' h
    unfold pmap_protect_loop at h
    by_cases hlt : sva < eva
    · simp only [hlt, if_true] at h
      -- one stride, then the rest of the loop
      have key : ∀ (s1 : State) (nf1 : Nat),
          s1 = { s with mem := s1.mem } → ProtRel prot set_NX s.mem s1.mem → nf ≤ nf1 →
          (nf1 = nf → s1.mem = s.mem) →
          pmap_protect_loop map prot set_NX eva fuel (pmap_protect_lva sva eva) s1 nf1
            = Result.ret nf' s' →
          s' = { s with mem := s'.mem } ∧ ProtRel prot set_NX s.mem s'.mem ∧ nf ≤ nf' ∧
            (nf' = nf → s'.mem = s.mem) := by
        intro s1 nf1 e1 r1 l1 u1 hrun
        obtain ⟨e2, r2, l2, u2⟩ := ih _ s1 nf1 nf' s' hrun
        refine ⟨?_, protRel_trans r1 r2, by omega, ?_⟩
        · rw [e2, e1]
        · intro hnf
          have h1 : nf1 = nf := by omega
          rw [u2 (by omega), u1 h1]
      cases hpde : pmap_pde s map sva with
      | none =>
        simp only [hpde] at h
        exact key s nf rfl (protRel_refl _ _ _) (Nat.le_refl _) (fun _ => rfl) h
      | some pde =>
        by_cases hv : s.mem pde &&& INTEL_PTE_VALID ≠ 0
        · by_cases hps : s.mem pde &&& INTEL_PTE_PS ≠ 0
          · simp only [hpde] at h; rw [if_pos hv, if_pos hps] at h
            obtain ⟨a1, a2, a3, a4⟩ := pmap_protect_ptes_spec prot set_NX 1 pde s nf
            exact key _ _ a1 a2 a3 a4 h
          · cases hpte : pmap_pte s map (sva &&& ((pde_mapped_size - 1) ^^^ UINT64_MAX)) with
            | none => simp [hpde, hv, hps, hpte] at h
            | some spte =>
              simp only [hpde] at h; rw [if_pos hv, if_neg hps] at h; simp only [hpte] at h
              obtain ⟨a1, a2, a3, a4⟩ := pmap_protect_ptes_spec prot set_NX
                (intel_btop ((pmap_protect_lva sva eva + 2 ^ 64 - sva) % 2 ^ 64))
                (spte + 8 * ptenum sva) s nf
              exact key _ _ a1 a2 a3 a4 h
        · simp only [hpde] at h; rw [if_neg hv] at h
          exact key s nf rfl (protRel_refl _ _ _) (Nat.le_refl _) (fun _ => rfl) h
    · simp only [hlt, if_false] at h
      injection h with h1 h2
      subst h1; subst h2
      exact ⟨rfl, protRel_refl _ _ _, Nat.le_refl _, fun _ => rfl⟩

theorem and_NPTEPG (x : Nat) : x &&& (NPTEPG - 1) = x % 512 :=
  Nat.and_pow_two_sub_one_eq_mod x 9

theorem align_down_eq (x : Nat) (h : x < 2 ^ 64) :
    x &&& ((pde_mapped_size - 1) ^^^ UINT64_MAX) = x / 2097152 * 2097152 := by
  apply Nat.eq_of_testBit_eq
  intro i
  have h1 : pde_mapped_size - 1 = 2 ^ 21 - 1 := by decide
  have h2 : x / 2097152 * 2097152 = 2 ^ 21 * (x / 2 ^ 21) := by
    rw [Nat.mul_comm]; rfl
  rw [h2, Nat.testBit_mul_pow_two, Nat.testBit_and, Nat.testBit_xor, h1,
    Nat.testBit_two_pow_sub_one, testBit_UINT64_MAX, ← Nat.shiftRight_eq_div_pow,
    Nat.testBit_shiftRight]
  by_cases h21 : i < 21
  · have : ¬ i ≥ 21 := by omega
    have h64 : i < 64 := by omega
    simp [h21, this, h64]
  · have hge : i ≥ 21 := by omega
    have e : 21 + (i - 21) = i := by omega
    by_cases h64 : i < 64
    · simp [h21, hge, h64, e]
    · have hx : x.testBit i = false := by
        apply Nat.testBit_lt_two_pow
        calc x < 2 ^ 64 := h
          _ ≤ 2 ^ i := Nat.pow_le_pow_right (by decide) (by omega)
      simp [h21, hge, h64, e, hx]

theorem pmap_protect_lva_nowrap (sva eva : Nat) (h : sva + 2097152 < 2 ^ 64) :
    pmap_protect_lva sva eva =
      if (sva / 2097152 + 1) * 2097152 > eva then eva else (sva / 2097152 + 1) * 2097152 := by
  unfold pmap_protect_lva
  have e1 : pde_mapped_size = 2097152 := rfl
  have e2 : (sva + pde_mapped_size) % 2 ^ 64 = sva + 2097152 := by
    rw [e1]; exact Nat.mod_eq_of_lt h
  simp only [e2]
  rw [align_down_eq _ h]
  have e3 : (sva + 2097152) / 2097152 = sva / 2097152 + 1 := by omega
  rw [e3]

theorem pmap_protect_lva_wrap (sva eva : Nat) (h : 2 ^ 64 ≤ sva + 2097152) (h2 : sva < 2 ^ 64) :
    pmap_protect_lva sva eva = 0 := by
  unfold pmap_protect_lva
  have e1 : pde_mapped_size = 2097152 := rfl
  have hlt : (sva + pde_mapped_size) % 2 ^ 64 < 2097152 := by rw [e1]; omega
  have hlt64 : (sva + pde_mapped_size) % 2 ^ 64 < 2 ^ 64 := Nat.mod_lt _ (by decide)
  simp only []
  rw [align_down_eq _ hlt64]
  have : (sva + pde_mapped_size) % 2 ^ 64 / 2097152 = 0 := by omega
  rw [this]; simp

theorem pmap_pde_same_stride (s : State) (map va va' : Nat) (h : va / 2097152 = va' / 2097152) :
    pmap_pde s map va = pmap_pde s map va' := by
  have h39 : va >>> PML4SHIFT = va' >>> PML4SHIFT := by
    simp only [Nat.shiftRight_eq_div_pow, PML4SHIFT]; omega
  have h30 : va >>> PDPTSHIFT = va' >>> PDPTSHIFT := by
    simp only [Nat.shiftRight_eq_div_pow, PDPTSHIFT]; omega
  have h21 : va >>> PDSHIFT = va' >>> PDSHIFT := by
    simp only [Nat.shiftRight_eq_div_pow, PDSHIFT]; omega
  have hc : (0x00007FFFFFFFFFFF < va ∧ va < 0xFFFF800000000000) ↔
      (0x00007FFFFFFFFFFF < va' ∧ va' < 0xFFFF800000000000) := by omega
  unfold pmap_pde pmap64_pde pmap64_pdpt pmap64_pml4
  simp only [h39, h30, h21, hc]

theorem protRel_wclear {prot : Nat} {set_NX : Bool} {m m' : Nat → Nat}
    (hw : prot &&& VM_PROT_WRITE = 0) (h : ProtRel prot set_NX m m') (a : Nat)
    (ha : m a &&& INTEL_PTE_VALID ≠ 0 → m a &&& INTEL_PTE_WRITE = 0) :
    m' a &&& INTEL_PTE_VALID ≠ 0 → m' a &&& INTEL_PTE_WRITE = 0 := by
  rcases h a with h | ⟨_, h⟩
  · rw [h]; exact ha
  · intro _
    rw [h]
    by_contra hc
    exact ((protect_word_write prot set_NX (m a)).1 hc) hw

theorem pmap_protect_ptes_cover (prot : Nat) (set_NX : Bool) (hw : prot &&& VM_PROT_WRITE = 0) :
    ∀ (n spte : Nat) (s : State) (nf k : Nat), k < n →
      (pmap_protect_ptes prot set_NX n spte s nf).1.mem (spte + 8 * k) &&& INTEL_PTE_VALID ≠ 0 →
      (pmap_protect_ptes prot set_NX n spte s nf).1.mem (spte + 8 * k) &&& INTEL_PTE_WRITE = 0 := by
  intro n
  induction n with
  | zero => intro spte s nf k hk; omega
  | succ n ih =>
    intro spte s nf k hk
    by_cases hv : s.mem spte &&& INTEL_PTE_VALID = 0
    · simp only [pmap_protect_ptes, hv, if_true]
      cases k with
      | zero =>
        have hr := (pmap_protect_ptes_spec prot set_NX n (spte + 8) s nf).2.1
        exact protRel_wclear hw hr spte (fun h => absurd hv h)
      | succ k =>
        have e : spte + 8 * (k + 1) = spte + 8 + 8 * k := by omega
        rw [e]
        exact ih (spte + 8) s nf k (by omega)
    · simp only [pmap_protect_ptes, hv, if_false]
      rw [pmap_protect_ptes_step_mem]
      cases k with
      | zero =>
        have hr := (pmap_protect_ptes_spec prot set_NX n (spte + 8)
          (pmap_store_pte s spte (protect_word prot set_NX (s.mem spte))) (nf + 1)).2.1
        refine protRel_wclear hw hr spte (fun _ => ?_)
        simp only [pmap_store_pte, if_true]
        by_contra hc
        exact ((protect_word_write prot set_NX (s.mem spte)).1 hc) hw
      | succ k =>
        have e : spte + 8 * (k + 1) = spte + 8 + 8 * k := by omega
        rw [e]
        exact ih (spte + 8) _ (nf + 1) k (by omega)

/-- In the range that reaches into the last 2 MiB of the 64-bit space the
stride loop of `pmap_protect` never exits. -/
theorem pmap_protect_loop_wrap_diverges (map prot : Nat) (set_NX : Bool) (eva : Nat)
    (heva : 2 ^ 64 - 2097152 < eva) :
    ∀ (fuel sva : Nat) (s : State) (nf : Nat), sva < eva → sva < 2 ^ 64 →
      ∀ nf' s', pmap_protect_loop map prot set_NX eva fuel sva s nf ≠ Result.ret nf' s' := by
  intro fuel
  induction fuel with
  | zero => intro sva s nf _ _ nf' s' h; simp [pmap_protect_loop] at h
  | succ fuel ih =>
    intro sva s nf hlt h64 nf' s' h
    unfold pmap_protect_loop at h
    have hl : pmap_protect_lva sva eva < eva ∧ pmap_protect_lva sva eva < 2 ^ 64 := by
      by_cases hwr : sva + 2097152 < 2 ^ 64
      · rw [pmap_protect_lva_nowrap sva eva hwr]
        have : (sva / 2097152 + 1) * 2097152 ≤ 2 ^ 64 - 2097152 := by omega
        have h1 : ¬ (sva / 2097152 + 1) * 2097152 > eva := by omega
        rw [if_neg h1]; omega
      · rw [pmap_protect_lva_wrap sva eva (by omega) h64]; omega
    simp only [hlt, if_true] at h
    cases hpde : pmap_pde s map sva with
    | none =>
      simp only [hpde] at h
      exact ih _ _ _ hl.1 hl.2 _ _ h
    | some pde =>
      simp only [hpde] at h
      by_cases hv : s.mem pde &&& INTEL_PTE_VALID ≠ 0
      · rw [if_pos hv] at h
        by_cases hps : s.mem pde &&& INTEL_PTE_PS ≠ 0
        · rw [if_pos hps] at h
          exact ih _ _ _ hl.1 hl.2 _ _ h
        · rw [if_neg hps] at h
          cases hpte : pmap_pte s map (sva &&& ((pde_mapped_size - 1) ^^^ UINT64_MAX)) with
          | none => simp [hpte] at h
          | some spte =>
            simp only [hpte] at h
            exact ih _ _ _ hl.1 hl.2 _ _ h
      · rw [if_neg hv] at h
        exact ih _ _ _ hl.1 hl.2 _ _ h

theorem pmap_pte_of_pde {s : State} {map va pde : Nat} (h : pmap_pde s map va = some pde) :
    pmap_pte s map va =
      if s.mem pde &&& INTEL_PTE_VALID ≠ 0 then
        if s.mem pde &&& INTEL_PTE_PS ≠ 0 then some pde
        else some ((s.mem pde &&& PG_FRAME) + 8 * (intel_btop va &&& (NPTEPG - 1)))
      else none := by
  unfold pmap_pte
  rw [h]

theorem pmap_pte_none_of_pde {s : State} {map va : Nat} (h : pmap_pde s map va = none) :
    pmap_pte s map va = none := by
  unfold pmap_pte
  rw [h]

theorem pmap_protect_loop_cover (map prot : Nat) (set_NX : Bool) (eva : Nat)
    (hw : prot &&& VM_PROT_WRITE = 0) (heva : eva ≤ 2 ^ 64 - 2097152) :
    ∀ (fuel sva : Nat) (s : State) (nf nf' : Nat) (s' : State), (sva % 4096 = 0 ∨ eva ≤ sva) →
      pmap_protect_loop map prot set_NX eva fuel sva s nf = Result.ret nf' s' →
      ∀ va p, va % 4096 = 0 → sva ≤ va → va + 4096 ≤ eva → pmap_pte s' map va = some p →
        s'.mem p &&& INTEL_PTE_VALID ≠ 0 → s'.mem p &&& INTEL_PTE_WRITE = 0 := by
  intro fuel
  induction fuel with
  | zero => intro sva s nf nf' s' _ h; simp [pmap_protect_loop] at h
  | succ fuel ih =>
    intro sva s nf nf' s' hsa' h va p hva hle hlt hp
    have hsva : sva < eva := by omega
    have hsa : sva % 4096 = 0 := by omega
    unfold pmap_protect_loop at h
    simp only [hsva, if_true] at h
    have hnw : sva + 2097152 < 2 ^ 64 := by omega
    have hlva := pmap_protect_lva_nowrap sva eva hnw
    have hl1 : pmap_protect_lva sva eva % 4096 = 0 ∨ eva ≤ pmap_protect_lva sva eva := by
      rw [hlva]; split <;> omega
    have hl4 : va < pmap_protect_lva sva eva → va + 4096 ≤ pmap_protect_lva sva eva := by
      rw [hlva]; split <;> omega
    have hl2 : pmap_protect_lva sva eva ≤ (sva / 2097152 + 1) * 2097152 := by
      rw [hlva]; split <;> omega
    have hl3 : sva < pmap_protect_lva sva eva ∧ pmap_protect_lva sva eva ≤ eva := by
      rw [hlva]; split <;> omega
    -- the rest of the loop keeps what one stride established
    have key : ∀ (s1 : State) (nf1 : Nat),
        s1 = { s with mem := s1.mem } → ProtRel prot set_NX s.mem s1.mem →
        (va < pmap_protect_lva sva eva → ∀ q, pmap_pte s map va = some q →
          s1.mem q &&& INTEL_PTE_VALID ≠ 0 → s1.mem q &&& INTEL_PTE_WRITE = 0) →
        pmap_protect_loop map prot set_NX eva fuel (pmap_protect_lva sva eva) s1 nf1
          = Result.ret nf' s' →
        s'.mem p &&& INTEL_PTE_VALID ≠ 0 → s'.mem p &&& INTEL_PTE_WRITE = 0 := by
      intro s1 nf1 e1 r1 c1 hrun
      by_cases hin : va < pmap_protect_lva sva eva
      · obtain ⟨e2, r2, _, _⟩ := pmap_protect_loop_spec map prot set_NX eva fuel _ s1 nf1 nf' s' hrun
        have hpm : (s'.pmaps map).pm_cr3 = (s.pmaps map).pm_cr3 := by rw [e2, e1]
        have hp' : pmap_pte s map va = some p := by
          rw [← pmap_pte_congr (protRel_sameWalk (protRel_trans r1 r2)) hpm va]; exact hp
        exact protRel_wclear hw r2 p (c1 hin p hp')
      · exact ih _ s1 nf1 nf' s' hl1 hrun va p hva (by omega) hlt hp
    have hstride : va < pmap_protect_lva sva eva → va / 2097152 = sva / 2097152 := by
      intro hin; omega
    cases hpde : pmap_pde s map sva with
    | none =>
      simp only [hpde] at h
      refine key s nf rfl (protRel_refl _ _ _) ?_ h
      intro hin q hq
      rw [pmap_pte_none_of_pde (by rw [pmap_pde_same_stride s map va sva (hstride hin)]; exact hpde)] at hq
      cases hq
    | some pde =>
      simp only [hpde] at h
      by_cases hv : s.mem pde &&& INTEL_PTE_VALID ≠ 0
      · rw [if_pos hv] at h
        by_cases hps : s.mem pde &&& INTEL_PTE_PS ≠ 0
        · rw [if_pos hps] at h
          obtain ⟨a1, a2, _, _⟩ := pmap_protect_ptes_spec prot set_NX 1 pde s nf
          refine key _ _ a1 a2 ?_ h
          intro hin q hq
          rw [pmap_pte_of_pde (by rw [pmap_pde_same_stride s map va sva (hstride hin)]; exact hpde),
            if_pos hv, if_pos hps] at hq
          injection hq with hq
          subst hq
          have := pmap_protect_ptes_cover prot set_NX hw 1 pde s nf 0 (by omega)
          simpa using this
        · rw [if_neg hps] at h
          have hal : sva &&& ((pde_mapped_size - 1) ^^^ UINT64_MAX) = sva / 2097152 * 2097152 :=
            align_down_eq sva (by omega)
          have hpte0 : pmap_pte s map (sva &&& ((pde_mapped_size - 1) ^^^ UINT64_MAX)) =
              some ((s.mem pde &&& PG_FRAME) +
                8 * (intel_btop (sva / 2097152 * 2097152) &&& (NPTEPG - 1))) := by
            rw [hal, pmap_pte_of_pde (by
              rw [pmap_pde_same_stride s map (sva / 2097152 * 2097152) sva (by omega)]; exact hpde),
              if_pos hv, if_neg hps]
          simp only [hpte0] at h
          obtain ⟨a1, a2, _, _⟩ := pmap_protect_ptes_spec prot set_NX
            (intel_btop ((pmap_protect_lva sva eva + 2 ^ 64 - sva) % 2 ^ 64))
            ((s.mem pde &&& PG_FRAME) +
                8 * (intel_btop (sva / 2097152 * 2097152) &&& (NPTEPG - 1)) + 8 * ptenum sva) s nf
          refine key _ _ a1 a2 ?_ h
          intro hin q hq
          rw [pmap_pte_of_pde (by rw [pmap_pde_same_stride s map va sva (hstride hin)]; exact hpde),
            if_pos hv, if_neg hps] at hq
          injection hq with hq
          subst hq
          have hk : (va - sva) / 4096 <
              intel_btop ((pmap_protect_lva sva eva + 2 ^ 64 - sva) % 2 ^ 64) := by
            have := hl4 hin
            simp only [intel_btop, PTESHIFT, Nat.shiftRight_eq_div_pow]
            omega
          have hc := pmap_protect_ptes_cover prot set_NX hw _
            ((s.mem pde &&& PG_FRAME) +
                8 * (intel_btop (sva / 2097152 * 2097152) &&& (NPTEPG - 1)) + 8 * ptenum sva)
            s nf ((va - sva) / 4096) hk
          have haddr : (s.mem pde &&& PG_FRAME) +
                8 * (intel_btop (sva / 2097152 * 2097152) &&& (NPTEPG - 1)) + 8 * ptenum sva
                + 8 * ((va - sva) / 4096)
              = (s.mem pde &&& PG_FRAME) + 8 * (intel_btop va &&& (NPTEPG - 1)) := by
            simp only [intel_btop, ptenum, PTESHIFT, Nat.shiftRight_eq_div_pow, and_NPTEPG]
            omega
          rw [haddr] at hc
          exact hc
      · rw [if_neg hv] at h
        refine key s nf rfl (protRel_refl _ _ _) ?_ h
        intro hin q hq
        rw [pmap_pte_of_pde (by rw [pmap_pde_same_stride s map va sva (hstride hin)]; exact hpde),
          if_neg hv] at hq
        cases hq

theorem pte_tprot_ne_none (e : Nat) : pte_tprot e ≠ VM_PROT_NONE := by
  unfold pte_tprot
  by_cases h1 : e &&& INTEL_PTE_WRITE ≠ 0 <;> by_cases h2 : e &&& INTEL_PTE_NX = 0 <;>
    simp [h1, h2] <;> decide

/-- What a returning `pmap_protect` (with `prot` other than `VM_PROT_NONE`)
leaves: only `mem` and the shootdown log differ from the state before. -/
theorem pmap_protect_spec (pmap_remove : State → Nat → Nat → Nat → Result Unit)
    (fuel : Nat) (s : State) (map sva eva prot : Nat) (s' : State)
    (hmap : map ≠ PMAP_NULL) (hnone : prot ≠ VM_PROT_NONE)
    (hrun : pmap_protect pmap_remove fuel s map sva eva prot = Result.ret () s') :
    ∃ nf s1, pmap_protect_loop map prot (pmap_protect_set_NX s map prot) eva fuel sva s 0
        = Result.ret nf s1 ∧
      s1 = { s with mem := s1.mem } ∧
      ProtRel prot (pmap_protect_set_NX s map prot) s.mem s1.mem ∧
      (nf = 0 → s1.mem = s.mem) ∧
      s' = (if nf ≠ 0 then PMAP_UPDATE_TLBS s1 map sva eva else s1) := by
  unfold pmap_protect at hrun
  rw [if_neg hmap, if_neg hnone] at hrun
  cases hl : pmap_protect_loop map prot (pmap_protect_set_NX s map prot) eva fuel sva s 0 with
  | ret nf s1 =>
    simp only [hl] at hrun
    obtain ⟨e1, r1, _, u1⟩ := pmap_protect_loop_spec map prot _ eva fuel sva s 0 nf s1 hl
    refine ⟨nf, s1, rfl, e1, r1, u1, ?_⟩
    by_cases hnf : nf ≠ 0
    · rw [if_pos hnf] at hrun ⊢
      injection hrun with _ h2
      exact h2.symm
    · rw [if_neg hnf] at hrun ⊢
      injection hrun with _ h2
      exact h2.symm
  | panic => simp [hl] at hrun
  | timeout => simp [hl] at hrun

theorem pmap_protect_mem (pmap_remove : State → Nat → Nat → Nat → Result Unit)
    (fuel : Nat) (s : State) (map sva eva prot : Nat) (s' : State)
    (hmap : map ≠ PMAP_NULL) (hnone : prot ≠ VM_PROT_NONE)
    (hrun : pmap_protect pmap_remove fuel s map sva eva prot = Result.ret () s') :
    ProtRel prot (pmap_protect_set_NX s map prot) s.mem s'.mem ∧ s'.pmaps = s.pmaps := by
  obtain ⟨nf, s1, _, e1, r1, _, e'⟩ := pmap_protect_spec pmap_remove fuel s map sva eva prot s'
    hmap hnone hrun
  have hm : s'.mem = s1.mem ∧ s'.pmaps = s1.pmaps := by
    rw [e']; split <;> simp [PMAP_UPDATE_TLBS]
  rw [hm.1, hm.2]
  refine ⟨r1, ?_⟩
  rw [e1]

theorem pmap_protect_loop_terminates (map prot : Nat) (set_NX : Bool) (eva : Nat)
    (heva : eva ≤ 2 ^ 64 - 2097152) :
    ∀ (fuel sva : Nat) (s : State) (nf : Nat),
      ((sva < eva ∧ eva / 2097152 + 2 ≤ fuel + sva / 2097152) ∨ (eva ≤ sva ∧ 1 ≤ fuel)) →
      ∃ nf' s', pmap_protect_loop map prot set_NX eva fuel sva s nf = Result.ret nf' s' := by
  intro fuel
  induction fuel with
  | zero =>
    intro sva s nf h
    exfalso
    omega
  | succ fuel ih =>
    intro sva s nf h
    unfold pmap_protect_loop
    by_cases hlt : sva < eva
    · simp only [hlt, if_true]
      have hnw : sva + 2097152 < 2 ^ 64 := by omega
      have hlva := pmap_protect_lva_nowrap sva eva hnw
      have hnext : (pmap_protect_lva sva eva < eva ∧
            eva / 2097152 + 2 ≤ fuel + pmap_protect_lva sva eva / 2097152) ∨
          (eva ≤ pmap_protect_lva sva eva ∧ 1 ≤ fuel) := by
        rw [hlva]
        split <;> omega
      cases hpde : pmap_pde s map sva with
      | none => simp only [hpde]; exact ih _ _ _ hnext
      | some pde =>
        simp only [hpde]
        by_cases hv : s.mem pde &&& INTEL_PTE_VALID ≠ 0
        · rw [if_pos hv]
          by_cases hps : s.mem pde &&& INTEL_PTE_PS ≠ 0
          · rw [if_pos hps]; exact ih _ _ _ hnext
          · rw [if_neg hps]
            have hal : sva &&& ((pde_mapped_size - 1) ^^^ UINT64_MAX) = sva / 2097152 * 2097152 :=
              align_down_eq sva (by omega)
            have hpte0 : pmap_pte s map (sva &&& ((pde_mapped_size - 1) ^^^ UINT64_MAX)) =
                some ((s.mem pde &&& PG_FRAME) +
                  8 * (intel_btop (sva / 2097152 * 2097152) &&& (NPTEPG - 1))) := by
              rw [hal, pmap_pte_of_pde (by
                rw [pmap_pde_same_stride s map (sva / 2097152 * 2097152) sva (by omega)]
                exact hpde), if_pos hv, if_neg hps]
            simp only [hpte0]
            exact ih _ _ _ hnext
        · rw [if_neg hv]; exact ih _ _ _ hnext
    · simp only [hlt, if_false]
      exact ⟨nf, s, rfl⟩

/-- Claim C1 (the code departs from it): `pmap_protect` is documented as "will
not increase permissions", yet on the sample space a call with protection
read+write+execute over the page at 0x1000 returns with that page's entry
(word 0x4008), read-only and no-execute before, now writable and with the
no-execute bit clear. -/
theorem pmap_protect_increases_permissions :
    ∃ s', pmap_protect sample_remove 2 sample_state 1 0x1000 0x2000
        (VM_PROT_READ ||| VM_PROT_WRITE ||| VM_PROT_EXECUTE) = Result.ret () s' ∧
      sample_state.mem 0x4008 &&& INTEL_PTE_WRITE = 0 ∧
      sample_state.mem 0x4008 &&& INTEL_PTE_NX ≠ 0 ∧
      s'.mem 0x4008 &&& INTEL_PTE_WRITE ≠ 0 ∧
      s'.mem 0x4008 &&& INTEL_PTE_NX = 0 := by
  refine ⟨_, rfl, ?_, ?_, ?_, ?_⟩ <;> decide

/-- Claim C2: for a non-null map, `pmap_protect` with `VM_PROT_NONE` is the call
`pmap_remove (map, sva, eva)`: same outcome, hence the same page-table state
and the same shootdown log; and a present entry of the state it leaves never
stands for zero permission, its derived protection always holding read. -/
theorem pmap_protect_none_is_remove (pmap_remove : State → Nat → Nat → Nat → Result Unit)
    (fuel : Nat) (s : State) (map sva eva : Nat) (hmap : map ≠ PMAP_NULL) :
    pmap_protect pmap_remove fuel s map sva eva VM_PROT_NONE = pmap_remove s map sva eva ∧
    (∀ s', pmap_protect pmap_remove fuel s map sva eva VM_PROT_NONE = Result.ret () s' →
      ∀ a, s'.mem a &&& INTEL_PTE_VALID ≠ 0 → pte_tprot (s'.mem a) ≠ VM_PROT_NONE) := by
  refine ⟨?_, fun s' _ a _ => pte_tprot_ne_none _⟩
  unfold pmap_protect
  rw [if_neg hmap, if_pos rfl]

theorem pmap_protect_none_is_remove_witness :
    (1 : Nat) ≠ PMAP_NULL ∧
    (pmap_protect sample_remove 0 sample_state 1 0x1000 0x2000 VM_PROT_NONE
        = sample_remove sample_state 1 0x1000 0x2000 ∧
      (∀ s', pmap_protect sample_remove 0 sample_state 1 0x1000 0x2000 VM_PROT_NONE
          = Result.ret () s' →
        ∀ a, s'.mem a &&& INTEL_PTE_VALID ≠ 0 → pte_tprot (s'.mem a) ≠ VM_PROT_NONE)) :=
  ⟨by decide, pmap_protect_none_is_remove sample_remove 0 sample_state 1 0x1000 0x2000 (by decide)⟩

/-- Claim C3, as stated, fails for a range that is not page-aligned: on the
sample space `pmap_protect (map, 0x1800, 0x3000, VM_PROT_READ)` returns with
the entry of the page at 0x2000, which lies wholly inside the range, still
present and writable. -/
theorem pmap_protect_unaligned_keeps_write :
    VM_PROT_READ &&& VM_PROT_WRITE = 0 ∧
    ∃ s', pmap_protect sample_remove 2 sample_state 1 0x1800 0x3000 VM_PROT_READ
        = Result.ret () s' ∧
      0x1800 ≤ 0x2000 ∧ 0x2000 + PAGE_SIZE ≤ 0x3000 ∧
      pmap_pte s' 1 0x2000 = some 0x4010 ∧
      s'.mem 0x4010 &&& INTEL_PTE_VALID ≠ 0 ∧
      s'.mem 0x4010 &&& INTEL_PTE_WRITE ≠ 0 := by
  refine ⟨by decide, _, rfl, ?_, ?_, ?_, ?_, ?_⟩ <;> decide

theorem pmap_protect_ret_mem (pmap_remove : State → Nat → Nat → Nat → Result Unit)
    (fuel : Nat) (s : State) (map sva eva prot : Nat) (s' : State)
    (hmap : map ≠ PMAP_NULL) (hnone : prot ≠ VM_PROT_NONE)
    (hrun : pmap_protect pmap_remove fuel s map sva eva prot = Result.ret () s') :
    ∃ nf s1, pmap_protect_loop map prot (pmap_protect_set_NX s map prot) eva fuel sva s 0
        = Result.ret nf s1 ∧
      s'.mem = s1.mem ∧ (∀ va, pmap_pte s' map va = pmap_pte s1 map va) ∧
      (nf = 0 → s' = s) ∧
      (nf ≠ 0 → s'.tlb_shootdowns = (map, sva, eva) :: s.tlb_shootdowns) := by
  obtain ⟨nf, s1, hl, e1, _, u1, e'⟩ := pmap_protect_spec pmap_remove fuel s map sva eva prot s'
    hmap hnone hrun
  have hm : s'.mem = s1.mem ∧ s'.pmaps = s1.pmaps := by
    rw [e']; split <;> simp [PMAP_UPDATE_TLBS]
  refine ⟨nf, s1, hl, hm.1, ?_, ?_, ?_⟩
  · intro va
    unfold pmap_pte pmap_pde pmap64_pde pmap64_pdpt pmap64_pml4
    rw [hm.1, hm.2]
  · intro h0
    rw [e', if_neg (by omega), e1, u1 h0]
  · intro h0
    rw [e', if_pos h0, e1]
    rfl

/-- Claim C3, amended: for a non-null map, a page-aligned 64-bit `sva` and a
protection other than `VM_PROT_NONE` that does not include `VM_PROT_WRITE`,
when the stride loop of `pmap_protect` has come to its end, every present entry
(leaf entry or superpage entry) of a page lying in `[sva, eva)` has the
writable bit clear and no word of the page tables has a writable bit that was
clear before; this is the state of the page tables in every run that returns.
The stride loop does come to its end when `eva` is at most `2 ^ 64 - 2 ^ 21`
(in `eva / 2 ^ 21 + 2` iterations at most); what remains of the call is the
shootdown. -/
theorem pmap_protect_clears_write (pmap_remove : State → Nat → Nat → Nat → Result Unit)
    (s : State) (map sva eva prot : Nat)
    (hmap : map ≠ PMAP_NULL) (hnone : prot ≠ VM_PROT_NONE) (hw : prot &&& VM_PROT_WRITE = 0)
    (hsva : sva % PAGE_SIZE = 0) (hs64 : sva < 2 ^ 64) :
    (∀ fuel s', pmap_protect pmap_remove fuel s map sva eva prot = Result.ret () s' →
      (∀ va p, va % PAGE_SIZE = 0 → sva ≤ va → va + PAGE_SIZE ≤ eva →
        pmap_pte s' map va = some p →
        s'.mem p &&& INTEL_PTE_VALID ≠ 0 → s'.mem p &&& INTEL_PTE_WRITE = 0) ∧
      (∀ a, s.mem a &&& INTEL_PTE_WRITE = 0 → s'.mem a &&& INTEL_PTE_WRITE = 0)) ∧
    (eva ≤ 2 ^ 64 - 2 ^ 21 →
      ∃ nf s1, pmap_protect_loop map prot (pmap_protect_set_NX s map prot) eva
          (eva / 2 ^ 21 + 2) sva s 0 = Result.ret nf s1 ∧
        (∀ va p, va % PAGE_SIZE = 0 → sva ≤ va → va + PAGE_SIZE ≤ eva →
          pmap_pte s1 map va = some p →
          s1.mem p &&& INTEL_PTE_VALID ≠ 0 → s1.mem p &&& INTEL_PTE_WRITE = 0) ∧
        (∀ a, s.mem a &&& INTEL_PTE_WRITE = 0 → s1.mem a &&& INTEL_PTE_WRITE = 0)) := by
  have core : ∀ fuel nf s1,
      pmap_protect_loop map prot (pmap_protect_set_NX s map prot) eva fuel sva s 0
        = Result.ret nf s1 →
      (∀ va p, va % PAGE_SIZE = 0 → sva ≤ va → va + PAGE_SIZE ≤ eva →
        pmap_pte s1 map va = some p →
        s1.mem p &&& INTEL_PTE_VALID ≠ 0 → s1.mem p &&& INTEL_PTE_WRITE = 0) ∧
      (∀ a, s.mem a &&& INTEL_PTE_WRITE = 0 → s1.mem a &&& INTEL_PTE_WRITE = 0) := by
    intro fuel nf s1 hl
    obtain ⟨_, r1, _, _⟩ := pmap_protect_loop_spec map prot _ eva fuel sva s 0 nf s1 hl
    constructor
    · intro va p hva hle hlt hp1
      by_cases hbig : eva ≤ 2 ^ 64 - 2097152
      · exact pmap_protect_loop_cover map prot _ eva hw hbig fuel sva s 0 nf s1 (Or.inl hsva) hl
          va p hva hle hlt hp1
      · exact absurd hl (pmap_protect_loop_wrap_diverges map prot _ eva (by omega) fuel sva s 0
          (by unfold PAGE_SIZE at hlt; omega) hs64 nf s1)
    · intro a ha
      rcases r1 a with h | ⟨_, h⟩
      · rw [h]; exact ha
      · rw [h]
        by_contra hc
        exact ((protect_word_write prot _ (s.mem a)).1 hc) hw
  refine ⟨?_, ?_⟩
  · intro fuel s' hrun
    obtain ⟨nf, s1, hl, hm, hpte, _, _⟩ := pmap_protect_ret_mem pmap_remove fuel s map sva eva
      prot s' hmap hnone hrun
    obtain ⟨c1, c2⟩ := core fuel nf s1 hl
    constructor
    · intro va p hva hle hlt hp
      rw [hm]
      rw [hpte] at hp
      exact c1 va p hva hle hlt hp
    · intro a ha
      rw [hm]
      exact c2 a ha
  · intro h
    obtain ⟨nf, s1, hl⟩ := pmap_protect_loop_terminates map prot
      (pmap_protect_set_NX s map prot) eva h (eva / 2 ^ 21 + 2) sva s 0 (by omega)
    exact ⟨nf, s1, hl, core _ nf s1 hl⟩

theorem pmap_protect_clears_write_witness :
    ((1 : Nat) ≠ PMAP_NULL ∧ VM_PROT_READ ≠ VM_PROT_NONE ∧ VM_PROT_READ &&& VM_PROT_WRITE = 0 ∧
      0x2000 % PAGE_SIZE = 0 ∧ 0x2000 < 2 ^ 64 ∧ 0x4000 ≤ 2 ^ 64 - 2 ^ 21) ∧
    ((∀ fuel s', pmap_protect sample_remove fuel sample_state 1 0x2000 0x4000 VM_PROT_READ
          = Result.ret () s' →
        (∀ va p, va % PAGE_SIZE = 0 → 0x2000 ≤ va → va + PAGE_SIZE ≤ 0x4000 →
          pmap_pte s' 1 va = some p →
          s'.mem p &&& INTEL_PTE_VALID ≠ 0 → s'.mem p &&& INTEL_PTE_WRITE = 0) ∧
        (∀ a, sample_state.mem a &&& INTEL_PTE_WRITE = 0 → s'.mem a &&& INTEL_PTE_WRITE = 0)) ∧
      ∃ nf s1, pmap_protect_loop 1 VM_PROT_READ (pmap_protect_set_NX sample_state 1 VM_PROT_READ)
          0x4000 (0x4000 / 2 ^ 21 + 2) 0x2000 sample_state 0 = Result.ret nf s1 ∧
        (∀ va p, va % PAGE_SIZE = 0 → 0x2000 ≤ va → va + PAGE_SIZE ≤ 0x4000 →
          pmap_pte s1 1 va = some p →
          s1.mem p &&& INTEL_PTE_VALID ≠ 0 → s1.mem p &&& INTEL_PTE_WRITE = 0) ∧
        (∀ a, sample_state.mem a &&& INTEL_PTE_WRITE = 0 → s1.mem a &&& INTEL_PTE_WRITE = 0)) :=
  ⟨by decide,
    (pmap_protect_clears_write sample_remove sample_state 1 0x2000 0x4000 VM_PROT_READ
      (by decide) (by decide) (by decide) (by decide) (by decide)).1,
    (pmap_protect_clears_write sample_remove sample_state 1 0x2000 0x4000 VM_PROT_READ
      (by decide) (by decide) (by decide) (by decide) (by decide)).2 (by decide)⟩

theorem table_entry_valid (pn : Nat) : table_entry pn &&& INTEL_PTE_VALID ≠ 0 := by
  rw [valid_iff]
  have hV : INTEL_PTE_VALID = 2 ^ 0 := rfl
  simp [table_entry, Nat.testBit_or, hV]

theorem vm_page_grab_loop_spec (options : Nat) :
    ∀ (fuel : Nat) (s : State) (v : Option Nat) (s' : State),
      vm_page_grab_loop options fuel s = Result.ret v s' →
      s' = { s with grabs := s'.grabs, waits := s'.waits } ∧
      s.grabs < s'.grabs ∧
      s.vm_page_grab_oracle (s'.grabs - 1) = v ∧
      (∀ i, s.grabs ≤ i → i + 1 < s'.grabs → s.vm_page_grab_oracle i = none) ∧
      (options &&& PMAP_EXPAND_OPTIONS_NOWAIT ≠ 0 →
        s'.grabs = s.grabs + 1 ∧ s'.waits = s.waits) ∧
      (options &&& PMAP_EXPAND_OPTIONS_NOWAIT = 0 → v ≠ none) := by
  intro fuel
  induction fuel with
  | zero => intro s v s' h; simp [vm_page_grab_loop] at h
  | succ fuel ih =>
    intro s v s' h
    unfold vm_page_grab_loop at h
    cases ho : s.vm_page_grab_oracle s.grabs with
    | some pn =>
      simp only [ho] at h
      injection h with h1 h2
      subst h1; subst h2
      refine ⟨rfl, by simp, by simpa using ho, ?_, fun _ => ⟨rfl, rfl⟩, fun _ => by simp⟩
      intro i h1 h2
      simp at h2
      omega
    | none =>
      simp only [ho] at h
      by_cases hn : options &&& PMAP_EXPAND_OPTIONS_NOWAIT ≠ 0
      · rw [if_pos hn] at h
        injection h with h1 h2
        subst h1; subst h2
        refine ⟨rfl, by simp, by simpa using ho, ?_, fun _ => ⟨rfl, rfl⟩, fun h0 => absurd h0 hn⟩
        intro i h1 h2
        simp at h2
        omega
      · rw [if_neg hn] at h
        obtain ⟨e, hg, hv, hall, _, hnn⟩ := ih _ v s' h
        simp only at hg hv hall
        refine ⟨?_, by omega, hv, ?_, fun h0 => absurd h0 hn, hnn⟩
        · rw [e]
        · intro i h1 h2
          by_cases hi : i = s.grabs
          · rw [hi]; exact ho
          · exact hall i (by omega) h2

theorem vm_page_grab_loop_nowait (options : Nat)
    (hn : options &&& PMAP_EXPAND_OPTIONS_NOWAIT ≠ 0) (fuel : Nat) (s : State) :
    vm_page_grab_loop options (fuel + 1) s =
      Result.ret (s.vm_page_grab_oracle s.grabs) { s with grabs := s.grabs + 1 } := by
  unfold vm_page_grab_loop
  cases ho : s.vm_page_grab_oracle s.grabs with
  | some pn => rfl
  | none => simp only []; rw [if_pos hn]

theorem vm_page_grab_loop_some (options : Nat) (fuel : Nat) (s : State) (pn : Nat)
    (ho : s.vm_page_grab_oracle s.grabs = some pn) :
    vm_page_grab_loop options (fuel + 1) s =
      Result.ret (some pn) { s with grabs := s.grabs + 1 } := by
  unfold vm_page_grab_loop
  simp only [ho]

theorem pmap64_pdpt_eq {s s' : State} {map : Nat} (hm : s'.mem = s.mem)
    (hp : (s'.pmaps map).pm_cr3 = (s.pmaps map).pm_cr3) (va : Nat) :
    pmap64_pdpt s' map va = pmap64_pdpt s map va := by
  unfold pmap64_pdpt pmap64_pml4; rw [hm, hp]

theorem pmap64_pde_eq {s s' : State} {map : Nat} (hm : s'.mem = s.mem)
    (hp : (s'.pmaps map).pm_cr3 = (s.pmaps map).pm_cr3) (va : Nat) :
    pmap64_pde s' map va = pmap64_pde s map va := by
  unfold pmap64_pde pmap64_pdpt pmap64_pml4; rw [hm, hp]

theorem pmap_pte_eq {s s' : State} {map : Nat} (hm : s'.mem = s.mem)
    (hp : (s'.pmaps map).pm_cr3 = (s.pmaps map).pm_cr3) (va : Nat) :
    pmap_pte s' map va = pmap_pte s map va := by
  unfold pmap_pte pmap_pde pmap64_pde pmap64_pdpt pmap64_pml4; rw [hm, hp]

theorem pmap64_pdpt_some {s : State} {map va p3 : Nat} (h : pmap64_pdpt s map va = some p3) :
    ∃ p4, pmap64_pml4 s map va = some p4 ∧ s.mem p4 &&& INTEL_PTE_VALID ≠ 0 ∧
      p3 = (s.mem p4 &&& PG_FRAME) + 8 * ((va >>> PDPTSHIFT) &&& (NPTEPG - 1)) := by
  unfold pmap64_pdpt at h
  cases h4 : pmap64_pml4 s map va with
  | none => simp [h4] at h
  | some p4 =>
    simp only [h4] at h
    by_cases hv : s.mem p4 &&& INTEL_PTE_VALID ≠ 0
    · rw [if_pos hv] at h
      injection h with h
      exact ⟨p4, rfl, hv, h.symm⟩
    · rw [if_neg hv] at h; cases h

theorem pmap64_pdpt_of {s : State} {map va p4 : Nat} (h4 : pmap64_pml4 s map va = some p4) :
    pmap64_pdpt s map va =
      if s.mem p4 &&& INTEL_PTE_VALID ≠ 0 then
        some ((s.mem p4 &&& PG_FRAME) + 8 * ((va >>> PDPTSHIFT) &&& (NPTEPG - 1)))
      else none := by
  unfold pmap64_pdpt; rw [h4]

theorem pmap64_pde_some {s : State} {map va p2 : Nat} (h : pmap64_pde s map va = some p2) :
    ∃ p3, pmap64_pdpt s map va = some p3 ∧ s.mem p3 &&& INTEL_PTE_VALID ≠ 0 ∧
      p2 = (s.mem p3 &&& PG_FRAME) + 8 * ((va >>> PDSHIFT) &&& (NPTEPG - 1)) := by
  unfold pmap64_pde at h
  cases h3 : pmap64_pdpt s map va with
  | none => simp [h3] at h
  | some p3 =>
    simp only [h3] at h
    by_cases hv : s.mem p3 &&& INTEL_PTE_VALID ≠ 0
    · rw [if_pos hv] at h
      injection h with h
      exact ⟨p3, rfl, hv, h.symm⟩
    · rw [if_neg hv] at h; cases h

theorem pmap64_pde_of {s : State} {map va p3 : Nat} (h3 : pmap64_pdpt s map va = some p3) :
    pmap64_pde s map va =
      if s.mem p3 &&& INTEL_PTE_VALID ≠ 0 then
        some ((s.mem p3 &&& PG_FRAME) + 8 * ((va >>> PDSHIFT) &&& (NPTEPG - 1)))
      else none := by
  unfold pmap64_pde; rw [h3]

theorem pmap_pte_ne_none_iff {s : State} {map va : Nat} :
    pmap_pte s map va ≠ none ↔
      ∃ p2, pmap64_pde s map va = some p2 ∧ s.mem p2 &&& INTEL_PTE_VALID ≠ 0 := by
  unfold pmap_pte pmap_pde
  cases h2 : pmap64_pde s map va with
  | none => simp
  | some p2 =>
    by_cases hv : s.mem p2 &&& INTEL_PTE_VALID ≠ 0
    · simp only [if_pos hv]
      constructor
      · intro _; exact ⟨p2, rfl, hv⟩
      · intro _; split <;> simp
    · simp only [if_neg hv]
      constructor
      · intro h; exact absurd rfl h
      · rintro ⟨q, hq, hqv⟩
        injection hq with hq
        subst hq
        exact absurd hqv hv

theorem pmap64_pml4_prepare (s : State) (pn map va : Nat) :
    pmap64_pml4 (pmap_expand_prepare s pn) map va = pmap64_pml4 s map va := rfl

theorem pmap_expand_pml4_grabbed_cases (s : State) (map vaddr pn : Nat) :
    (pmap64_pdpt (pmap_expand_prepare s pn) map vaddr ≠ none ∧
      pmap_expand_pml4_grabbed s map vaddr pn =
        Result.ret KERN_SUCCESS (pmap_expand_lost_race (pmap_expand_prepare s pn) pn)) ∨
    (pmap64_pdpt (pmap_expand_prepare s pn) map vaddr = none ∧
      pmap64_pml4 s map vaddr = none ∧
      pmap_expand_pml4_grabbed s map vaddr pn = Result.panic) ∨
    (pmap64_pdpt (pmap_expand_prepare s pn) map vaddr = none ∧
      ∃ p, pmap64_pml4 s map vaddr = some p ∧
        pmap_expand_pml4_grabbed s map vaddr pn =
          Result.ret KERN_SUCCESS (installed_pml4 s map vaddr pn p)) := by
  unfold pmap_expand_pml4_grabbed
  by_cases h : pmap64_pdpt (pmap_expand_prepare s pn) map vaddr ≠ none
  · left; exact ⟨h, by simp only [if_pos h]⟩
  · right
    have h' : pmap64_pdpt (pmap_expand_prepare s pn) map vaddr = none := by
      by_contra hc; exact h hc
    simp only [if_neg h]
    have hw : ∀ q, pmap64_pml4 (set_pmap (pmap_expand_prepare s pn) map
        { ((pmap_expand_prepare s pn).pmaps map) with
          pm_obj_pml4 := (pml4idx vaddr, pn) :: ((pmap_expand_prepare s pn).pmaps map).pm_obj_pml4 })
        map q = pmap64_pml4 s map q := by
      intro q
      simp [pmap64_pml4, set_pmap, pmap_expand_prepare, pmap_zero_page]
    rw [hw]
    cases h4 : pmap64_pml4 s map vaddr with
    | none => left; exact ⟨h', rfl, rfl⟩
    | some p => right; exact ⟨h', p, rfl, rfl⟩

theorem pmap_expand_pdpt_grabbed_cases (s : State) (map vaddr pn : Nat) :
    (pmap64_pde (pmap_expand_prepare s pn) map vaddr ≠ none ∧
      pmap_expand_pdpt_grabbed s map vaddr pn =
        Result.ret KERN_SUCCESS (pmap_expand_lost_race (pmap_expand_prepare s pn) pn)) ∨
    (pmap64_pde (pmap_expand_prepare s pn) map vaddr = none ∧
      pmap64_pdpt (pmap_expand_prepare s pn) map vaddr = none ∧
      pmap_expand_pdpt_grabbed s map vaddr pn = Result.panic) ∨
    (pmap64_pde (pmap_expand_prepare s pn) map vaddr = none ∧
      ∃ p, pmap64_pdpt (pmap_expand_prepare s pn) map vaddr = some p ∧
        pmap_expand_pdpt_grabbed s map vaddr pn =
          Result.ret KERN_SUCCESS (installed_pdpt s map vaddr pn p)) := by
  unfold pmap_expand_pdpt_grabbed
  by_cases h : pmap64_pde (pmap_expand_prepare s pn) map vaddr ≠ none
  · left; exact ⟨h, by simp only [if_pos h]⟩
  · right
    have h' : pmap64_pde (pmap_expand_prepare s pn) map vaddr = none := by
      by_contra hc; exact h hc
    simp only [if_neg h]
    have hw : ∀ q, pmap64_pdpt (set_pmap (pmap_expand_prepare s pn) map
        { ((pmap_expand_prepare s pn).pmaps map) with
          pm_obj_pdpt := (pdptidx vaddr, pn) :: ((pmap_expand_prepare s pn).pmaps map).pm_obj_pdpt })
        map q = pmap64_pdpt (pmap_expand_prepare s pn) map q := by
      intro q
      apply pmap64_pdpt_eq
      · rfl
      · simp [set_pmap]
    rw [hw]
    cases h4 : pmap64_pdpt (pmap_expand_prepare s pn) map vaddr with
    | none => left; exact ⟨h', rfl, rfl⟩
    | some p => right; exact ⟨h', p, rfl, rfl⟩

theorem pmap_expand_grabbed_cases (s : State) (map vaddr pn : Nat) :
    (pmap_pte (pmap_expand_prepare s pn) map vaddr ≠ none ∧
      pmap_expand_grabbed s map vaddr pn =
        Result.ret KERN_SUCCESS (pmap_expand_lost_race (pmap_expand_prepare s pn) pn)) ∨
    (pmap_pte (pmap_expand_prepare s pn) map vaddr = none ∧
      pmap64_pde (pmap_expand_prepare s pn) map vaddr = none ∧
      pmap_expand_grabbed s map vaddr pn = Result.panic) ∨
    (pmap_pte (pmap_expand_prepare s pn) map vaddr = none ∧
      ∃ p, pmap64_pde (pmap_expand_prepare s pn) map vaddr = some p ∧
        pmap_expand_grabbed s map vaddr pn =
          Result.ret KERN_SUCCESS (installed_pde s map vaddr pn p)) := by
  unfold pmap_expand_grabbed
  by_cases h : pmap_pte (pmap_expand_prepare s pn) map vaddr ≠ none
  · left; exact ⟨h, by simp only [if_pos h]⟩
  · right
    have h' : pmap_pte (pmap_expand_prepare s pn) map vaddr = none := by
      by_contra hc; exact h hc
    simp only [if_neg h]
    have hw : ∀ q, pmap_pde (set_pmap (pmap_expand_prepare s pn) map
        { ((pmap_expand_prepare s pn).pmaps map) with
          pm_obj := (pdeidx vaddr, pn) :: ((pmap_expand_prepare s pn).pmaps map).pm_obj })
        map q = pmap64_pde (pmap_expand_prepare s pn) map q := by
      intro q
      show pmap64_pde _ map q = _
      apply pmap64_pde_eq
      · rfl
      · simp [set_pmap]
    rw [hw]
    cases h4 : pmap64_pde (pmap_expand_prepare s pn) map vaddr with
    | none => left; exact ⟨h', rfl, rfl⟩
    | some p => right; exact ⟨h', p, rfl, rfl⟩

theorem lost_race_mem (s : State) (pn : Nat) : (pmap_expand_lost_race s pn).mem = s.mem := rfl

theorem lost_race_pmaps (s : State) (pn : Nat) : (pmap_expand_lost_race s pn).pmaps = s.pmaps := rfl

theorem prepare_mem (s : State) (pn a : Nat) :
    (pmap_expand_prepare s pn).mem a = if a / PAGE_SIZE = pn then 0 else s.mem a := rfl

theorem prepare_pmaps (s : State) (pn : Nat) : (pmap_expand_prepare s pn).pmaps = s.pmaps := rfl

theorem installed_pml4_mem (s : State) (map vaddr pn p a : Nat) :
    (installed_pml4 s map vaddr pn p).mem a =
      if a = p then table_entry pn else if a / PAGE_SIZE = pn then 0 else s.mem a := rfl

theorem installed_pdpt_mem (s : State) (map vaddr pn p a : Nat) :
    (installed_pdpt s map vaddr pn p).mem a =
      if a = p then table_entry pn else if a / PAGE_SIZE = pn then 0 else s.mem a := rfl

theorem installed_pde_mem (s : State) (map vaddr pn p a : Nat) :
    (installed_pde s map vaddr pn p).mem a =
      if a = p then table_entry pn else if a / PAGE_SIZE = pn then 0 else s.mem a := rfl

theorem installed_pml4_cr3 (s : State) (map vaddr pn p k : Nat) :
    ((installed_pml4 s map vaddr pn p).pmaps k).pm_cr3 = (s.pmaps k).pm_cr3 := by
  simp only [installed_pml4, pmap_store_pte, set_pmap, prepare_pmaps]
  by_cases hk : k = map
  · subst hk; simp
  · simp [hk]

theorem installed_pdpt_cr3 (s : State) (map vaddr pn p k : Nat) :
    ((installed_pdpt s map vaddr pn p).pmaps k).pm_cr3 = (s.pmaps k).pm_cr3 := by
  simp only [installed_pdpt, pmap_store_pte, set_pmap, prepare_pmaps]
  by_cases hk : k = map
  · subst hk; simp
  · simp [hk]

theorem installed_pde_cr3 (s : State) (map vaddr pn p k : Nat) :
    ((installed_pde s map vaddr pn p).pmaps k).pm_cr3 = (s.pmaps k).pm_cr3 := by
  simp only [installed_pde, pmap_store_pte, set_pmap, prepare_pmaps]
  by_cases hk : k = map
  · subst hk; simp
  · simp [hk]

theorem pmap64_pml4_cr3 {s s' : State} {map : Nat}
    (hp : (s'.pmaps map).pm_cr3 = (s.pmaps map).pm_cr3) (va : Nat) :
    pmap64_pml4 s' map va = pmap64_pml4 s map va := pmap64_pml4_congr hp va

/-- A successful `pmap_expand_pml4` leaves the top-level entry of `vaddr` present. -/
theorem pmap_expand_pml4_grabbed_populated (s : State) (map vaddr pn r : Nat) (s' : State)
    (h : pmap_expand_pml4_grabbed s map vaddr pn = Result.ret r s') :
    r = KERN_SUCCESS ∧ pmap64_pdpt s' map vaddr ≠ none := by
  rcases pmap_expand_pml4_grabbed_cases s map vaddr pn with ⟨hp, he⟩ | ⟨_, _, he⟩ | ⟨_, p, h4, he⟩
  · rw [he] at h; injection h with h1 h2
    subst h1; subst h2
    exact ⟨rfl, by rw [pmap64_pdpt_eq (lost_race_mem _ _) (by rw [lost_race_pmaps])]; exact hp⟩
  · rw [he] at h; cases h
  · rw [he] at h; injection h with h1 h2
    subst h1; subst h2
    refine ⟨rfl, ?_⟩
    rw [pmap64_pdpt_of (show pmap64_pml4 (installed_pml4 s map vaddr pn p) map vaddr = some p from by
      rw [pmap64_pml4_cr3 (installed_pml4_cr3 ..)]; exact h4)]
    have hv : (installed_pml4 s map vaddr pn p).mem p &&& INTEL_PTE_VALID ≠ 0 := by
      rw [installed_pml4_mem, if_pos rfl]; exact table_entry_valid pn
    rw [if_pos hv]; simp

/-- A successful `pmap_expand_pdpt` leaves the upper-level entry of `vaddr` present. -/
theorem pmap_expand_pdpt_grabbed_populated (s : State) (map vaddr pn r : Nat) (s' : State)
    (h : pmap_expand_pdpt_grabbed s map vaddr pn = Result.ret r s') :
    r = KERN_SUCCESS ∧ pmap64_pde s' map vaddr ≠ none := by
  rcases pmap_expand_pdpt_grabbed_cases s map vaddr pn with ⟨hp, he⟩ | ⟨_, _, he⟩ | ⟨hn, p, h3, he⟩
  · rw [he] at h; injection h with h1 h2
    subst h1; subst h2
    exact ⟨rfl, by rw [pmap64_pde_eq (lost_race_mem _ _) (by rw [lost_race_pmaps])]; exact hp⟩
  · rw [he] at h; cases h
  · rw [he] at h; injection h with h1 h2
    subst h1; subst h2
    refine ⟨rfl, ?_⟩
    obtain ⟨p4, h4, hv4, hp3⟩ := pmap64_pdpt_some h3
    have hinv : (pmap_expand_prepare s pn).mem p &&& INTEL_PTE_VALID = 0 := by
      by_contra hc
      rw [pmap64_pde_of h3, if_pos hc] at hn
      cases hn
    have hne : p4 ≠ p := by
      intro e; rw [e] at hv4; exact hv4 hinv
    have h4' : pmap64_pml4 (installed_pdpt s map vaddr pn p) map vaddr = some p4 := by
      rw [pmap64_pml4_cr3 (installed_pdpt_cr3 ..)]; exact h4
    have hm4 : (installed_pdpt s map vaddr pn p).mem p4 = (pmap_expand_prepare s pn).mem p4 := by
      rw [installed_pdpt_mem, if_neg hne, prepare_mem]
    have h3' : pmap64_pdpt (installed_pdpt s map vaddr pn p) map vaddr = some p := by
      rw [pmap64_pdpt_of h4', hm4, if_pos hv4, hp3]
    rw [pmap64_pde_of h3']
    have hv : (installed_pdpt s map vaddr pn p).mem p &&& INTEL_PTE_VALID ≠ 0 := by
      rw [installed_pdpt_mem, if_pos rfl]; exact table_entry_valid pn
    rw [if_pos hv]; simp

/-- A successful `pmap_expand` leaves the middle-level entry of `vaddr` present. -/
theorem pmap_expand_grabbed_populated (s : State) (map vaddr pn r : Nat) (s' : State)
    (h : pmap_expand_grabbed s map vaddr pn = Result.ret r s') :
    r = KERN_SUCCESS ∧ pmap_pte s' map vaddr ≠ none := by
  rcases pmap_expand_grabbed_cases s map vaddr pn with ⟨hp, he⟩ | ⟨_, _, he⟩ | ⟨hn, p, h2, he⟩
  · rw [he] at h; injection h with h1 h2
    subst h1; subst h2
    exact ⟨rfl, by rw [pmap_pte_eq (lost_race_mem _ _) (by rw [lost_race_pmaps])]; exact hp⟩
  · rw [he] at h; cases h
  · rw [he] at h; injection h with h1 h2'
    subst h1; subst h2'
    refine ⟨rfl, ?_⟩
    obtain ⟨p3, h3, hv3, hp2⟩ := pmap64_pde_some h2
    obtain ⟨p4, h4, hv4, hp3⟩ := pmap64_pdpt_some h3
    have hinv : (pmap_expand_prepare s pn).mem p &&& INTEL_PTE_VALID = 0 := by
      by_contra hc
      exact (pmap_pte_ne_none_iff.2 ⟨p, h2, hc⟩) hn
    have hne4 : p4 ≠ p := by
      intro e; rw [e] at hv4; exact hv4 hinv
    have hne3 : p3 ≠ p := by
      intro e; rw [e] at hv3; exact hv3 hinv
    have h4' : pmap64_pml4 (installed_pde s map vaddr pn p) map vaddr = some p4 := by
      rw [pmap64_pml4_cr3 (installed_pde_cr3 ..)]; exact h4
    have hm4 : (installed_pde s map vaddr pn p).mem p4 = (pmap_expand_prepare s pn).mem p4 := by
      rw [installed_pde_mem, if_neg hne4, prepare_mem]
    have hm3 : (installed_pde s map vaddr pn p).mem p3 = (pmap_expand_prepare s pn).mem p3 := by
      rw [installed_pde_mem, if_neg hne3, prepare_mem]
    have h3' : pmap64_pdpt (installed_pde s map vaddr pn p) map vaddr = some p3 := by
      rw [pmap64_pdpt_of h4', hm4, if_pos hv4, hp3]
    have h2' : pmap64_pde (installed_pde s map vaddr pn p) map vaddr = some p := by
      rw [pmap64_pde_of h3', hm3, if_pos hv3, hp2]
    apply pmap_pte_ne_none_iff.2
    refine ⟨p, h2', ?_⟩
    rw [installed_pde_mem, if_pos rfl]; exact table_entry_valid pn

theorem grab_contract_trans {options : Nat} {s s1 s' : State} {r : Nat}
    (h1 : grab_contract options s s1 KERN_SUCCESS) (h2 : grab_contract options s1 s' r) :
    grab_contract options s s' r := by
  obtain ⟨a1, a2, _, _, a5⟩ := h1
  obtain ⟨b1, b2, b3, b4, b5⟩ := h2
  refine ⟨by rw [b1, a1], by omega, b3, b4, ?_⟩
  intro hn
  obtain ⟨c1, c2, _⟩ := a5 hn
  obtain ⟨d1, d2, d3⟩ := b5 hn
  rw [a1] at d2 d3
  refine ⟨by rw [d1, c1], ?_, ?_⟩
  · intro hr i hi1 hi2
    by_cases hi : i < s1.grabs
    · exact c2 rfl i hi1 hi
    · exact d2 hr i (by omega) hi2
  · intro hr
    obtain ⟨e1, e2, e3⟩ := d3 hr
    refine ⟨by omega, e2, ?_⟩
    intro i hi1 hi2
    by_cases hi : i < s1.grabs
    · exact c2 rfl i hi1 hi
    · exact e3 i (by omega) hi2

theorem grab_contract_shortage (options : Nat) (fuel : Nat) (s s1 : State)
    (h : vm_page_grab_loop options fuel s = Result.ret none s1) :
    grab_contract options s s1 KERN_RESOURCE_SHORTAGE := by
  obtain ⟨e, hg, hv, _, hnw, hw⟩ := vm_page_grab_loop_spec options fuel s none s1 h
  refine ⟨by rw [e], by omega, Or.inr rfl, fun h0 => absurd rfl (hw h0), ?_⟩
  intro hn
  obtain ⟨g1, g2⟩ := hnw hn
  refine ⟨g2, fun hr => absurd hr (by decide), fun _ => ⟨hg, hv, ?_⟩⟩
  intro i h1 h2; omega

theorem grab_contract_grabbed (options : Nat) (fuel : Nat) (s s1 s' : State) (pn : Nat)
    (h : vm_page_grab_loop options fuel s = Result.ret (some pn) s1)
    (h1 : s'.vm_page_grab_oracle = s1.vm_page_grab_oracle) (h2 : s'.grabs = s1.grabs)
    (h3 : s'.waits = s1.waits) :
    grab_contract options s s' KERN_SUCCESS := by
  obtain ⟨e, hg, hv, _, hnw, _⟩ := vm_page_grab_loop_spec options fuel s (some pn) s1 h
  refine ⟨by rw [h1, e], by omega, Or.inl rfl, fun _ => rfl, ?_⟩
  intro hn
  obtain ⟨g1, g2⟩ := hnw hn
  refine ⟨by rw [h3, g2], ?_, fun hr => absurd hr (by decide)⟩
  intro _ i hi1 hi2
  have : i = s1.grabs - 1 := by omega
  rw [this, hv]; simp

theorem pmap_expand_pml4_grabbed_alloc (s : State) (map vaddr pn r : Nat) (s' : State)
    (h : pmap_expand_pml4_grabbed s map vaddr pn = Result.ret r s') :
    s'.vm_page_grab_oracle = s.vm_page_grab_oracle ∧ s'.grabs = s.grabs ∧ s'.waits = s.waits ∧
    s'.kernel_pmap = s.kernel_pmap := by
  rcases pmap_expand_pml4_grabbed_cases s map vaddr pn with ⟨_, he⟩ | ⟨_, _, he⟩ | ⟨_, p, _, he⟩
  · rw [he] at h; injection h with h1 h2; subst h2; exact ⟨rfl, rfl, rfl, rfl⟩
  · rw [he] at h; cases h
  · rw [he] at h; injection h with h1 h2; subst h2; exact ⟨rfl, rfl, rfl, rfl⟩

theorem pmap_expand_pdpt_grabbed_alloc (s : State) (map vaddr pn r : Nat) (s' : State)
    (h : pmap_expand_pdpt_grabbed s map vaddr pn = Result.ret r s') :
    s'.vm_page_grab_oracle = s.vm_page_grab_oracle ∧ s'.grabs = s.grabs ∧ s'.waits = s.waits ∧
    s'.kernel_pmap = s.kernel_pmap := by
  rcases pmap_expand_pdpt_grabbed_cases s map vaddr pn with ⟨_, he⟩ | ⟨_, _, he⟩ | ⟨_, p, _, he⟩
  · rw [he] at h; injection h with h1 h2; subst h2; exact ⟨rfl, rfl, rfl, rfl⟩
  · rw [he] at h; cases h
  · rw [he] at h; injection h with h1 h2; subst h2; exact ⟨rfl, rfl, rfl, rfl⟩

theorem pmap_expand_grabbed_alloc (s : State) (map vaddr pn r : Nat) (s' : State)
    (h : pmap_expand_grabbed s map vaddr pn = Result.ret r s') :
    s'.vm_page_grab_oracle = s.vm_page_grab_oracle ∧ s'.grabs = s.grabs ∧ s'.waits = s.waits ∧
    s'.kernel_pmap = s.kernel_pmap := by
  rcases pmap_expand_grabbed_cases s map vaddr pn with ⟨_, he⟩ | ⟨_, _, he⟩ | ⟨_, p, _, he⟩
  · rw [he] at h; injection h with h1 h2; subst h2; exact ⟨rfl, rfl, rfl, rfl⟩
  · rw [he] at h; cases h
  · rw [he] at h; injection h with h1 h2; subst h2; exact ⟨rfl, rfl, rfl, rfl⟩

theorem pmap_expand_pml4_contract (fuel : Nat) (s : State) (map vaddr options r : Nat)
    (s' : State) (h : pmap_expand_pml4 fuel s map vaddr options = Result.ret r s') :
    grab_contract options s s' r ∧ (r = KERN_SUCCESS → pmap64_pdpt s' map vaddr ≠ none) ∧
      s'.kernel_pmap = s.kernel_pmap := by
  unfold pmap_expand_pml4 at h
  cases hg : vm_page_grab_loop options fuel s with
  | timeout => simp [hg] at h
  | panic => simp [hg] at h
  | ret v s1 =>
    cases v with
    | none =>
      simp only [hg] at h
      injection h with h1 h2
      subst h1; subst h2
      exact ⟨grab_contract_shortage options fuel s s1 hg, fun hc => absurd hc (by decide),
        by rw [(vm_page_grab_loop_spec options fuel s none s1 hg).1]⟩
    | some pn =>
      simp only [hg] at h
      obtain ⟨hr, hp⟩ := pmap_expand_pml4_grabbed_populated s1 map vaddr pn r s' h
      obtain ⟨a1, a2, a3, a4⟩ := pmap_expand_pml4_grabbed_alloc s1 map vaddr pn r s' h
      subst hr
      exact ⟨grab_contract_grabbed options fuel s s1 s' pn hg a1 a2 a3, fun _ => hp,
        by rw [a4, (vm_page_grab_loop_spec options fuel s (some pn) s1 hg).1]⟩

theorem pmap_expand_pdpt_contract (map vaddr options : Nat) :
    ∀ (fuel : Nat) (s : State) (r : Nat) (s' : State),
      pmap_expand_pdpt map vaddr options fuel s = Result.ret r s' →
      grab_contract options s s' r ∧ (r = KERN_SUCCESS → pmap64_pde s' map vaddr ≠ none) ∧
      s'.kernel_pmap = s.kernel_pmap := by
  intro fuel
  induction fuel with
  | zero => intro s r s' h; simp [pmap_expand_pdpt] at h
  | succ fuel ih =>
    intro s r s' h
    unfold pmap_expand_pdpt at h
    cases h3 : pmap64_pdpt s map vaddr with
    | none =>
      simp only [h3] at h
      cases h4 : pmap_expand_pml4 fuel s map vaddr options with
      | timeout => simp [h4] at h
      | panic => simp [h4] at h
      | ret k s1 =>
        simp only [h4] at h
        obtain ⟨c1, _, k1⟩ := pmap_expand_pml4_contract fuel s map vaddr options k s1 h4
        by_cases hk : k ≠ KERN_SUCCESS
        · rw [if_pos hk] at h
          injection h with e1 e2
          subst e1; subst e2
          exact ⟨c1, fun hc => absurd hc hk, k1⟩
        · rw [if_neg hk] at h
          have hk' : k = KERN_SUCCESS := by
            by_contra hc; exact hk hc
          subst hk'
          obtain ⟨c2, p2, k2⟩ := ih s1 r s' h
          exact ⟨grab_contract_trans c1 c2, p2, by rw [k2, k1]⟩
    | some p3 =>
      simp only [h3] at h
      cases hg : vm_page_grab_loop options fuel s with
      | timeout => simp [hg] at h
      | panic => simp [hg] at h
      | ret v s1 =>
        cases v with
        | none =>
          simp only [hg] at h
          injection h with h1 h2
          subst h1; subst h2
          exact ⟨grab_contract_shortage options fuel s s1 hg, fun hc => absurd hc (by decide),
        by rw [(vm_page_grab_loop_spec options fuel s none s1 hg).1]⟩
        | some pn =>
          simp only [hg] at h
          obtain ⟨hr, hp⟩ := pmap_expand_pdpt_grabbed_populated s1 map vaddr pn r s' h
          obtain ⟨a1, a2, a3, a4⟩ := pmap_expand_pdpt_grabbed_alloc s1 map vaddr pn r s' h
          subst hr
          exact ⟨grab_contract_grabbed options fuel s s1 s' pn hg a1 a2 a3, fun _ => hp,
            by rw [a4, (vm_page_grab_loop_spec options fuel s (some pn) s1 hg).1]⟩

theorem pmap_expand_body_contract (map vaddr options : Nat) :
    ∀ (fuel : Nat) (s : State) (r : Nat) (s' : State),
      pmap_expand_body map vaddr options fuel s = Result.ret r s' →
      grab_contract options s s' r ∧ (r = KERN_SUCCESS → pmap_pte s' map vaddr ≠ none) ∧
      s'.kernel_pmap = s.kernel_pmap := by
  intro fuel
  induction fuel with
  | zero => intro s r s' h; simp [pmap_expand_body] at h
  | succ fuel ih =>
    intro s r s' h
    unfold pmap_expand_body at h
    cases h3 : pmap64_pde s map vaddr with
    | none =>
      simp only [h3] at h
      cases h4 : pmap_expand_pdpt map vaddr options fuel s with
      | timeout => simp [h4] at h
      | panic => simp [h4] at h
      | ret k s1 =>
        simp only [h4] at h
        obtain ⟨c1, _, k1⟩ := pmap_expand_pdpt_contract map vaddr options fuel s k s1 h4
        by_cases hk : k ≠ KERN_SUCCESS
        · rw [if_pos hk] at h
          injection h with e1 e2
          subst e1; subst e2
          exact ⟨c1, fun hc => absurd hc hk, k1⟩
        · rw [if_neg hk] at h
          have hk' : k = KERN_SUCCESS := by
            by_contra hc; exact hk hc
          subst hk'
          obtain ⟨c2, p2, k2⟩ := ih s1 r s' h
          exact ⟨grab_contract_trans c1 c2, p2, by rw [k2, k1]⟩
    | some p3 =>
      simp only [h3] at h
      cases hg : vm_page_grab_loop options fuel s with
      | timeout => simp [hg] at h
      | panic => simp [hg] at h
      | ret v s1 =>
        cases v with
        | none =>
          simp only [hg] at h
          injection h with h1 h2
          subst h1; subst h2
          exact ⟨grab_contract_shortage options fuel s s1 hg, fun hc => absurd hc (by decide),
        by rw [(vm_page_grab_loop_spec options fuel s none s1 hg).1]⟩
        | some pn =>
          simp only [hg] at h
          obtain ⟨hr, hp⟩ := pmap_expand_grabbed_populated s1 map vaddr pn r s' h
          obtain ⟨a1, a2, a3, a4⟩ := pmap_expand_grabbed_alloc s1 map vaddr pn r s' h
          subst hr
          exact ⟨grab_contract_grabbed options fuel s s1 s' pn hg a1 a2 a3, fun _ => hp,
            by rw [a4, (vm_page_grab_loop_spec options fuel s (some pn) s1 hg).1]⟩

theorem pmap_expand_contract (fuel : Nat) (s : State) (map vaddr options r : Nat) (s' : State)
    (h : pmap_expand fuel s map vaddr options = Result.ret r s') :
    grab_contract options s s' r ∧ (r = KERN_SUCCESS → pmap_pte s' map vaddr ≠ none) ∧
      s'.kernel_pmap = s.kernel_pmap := by
  unfold pmap_expand at h
  split at h
  · cases h
  · exact pmap_expand_body_contract map vaddr options fuel s r s' h

theorem pmap_expand_pml4_grabbed_ne_timeout (s : State) (map vaddr pn : Nat) :
    pmap_expand_pml4_grabbed s map vaddr pn ≠ Result.timeout := by
  rcases pmap_expand_pml4_grabbed_cases s map vaddr pn with ⟨_, he⟩ | ⟨_, _, he⟩ | ⟨_, p, _, he⟩ <;>
    rw [he] <;> intro h <;> cases h

theorem pmap_expand_pdpt_grabbed_ne_timeout (s : State) (map vaddr pn : Nat) :
    pmap_expand_pdpt_grabbed s map vaddr pn ≠ Result.timeout := by
  rcases pmap_expand_pdpt_grabbed_cases s map vaddr pn with ⟨_, he⟩ | ⟨_, _, he⟩ | ⟨_, p, _, he⟩ <;>
    rw [he] <;> intro h <;> cases h

theorem pmap_expand_grabbed_ne_timeout (s : State) (map vaddr pn : Nat) :
    pmap_expand_grabbed s map vaddr pn ≠ Result.timeout := by
  rcases pmap_expand_grabbed_cases s map vaddr pn with ⟨_, he⟩ | ⟨_, _, he⟩ | ⟨_, p, _, he⟩ <;>
    rw [he] <;> intro h <;> cases h

theorem pmap_expand_pml4_nowait_returns (fuel : Nat) (s : State) (map vaddr options : Nat)
    (hn : options &&& PMAP_EXPAND_OPTIONS_NOWAIT ≠ 0) :
    pmap_expand_pml4 (fuel + 1) s map vaddr options ≠ Result.timeout := by
  unfold pmap_expand_pml4
  rw [vm_page_grab_loop_nowait options hn]
  cases s.vm_page_grab_oracle s.grabs with
  | none => intro h; cases h
  | some pn => exact pmap_expand_pml4_grabbed_ne_timeout _ map vaddr pn

theorem pmap_expand_pdpt_nowait_returns_of_some (fuel : Nat) (s : State)
    (map vaddr options : Nat) (hn : options &&& PMAP_EXPAND_OPTIONS_NOWAIT ≠ 0)
    (hp : pmap64_pdpt s map vaddr ≠ none) :
    pmap_expand_pdpt map vaddr options (fuel + 2) s ≠ Result.timeout := by
  unfold pmap_expand_pdpt
  cases h3 : pmap64_pdpt s map vaddr with
  | none => exact absurd h3 hp
  | some p3 =>
    simp only []
    rw [vm_page_grab_loop_nowait options hn]
    cases s.vm_page_grab_oracle s.grabs with
    | none => intro h; cases h
    | some pn => exact pmap_expand_pdpt_grabbed_ne_timeout _ map vaddr pn

theorem pmap_expand_pdpt_nowait_returns (fuel : Nat) (s : State) (map vaddr options : Nat)
    (hn : options &&& PMAP_EXPAND_OPTIONS_NOWAIT ≠ 0) :
    pmap_expand_pdpt map vaddr options (fuel + 3) s ≠ Result.timeout := by
  by_cases hp : pmap64_pdpt s map vaddr ≠ none
  · exact pmap_expand_pdpt_nowait_returns_of_some (fuel + 1) s map vaddr options hn hp
  · have h3 : pmap64_pdpt s map vaddr = none := by
      by_contra hc; exact hp hc
    unfold pmap_expand_pdpt
    simp only [h3]
    cases h4 : pmap_expand_pml4 (fuel + 2) s map vaddr options with
    | timeout => exact absurd h4 (pmap_expand_pml4_nowait_returns (fuel + 1) s map vaddr options hn)
    | panic => intro h; cases h
    | ret k s1 =>
      simp only []
      by_cases hk : k ≠ KERN_SUCCESS
      · rw [if_pos hk]; intro h; cases h
      · rw [if_neg hk]
        have hk' : k = KERN_SUCCESS := by
          by_contra hc; exact hk hc
        exact pmap_expand_pdpt_nowait_returns_of_some fuel s1 map vaddr options hn
          ((pmap_expand_pml4_contract _ s map vaddr options k s1 h4).2.1 hk')

theorem pmap_expand_body_nowait_returns_of_some (fuel : Nat) (s : State)
    (map vaddr options : Nat) (hn : options &&& PMAP_EXPAND_OPTIONS_NOWAIT ≠ 0)
    (hp : pmap64_pde s map vaddr ≠ none) :
    pmap_expand_body map vaddr options (fuel + 2) s ≠ Result.timeout := by
  unfold pmap_expand_body
  cases h3 : pmap64_pde s map vaddr with
  | none => exact absurd h3 hp
  | some p3 =>
    simp only []
    rw [vm_page_grab_loop_nowait options hn]
    cases s.vm_page_grab_oracle s.grabs with
    | none => intro h; cases h
    | some pn => exact pmap_expand_grabbed_ne_timeout _ map vaddr pn

theorem pmap_expand_body_nowait_returns (fuel : Nat) (s : State) (map vaddr options : Nat)
    (hn : options &&& PMAP_EXPAND_OPTIONS_NOWAIT ≠ 0) :
    pmap_expand_body map vaddr options (fuel + 4) s ≠ Result.timeout := by
  by_cases hp : pmap64_pde s map vaddr ≠ none
  · exact pmap_expand_body_nowait_returns_of_some (fuel + 2) s map vaddr options hn hp
  · have h3 : pmap64_pde s map vaddr = none := by
      by_contra hc; exact hp hc
    unfold pmap_expand_body
    simp only [h3]
    cases h4 : pmap_expand_pdpt map vaddr options (fuel + 3) s with
    | timeout => exact absurd h4 (pmap_expand_pdpt_nowait_returns fuel s map vaddr options hn)
    | panic => intro h; cases h
    | ret k s1 =>
      simp only []
      by_cases hk : k ≠ KERN_SUCCESS
      · rw [if_pos hk]; intro h; cases h
      · rw [if_neg hk]
        have hk' : k = KERN_SUCCESS := by
          by_contra hc; exact hk hc
        have hp1 := (pmap_expand_pdpt_contract map vaddr options _ s k s1 h4).2.1 hk'
        exact pmap_expand_body_nowait_returns_of_some (fuel + 1) s1 map vaddr options hn hp1

theorem pmap_expand_pml4_grabs (fuel : Nat) (s : State) (map vaddr options r : Nat)
    (s' : State) (h : pmap_expand_pml4 fuel s map vaddr options = Result.ret r s') :
    s.grabs < s'.grabs := by
  unfold pmap_expand_pml4 at h
  cases hg : vm_page_grab_loop options fuel s with
  | timeout => simp [hg] at h
  | panic => simp [hg] at h
  | ret v s1 =>
    have hlt := (vm_page_grab_loop_spec options fuel s v s1 hg).2.1
    cases v with
    | none =>
      simp only [hg] at h
      injection h with _ h2
      subst h2
      exact hlt
    | some pn =>
      simp only [hg] at h
      rw [(pmap_expand_pml4_grabbed_alloc s1 map vaddr pn r s' h).2.1]
      exact hlt

theorem pmap_expand_pdpt_grabs (map vaddr options : Nat) :
    ∀ (fuel : Nat) (s : State) (r : Nat) (s' : State),
      pmap_expand_pdpt map vaddr options fuel s = Result.ret r s' → s.grabs < s'.grabs := by
  intro fuel
  induction fuel with
  | zero => intro s r s' h; simp [pmap_expand_pdpt] at h
  | succ fuel ih =>
    intro s r s' h
    unfold pmap_expand_pdpt at h
    cases h3 : pmap64_pdpt s map vaddr with
    | none =>
      simp only [h3] at h
      cases h4 : pmap_expand_pml4 fuel s map vaddr options with
      | timeout => simp [h4] at h
      | panic => simp [h4] at h
      | ret k s1 =>
        simp only [h4] at h
        have hlt := pmap_expand_pml4_grabs fuel s map vaddr options k s1 h4
        by_cases hk : k ≠ KERN_SUCCESS
        · rw [if_pos hk] at h
          injection h with _ e2
          subst e2
          exact hlt
        · rw [if_neg hk] at h
          have := ih s1 r s' h
          omega
    | some p3 =>
      simp only [h3] at h
      cases hg : vm_page_grab_loop options fuel s with
      | timeout => simp [hg] at h
      | panic => simp [hg] at h
      | ret v s1 =>
        have hlt := (vm_page_grab_loop_spec options fuel s v s1 hg).2.1
        cases v with
        | none =>
          simp only [hg] at h
          injection h with _ h2
          subst h2
          exact hlt
        | some pn =>
          simp only [hg] at h
          rw [(pmap_expand_pdpt_grabbed_alloc s1 map vaddr pn r s' h).2.1]
          exact hlt

theorem pmap_expand_body_grabs (map vaddr options : Nat) :
    ∀ (fuel : Nat) (s : State) (r : Nat) (s' : State),
      pmap_expand_body map vaddr options fuel s = Result.ret r s' → s.grabs < s'.grabs := by
  intro fuel
  induction fuel with
  | zero => intro s r s' h; simp [pmap_expand_body] at h
  | succ fuel ih =>
    intro s r s' h
    unfold pmap_expand_body at h
    cases h3 : pmap64_pde s map vaddr with
    | none =>
      simp only [h3] at h
      cases h4 : pmap_expand_pdpt map vaddr options fuel s with
      | timeout => simp [h4] at h
      | panic => simp [h4] at h
      | ret k s1 =>
        simp only [h4] at h
        have hlt := pmap_expand_pdpt_grabs map vaddr options fuel s k s1 h4
        by_cases hk : k ≠ KERN_SUCCESS
        · rw [if_pos hk] at h
          injection h with _ e2
          subst e2
          exact hlt
        · rw [if_neg hk] at h
          have := ih s1 r s' h
          omega
    | some p3 =>
      simp only [h3] at h
      cases hg : vm_page_grab_loop options fuel s with
      | timeout => simp [hg] at h
      | panic => simp [hg] at h
      | ret v s1 =>
        have hlt := (vm_page_grab_loop_spec options fuel s v s1 hg).2.1
        cases v with
        | none =>
          simp only [hg] at h
          injection h with _ h2
          subst h2
          exact hlt
        | some pn =>
          simp only [hg] at h
          rw [(pmap_expand_grabbed_alloc s1 map vaddr pn r s' h).2.1]
          exact hlt

/-- With `PMAP_EXPAND_OPTIONS_NOWAIT`, `pmap_expand_pml4` returns
`KERN_RESOURCE_SHORTAGE` when its grab yields no page. -/
theorem pmap_expand_pml4_shortage (fuel : Nat) (s : State) (map vaddr options : Nat)
    (hn : options &&& PMAP_EXPAND_OPTIONS_NOWAIT ≠ 0)
    (ho : s.vm_page_grab_oracle s.grabs = none) :
    pmap_expand_pml4 (fuel + 1) s map vaddr options =
      Result.ret KERN_RESOURCE_SHORTAGE { s with grabs := s.grabs + 1 } := by
  unfold pmap_expand_pml4
  rw [vm_page_grab_loop_nowait options hn, ho]

/-- With `PMAP_EXPAND_OPTIONS_NOWAIT`, `pmap_expand_pdpt` returns
`KERN_RESOURCE_SHORTAGE` when the first grab of the call yields no page,
whether that grab is its own or that of `pmap_expand_pml4`. -/
theorem pmap_expand_pdpt_shortage (fuel : Nat) (s : State) (map vaddr options : Nat)
    (hn : options &&& PMAP_EXPAND_OPTIONS_NOWAIT ≠ 0)
    (ho : s.vm_page_grab_oracle s.grabs = none) :
    pmap_expand_pdpt map vaddr options (fuel + 2) s =
      Result.ret KERN_RESOURCE_SHORTAGE { s with grabs := s.grabs + 1 } := by
  unfold pmap_expand_pdpt
  cases h3 : pmap64_pdpt s map vaddr with
  | none =>
    simp only []
    rw [pmap_expand_pml4_shortage fuel s map vaddr options hn ho]
    simp only []
    rw [if_pos (by decide)]
  | some p3 =>
    simp only []
    rw [vm_page_grab_loop_nowait options hn, ho]

/-- With `PMAP_EXPAND_OPTIONS_NOWAIT`, the body of `pmap_expand` returns
`KERN_RESOURCE_SHORTAGE` when the first grab of the call yields no page, at
whichever level that grab is made. -/
theorem pmap_expand_body_shortage (fuel : Nat) (s : State) (map vaddr options : Nat)
    (hn : options &&& PMAP_EXPAND_OPTIONS_NOWAIT ≠ 0)
    (ho : s.vm_page_grab_oracle s.grabs = none) :
    pmap_expand_body map vaddr options (fuel + 3) s =
      Result.ret KERN_RESOURCE_SHORTAGE { s with grabs := s.grabs + 1 } := by
  unfold pmap_expand_body
  cases h3 : pmap64_pde s map vaddr with
  | none =>
    simp only []
    rw [pmap_expand_pdpt_shortage fuel s map vaddr options hn ho]
    simp only []
    rw [if_pos (by decide)]
  | some p3 =>
    simp only []
    rw [vm_page_grab_loop_nowait options hn, ho]

theorem nowait_contract_of (run : Nat → Result Nat) (options : Nat) (s : State) (entry : Prop)
    (h1 : ∀ fuel r s', run fuel = Result.ret r s' → grab_contract options s s' r)
    (h2 : options &&& PMAP_EXPAND_OPTIONS_NOWAIT ≠ 0 → ∀ fuel, run (fuel + 4) ≠ Result.timeout)
    (h3 : ∀ fuel r s', run fuel = Result.ret r s' → s.grabs < s'.grabs)
    (h4 : options &&& PMAP_EXPAND_OPTIONS_NOWAIT ≠ 0 → entry →
      s.vm_page_grab_oracle s.grabs = none →
      ∀ fuel, run (fuel + 4) =
        Result.ret KERN_RESOURCE_SHORTAGE { s with grabs := s.grabs + 1 }) :
    nowait_contract run options s entry := by
  refine ⟨fun fuel r s' hr => ⟨h3 fuel r s' hr, (h1 fuel r s' hr).2.2.1⟩,
    fun hn => ⟨?_, h2 hn, h4 hn⟩, fun hw fuel r s' hr => (h1 fuel r s' hr).2.2.2.1 hw⟩
  intro fuel r s' hr
  obtain ⟨_, _, hrr, _, h5⟩ := h1 fuel r s' hr
  obtain ⟨w, hs, hf⟩ := h5 hn
  refine ⟨w, ⟨?_, ?_⟩, ?_⟩
  · intro hsh
    obtain ⟨f1, f2, _⟩ := hf hsh
    exact ⟨s'.grabs - 1, by omega, by omega, f2⟩
  · rintro ⟨i, i1, i2, i3⟩
    rcases hrr with hrr | hrr
    · exact absurd i3 (hs hrr i i1 i2)
    · exact hrr
  · intro i i1 i2 i3
    rcases hrr with hrr | hrr
    · exact absurd i3 (hs hrr i i1 i2)
    · obtain ⟨_, _, f3⟩ := hf hrr
      by_contra hc
      exact f3 i i1 (by omega) i3

/-- With `PMAP_EXPAND_OPTIONS_NOWAIT`, when `pmap_expand_pdpt` has had the
top-level entry installed by `pmap_expand_pml4` and its own grab then yields no
page, it returns `KERN_RESOURCE_SHORTAGE`. -/
theorem pmap_expand_pdpt_shortage_after (fuel : Nat) (s s1 : State) (map vaddr options : Nat)
    (hn : options &&& PMAP_EXPAND_OPTIONS_NOWAIT ≠ 0) (h3 : pmap64_pdpt s map vaddr = none)
    (h4 : pmap_expand_pml4 (fuel + 3) s map vaddr options = Result.ret KERN_SUCCESS s1)
    (ho : s1.vm_page_grab_oracle s1.grabs = none) :
    pmap_expand_pdpt map vaddr options (fuel + 4) s =
      Result.ret KERN_RESOURCE_SHORTAGE { s1 with grabs := s1.grabs + 1 } := by
  unfold pmap_expand_pdpt
  simp only [h3, h4]
  rw [if_neg (by decide)]
  exact pmap_expand_pdpt_shortage (fuel + 1) s1 map vaddr options hn ho

/-- With `PMAP_EXPAND_OPTIONS_NOWAIT`, when the body of `pmap_expand` has had
the upper levels installed by `pmap_expand_pdpt` and its own grab then yields no
page, it returns `KERN_RESOURCE_SHORTAGE`. -/
theorem pmap_expand_body_shortage_after (fuel : Nat) (s s1 : State) (map vaddr options : Nat)
    (hn : options &&& PMAP_EXPAND_OPTIONS_NOWAIT ≠ 0) (h3 : pmap64_pde s map vaddr = none)
    (h4 : pmap_expand_pdpt map vaddr options (fuel + 3) s = Result.ret KERN_SUCCESS s1)
    (ho : s1.vm_page_grab_oracle s1.grabs = none) :
    pmap_expand_body map vaddr options (fuel + 4) s =
      Result.ret KERN_RESOURCE_SHORTAGE { s1 with grabs := s1.grabs + 1 } := by
  unfold pmap_expand_body
  simp only [h3, h4]
  rw [if_neg (by decide)]
  exact pmap_expand_body_shortage fuel s1 map vaddr options hn ho

/-- Claim C9: each of `pmap_expand`, `pmap_expand_pdpt` and `pmap_expand_pml4`
has called `vm_page_grab` at least once when it returns.  With
`PMAP_EXPAND_OPTIONS_NOWAIT` set it never calls `VM_PAGE_WAIT`, returns
`KERN_RESOURCE_SHORTAGE` exactly when one of its page grabs yielded no page,
makes no further grab after such a failure, and comes to an end (four units of
fuel suffice).  And it does return `KERN_RESOURCE_SHORTAGE` as soon as a grab
yields no page, at whichever level: when the first grab of the call yields no
page, with nothing changed but the count of that grab; when
`pmap_expand_pml4` has installed the top level for `pmap_expand_pdpt`, or
`pmap_expand_pdpt` the upper levels for `pmap_expand`, and the grab that
follows yields no page, with what was installed left in place; and a result
other than `KERN_SUCCESS` of `pmap_expand_pml4` is returned as it is by
`pmap_expand_pdpt`, one of `pmap_expand_pdpt` by `pmap_expand` (for
`pmap_expand` on the kernel pmap, provided the address passes the entry check,
which is fatal otherwise).  Without the option every value it returns is
`KERN_SUCCESS`. -/
theorem pmap_expand_nowait_contract (s : State) (map vaddr options : Nat) :
    nowait_contract (fun fuel => pmap_expand fuel s map vaddr options) options s
      (¬ (map = s.kernel_pmap ∧ ¬ (vaddr ≥ KERNEL_BASEMENT ∧ vaddr ≤ VM_MAX_KERNEL_ADDRESS))) ∧
    nowait_contract (fun fuel => pmap_expand_pdpt map vaddr options fuel s) options s True ∧
    nowait_contract (fun fuel => pmap_expand_pml4 fuel s map vaddr options) options s True ∧
    (options &&& PMAP_EXPAND_OPTIONS_NOWAIT ≠ 0 → ∀ fuel s1,
      pmap64_pdpt s map vaddr = none →
      pmap_expand_pml4 (fuel + 3) s map vaddr options = Result.ret KERN_SUCCESS s1 →
      s1.vm_page_grab_oracle s1.grabs = none →
      pmap_expand_pdpt map vaddr options (fuel + 4) s =
        Result.ret KERN_RESOURCE_SHORTAGE { s1 with grabs := s1.grabs + 1 }) ∧
    (options &&& PMAP_EXPAND_OPTIONS_NOWAIT ≠ 0 → ∀ fuel s1,
      ¬ (map = s.kernel_pmap ∧ ¬ (vaddr ≥ KERNEL_BASEMENT ∧ vaddr ≤ VM_MAX_KERNEL_ADDRESS)) →
      pmap64_pde s map vaddr = none →
      pmap_expand_pdpt map vaddr options (fuel + 3) s = Result.ret KERN_SUCCESS s1 →
      s1.vm_page_grab_oracle s1.grabs = none →
      pmap_expand (fuel + 4) s map vaddr options =
        Result.ret KERN_RESOURCE_SHORTAGE { s1 with grabs := s1.grabs + 1 }) ∧
    (∀ fuel r s1, pmap64_pdpt s map vaddr = none →
      pmap_expand_pml4 fuel s map vaddr options = Result.ret r s1 → r ≠ KERN_SUCCESS →
      pmap_expand_pdpt map vaddr options (fuel + 1) s = Result.ret r s1) ∧
    (∀ fuel r s1,
      ¬ (map = s.kernel_pmap ∧ ¬ (vaddr ≥ KERNEL_BASEMENT ∧ vaddr ≤ VM_MAX_KERNEL_ADDRESS)) →
      pmap64_pde s map vaddr = none →
      pmap_expand_pdpt map vaddr options fuel s = Result.ret r s1 → r ≠ KERN_SUCCESS →
      pmap_expand (fuel + 1) s map vaddr options = Result.ret r s1) := by
  refine ⟨nowait_contract_of _ options s _ ?_ ?_ ?_ ?_, nowait_contract_of _ options s _ ?_ ?_ ?_ ?_,
    nowait_contract_of _ options s _ ?_ ?_ ?_ ?_, ?_, ?_, ?_, ?_⟩
  · intro fuel r s' h
    exact (pmap_expand_contract fuel s map vaddr options r s' h).1
  · intro hn fuel
    show pmap_expand (fuel + 4) s map vaddr options ≠ Result.timeout
    unfold pmap_expand
    split
    · intro h; cases h
    · exact pmap_expand_body_nowait_returns fuel s map vaddr options hn
  · intro fuel r s' h
    unfold pmap_expand at h
    split at h
    · cases h
    · exact pmap_expand_body_grabs map vaddr options fuel s r s' h
  · intro hn hentry ho fuel
    show pmap_expand (fuel + 4) s map vaddr options = _
    unfold pmap_expand
    rw [if_neg hentry]
    exact pmap_expand_body_shortage (fuel + 1) s map vaddr options hn ho
  · intro fuel r s' h
    exact (pmap_expand_pdpt_contract map vaddr options fuel s r s' h).1
  · intro hn fuel
    exact pmap_expand_pdpt_nowait_returns (fuel + 1) s map vaddr options hn
  · intro fuel r s' h
    exact pmap_expand_pdpt_grabs map vaddr options fuel s r s' h
  · intro hn _ ho fuel
    exact pmap_expand_pdpt_shortage (fuel + 2) s map vaddr options hn ho
  · intro fuel r s' h
    exact (pmap_expand_pml4_contract fuel s map vaddr options r s' h).1
  · intro hn fuel
    exact pmap_expand_pml4_nowait_returns (fuel + 3) s map vaddr options hn
  · intro fuel r s' h
    exact pmap_expand_pml4_grabs fuel s map vaddr options r s' h
  · intro hn _ ho fuel
    exact pmap_expand_pml4_shortage (fuel + 3) s map vaddr options hn ho
  · intro hn fuel s1 h3 h4 ho
    exact pmap_expand_pdpt_shortage_after fuel s s1 map vaddr options hn h3 h4 ho
  · intro hn fuel s1 hentry h3 h4 ho
    unfold pmap_expand
    rw [if_neg hentry]
    exact pmap_expand_body_shortage_after fuel s s1 map vaddr options hn h3 h4 ho
  · intro fuel r s1 h3 h4 hr
    unfold pmap_expand_pdpt
    simp only [h3, h4]
    rw [if_pos hr]
  · intro fuel r s1 hentry h3 h4 hr
    unfold pmap_expand
    rw [if_neg hentry]
    unfold pmap_expand_body
    simp only [h3, h4]
    rw [if_pos hr]

theorem pmap_expand_nowait_contract_witness :
    (pmap_expand 4 { sample_empty with grabs := 3 } 1 0x1000 PMAP_EXPAND_OPTIONS_NOWAIT =
        Result.ret KERN_RESOURCE_SHORTAGE
          { ({ sample_empty with grabs := 3 } : State) with
            grabs := ({ sample_empty with grabs := 3 } : State).grabs + 1 } ∧
      pmap_expand_pdpt 1 0x1000 PMAP_EXPAND_OPTIONS_NOWAIT 4 { sample_empty with grabs := 3 } =
        Result.ret KERN_RESOURCE_SHORTAGE
          { ({ sample_empty with grabs := 3 } : State) with
            grabs := ({ sample_empty with grabs := 3 } : State).grabs + 1 } ∧
      pmap_expand_pml4 4 { sample_empty with grabs := 3 } 1 0x1000 PMAP_EXPAND_OPTIONS_NOWAIT =
        Result.ret KERN_RESOURCE_SHORTAGE
          { ({ sample_empty with grabs := 3 } : State) with
            grabs := ({ sample_empty with grabs := 3 } : State).grabs + 1 }) ∧
    (∃ s1, pmap_expand_pml4 3 { sample_empty with grabs := 2 } 1 0x1000
          PMAP_EXPAND_OPTIONS_NOWAIT = Result.ret KERN_SUCCESS s1 ∧
        s1.mem 0x1000 = table_entry 18 ∧
        pmap_expand_pdpt 1 0x1000 PMAP_EXPAND_OPTIONS_NOWAIT 4 { sample_empty with grabs := 2 } =
          Result.ret KERN_RESOURCE_SHORTAGE { s1 with grabs := s1.grabs + 1 } ∧
        pmap_expand 5 { sample_empty with grabs := 2 } 1 0x1000 PMAP_EXPAND_OPTIONS_NOWAIT =
          Result.ret KERN_RESOURCE_SHORTAGE { s1 with grabs := s1.grabs + 1 }) ∧
    (∃ s1, pmap_expand_pdpt 1 0x1000 PMAP_EXPAND_OPTIONS_NOWAIT 3 { sample_empty with grabs := 1 }
          = Result.ret KERN_SUCCESS s1 ∧
        pmap64_pde s1 1 0x1000 ≠ none ∧
        pmap_expand 4 { sample_empty with grabs := 1 } 1 0x1000 PMAP_EXPAND_OPTIONS_NOWAIT =
          Result.ret KERN_RESOURCE_SHORTAGE { s1 with grabs := s1.grabs + 1 }) ∧
    (∃ r s', pmap_expand_pml4 3 sample_scarce 1 0x1000 0 = Result.ret r s' ∧
        sample_scarce.vm_page_grab_oracle sample_scarce.grabs = none ∧
        s'.waits = sample_scarce.waits + 1 ∧ r = KERN_SUCCESS) :=
  ⟨⟨((pmap_expand_nowait_contract { sample_empty with grabs := 3 } 1 0x1000
        PMAP_EXPAND_OPTIONS_NOWAIT).1.2.1 (by decide)).2.2 (by decide) (by decide) 0,
      ((pmap_expand_nowait_contract { sample_empty with grabs := 3 } 1 0x1000
        PMAP_EXPAND_OPTIONS_NOWAIT).2.1.2.1 (by decide)).2.2 trivial (by decide) 0,
      ((pmap_expand_nowait_contract { sample_empty with grabs := 3 } 1 0x1000
        PMAP_EXPAND_OPTIONS_NOWAIT).2.2.1.2.1 (by decide)).2.2 trivial (by decide) 0⟩,
    ⟨_, rfl, by decide,
      (pmap_expand_nowait_contract { sample_empty with grabs := 2 } 1 0x1000
        PMAP_EXPAND_OPTIONS_NOWAIT).2.2.2.1 (by decide) 0 _ (by decide) rfl (by decide),
      (pmap_expand_nowait_contract { sample_empty with grabs := 2 } 1 0x1000
        PMAP_EXPAND_OPTIONS_NOWAIT).2.2.2.2.2.2 4 _ _ (by decide) (by decide)
        ((pmap_expand_nowait_contract { sample_empty with grabs := 2 } 1 0x1000
          PMAP_EXPAND_OPTIONS_NOWAIT).2.2.2.1 (by decide) 0 _ (by decide) rfl (by decide))
        (by decide)⟩,
    ⟨_, rfl, by decide,
      (pmap_expand_nowait_contract { sample_empty with grabs := 1 } 1 0x1000
        PMAP_EXPAND_OPTIONS_NOWAIT).2.2.2.2.1 (by decide) 0 _ (by decide) (by decide) rfl
        (by decide)⟩,
    ⟨_, _, rfl, by decide, rfl,
      (pmap_expand_nowait_contract sample_scarce 1 0x1000 0).2.2.1.2.2 (by decide) 3 _ _ rfl⟩⟩

theorem prepare_mem_of_valid (s : State) (pn a : Nat)
    (h : (pmap_expand_prepare s pn).mem a &&& INTEL_PTE_VALID ≠ 0) :
    (pmap_expand_prepare s pn).mem a = s.mem a := by
  rw [prepare_mem] at h ⊢
  by_cases ha : a / PAGE_SIZE = pn
  · rw [if_pos ha] at h; exact absurd (Nat.zero_and _) h
  · rw [if_neg ha]

theorem pmap64_pdpt_unprepare {s : State} {pn map va p3 : Nat}
    (h : pmap64_pdpt (pmap_expand_prepare s pn) map va = some p3) :
    pmap64_pdpt s map va = some p3 := by
  obtain ⟨p4, h4, hv4, hp3⟩ := pmap64_pdpt_some h
  rw [pmap64_pml4_prepare] at h4
  have e := prepare_mem_of_valid s pn p4 hv4
  rw [e] at hv4 hp3
  rw [pmap64_pdpt_of h4, if_pos hv4, hp3]

theorem pmap64_pde_unprepare {s : State} {pn map va p2 : Nat}
    (h : pmap64_pde (pmap_expand_prepare s pn) map va = some p2) :
    pmap64_pde s map va = some p2 := by
  obtain ⟨p3, h3, hv3, hp2⟩ := pmap64_pde_some h
  have h3' := pmap64_pdpt_unprepare h3
  have e := prepare_mem_of_valid s pn p3 hv3
  rw [e] at hv3 hp2
  rw [pmap64_pde_of h3', if_pos hv3, hp2]

theorem lost_race_effect_of (s sg : State) (pn : Nat)
    (e : sg = { s with grabs := sg.grabs, waits := sg.waits }) :
    lost_race_effect s pn (pmap_expand_lost_race (pmap_expand_prepare sg pn) pn) := by
  have hm : sg.mem = s.mem := by rw [e]
  have hp : sg.pmaps = s.pmaps := by rw [e]
  have hf : sg.freed = s.freed := by rw [e]
  have hi : sg.inuse_ptepages_count = s.inuse_ptepages_count := by rw [e]
  have ha : sg.alloc_ptepages_count = s.alloc_ptepages_count := by rw [e]
  refine ⟨fun a => ?_, ?_, ?_, ?_, ?_⟩
  · rw [lost_race_mem, prepare_mem, hm]
  · rw [lost_race_pmaps, prepare_pmaps, hp]
  · show pn :: sg.freed = pn :: s.freed
    rw [hf]
  · show sg.inuse_ptepages_count + 1 - 1 = s.inuse_ptepages_count
    rw [hi]; omega
  · show sg.alloc_ptepages_count + 1 = s.alloc_ptepages_count + 1
    rw [ha]

/-- The lost-race exit of the three expansion routines, from the state at the
call. -/
theorem pmap_expand_lost_race_exit (s : State) (map vaddr options fuel : Nat)
    (sg : State) (pn : Nat)
    (hg : vm_page_grab_loop options fuel s = Result.ret (some pn) sg) :
    (pmap64_pdpt (pmap_expand_prepare sg pn) map vaddr ≠ none →
      ∃ s', pmap_expand_pml4 fuel s map vaddr options = Result.ret KERN_SUCCESS s' ∧
        lost_race_effect s pn s' ∧
        pmap64_pdpt s' map vaddr = pmap64_pdpt s map vaddr ∧
        ∀ p, pmap64_pml4 s map vaddr = some p → s'.mem p = s.mem p) ∧
    (pmap64_pde (pmap_expand_prepare sg pn) map vaddr ≠ none →
      ∃ s', pmap_expand_pdpt map vaddr options (fuel + 1) s = Result.ret KERN_SUCCESS s' ∧
        lost_race_effect s pn s' ∧
        pmap64_pde s' map vaddr = pmap64_pde s map vaddr ∧
        ∀ p, pmap64_pdpt s map vaddr = some p → s'.mem p = s.mem p) ∧
    (pmap_pte (pmap_expand_prepare sg pn) map vaddr ≠ none →
      ¬ (map = s.kernel_pmap ∧ ¬ (vaddr ≥ KERNEL_BASEMENT ∧ vaddr ≤ VM_MAX_KERNEL_ADDRESS)) →
      ∃ s', pmap_expand (fuel + 1) s map vaddr options = Result.ret KERN_SUCCESS s' ∧
        lost_race_effect s pn s' ∧
        pmap_pte s' map vaddr = pmap_pte s map vaddr ∧
        ∀ p, pmap64_pde s map vaddr = some p → s'.mem p = s.mem p) := by
  obtain ⟨e, _, _, _, _, _⟩ := vm_page_grab_loop_spec options fuel s (some pn) sg hg
  have hm : sg.mem = s.mem := by rw [e]
  have hp : sg.pmaps = s.pmaps := by rw [e]
  have hcr : ∀ k, (sg.pmaps k).pm_cr3 = (s.pmaps k).pm_cr3 := fun k => by rw [hp]
  have heff := lost_race_effect_of s sg pn e
  -- the state at the return walks like the state at the re-check
  have hlm : (pmap_expand_lost_race (pmap_expand_prepare sg pn) pn).mem
      = (pmap_expand_prepare sg pn).mem := rfl
  have hlc : ((pmap_expand_lost_race (pmap_expand_prepare sg pn) pn).pmaps map).pm_cr3
      = ((pmap_expand_prepare sg pn).pmaps map).pm_cr3 := rfl
  refine ⟨?_, ?_, ?_⟩
  · intro hpop
    refine ⟨_, ?_, heff, ?_, ?_⟩
    · unfold pmap_expand_pml4
      simp only [hg]
      unfold pmap_expand_pml4_grabbed
      simp only [if_pos hpop]
    · rw [pmap64_pdpt_eq hlm hlc]
      cases h3 : pmap64_pdpt (pmap_expand_prepare sg pn) map vaddr with
      | none => exact absurd h3 hpop
      | some p3 => rw [← pmap64_pdpt_eq hm (hcr map)]; exact (pmap64_pdpt_unprepare h3).symm
    · intro p h4
      cases h3 : pmap64_pdpt (pmap_expand_prepare sg pn) map vaddr with
      | none => exact absurd h3 hpop
      | some p3 =>
        obtain ⟨q, hq, hv, _⟩ := pmap64_pdpt_some h3
        rw [pmap64_pml4_prepare, pmap64_pml4_cr3 (hcr map), h4] at hq
        injection hq with hq
        subst hq
        rw [hlm, prepare_mem_of_valid sg pn p hv, hm]
  · intro hpop
    have h3s : pmap64_pdpt s map vaddr ≠ none := by
      cases h2 : pmap64_pde (pmap_expand_prepare sg pn) map vaddr with
      | none => exact absurd h2 hpop
      | some p2 =>
        obtain ⟨p3, h3, _, _⟩ := pmap64_pde_some h2
        rw [← pmap64_pdpt_eq hm (hcr map), pmap64_pdpt_unprepare h3]; simp
    refine ⟨_, ?_, heff, ?_, ?_⟩
    · unfold pmap_expand_pdpt
      cases h3 : pmap64_pdpt s map vaddr with
      | none => exact absurd h3 h3s
      | some p3 =>
        simp only [hg]
        unfold pmap_expand_pdpt_grabbed
        simp only [if_pos hpop]
    · rw [pmap64_pde_eq hlm hlc]
      cases h2 : pmap64_pde (pmap_expand_prepare sg pn) map vaddr with
      | none => exact absurd h2 hpop
      | some p2 => rw [← pmap64_pde_eq hm (hcr map)]; exact (pmap64_pde_unprepare h2).symm
    · intro p h3
      cases h2 : pmap64_pde (pmap_expand_prepare sg pn) map vaddr with
      | none => exact absurd h2 hpop
      | some p2 =>
        obtain ⟨q, hq, hv, _⟩ := pmap64_pde_some h2
        have hq' := pmap64_pdpt_unprepare hq
        rw [pmap64_pdpt_eq hm (hcr map), h3] at hq'
        injection hq' with hq'
        subst hq'
        rw [hlm, prepare_mem_of_valid sg pn p hv, hm]
  · intro hpop hker
    obtain ⟨p2, h2, hv2⟩ := pmap_pte_ne_none_iff.1 hpop
    have h2s : pmap64_pde s map vaddr = some p2 := by
      rw [← pmap64_pde_eq hm (hcr map)]; exact pmap64_pde_unprepare h2
    have hpe : (pmap_expand_prepare sg pn).mem p2 = s.mem p2 := by
      rw [prepare_mem_of_valid sg pn p2 hv2, hm]
    refine ⟨_, ?_, heff, ?_, ?_⟩
    · unfold pmap_expand
      rw [if_neg hker]
      unfold pmap_expand_body
      simp only [h2s, hg]
      unfold pmap_expand_grabbed
      simp only [if_pos hpop]
    · rw [pmap_pte_eq hlm hlc]
      rw [pmap_pte_of_pde (show pmap_pde _ map vaddr = some p2 from h2),
        pmap_pte_of_pde (show pmap_pde _ map vaddr = some p2 from h2s), hpe]
    · intro p h3
      rw [h2s] at h3
      injection h3 with h3
      subst h3
      rw [hlm, hpe]

theorem pmap_pte_prepare_eq_zero_page (s sg : State) (pn map va : Nat)
    (hm : sg.mem = s.mem) (hp : sg.pmaps = s.pmaps) :
    pmap_pte (pmap_expand_prepare sg pn) map va = pmap_pte (pmap_zero_page s pn) map va := by
  apply pmap_pte_eq
  · funext a
    rw [prepare_mem, hm]; rfl
  · rw [prepare_pmaps, hp]; rfl

/-- A repeated expansion of an address whose leaf table exists: the routine
still grabs a page first, then frees it (or reports the shortage). -/
theorem pmap_expand_body_again (map vaddr options : Nat) (fuel : Nat) (s : State) (r : Nat)
    (s' : State) (hpte : pmap_pte s map vaddr ≠ none)
    (hfresh : ∀ i pn, s.grabs ≤ i → s.vm_page_grab_oracle i = some pn →
      pmap_pte (pmap_zero_page s pn) map vaddr ≠ none)
    (h : pmap_expand_body map vaddr options fuel s = Result.ret r s') :
    (r = KERN_SUCCESS ∧ ∃ pn, lost_race_effect s pn s') ∨
    (r = KERN_RESOURCE_SHORTAGE ∧ options &&& PMAP_EXPAND_OPTIONS_NOWAIT ≠ 0 ∧
      s' = { s with grabs := s'.grabs }) := by
  obtain ⟨p2, h2, _⟩ := pmap_pte_ne_none_iff.1 hpte
  cases fuel with
  | zero => simp [pmap_expand_body] at h
  | succ fuel =>
    unfold pmap_expand_body at h
    simp only [h2] at h
    cases hg : vm_page_grab_loop options fuel s with
    | timeout => simp [hg] at h
    | panic => simp [hg] at h
    | ret v sg =>
      obtain ⟨e, hgr, hv, _, hnw, hw⟩ := vm_page_grab_loop_spec options fuel s v sg hg
      cases v with
      | none =>
        simp only [hg] at h
        injection h with h1 h2
        subst h1; subst h2
        right
        have hn : options &&& PMAP_EXPAND_OPTIONS_NOWAIT ≠ 0 := by
          intro h0; exact hw h0 rfl
        refine ⟨rfl, hn, ?_⟩
        rw [e, (hnw hn).2]
      | some pn =>
        simp only [hg] at h
        have hm : sg.mem = s.mem := by rw [e]
        have hp : sg.pmaps = s.pmaps := by rw [e]
        have hpop : pmap_pte (pmap_expand_prepare sg pn) map vaddr ≠ none := by
          rw [pmap_pte_prepare_eq_zero_page s sg pn map vaddr hm hp]
          exact hfresh (sg.grabs - 1) pn (by omega) hv
        unfold pmap_expand_grabbed at h
        simp only [if_pos hpop] at h
        injection h with h1 h2
        subst h1; subst h2
        left
        exact ⟨rfl, pn, lost_race_effect_of s sg pn e⟩

theorem pmap_expand_kernel_pmap (fuel : Nat) (s : State) (map vaddr options r : Nat) (s' : State)
    (h : pmap_expand fuel s map vaddr options = Result.ret r s') :
    ¬ (map = s.kernel_pmap ∧ ¬ (vaddr ≥ KERNEL_BASEMENT ∧ vaddr ≤ VM_MAX_KERNEL_ADDRESS)) ∧
    pmap_expand_body map vaddr options fuel s = Result.ret r s' := by
  unfold pmap_expand at h
  split at h
  · cases h
  · next hk => exact ⟨hk, h⟩

/-- Claim C6, as stated, fails: on the empty sample space a first
`pmap_expand` of address 0x1000 returns `KERN_SUCCESS`; the allocator then has
no page left, and a second `pmap_expand` of the same address with
`PMAP_EXPAND_OPTIONS_NOWAIT` returns `KERN_RESOURCE_SHORTAGE`. -/
theorem pmap_expand_second_call_shortage :
    ∃ s1 s2, pmap_expand 4 sample_empty 1 0x1000 0 = Result.ret KERN_SUCCESS s1 ∧
      pmap_expand 4 s1 1 0x1000 PMAP_EXPAND_OPTIONS_NOWAIT
        = Result.ret KERN_RESOURCE_SHORTAGE s2 :=
  ⟨_, _, rfl, rfl⟩

/-- Claim C6, amended: after a `pmap_expand` that returned `KERN_SUCCESS` the
leaf table of `vaddr` exists, and a second `pmap_expand` of the same address
still grabs a page before it re-checks.  Provided the allocator does not hand
out a page holding one of the tables of `vaddr` (zeroing the grabbed page
leaves the leaf table reachable), a second call that returns has either
returned `KERN_SUCCESS` after freeing the grabbed page again, with the
ownership objects, `inuse_ptepages_count` and every word outside that page
unchanged, or, with `PMAP_EXPAND_OPTIONS_NOWAIT` set and no page available,
returned `KERN_RESOURCE_SHORTAGE` with only the grab counted; the first case
occurs whenever the first grab yields a page, the second whenever it yields
none under `PMAP_EXPAND_OPTIONS_NOWAIT`. -/
theorem pmap_expand_twice (fuel : Nat) (s : State) (map vaddr options : Nat) (s1 : State)
    (h1 : pmap_expand fuel s map vaddr options = Result.ret KERN_SUCCESS s1) :
    pmap_pte s1 map vaddr ≠ none ∧
    (∀ fuel2 options2 r s2,
      (∀ i pn, s1.grabs ≤ i → s1.vm_page_grab_oracle i = some pn →
        pmap_pte (pmap_zero_page s1 pn) map vaddr ≠ none) →
      pmap_expand fuel2 s1 map vaddr options2 = Result.ret r s2 →
      (r = KERN_SUCCESS ∧ ∃ pn, lost_race_effect s1 pn s2) ∨
      (r = KERN_RESOURCE_SHORTAGE ∧ options2 &&& PMAP_EXPAND_OPTIONS_NOWAIT ≠ 0 ∧
        s2 = { s1 with grabs := s2.grabs })) ∧
    (∀ fuel2 options2 pn, s1.vm_page_grab_oracle s1.grabs = some pn →
      pmap_pte (pmap_zero_page s1 pn) map vaddr ≠ none →
      ∃ s2, pmap_expand (fuel2 + 2) s1 map vaddr options2 = Result.ret KERN_SUCCESS s2 ∧
        lost_race_effect s1 pn s2) ∧
    (∀ fuel2 options2, options2 &&& PMAP_EXPAND_OPTIONS_NOWAIT ≠ 0 →
      s1.vm_page_grab_oracle s1.grabs = none →
      pmap_expand (fuel2 + 2) s1 map vaddr options2 =
        Result.ret KERN_RESOURCE_SHORTAGE { s1 with grabs := s1.grabs + 1 }) := by
  obtain ⟨hker, hbody⟩ := pmap_expand_kernel_pmap fuel s map vaddr options _ s1 h1
  obtain ⟨_, hpop, hk⟩ := pmap_expand_body_contract map vaddr options fuel s _ s1 hbody
  have hpte := hpop rfl
  have hker1 : ¬ (map = s1.kernel_pmap ∧
      ¬ (vaddr ≥ KERNEL_BASEMENT ∧ vaddr ≤ VM_MAX_KERNEL_ADDRESS)) := by rw [hk]; exact hker
  obtain ⟨p2, h2, _⟩ := pmap_pte_ne_none_iff.1 hpte
  refine ⟨hpte, ?_, ?_, ?_⟩
  · intro fuel2 options2 r s2 hfresh h2run
    exact pmap_expand_body_again map vaddr options2 fuel2 s1 r s2 hpte hfresh
      (pmap_expand_kernel_pmap fuel2 s1 map vaddr options2 r s2 h2run).2
  · intro fuel2 options2 pn ho hz
    have hg := vm_page_grab_loop_some options2 fuel2 s1 pn ho
    have hpop2 : pmap_pte (pmap_expand_prepare { s1 with grabs := s1.grabs + 1 } pn) map vaddr
        ≠ none := by
      rw [pmap_pte_prepare_eq_zero_page s1 { s1 with grabs := s1.grabs + 1 } pn map vaddr rfl rfl]
      exact hz
    obtain ⟨s2, hr, heff, _⟩ :=
      (pmap_expand_lost_race_exit s1 map vaddr options2 (fuel2 + 1) _ pn hg).2.2 hpop2 hker1
    exact ⟨s2, hr, heff⟩
  · intro fuel2 options2 hn ho
    unfold pmap_expand
    rw [if_neg hker1]
    unfold pmap_expand_body
    simp only [h2]
    rw [vm_page_grab_loop_nowait options2 hn, ho]

theorem pmap_expand_twice_witness :
    ∃ s1, pmap_expand 4 sample_empty 1 0x1000 0 = Result.ret KERN_SUCCESS s1 ∧
      (pmap_pte s1 1 0x1000 ≠ none ∧
      (∀ fuel2 options2 r s2,
        (∀ i pn, s1.grabs ≤ i → s1.vm_page_grab_oracle i = some pn →
          pmap_pte (pmap_zero_page s1 pn) 1 0x1000 ≠ none) →
        pmap_expand fuel2 s1 1 0x1000 options2 = Result.ret r s2 →
        (r = KERN_SUCCESS ∧ ∃ pn, lost_race_effect s1 pn s2) ∨
        (r = KERN_RESOURCE_SHORTAGE ∧ options2 &&& PMAP_EXPAND_OPTIONS_NOWAIT ≠ 0 ∧
          s2 = { s1 with grabs := s2.grabs })) ∧
      (∀ fuel2 options2 pn, s1.vm_page_grab_oracle s1.grabs = some pn →
        pmap_pte (pmap_zero_page s1 pn) 1 0x1000 ≠ none →
        ∃ s2, pmap_expand (fuel2 + 2) s1 1 0x1000 options2 = Result.ret KERN_SUCCESS s2 ∧
          lost_race_effect s1 pn s2) ∧
      (∀ fuel2 options2, options2 &&& PMAP_EXPAND_OPTIONS_NOWAIT ≠ 0 →
        s1.vm_page_grab_oracle s1.grabs = none →
        pmap_expand (fuel2 + 2) s1 1 0x1000 options2 =
          Result.ret KERN_RESOURCE_SHORTAGE { s1 with grabs := s1.grabs + 1 })) :=
  ⟨_, rfl, pmap_expand_twice 4 sample_empty 1 0x1000 0 _ rfl⟩

theorem testBit_VALID (i : Nat) : INTEL_PTE_VALID.testBit i = decide (0 = i) :=
  @Nat.testBit_two_pow 0 i

theorem testBit_USER (i : Nat) : INTEL_PTE_USER.testBit i = decide (2 = i) :=
  @Nat.testBit_two_pow 2 i

theorem table_entry_frame (pn : Nat) (h : pn < 2 ^ 32) :
    table_entry pn &&& PG_FRAME = pn * PAGE_SIZE := by
  have hpa : i386_ptob pn = 2 ^ 12 * pn := by
    unfold i386_ptob PAGE_SIZE
    rw [Nat.mod_eq_of_lt (by omega)]
    omega
  have hr : pn * PAGE_SIZE = 2 ^ 12 * pn := by unfold PAGE_SIZE; omega
  rw [hr]
  apply Nat.eq_of_testBit_eq
  intro i
  simp only [table_entry, pa_to_pte, hpa, Nat.testBit_and, Nat.testBit_or, testBit_PG_FRAME,
    testBit_VALID, testBit_USER, testBit_WRITE, Nat.testBit_mul_pow_two]
  by_cases h12 : 12 ≤ i
  · by_cases h52 : i < 52
    · have a0 : ¬ 0 = i := by omega
      have a1 : ¬ 1 = i := by omega
      have a2 : ¬ 2 = i := by omega
      simp [h12, h52, a0, a1, a2]
    · have hb : pn.testBit (i - 12) = false := by
        apply Nat.testBit_lt_two_pow
        calc pn < 2 ^ 32 := h
          _ ≤ 2 ^ (i - 12) := Nat.pow_le_pow_right (by decide) (by omega)
      simp [h12, h52, hb]
  · simp [h12]

/-- Inversion of a successful `pmap_expand_pml4`. -/
theorem pmap_expand_pml4_success (fuel : Nat) (s : State) (map vaddr options : Nat) (s' : State)
    (h : pmap_expand_pml4 fuel s map vaddr options = Result.ret KERN_SUCCESS s') :
    ∃ sg pn, vm_page_grab_loop options fuel s = Result.ret (some pn) sg ∧
      pmap_expand_pml4_grabbed sg map vaddr pn = Result.ret KERN_SUCCESS s' := by
  unfold pmap_expand_pml4 at h
  cases hg : vm_page_grab_loop options fuel s with
  | timeout => simp [hg] at h
  | panic => simp [hg] at h
  | ret v sg =>
    cases v with
    | none =>
      simp only [hg] at h
      injection h with h1 _
      exact absurd h1 (by decide)
    | some pn => simp only [hg] at h; exact ⟨sg, pn, rfl, h⟩

/-- Inversion of a successful `pmap_expand_pdpt` started with the top-level
entry absent. -/
theorem pmap_expand_pdpt_success_none (fuel : Nat) (s : State) (map vaddr options : Nat)
    (s' : State) (h3 : pmap64_pdpt s map vaddr = none)
    (h : pmap_expand_pdpt map vaddr options fuel s = Result.ret KERN_SUCCESS s') :
    ∃ f s1, pmap_expand_pml4 f s map vaddr options = Result.ret KERN_SUCCESS s1 ∧
      pmap_expand_pdpt map vaddr options f s1 = Result.ret KERN_SUCCESS s' := by
  cases fuel with
  | zero => simp [pmap_expand_pdpt] at h
  | succ f =>
    unfold pmap_expand_pdpt at h
    simp only [h3] at h
    cases h4 : pmap_expand_pml4 f s map vaddr options with
    | timeout => simp [h4] at h
    | panic => simp [h4] at h
    | ret k s1 =>
      simp only [h4] at h
      by_cases hk : k ≠ KERN_SUCCESS
      · rw [if_pos hk] at h
        injection h with e1 _
        exact absurd e1 hk
      · rw [if_neg hk] at h
        have hk' : k = KERN_SUCCESS := by
          by_contra hc; exact hk hc
        subst hk'
        exact ⟨f, s1, h4, h⟩

/-- Inversion of a successful `pmap_expand_pdpt` started with the top-level
entry present. -/
theorem pmap_expand_pdpt_success_some (fuel : Nat) (s : State) (map vaddr options : Nat)
    (s' : State) (p3 : Nat) (h3 : pmap64_pdpt s map vaddr = some p3)
    (h : pmap_expand_pdpt map vaddr options fuel s = Result.ret KERN_SUCCESS s') :
    ∃ f sg pn, vm_page_grab_loop options f s = Result.ret (some pn) sg ∧
      pmap_expand_pdpt_grabbed sg map vaddr pn = Result.ret KERN_SUCCESS s' := by
  cases fuel with
  | zero => simp [pmap_expand_pdpt] at h
  | succ f =>
    unfold pmap_expand_pdpt at h
    simp only [h3] at h
    cases hg : vm_page_grab_loop options f s with
    | timeout => simp [hg] at h
    | panic => simp [hg] at h
    | ret v sg =>
      cases v with
      | none =>
        simp only [hg] at h
        injection h with h1 _
        exact absurd h1 (by decide)
      | some pn => simp only [hg] at h; exact ⟨f, sg, pn, hg, h⟩

/-- Inversion of a successful `pmap_expand` loop started with the upper-level
entry absent. -/
theorem pmap_expand_body_success_none (fuel : Nat) (s : State) (map vaddr options : Nat)
    (s' : State) (h2 : pmap64_pde s map vaddr = none)
    (h : pmap_expand_body map vaddr options fuel s = Result.ret KERN_SUCCESS s') :
    ∃ f s1, pmap_expand_pdpt map vaddr options f s = Result.ret KERN_SUCCESS s1 ∧
      pmap_expand_body map vaddr options f s1 = Result.ret KERN_SUCCESS s' := by
  cases fuel with
  | zero => simp [pmap_expand_body] at h
  | succ f =>
    unfold pmap_expand_body at h
    simp only [h2] at h
    cases h4 : pmap_expand_pdpt map vaddr options f s with
    | timeout => simp [h4] at h
    | panic => simp [h4] at h
    | ret k s1 =>
      simp only [h4] at h
      by_cases hk : k ≠ KERN_SUCCESS
      · rw [if_pos hk] at h
        injection h with e1 _
        exact absurd e1 hk
      · rw [if_neg hk] at h
        have hk' : k = KERN_SUCCESS := by
          by_contra hc; exact hk hc
        subst hk'
        exact ⟨f, s1, h4, h⟩

/-- Inversion of a successful `pmap_expand` loop started with the upper-level
entry present. -/
theorem pmap_expand_body_success_some (fuel : Nat) (s : State) (map vaddr options : Nat)
    (s' : State) (p2 : Nat) (h2 : pmap64_pde s map vaddr = some p2)
    (h : pmap_expand_body map vaddr options fuel s = Result.ret KERN_SUCCESS s') :
    ∃ f sg pn, vm_page_grab_loop options f s = Result.ret (some pn) sg ∧
      pmap_expand_grabbed sg map vaddr pn = Result.ret KERN_SUCCESS s' := by
  cases fuel with
  | zero => simp [pmap_expand_body] at h
  | succ f =>
    unfold pmap_expand_body at h
    simp only [h2] at h
    cases hg : vm_page_grab_loop options f s with
    | timeout => simp [hg] at h
    | panic => simp [hg] at h
    | ret v sg =>
      cases v with
      | none =>
        simp only [hg] at h
        injection h with h1 _
        exact absurd h1 (by decide)
      | some pn => simp only [hg] at h; exact ⟨f, sg, pn, hg, h⟩

/-- The lost-race exit of the three expansion routines, seen from the state
`t` in which the page `pn` was grabbed. -/
theorem pmap_expand_lost_race_locked (t : State) (map vaddr pn : Nat) :
    lost_race_effect t pn (pmap_expand_lost_race (pmap_expand_prepare t pn) pn) ∧
    (pmap64_pdpt (pmap_expand_prepare t pn) map vaddr ≠ none →
      pmap_expand_pml4_grabbed t map vaddr pn =
        Result.ret KERN_SUCCESS (pmap_expand_lost_race (pmap_expand_prepare t pn) pn)) ∧
    (pmap64_pde (pmap_expand_prepare t pn) map vaddr ≠ none →
      pmap_expand_pdpt_grabbed t map vaddr pn =
        Result.ret KERN_SUCCESS (pmap_expand_lost_race (pmap_expand_prepare t pn) pn)) ∧
    (pmap_pte (pmap_expand_prepare t pn) map vaddr ≠ none →
      pmap_expand_grabbed t map vaddr pn =
        Result.ret KERN_SUCCESS (pmap_expand_lost_race (pmap_expand_prepare t pn) pn)) := by
  refine ⟨lost_race_effect_of t t pn rfl, ?_, ?_, ?_⟩
  · intro h
    unfold pmap_expand_pml4_grabbed
    simp only [if_pos h]
  · intro h
    unfold pmap_expand_pdpt_grabbed
    simp only [if_pos h]
  · intro h
    unfold pmap_expand_grabbed
    simp only [if_pos h]

/-- Claim C8: in each of `pmap_expand_pml4`, `pmap_expand_pdpt` and
`pmap_expand`, when the slot of `vaddr` is found populated at the re-check made
under the lock, the routine returns `KERN_SUCCESS`, nothing is stored into the
page tables and nothing is inserted into the ownership objects, the grabbed
page is freed and `inuse_ptepages_count` is back at the value it had before the
page was counted.  The first part states this for the locked section, from any
state `t` in which the page `pn` was grabbed; the second for a whole call from
`s` whose allocation loop grabbed `pn`: no word outside the grabbed page is
written, so the existing entry is as it was before the call, and
`inuse_ptepages_count` is back at its value before the call. -/
theorem pmap_expand_populated_slot_kept (s : State) (map vaddr options fuel : Nat)
    (sg : State) (pn : Nat)
    (hg : vm_page_grab_loop options fuel s = Result.ret (some pn) sg) :
    (∀ t q, lost_race_effect t q (pmap_expand_lost_race (pmap_expand_prepare t q) q) ∧
      (pmap64_pdpt (pmap_expand_prepare t q) map vaddr ≠ none →
        pmap_expand_pml4_grabbed t map vaddr q =
          Result.ret KERN_SUCCESS (pmap_expand_lost_race (pmap_expand_prepare t q) q)) ∧
      (pmap64_pde (pmap_expand_prepare t q) map vaddr ≠ none →
        pmap_expand_pdpt_grabbed t map vaddr q =
          Result.ret KERN_SUCCESS (pmap_expand_lost_race (pmap_expand_prepare t q) q)) ∧
      (pmap_pte (pmap_expand_prepare t q) map vaddr ≠ none →
        pmap_expand_grabbed t map vaddr q =
          Result.ret KERN_SUCCESS (pmap_expand_lost_race (pmap_expand_prepare t q) q))) ∧
    (pmap64_pdpt (pmap_expand_prepare sg pn) map vaddr ≠ none →
      ∃ s', pmap_expand_pml4 fuel s map vaddr options = Result.ret KERN_SUCCESS s' ∧
        lost_race_effect s pn s' ∧
        pmap64_pdpt s' map vaddr = pmap64_pdpt s map vaddr ∧
        ∀ p, pmap64_pml4 s map vaddr = some p → s'.mem p = s.mem p) ∧
    (pmap64_pde (pmap_expand_prepare sg pn) map vaddr ≠ none →
      ∃ s', pmap_expand_pdpt map vaddr options (fuel + 1) s = Result.ret KERN_SUCCESS s' ∧
        lost_race_effect s pn s' ∧
        pmap64_pde s' map vaddr = pmap64_pde s map vaddr ∧
        ∀ p, pmap64_pdpt s map vaddr = some p → s'.mem p = s.mem p) ∧
    (pmap_pte (pmap_expand_prepare sg pn) map vaddr ≠ none →
      ¬ (map = s.kernel_pmap ∧ ¬ (vaddr ≥ KERNEL_BASEMENT ∧ vaddr ≤ VM_MAX_KERNEL_ADDRESS)) →
      ∃ s', pmap_expand (fuel + 1) s map vaddr options = Result.ret KERN_SUCCESS s' ∧
        lost_race_effect s pn s' ∧
        pmap_pte s' map vaddr = pmap_pte s map vaddr ∧
        ∀ p, pmap64_pde s map vaddr = some p → s'.mem p = s.mem p) :=
  ⟨fun t q => pmap_expand_lost_race_locked t map vaddr q,
    pmap_expand_lost_race_exit s map vaddr options fuel sg pn hg⟩

theorem pmap_expand_populated_slot_kept_witness :
    vm_page_grab_loop 0 1 sample_state = Result.ret (some 16) { sample_state with grabs := 1 } ∧
    pmap64_pdpt (pmap_expand_prepare { sample_state with grabs := 1 } 16) 1 0x1000 ≠ none ∧
    pmap64_pde (pmap_expand_prepare { sample_state with grabs := 1 } 16) 1 0x1000 ≠ none ∧
    pmap_pte (pmap_expand_prepare { sample_state with grabs := 1 } 16) 1 0x1000 ≠ none ∧
    ((∀ t q, lost_race_effect t q (pmap_expand_lost_race (pmap_expand_prepare t q) q) ∧
      (pmap64_pdpt (pmap_expand_prepare t q) 1 0x1000 ≠ none →
        pmap_expand_pml4_grabbed t 1 0x1000 q =
          Result.ret KERN_SUCCESS (pmap_expand_lost_race (pmap_expand_prepare t q) q)) ∧
      (pmap64_pde (pmap_expand_prepare t q) 1 0x1000 ≠ none →
        pmap_expand_pdpt_grabbed t 1 0x1000 q =
          Result.ret KERN_SUCCESS (pmap_expand_lost_race (pmap_expand_prepare t q) q)) ∧
      (pmap_pte (pmap_expand_prepare t q) 1 0x1000 ≠ none →
        pmap_expand_grabbed t 1 0x1000 q =
          Result.ret KERN_SUCCESS (pmap_expand_lost_race (pmap_expand_prepare t q) q))) ∧
    (pmap64_pdpt (pmap_expand_prepare { sample_state with grabs := 1 } 16) 1 0x1000 ≠ none →
      ∃ s', pmap_expand_pml4 1 sample_state 1 0x1000 0 = Result.ret KERN_SUCCESS s' ∧
        lost_race_effect sample_state 16 s' ∧
        pmap64_pdpt s' 1 0x1000 = pmap64_pdpt sample_state 1 0x1000 ∧
        ∀ p, pmap64_pml4 sample_state 1 0x1000 = some p → s'.mem p = sample_state.mem p) ∧
    (pmap64_pde (pmap_expand_prepare { sample_state with grabs := 1 } 16) 1 0x1000 ≠ none →
      ∃ s', pmap_expand_pdpt 1 0x1000 0 (1 + 1) sample_state = Result.ret KERN_SUCCESS s' ∧
        lost_race_effect sample_state 16 s' ∧
        pmap64_pde s' 1 0x1000 = pmap64_pde sample_state 1 0x1000 ∧
        ∀ p, pmap64_pdpt sample_state 1 0x1000 = some p → s'.mem p = sample_state.mem p) ∧
    (pmap_pte (pmap_expand_prepare { sample_state with grabs := 1 } 16) 1 0x1000 ≠ none →
      ¬ ((1 : Nat) = sample_state.kernel_pmap ∧
        ¬ (0x1000 ≥ KERNEL_BASEMENT ∧ 0x1000 ≤ VM_MAX_KERNEL_ADDRESS)) →
      ∃ s', pmap_expand (1 + 1) sample_state 1 0x1000 0 = Result.ret KERN_SUCCESS s' ∧
        lost_race_effect sample_state 16 s' ∧
        pmap_pte s' 1 0x1000 = pmap_pte sample_state 1 0x1000 ∧
        ∀ p, pmap64_pde sample_state 1 0x1000 = some p → s'.mem p = sample_state.mem p)) :=
  ⟨rfl, by decide, by decide, by decide,
    pmap_expand_populated_slot_kept sample_state 1 0x1000 0 1 { sample_state with grabs := 1 } 16
      rfl⟩

/-- Claim C10: for every non-zero 64-bit size hint (any ledger, any
`is_64bit`), `pmap_create` returns `PMAP_NULL` and leaves the state as it was:
no pmap and no top-level page is taken from the zones, no ownership object is
allocated and the ledger is not referenced. -/
theorem pmap_create_nonzero_size (s : State) (ledger sz : Nat) (is_64bit : Bool)
    (hsz : sz ≠ 0) (h64 : sz < 2 ^ 64) :
    pmap_create s ledger sz is_64bit = Result.ret PMAP_NULL s ∧
    (∀ s', pmap_create s ledger sz is_64bit = Result.ret PMAP_NULL s' →
      s'.pmap_zone = s.pmap_zone ∧ s'.pmap_anchor_zone = s.pmap_anchor_zone ∧
      s'.vm_objects_allocated = s.vm_objects_allocated ∧ s'.ledger_refs = s.ledger_refs ∧
      s'.mem = s.mem) := by
  have h : pmap_create s ledger sz is_64bit = Result.ret PMAP_NULL s := by
    unfold pmap_create
    have hne : sz % 2 ^ 64 ≠ 0 := by rw [Nat.mod_eq_of_lt h64]; exact hsz
    simp only [hne, if_true, ne_eq, not_false_eq_true]
  refine ⟨h, ?_⟩
  intro s' hs'
  rw [h] at hs'
  injection hs' with _ e
  subst e
  exact ⟨rfl, rfl, rfl, rfl, rfl⟩

theorem pmap_create_nonzero_size_witness :
    ((4096 : Nat) ≠ 0 ∧ 4096 < 2 ^ 64) ∧
    (pmap_create sample_state 7 4096 true = Result.ret PMAP_NULL sample_state ∧
    (∀ s', pmap_create sample_state 7 4096 true = Result.ret PMAP_NULL s' →
      s'.pmap_zone = sample_state.pmap_zone ∧
      s'.pmap_anchor_zone = sample_state.pmap_anchor_zone ∧
      s'.vm_objects_allocated = sample_state.vm_objects_allocated ∧
      s'.ledger_refs = sample_state.ledger_refs ∧
      s'.mem = sample_state.mem)) :=
  ⟨by decide, pmap_create_nonzero_size sample_state 7 4096 true (by decide) (by decide)⟩

/-! ## `pmap_create`, `pmap_destroy` and the shootdown: lemmas and claims -/

theorem vm_object_allocate_some (s : State) (h : s.vm_objects_avail ≠ 0) :
    vm_object_allocate s = some { s with
      vm_objects_avail := s.vm_objects_avail - 1
      vm_objects_allocated := s.vm_objects_allocated + 1 } := by
  unfold vm_object_allocate
  rw [if_neg h]

/-- Claim C11: for size hint 0, when the zones hand out a non-null pmap
structure other than the kernel pmap and a top-level page apart from the
kernel's (page-aligned where `pmap_assert` checks it) and three objects can be
allocated, `pmap_create` returns the new handle; the space has reference count
1, resident, max-resident and wired counts 0, no-execute enabled, is not
shared, has the address-width mode chosen by `is_64bit`, and in its top-level
table the slots `KERNEL_PML4_INDEX`, `KERNEL_KEXTS_INDEX` and
`KERNEL_PHYSMAP_PML4_INDEX` hold the words of the kernel pmap's slots at the
time of the call and every other slot is zero. -/
theorem pmap_create_zero_size (s : State) (ledger : Nat) (is_64bit : Bool)
    (p : Nat) (zone : List Nat) (pm_pml4 : Nat) (anchors : List Nat)
    (hzone : s.pmap_zone = p :: zone) (hp : p ≠ PMAP_NULL) (hk : p ≠ s.kernel_pmap)
    (hanchor : s.pmap_anchor_zone = pm_pml4 :: anchors)
    (halign : s.PMAP_ASSERT = true → pm_pml4 % PAGE_SIZE = 0)
    (hfresh : (s.pmaps s.kernel_pmap).pm_cr3 + PAGE_SIZE ≤ pm_pml4 ∨
      pm_pml4 + PAGE_SIZE ≤ (s.pmaps s.kernel_pmap).pm_cr3)
    (hobj : 3 ≤ s.vm_objects_avail) :
    ∃ s', pmap_create s ledger 0 is_64bit = Result.ret p s' ∧
      (s'.pmaps p).ref_count = 1 ∧
      (s'.pmaps p).resident_count = 0 ∧
      (s'.pmaps p).resident_max = 0 ∧
      (s'.pmaps p).wired_count = 0 ∧
      (s'.pmaps p).nx_enabled = true ∧
      (s'.pmaps p).pm_shared = false ∧
      (s'.pmaps p).pm_task_map = (if is_64bit then TASK_MAP_64BIT else TASK_MAP_32BIT) ∧
      (s'.pmaps p).pm_cr3 = pm_pml4 ∧
      ∀ i, i < NPTEPG → s'.mem ((s'.pmaps p).pm_cr3 + 8 * i) =
        if i = KERNEL_PML4_INDEX ∨ i = KERNEL_KEXTS_INDEX ∨ i = KERNEL_PHYSMAP_PML4_INDEX
        then s.mem ((s.pmaps s.kernel_pmap).pm_cr3 + 8 * i) else 0 := by
  have hassert : ¬ (s.PMAP_ASSERT = true ∧ pm_pml4 &&& (PAGE_SIZE - 1) ≠ 0) := by
    rintro ⟨ha, hne⟩
    apply hne
    have h1 := halign ha
    have : pm_pml4 &&& (PAGE_SIZE - 1) = pm_pml4 % 2 ^ 12 := Nat.and_pow_two_sub_one_eq_mod pm_pml4 12
    rw [this]
    simpa [PAGE_SIZE] using h1
  unfold pmap_create
  simp only [Nat.zero_mod, ne_eq, not_true_eq_false, if_false, hzone, hanchor, if_neg hp,
    if_neg hassert]
  rw [vm_object_allocate_some _ (by show s.vm_objects_avail ≠ 0; omega)]
  simp only []
  rw [vm_object_allocate_some _ (by show s.vm_objects_avail - 1 ≠ 0; omega)]
  simp only []
  rw [vm_object_allocate_some _ (by show s.vm_objects_avail - 1 - 1 ≠ 0; omega)]
  refine ⟨_, rfl, ?_⟩
  dsimp only [pmap_store_pte, set_pmap]
  simp only [if_true, if_neg (Ne.symm hk)]
  refine ⟨trivial, trivial, trivial, trivial, trivial, trivial, trivial, trivial, ?_⟩
  intro i hi
  generalize (s.pmaps s.kernel_pmap).pm_cr3 = k at hfresh ⊢
  simp only [NPTEPG, KERNEL_PML4_INDEX, KERNEL_KEXTS_INDEX, KERNEL_PHYSMAP_PML4_INDEX,
    PAGE_SIZE] at hfresh hi ⊢
  by_cases h1 : i = 511
  · subst h1
    rw [if_pos (Or.inl rfl)]
    split_ifs <;> first | rfl | omega
  by_cases h2 : i = 510
  · subst h2
    rw [if_pos (Or.inr (Or.inl rfl))]
    split_ifs <;> first | rfl | omega
  by_cases h3 : i = 509
  · subst h3
    rw [if_pos (Or.inr (Or.inr rfl))]
    split_ifs <;> first | rfl | omega
  rw [if_neg (by omega)]
  split_ifs <;> first | rfl | omega

theorem pmap_create_zero_size_witness :
    (sample_state.pmap_zone = 3 :: [] ∧ 3 ≠ PMAP_NULL ∧ 3 ≠ sample_state.kernel_pmap ∧
      sample_state.pmap_anchor_zone = 0xA000 :: [] ∧
      (sample_state.PMAP_ASSERT = true → 0xA000 % PAGE_SIZE = 0) ∧
      ((sample_state.pmaps sample_state.kernel_pmap).pm_cr3 + PAGE_SIZE ≤ 0xA000 ∨
        0xA000 + PAGE_SIZE ≤ (sample_state.pmaps sample_state.kernel_pmap).pm_cr3) ∧
      3 ≤ sample_state.vm_objects_avail) ∧
    ∃ s', pmap_create sample_state 7 0 true = Result.ret 3 s' ∧
      (s'.pmaps 3).ref_count = 1 ∧
      (s'.pmaps 3).resident_count = 0 ∧
      (s'.pmaps 3).resident_max = 0 ∧
      (s'.pmaps 3).wired_count = 0 ∧
      (s'.pmaps 3).nx_enabled = true ∧
      (s'.pmaps 3).pm_shared = false ∧
      (s'.pmaps 3).pm_task_map = (if true = true then TASK_MAP_64BIT else TASK_MAP_32BIT) ∧
      (s'.pmaps 3).pm_cr3 = 0xA000 ∧
      ∀ i, i < NPTEPG → s'.mem ((s'.pmaps 3).pm_cr3 + 8 * i) =
        if i = KERNEL_PML4_INDEX ∨ i = KERNEL_KEXTS_INDEX ∨ i = KERNEL_PHYSMAP_PML4_INDEX
        then sample_state.mem ((sample_state.pmaps sample_state.kernel_pmap).pm_cr3 + 8 * i)
        else 0 :=
  ⟨⟨rfl, by decide, by decide, rfl, by decide, by decide, by decide⟩,
    pmap_create_zero_size sample_state 7 true 3 [] 0xA000 [] rfl (by decide) (by decide) rfl
      (by decide) (by decide) (by decide)⟩

theorem cpu_pauses_add (env : Env) (j k : Nat) (m : Mp) :
    cpu_pauses env k (cpu_pauses env j m) = cpu_pauses env (j + k) m := by
  induction j generalizing m with
  | zero => simp [cpu_pauses]
  | succ j ih =>
    rw [show j + 1 + k = (j + k) + 1 by omega]
    simp only [cpu_pauses]
    exact ih _

theorem cpu_pauses_frame (env : Env) (k : Nat) (m : Mp) :
    (cpu_pauses env k m).trace = m.trace ∧
    (cpu_pauses env k m).real_ncpus = m.real_ncpus ∧
    (cpu_pauses env k m).cpu_number = m.cpu_number ∧
    (cpu_pauses env k m).pmap_tlb_flush_timeout = m.pmap_tlb_flush_timeout ∧
    (cpu_pauses env k m).tick = m.tick + k := by
  induction k generalizing m with
  | zero => simp [cpu_pauses]
  | succ k ih =>
    simp only [cpu_pauses]
    obtain ⟨h1, h2, h3, h4, h5⟩ := ih (cpu_pause env m)
    refine ⟨h1, h2, h3, h4, ?_⟩
    rw [h5]; simp only [cpu_pause]; omega

theorem cpu_bit_lt (cpu : Nat) (h : cpu < 32) : cpu_bit cpu = 2 ^ cpu := by
  unfold cpu_bit
  exact Nat.mod_eq_of_lt (Nat.pow_lt_pow_right (by decide) h)

theorem cpu_bit_ge (cpu : Nat) (h : 32 ≤ cpu) : cpu_bit cpu = 0 := by
  unfold cpu_bit
  obtain ⟨d, rfl⟩ := Nat.exists_eq_add_of_le h
  rw [pow_add, Nat.mul_mod_right]

theorem and_cpu_bit_ne_zero (r cpu : Nat) :
    r &&& cpu_bit cpu ≠ 0 ↔ cpu < 32 ∧ r.testBit cpu = true := by
  by_cases h : cpu < 32
  · rw [cpu_bit_lt cpu h, Nat.and_two_pow]
    by_cases hb : r.testBit cpu = true
    · simp [hb, h]
    · simp [hb, h]
  · rw [cpu_bit_ge cpu (by omega)]
    simp [h]

theorem testBit_clear_cpu_bit (r cpu b : Nat) (h : cpu < 32) :
    (r &&& (cpu_bit cpu ^^^ 0xFFFFFFFF)).testBit b = (r.testBit b && decide (b < 32) && decide (b ≠ cpu)) := by
  rw [cpu_bit_lt cpu h, Nat.testBit_and, Nat.testBit_xor, Nat.testBit_two_pow]
  have h32 : (0xFFFFFFFF : Nat) = 2 ^ 32 - 1 := by decide
  rw [h32, Nat.testBit_two_pow_sub_one]
  by_cases h1 : cpu = b
  · subst h1; simp [h]
  · have h1' : ¬ b = cpu := fun e => h1 e.symm
    simp [h1, h1', Bool.and_assoc]

theorem pmap_flush_tlbs_acks_spec (env : Env) (n : Nat) : ∀ (cpu r : Nat) (m : Mp),
    ∃ k, (pmap_flush_tlbs_acks env n cpu r m).2 = cpu_pauses env k m ∧
      (∀ b, (pmap_flush_tlbs_acks env n cpu r m).1.testBit b = true → r.testBit b = true) ∧
      (∀ b, r.testBit b = true → b < 32 →
        (pmap_flush_tlbs_acks env n cpu r m).1.testBit b = false →
        ∃ j, j < k ∧ cpu_acked ((cpu_pauses env j m).cpus b)) := by
  induction n with
  | zero =>
    intro cpu r m
    refine ⟨0, rfl, fun b h => h, ?_⟩
    intro b hb _ hc
    simp only [pmap_flush_tlbs_acks] at hc
    rw [hb] at hc; cases hc
  | succ n ih =>
    intro cpu r m
    unfold pmap_flush_tlbs_acks
    by_cases hbit : r &&& cpu_bit cpu ≠ 0
    · rw [if_pos hbit]
      obtain ⟨hc32, hrc⟩ := (and_cpu_bit_ne_zero r cpu).1 hbit
      -- facts on the updated set
      have hr1 : ∀ (r1 : Nat),
          r1 = (if (m.cpus cpu).cpu_running = false ∨ (m.cpus cpu).cpu_tlb_invalid = false ∨
              (m.cpus cpu).cpu_cr3_is_active = false
            then r &&& (cpu_bit cpu ^^^ 0xFFFFFFFF) else r) →
          (∀ b, r1.testBit b = true → r.testBit b = true) ∧
          (∀ b, r.testBit b = true → b < 32 → r1.testBit b = false →
            cpu_acked ((cpu_pauses env 0 m).cpus b)) := by
        intro r1 hdef
        by_cases hack : (m.cpus cpu).cpu_running = false ∨ (m.cpus cpu).cpu_tlb_invalid = false ∨
              (m.cpus cpu).cpu_cr3_is_active = false
        · rw [if_pos hack] at hdef
          subst hdef
          constructor
          · intro b hb
            rw [testBit_clear_cpu_bit r cpu b hc32] at hb
            simp only [Bool.and_eq_true, decide_eq_true_eq] at hb
            exact hb.1.1
          · intro b hb hb32 hcl
            rw [testBit_clear_cpu_bit r cpu b hc32, hb] at hcl
            simp only [Bool.true_and, Bool.and_eq_false_imp, decide_eq_true_eq,
              decide_eq_false_iff_not, not_not] at hcl
            have := hcl hb32
            subst this
            exact hack
        · rw [if_neg hack] at hdef
          subst hdef
          refine ⟨fun b h => h, ?_⟩
          intro b hb _ hcl
          rw [hb] at hcl; cases hcl
      simp only []
      generalize hg : (if (m.cpus cpu).cpu_running = false ∨ (m.cpus cpu).cpu_tlb_invalid = false ∨
              (m.cpus cpu).cpu_cr3_is_active = false
            then r &&& (cpu_bit cpu ^^^ 0xFFFFFFFF) else r) = r1
      obtain ⟨hsub, hclr⟩ := hr1 r1 hg.symm
      by_cases hz : r1 = 0
      · rw [if_pos hz]
        refine ⟨1, rfl, ?_, ?_⟩
        · intro b hb; exact hsub b hb
        · intro b hb hb32 hcl
          exact ⟨0, by omega, hclr b hb hb32 hcl⟩
      · rw [if_neg hz]
        obtain ⟨k, hk, hs, hc⟩ := ih (cpu + 1) r1 (cpu_pause env m)
        refine ⟨k + 1, ?_, ?_, ?_⟩
        · rw [hk]; rfl
        · intro b hb; exact hsub b (hs b hb)
        · intro b hb hb32 hcl
          by_cases h1 : r1.testBit b = true
          · obtain ⟨j, hjk, hj⟩ := hc b h1 hb32 hcl
            exact ⟨j + 1, by omega, hj⟩
          · have h1' : r1.testBit b = false := by
              cases h : r1.testBit b
              · rfl
              · exact absurd h h1
            exact ⟨0, by omega, hclr b hb hb32 h1'⟩
    · rw [if_neg hbit]
      by_cases hz : r = 0
      · rw [if_pos hz]
        refine ⟨0, rfl, fun b h => h, ?_⟩
        intro b hb _ hcl
        rw [hb] at hcl; cases hcl
      · rw [if_neg hz]
        exact ih (cpu + 1) r m

theorem pmap_cpuset_NMIPI_spin_pauses (env : Env) (deadline : Nat) (fuel : Nat) :
    ∀ (m m' : Mp), pmap_cpuset_NMIPI_spin env deadline fuel m = some m' →
      ∃ k, m' = cpu_pauses env k m := by
  induction fuel with
  | zero => intro m m' h; cases h
  | succ fuel ih =>
    intro m m' h
    unfold pmap_cpuset_NMIPI_spin at h
    split at h
    · obtain ⟨k, hk⟩ := ih _ _ h
      exact ⟨k + 1, hk⟩
    · injection h with h
      exact ⟨0, h.symm⟩

/-- The wait loop returns only from a state reached by pauses, with every
processor of the set it started with (below 32) seen acknowledging on the
way. -/
theorem pmap_flush_tlbs_wait_returned (env : Env) (deadline : Nat) (fuel : Nat) :
    ∀ (r : Nat) (m m' : Mp),
      pmap_flush_tlbs_wait env deadline fuel r m = Outcome.returned () m' →
      ∃ k, m' = cpu_pauses env k m ∧
        ∀ b, r.testBit b = true → b < 32 →
          ∃ j, j < k ∧ cpu_acked ((cpu_pauses env j m).cpus b) := by
  induction fuel with
  | zero => intro r m m' h; cases h
  | succ fuel ih =>
    intro r m m' h
    unfold pmap_flush_tlbs_wait at h
    by_cases hr : r ≠ 0
    · rw [if_pos hr] at h
      obtain ⟨k, hk, hs, hc⟩ := pmap_flush_tlbs_acks_spec env m.real_ncpus 0 r m
      have hrec : pmap_flush_tlbs_wait env deadline fuel
          (pmap_flush_tlbs_acks env m.real_ncpus 0 r m).1
          (pmap_flush_tlbs_acks env m.real_ncpus 0 r m).2 = Outcome.returned () m' := by
        simp only [] at h
        split at h
        · split at h
          · exact h
          · split at h
            · cases h
            · cases h
        · exact h
      obtain ⟨k', hk', hall⟩ := ih _ _ _ hrec
      refine ⟨k + k', ?_, ?_⟩
      · rw [hk', hk, cpu_pauses_add]
      · intro b hb hb32
        by_cases h1 : (pmap_flush_tlbs_acks env m.real_ncpus 0 r m).1.testBit b = true
        · obtain ⟨j, hjk, hj⟩ := hall b h1 hb32
          rw [hk, cpu_pauses_add] at hj
          exact ⟨k + j, by omega, hj⟩
        · have h1' : (pmap_flush_tlbs_acks env m.real_ncpus 0 r m).1.testBit b = false := by
            cases h : (pmap_flush_tlbs_acks env m.real_ncpus 0 r m).1.testBit b
            · rfl
            · exact absurd h h1
          obtain ⟨j, hjk, hj⟩ := hc b hb hb32 h1'
          exact ⟨j, by omega, hj⟩
    · rw [if_neg hr] at h
      injection h with _ h
      have hr0 : r = 0 := by
        by_contra hne; exact hr hne
      subst hr0
      refine ⟨0, h.symm, ?_⟩
      intro b hb
      simp at hb

theorem pmap_cpuset_NMIPI_spin_terminates (env : Env) (deadline : Nat) (fuel : Nat) :
    ∀ (m : Mp), (∃ k, k < fuel ∧ ¬ (env.mach_absolute_time (m.tick + k) < deadline)) →
      ∃ m', pmap_cpuset_NMIPI_spin env deadline fuel m = some m' := by
  induction fuel with
  | zero => rintro m ⟨k, hk, -⟩; omega
  | succ fuel ih =>
    rintro m ⟨k, hk, hlate⟩
    unfold pmap_cpuset_NMIPI_spin
    by_cases h : env.mach_absolute_time m.tick < deadline
    · rw [if_pos h]
      apply ih
      have hk0 : k ≠ 0 := by
        intro h0; subst h0; exact hlate h
      refine ⟨k - 1, by omega, ?_⟩
      have : (cpu_pause env m).tick + (k - 1) = m.tick + k := by
        simp only [cpu_pause]; omega
      rw [this]; exact hlate
    · rw [if_neg h]
      exact ⟨m, rfl⟩

theorem pmap_flush_tlbs_mark_eq (s : State) (pmap cpu : Nat) (m : Mp) :
    pmap_flush_tlbs_mark s pmap cpu m =
      { m with
        cpus := fun c => if c = cpu then flush_marked s pmap (m.cpus c) else m.cpus c
        trace := flush_mark_event s pmap cpu :: m.trace } := by
  unfold pmap_flush_tlbs_mark flush_marked flush_mark_event flush_global
  by_cases h : s.pmap_pcid_ncpus ≠ 0 ∧ pmap_is_shared s pmap = true
  · have h' : (decide (s.pmap_pcid_ncpus ≠ 0) && pmap_is_shared s pmap) = true := by
      simp [h.1, h.2]
    simp only [if_pos h, h', if_true]
  · have h' : ¬ ((decide (s.pmap_pcid_ncpus ≠ 0) && pmap_is_shared s pmap) = true) := by
      simpa using h
    simp only [if_neg h, if_neg h']

theorem flush_marked_static (s : State) (pmap : Nat) (d : cpu_data) :
    (flush_marked s pmap d).cpu_running = d.cpu_running ∧
    (flush_marked s pmap d).cpu_active_cr3 = d.cpu_active_cr3 ∧
    (flush_marked s pmap d).cpu_cr3_is_active = d.cpu_cr3_is_active ∧
    (flush_marked s pmap d).cpu_task_cr3 = d.cpu_task_cr3 := by
  unfold flush_marked
  split <;> exact ⟨rfl, rfl, rfl, rfl⟩

/-- One step of the scan, in closed form. -/
theorem pmap_flush_tlbs_scan_cpu_eq (s : State) (pmap cpu : Nat) (st : Nat × Bool × Mp) :
    pmap_flush_tlbs_scan_cpu s pmap cpu st =
      (if cpu ≠ st.2.2.cpu_number ∧ flush_matches s pmap (st.2.2.cpus cpu) = true ∧
          flush_signals s pmap (st.2.2.cpus cpu) = true then st.1 ||| cpu_bit cpu else st.1,
        st.2.1 || (decide (cpu = st.2.2.cpu_number) && flush_matches s pmap (st.2.2.cpus cpu)),
        { st.2.2 with
          cpus := fun c =>
            if c = cpu ∧ cpu ≠ st.2.2.cpu_number ∧ flush_matches s pmap (st.2.2.cpus cpu) = true
            then flush_marked s pmap (st.2.2.cpus c) else st.2.2.cpus c
          trace := scan_cpu_events s pmap st.2.2.cpus st.2.2.cpu_number cpu ++ st.2.2.trace }) := by
  obtain ⟨sig, fs, m⟩ := st
  unfold pmap_flush_tlbs_scan_cpu scan_cpu_events
  simp only []
  by_cases hrun : (m.cpus cpu).cpu_running = false
  · have hm : flush_matches s pmap (m.cpus cpu) = false := by
      unfold flush_matches; rw [hrun]; rfl
    simp only [hrun, hm, if_true, Bool.false_eq_true, and_false, false_and, if_false,
      Bool.and_false, Bool.or_false, List.nil_append]
  · have hrun' : (m.cpus cpu).cpu_running = true := by
      cases h : (m.cpus cpu).cpu_running
      · exact absurd h hrun
      · rfl
    rw [if_neg hrun]
    by_cases hmatch : (s.pmaps pmap).pm_cr3 = (m.cpus cpu).cpu_task_cr3 ∨
        (s.pmaps pmap).pm_cr3 = (m.cpus cpu).cpu_active_cr3 ∨ pmap_is_shared s pmap = true
    · have hm : flush_matches s pmap (m.cpus cpu) = true := by
        unfold flush_matches; rw [hrun']
        simpa [Bool.or_assoc] using hmatch
      rw [if_pos hmatch]
      by_cases hme : cpu = m.cpu_number
      · rw [if_pos hme]
        simp only [hme, ne_eq, not_true_eq_false, false_and, and_false, if_false, hm,
          decide_True, Bool.and_self, Bool.or_true, List.nil_append]
        rw [← hme, hm]
        simp
        rw [hme]
      · rw [if_neg hme]
        rw [pmap_flush_tlbs_mark_eq]
        simp only [Mp.log, if_true]
        have hst := flush_marked_static s pmap (m.cpus cpu)
        rw [hst.2.1, hst.2.2.1, hst.2.2.2]
        by_cases hsig : (m.cpus cpu).cpu_cr3_is_active = true ∧
            ((s.pmaps pmap).pm_cr3 = (m.cpus cpu).cpu_active_cr3 ∨ (s.pmaps pmap).pm_shared = true ∨
              (s.pmaps pmap).pm_cr3 = (m.cpus cpu).cpu_task_cr3)
        · have hs : flush_signals s pmap (m.cpus cpu) = true := by
            unfold flush_signals
            simpa [Bool.or_assoc] using hsig
          rw [if_pos hsig]
          simp only [hme, hm, hs, ne_eq, not_false_eq_true, and_self, if_true, decide_False,
            Bool.false_and, Bool.or_false, and_true, List.cons_append, List.nil_append]
        · have hs : ¬ (flush_signals s pmap (m.cpus cpu) = true) := by
            unfold flush_signals
            simpa [Bool.or_assoc] using hsig
          rw [if_neg hsig]
          simp only [hme, hm, hs, ne_eq, not_false_eq_true, and_self, if_true, decide_False,
            Bool.false_and, Bool.or_false, and_true, and_false, if_false, List.cons_append,
            List.nil_append, Bool.false_eq_true]
    · have hm : flush_matches s pmap (m.cpus cpu) = false := by
        unfold flush_matches; rw [hrun']
        have : ¬ ((decide ((s.pmaps pmap).pm_cr3 = (m.cpus cpu).cpu_task_cr3) ||
          decide ((s.pmaps pmap).pm_cr3 = (m.cpus cpu).cpu_active_cr3) || pmap_is_shared s pmap)
            = true) := by
          simpa [Bool.or_assoc] using hmatch
        simpa using this
      rw [if_neg hmatch]
      simp only [hm, Bool.false_eq_true, and_false, false_and, if_false, Bool.and_false,
        Bool.or_false, List.nil_append]

theorem scan_events_congr (s : State) (pmap : Nat) (cpus1 cpus2 : Nat → cpu_data) (my : Nat)
    (n : Nat) : ∀ cpu, (∀ c, cpu ≤ c → cpus1 c = cpus2 c) →
      scan_events s pmap cpus1 my n cpu = scan_events s pmap cpus2 my n cpu := by
  induction n with
  | zero => intro cpu _; rfl
  | succ n ih =>
    intro cpu h
    simp only [scan_events]
    rw [ih (cpu + 1) (fun c hc => h c (by omega))]
    unfold scan_cpu_events
    rw [h cpu (le_refl _)]

theorem pmap_flush_tlbs_scan_frame (s : State) (pmap : Nat) (n : Nat) :
    ∀ (cpu : Nat) (st : Nat × Bool × Mp),
      (pmap_flush_tlbs_scan s pmap n cpu st).2.2.real_ncpus = st.2.2.real_ncpus ∧
      (pmap_flush_tlbs_scan s pmap n cpu st).2.2.cpu_number = st.2.2.cpu_number ∧
      (pmap_flush_tlbs_scan s pmap n cpu st).2.2.tick = st.2.2.tick ∧
      (pmap_flush_tlbs_scan s pmap n cpu st).2.2.pmap_tlb_flush_timeout =
        st.2.2.pmap_tlb_flush_timeout := by
  induction n with
  | zero => intro cpu st; exact ⟨rfl, rfl, rfl, rfl⟩
  | succ n ih =>
    intro cpu st
    simp only [pmap_flush_tlbs_scan]
    obtain ⟨h1, h2, h3, h4⟩ := ih (cpu + 1) (pmap_flush_tlbs_scan_cpu s pmap cpu st)
    rw [h1, h2, h3, h4, pmap_flush_tlbs_scan_cpu_eq]
    exact ⟨rfl, rfl, rfl, rfl⟩

theorem pmap_flush_tlbs_scan_cpus (s : State) (pmap : Nat) (n : Nat) :
    ∀ (cpu : Nat) (st : Nat × Bool × Mp) (c : Nat),
      (pmap_flush_tlbs_scan s pmap n cpu st).2.2.cpus c =
        if cpu ≤ c ∧ c < cpu + n ∧ c ≠ st.2.2.cpu_number ∧
            flush_matches s pmap (st.2.2.cpus c) = true
        then flush_marked s pmap (st.2.2.cpus c) else st.2.2.cpus c := by
  induction n with
  | zero =>
    intro cpu st c
    simp only [pmap_flush_tlbs_scan]
    rw [if_neg (by omega)]
  | succ n ih =>
    intro cpu st c
    simp only [pmap_flush_tlbs_scan]
    rw [ih (cpu + 1) (pmap_flush_tlbs_scan_cpu s pmap cpu st) c, pmap_flush_tlbs_scan_cpu_eq]
    simp only []
    by_cases hc : c = cpu
    · subst hc
      rw [if_neg (by omega)]
      by_cases hm : c ≠ st.2.2.cpu_number ∧ flush_matches s pmap (st.2.2.cpus c) = true
      · rw [if_pos ⟨rfl, hm⟩, if_pos ⟨le_refl _, by omega, hm⟩]
      · rw [if_neg (fun h => hm h.2), if_neg (fun h => hm h.2.2)]
    · have e : (if c = cpu ∧ cpu ≠ st.2.2.cpu_number ∧
          flush_matches s pmap (st.2.2.cpus cpu) = true
          then flush_marked s pmap (st.2.2.cpus c) else st.2.2.cpus c) = st.2.2.cpus c :=
        if_neg (fun h => hc h.1)
      rw [e]
      by_cases hm : c ≠ st.2.2.cpu_number ∧ flush_matches s pmap (st.2.2.cpus c) = true
      · by_cases hr : cpu + 1 ≤ c ∧ c < cpu + 1 + n
        · rw [if_pos ⟨hr.1, hr.2, hm⟩, if_pos ⟨by omega, by omega, hm⟩]
        · rw [if_neg (fun h => hr ⟨h.1, h.2.1⟩), if_neg (fun h => hr ⟨by omega, by omega⟩)]
      · rw [if_neg (fun h => hm h.2.2), if_neg (fun h => hm h.2.2)]

theorem pmap_flush_tlbs_scan_trace (s : State) (pmap : Nat) (n : Nat) :
    ∀ (cpu : Nat) (st : Nat × Bool × Mp),
      (pmap_flush_tlbs_scan s pmap n cpu st).2.2.trace =
        scan_events s pmap st.2.2.cpus st.2.2.cpu_number n cpu ++ st.2.2.trace := by
  induction n with
  | zero => intro cpu st; rfl
  | succ n ih =>
    intro cpu st
    simp only [pmap_flush_tlbs_scan, scan_events]
    rw [ih (cpu + 1) (pmap_flush_tlbs_scan_cpu s pmap cpu st), pmap_flush_tlbs_scan_cpu_eq]
    simp only [List.append_assoc]
    congr 1
    apply scan_events_congr
    intro c hc
    rw [if_neg (fun h => by omega)]

theorem pmap_flush_tlbs_scan_sig (s : State) (pmap : Nat) (n : Nat) :
    ∀ (cpu : Nat) (st : Nat × Bool × Mp) (b : Nat),
      ((pmap_flush_tlbs_scan s pmap n cpu st).1.testBit b = true ↔
        (st.1.testBit b = true ∨
          (b < 32 ∧ cpu ≤ b ∧ b < cpu + n ∧ b ≠ st.2.2.cpu_number ∧
            flush_matches s pmap (st.2.2.cpus b) = true ∧
            flush_signals s pmap (st.2.2.cpus b) = true))) := by
  induction n with
  | zero =>
    intro cpu st b
    simp only [pmap_flush_tlbs_scan]
    constructor
    · intro h; exact Or.inl h
    · rintro (h | h)
      · exact h
      · omega
  | succ n ih =>
    intro cpu st b
    simp only [pmap_flush_tlbs_scan]
    rw [ih (cpu + 1) (pmap_flush_tlbs_scan_cpu s pmap cpu st) b, pmap_flush_tlbs_scan_cpu_eq]
    simp only []
    have hcp : ∀ c, c ≠ cpu → (if c = cpu ∧ cpu ≠ st.2.2.cpu_number ∧
          flush_matches s pmap (st.2.2.cpus cpu) = true
          then flush_marked s pmap (st.2.2.cpus c) else st.2.2.cpus c) = st.2.2.cpus c :=
      fun c hc => if_neg (fun h => hc h.1)
    have hbit : ∀ x, (x ||| cpu_bit cpu).testBit b = true ↔
        (x.testBit b = true ∨ (b < 32 ∧ b = cpu)) := by
      intro x
      rw [Nat.testBit_or]
      by_cases h32 : cpu < 32
      · rw [cpu_bit_lt cpu h32, Nat.testBit_two_pow]
        by_cases hb : cpu = b
        · subst hb; simp [h32]
        · have hb' : ¬ b = cpu := fun e => hb e.symm
          simp [hb, hb']
      · rw [cpu_bit_ge cpu (by omega)]
        simp only [Nat.zero_testBit, Bool.or_false]
        constructor
        · intro h; exact Or.inl h
        · rintro (h | ⟨h1, h2⟩)
          · exact h
          · omega
    constructor
    · rintro (h | ⟨h1, h2, h3, h4, h5, h6⟩)
      · by_cases hc : cpu ≠ st.2.2.cpu_number ∧ flush_matches s pmap (st.2.2.cpus cpu) = true ∧
            flush_signals s pmap (st.2.2.cpus cpu) = true
        · rw [if_pos hc] at h
          rcases (hbit st.1).1 h with h | ⟨h1, h2⟩
          · exact Or.inl h
          · subst h2
            exact Or.inr ⟨h1, le_refl _, by omega, hc.1, hc.2.1, hc.2.2⟩
        · rw [if_neg hc] at h
          exact Or.inl h
      · have hne : b ≠ cpu := by omega
        rw [hcp b hne] at h5 h6
        exact Or.inr ⟨h1, by omega, by omega, h4, h5, h6⟩
    · rintro (h | ⟨h1, h2, h3, h4, h5, h6⟩)
      · left
        by_cases hc : cpu ≠ st.2.2.cpu_number ∧ flush_matches s pmap (st.2.2.cpus cpu) = true ∧
            flush_signals s pmap (st.2.2.cpus cpu) = true
        · rw [if_pos hc]
          exact (hbit st.1).2 (Or.inl h)
        · rw [if_neg hc]; exact h
      · by_cases hb : b = cpu
        · subst hb
          left
          rw [if_pos ⟨h4, h5, h6⟩]
          exact (hbit st.1).2 (Or.inr ⟨h1, rfl⟩)
        · right
          rw [hcp b hb]
          exact ⟨h1, by omega, by omega, h4, h5, h6⟩

theorem mem_scan_events (s : State) (pmap : Nat) (cpus : Nat → cpu_data) (my : Nat) (e : Event)
    (n : Nat) : ∀ cpu, e ∈ scan_events s pmap cpus my n cpu ↔
      ∃ c, cpu ≤ c ∧ c < cpu + n ∧ e ∈ scan_cpu_events s pmap cpus my c := by
  induction n with
  | zero =>
    intro cpu
    simp only [scan_events, List.not_mem_nil, false_iff]
    rintro ⟨c, h1, h2, _⟩
    omega
  | succ n ih =>
    intro cpu
    simp only [scan_events, List.mem_append, ih (cpu + 1)]
    constructor
    · rintro (⟨c, h1, h2, h3⟩ | h)
      · exact ⟨c, by omega, by omega, h3⟩
      · exact ⟨cpu, le_refl _, by omega, h⟩
    · rintro ⟨c, h1, h2, h3⟩
      by_cases hc : c = cpu
      · subst hc; exact Or.inr h3
      · exact Or.inl ⟨c, by omega, by omega, h3⟩

theorem scan_events_split (s : State) (pmap : Nat) (cpus : Nat → cpu_data) (my : Nat) (c : Nat)
    (n : Nat) : ∀ cpu, cpu ≤ c → c < cpu + n →
      ∃ post pre, scan_events s pmap cpus my n cpu =
        post ++ (scan_cpu_events s pmap cpus my c ++ pre) := by
  induction n with
  | zero => intro cpu h1 h2; omega
  | succ n ih =>
    intro cpu h1 h2
    simp only [scan_events]
    by_cases hc : c = cpu
    · subst hc
      exact ⟨scan_events s pmap cpus my n (c + 1), [], by simp⟩
    · obtain ⟨post, pre, h⟩ := ih (cpu + 1) (by omega) (by omega)
      refine ⟨post, pre ++ scan_cpu_events s pmap cpus my cpu, ?_⟩
      rw [h]
      simp only [List.append_assoc]

theorem pmap_cpuset_NMIPI_send_eq (n : Nat) : ∀ (cpu cpu_mask : Nat) (m : Mp),
    pmap_cpuset_NMIPI_send n cpu cpu_mask m =
      { m with trace := nmi_events cpu_mask cpu n ++ m.trace } := by
  induction n with
  | zero => intro cpu cpu_mask m; rfl
  | succ n ih =>
    intro cpu cpu_mask m
    simp only [pmap_cpuset_NMIPI_send]
    rw [ih]
    unfold nmi_events
    rw [List.range'_succ, List.filter_cons]
    by_cases h : cpu_mask &&& cpu_bit cpu ≠ 0
    · simp only [if_pos h, Mp.log, decide_eq_true h, if_true, List.reverse_cons, List.map_append,
        List.map_cons, List.map_nil, List.append_assoc, List.singleton_append]
    · have h' : decide (cpu_mask &&& cpu_bit cpu ≠ 0) = false := decide_eq_false h
      simp only [if_neg h, h', Bool.false_eq_true, if_false]

theorem mem_nmi_events (cpu_mask n : Nat) (e : Event) :
    e ∈ nmi_events cpu_mask 0 n ↔
      ∃ c, e = Event.NMI_interrupt c ∧ c < n ∧ cpu_mask &&& cpu_bit c ≠ 0 := by
  unfold nmi_events
  simp only [List.mem_map, List.mem_reverse, List.mem_filter, List.mem_range', decide_eq_true_eq]
  constructor
  · rintro ⟨c, ⟨⟨i, hi, rfl⟩, h2⟩, rfl⟩
    exact ⟨0 + 1 * i, rfl, by omega, h2⟩
  · rintro ⟨c, rfl, h1, h2⟩
    exact ⟨c, ⟨⟨c, h1, by omega⟩, h2⟩, rfl⟩

/-- A fatal stop of the wait loop: only interrupts to processors of the set
were added to the trace. -/
theorem pmap_flush_tlbs_wait_panicked (env : Env) (deadline : Nat) (fuel : Nat) :
    ∀ (r : Nat) (m m' : Mp),
      pmap_flush_tlbs_wait env deadline fuel r m = Outcome.panicked m' →
      ∃ evs, m'.trace = evs ++ m.trace ∧ m'.cpu_number = m.cpu_number ∧
        ∀ e ∈ evs, ∃ c, e = Event.NMI_interrupt c ∧ c < 32 ∧ r.testBit c = true := by
  induction fuel with
  | zero => intro r m m' h; cases h
  | succ fuel ih =>
    intro r m m' h
    unfold pmap_flush_tlbs_wait at h
    by_cases hr : r ≠ 0
    · rw [if_pos hr] at h
      obtain ⟨k, hk, hs, -⟩ := pmap_flush_tlbs_acks_spec env m.real_ncpus 0 r m
      have hfr := cpu_pauses_frame env k m
      have hrec : ∀ m', pmap_flush_tlbs_wait env deadline fuel
          (pmap_flush_tlbs_acks env m.real_ncpus 0 r m).1
          (pmap_flush_tlbs_acks env m.real_ncpus 0 r m).2 = Outcome.panicked m' →
          ∃ evs, m'.trace = evs ++ m.trace ∧ m'.cpu_number = m.cpu_number ∧
            ∀ e ∈ evs, ∃ c, e = Event.NMI_interrupt c ∧ c < 32 ∧ r.testBit c = true := by
        intro m' h'
        obtain ⟨evs, h1, h2, h3⟩ := ih _ _ _ h'
        rw [hk, hfr.1] at h1
        rw [hk, hfr.2.2.1] at h2
        refine ⟨evs, h1, h2, ?_⟩
        intro e he
        obtain ⟨c, hc1, hc2, hc3⟩ := h3 e he
        exact ⟨c, hc1, hc2, hs c hc3⟩
      simp only [] at h
      split at h
      · split at h
        · exact hrec m' h
        · split at h
          · cases h
          · rename_i m3 hnm
            injection h with h
            subst h
            unfold pmap_cpuset_NMIPI at hnm
            simp only [] at hnm
            obtain ⟨j, hj⟩ := pmap_cpuset_NMIPI_spin_pauses env _ _ _ _ hnm
            have hfj := cpu_pauses_frame env j
              (pmap_cpuset_NMIPI_send
                ({ (pmap_flush_tlbs_acks env m.real_ncpus 0 r m).2 with
                  pmap_tlb_flush_timeout := true }).real_ncpus 0
                (pmap_flush_tlbs_acks env m.real_ncpus 0 r m).1
                { (pmap_flush_tlbs_acks env m.real_ncpus 0 r m).2 with
                  pmap_tlb_flush_timeout := true })
            rw [pmap_cpuset_NMIPI_send_eq] at hj hfj
            refine ⟨nmi_events (pmap_flush_tlbs_acks env m.real_ncpus 0 r m).1 0
              (pmap_flush_tlbs_acks env m.real_ncpus 0 r m).2.real_ncpus, ?_, ?_, ?_⟩
            · rw [hj, hfj.1]
              show _ ++ (pmap_flush_tlbs_acks env m.real_ncpus 0 r m).2.trace = _
              rw [hk, hfr.1]
            · rw [hj, hfj.2.2.1]
              show (pmap_flush_tlbs_acks env m.real_ncpus 0 r m).2.cpu_number = _
              rw [hk, hfr.2.2.1]
            · intro e he
              obtain ⟨c, hc1, -, hc3⟩ := (mem_nmi_events _ _ e).1 he
              obtain ⟨h32, hb⟩ := (and_cpu_bit_ne_zero _ c).1 hc3
              exact ⟨c, hc1, h32, hs c hb⟩
      · exact hrec m' h
    · rw [if_neg hr] at h
      cases h

theorem pmap_flush_tlbs_enter_eq (s : State) (m : Mp) (pmap : Nat) :
    pmap_flush_tlbs_enter s m pmap = { m with trace := flush_enter_events s pmap ++ m.trace } := by
  unfold pmap_flush_tlbs_enter flush_enter_events
  split
  · rfl
  · rfl

theorem pmap_flush_tlbs_self_eq (s : State) (pmap : Nat) (fs : Bool) (m : Mp) :
    pmap_flush_tlbs_self s pmap fs m =
      { m with trace := flush_self_events s pmap m.cpu_number fs ++ m.trace } := by
  unfold pmap_flush_tlbs_self flush_self_events
  split
  · split
    · split
      · rfl
      · rfl
    · rfl
  · rfl

theorem pmap_flush_tlbs_scanned_frame (s : State) (m : Mp) (pmap : Nat) :
    (pmap_flush_tlbs_scanned s m pmap).2.2.real_ncpus = m.real_ncpus ∧
    (pmap_flush_tlbs_scanned s m pmap).2.2.cpu_number = m.cpu_number ∧
    (pmap_flush_tlbs_scanned s m pmap).2.2.tick = m.tick ∧
    (pmap_flush_tlbs_scanned s m pmap).2.2.pmap_tlb_flush_timeout = m.pmap_tlb_flush_timeout := by
  unfold pmap_flush_tlbs_scanned
  obtain ⟨h1, h2, h3, h4⟩ := pmap_flush_tlbs_scan_frame s pmap
    (pmap_flush_tlbs_enter s m pmap).real_ncpus 0 (0, false, pmap_flush_tlbs_enter s m pmap)
  rw [h1, h2, h3, h4, pmap_flush_tlbs_enter_eq]
  exact ⟨rfl, rfl, rfl, rfl⟩

theorem pmap_flush_tlbs_scanned_cpus (s : State) (m : Mp) (pmap c : Nat) :
    (pmap_flush_tlbs_scanned s m pmap).2.2.cpus c =
      if c < m.real_ncpus ∧ c ≠ m.cpu_number ∧ flush_matches s pmap (m.cpus c) = true
      then flush_marked s pmap (m.cpus c) else m.cpus c := by
  unfold pmap_flush_tlbs_scanned
  rw [pmap_flush_tlbs_scan_cpus, pmap_flush_tlbs_enter_eq]
  simp only [Nat.zero_le, true_and, Nat.zero_add]

theorem pmap_flush_tlbs_scanned_trace (s : State) (m : Mp) (pmap : Nat) :
    (pmap_flush_tlbs_scanned s m pmap).2.2.trace =
      scan_events s pmap m.cpus m.cpu_number m.real_ncpus 0 ++
        (flush_enter_events s pmap ++ m.trace) := by
  unfold pmap_flush_tlbs_scanned
  rw [pmap_flush_tlbs_scan_trace, pmap_flush_tlbs_enter_eq]

theorem pmap_flush_tlbs_scanned_sig (s : State) (m : Mp) (pmap b : Nat) :
    (pmap_flush_tlbs_scanned s m pmap).1.testBit b = true ↔
      (b < 32 ∧ b < m.real_ncpus ∧ b ≠ m.cpu_number ∧
        flush_matches s pmap (m.cpus b) = true ∧ flush_signals s pmap (m.cpus b) = true) := by
  unfold pmap_flush_tlbs_scanned
  rw [pmap_flush_tlbs_scan_sig, pmap_flush_tlbs_enter_eq]
  simp only [Nat.zero_testBit, Bool.false_eq_true, false_or, Nat.zero_le, true_and, Nat.zero_add]

theorem pmap_flush_tlbs_signalled_eq (s : State) (m : Mp) (pmap : Nat) :
    pmap_flush_tlbs_signalled s m pmap =
      { (pmap_flush_tlbs_scanned s m pmap).2.2 with
        trace := flush_self_events s pmap m.cpu_number (pmap_flush_tlbs_scanned s m pmap).2.1 ++
          (scan_events s pmap m.cpus m.cpu_number m.real_ncpus 0 ++
            (flush_enter_events s pmap ++ m.trace)) } := by
  unfold pmap_flush_tlbs_signalled
  rw [pmap_flush_tlbs_self_eq, pmap_flush_tlbs_scanned_trace]
  have e := (pmap_flush_tlbs_scanned_frame s m pmap).2.1
  rw [show flush_self_events s pmap (pmap_flush_tlbs_scanned s m pmap).2.2.cpu_number
      (pmap_flush_tlbs_scanned s m pmap).2.1 =
    flush_self_events s pmap m.cpu_number (pmap_flush_tlbs_scanned s m pmap).2.1 from by rw [e]]

/-- The body of `pmap_flush_tlbs` once the entry assertion has passed. -/
theorem pmap_flush_tlbs_eq (env : Env) (fuel : Nat) (s : State) (m : Mp) (pmap sv ev : Nat)
    (hassert : s.MACH_ASSERT = true → pmap_flush_tlbs_assert m = true) :
    pmap_flush_tlbs env fuel s m pmap sv ev =
      match (if (pmap_flush_tlbs_scanned s m pmap).1 ≠ 0 then
          pmap_flush_tlbs_wait env
            ((env.mach_absolute_time (pmap_flush_tlbs_signalled s m pmap).tick + env.LockTimeOut)
              % 2 ^ 64)
            fuel (pmap_flush_tlbs_scanned s m pmap).1 (pmap_flush_tlbs_signalled s m pmap)
        else Outcome.returned () (pmap_flush_tlbs_signalled s m pmap)) with
      | Outcome.returned _ m2 =>
        if pmap = s.kernel_pmap ∧ (pmap_flush_tlbs_scanned s m pmap).2.1 ≠ true
        then Outcome.panicked m2 else Outcome.returned () m2
      | Outcome.panicked m2 => Outcome.panicked m2
      | Outcome.timeout => Outcome.timeout := by
  unfold pmap_flush_tlbs
  have h : ¬ (s.MACH_ASSERT = true ∧ pmap_flush_tlbs_assert m = false) := by
    rintro ⟨h1, h2⟩
    rw [hassert h1] at h2
    cases h2
  rw [if_neg h]
  rfl

/-- The trace of a call of `pmap_flush_tlbs` that ended, once the entry
assertion has passed. -/
theorem pmap_flush_tlbs_trace (env : Env) (fuel : Nat) (s : State) (m : Mp) (pmap sv ev : Nat)
    (hassert : s.MACH_ASSERT = true → pmap_flush_tlbs_assert m = true) (m' : Mp)
    (h : pmap_flush_tlbs env fuel s m pmap sv ev = Outcome.returned () m' ∨
      pmap_flush_tlbs env fuel s m pmap sv ev = Outcome.panicked m') :
    ∃ nm, m'.trace = nm ++ (flush_self_events s pmap m.cpu_number
          (pmap_flush_tlbs_scanned s m pmap).2.1 ++
        (scan_events s pmap m.cpus m.cpu_number m.real_ncpus 0 ++
          (flush_enter_events s pmap ++ m.trace))) ∧
      m'.cpu_number = m.cpu_number ∧
      (∀ e ∈ nm, ∃ c, e = Event.NMI_interrupt c ∧ c < 32 ∧
        (pmap_flush_tlbs_scanned s m pmap).1.testBit c = true) ∧
      (pmap_flush_tlbs env fuel s m pmap sv ev = Outcome.returned () m' → nm = []) := by
  rw [pmap_flush_tlbs_eq env fuel s m pmap sv ev hassert] at h ⊢
  have hsig := pmap_flush_tlbs_signalled_eq s m pmap
  have hfr := pmap_flush_tlbs_scanned_frame s m pmap
  have htr : (pmap_flush_tlbs_signalled s m pmap).trace =
      flush_self_events s pmap m.cpu_number (pmap_flush_tlbs_scanned s m pmap).2.1 ++
        (scan_events s pmap m.cpus m.cpu_number m.real_ncpus 0 ++
          (flush_enter_events s pmap ++ m.trace)) := by rw [hsig]
  have hnum : (pmap_flush_tlbs_signalled s m pmap).cpu_number = m.cpu_number := by
    rw [hsig]; exact hfr.2.1
  -- states reached by pauses
  have hp : ∀ k, (cpu_pauses env k (pmap_flush_tlbs_signalled s m pmap)).trace =
      flush_self_events s pmap m.cpu_number (pmap_flush_tlbs_scanned s m pmap).2.1 ++
        (scan_events s pmap m.cpus m.cpu_number m.real_ncpus 0 ++
          (flush_enter_events s pmap ++ m.trace)) ∧
      (cpu_pauses env k (pmap_flush_tlbs_signalled s m pmap)).cpu_number = m.cpu_number := by
    intro k
    have := cpu_pauses_frame env k (pmap_flush_tlbs_signalled s m pmap)
    rw [this.1, this.2.2.1]
    exact ⟨htr, hnum⟩
  generalize hw : (if (pmap_flush_tlbs_scanned s m pmap).1 ≠ 0 then
          pmap_flush_tlbs_wait env
            ((env.mach_absolute_time (pmap_flush_tlbs_signalled s m pmap).tick + env.LockTimeOut)
              % 2 ^ 64)
            fuel (pmap_flush_tlbs_scanned s m pmap).1 (pmap_flush_tlbs_signalled s m pmap)
        else Outcome.returned () (pmap_flush_tlbs_signalled s m pmap)) = w at h ⊢
  have hret : ∀ m2, w = Outcome.returned () m2 →
      ∃ k, m2 = cpu_pauses env k (pmap_flush_tlbs_signalled s m pmap) := by
    intro m2 h2
    subst h2
    split at hw
    · obtain ⟨k, hk, -⟩ := pmap_flush_tlbs_wait_returned env _ _ _ _ _ hw
      exact ⟨k, hk⟩
    · injection hw with _ hw
      exact ⟨0, hw.symm⟩
  cases w with
  | returned u m2 =>
    obtain ⟨k, hk⟩ := hret m2 rfl
    simp only [] at h ⊢
    split at h
    · rename_i hc
      rw [if_pos hc]
      rcases h with h | h
      · cases h
      · injection h with h
        subst h
        refine ⟨[], ?_, ?_, ?_, ?_⟩
        · rw [hk]; exact (hp k).1
        · rw [hk]; exact (hp k).2
        · intro e he; cases he
        · intro _; rfl
    · rename_i hc
      rw [if_neg hc]
      rcases h with h | h
      · injection h with _ h
        subst h
        refine ⟨[], ?_, ?_, ?_, ?_⟩
        · rw [hk]; exact (hp k).1
        · rw [hk]; exact (hp k).2
        · intro e he; cases he
        · intro _; rfl
      · cases h
  | panicked m2 =>
    simp only [] at h ⊢
    rcases h with h | h
    · cases h
    · injection h with h
      subst h
      split at hw
      · obtain ⟨evs, h1, h2, h3⟩ := pmap_flush_tlbs_wait_panicked env _ _ _ _ _ hw
        refine ⟨evs, ?_, ?_, h3, ?_⟩
        · rw [h1, htr]
        · rw [h2, hnum]
        · intro hcontra; cases hcontra
      · cases hw
  | timeout =>
    simp only [] at h
    rcases h with h | h
    · cases h
    · cases h

theorem flush_matches_iff (s : State) (pmap : Nat) (d : cpu_data) :
    flush_matches s pmap d = true ↔
      (d.cpu_running = true ∧ ((s.pmaps pmap).pm_cr3 = d.cpu_task_cr3 ∨
        (s.pmaps pmap).pm_cr3 = d.cpu_active_cr3 ∨ pmap_is_shared s pmap = true)) := by
  unfold flush_matches
  simp [Bool.or_assoc]

theorem flush_signals_iff (s : State) (pmap : Nat) (d : cpu_data) :
    flush_signals s pmap d = true ↔
      (d.cpu_cr3_is_active = true ∧ ((s.pmaps pmap).pm_cr3 = d.cpu_active_cr3 ∨
        (s.pmaps pmap).pm_shared = true ∨ (s.pmaps pmap).pm_cr3 = d.cpu_task_cr3)) := by
  unfold flush_signals
  simp [Bool.or_assoc]

theorem flush_global_iff (s : State) (pmap : Nat) :
    flush_global s pmap = true ↔ (s.pmap_pcid_ncpus ≠ 0 ∧ pmap_is_shared s pmap = true) := by
  unfold flush_global
  simp

theorem pmap_flush_tlbs_returned_assert (env : Env) (fuel : Nat) (s : State) (m : Mp)
    (pmap sv ev : Nat) (m' : Mp)
    (h : pmap_flush_tlbs env fuel s m pmap sv ev = Outcome.returned () m') :
    s.MACH_ASSERT = true → pmap_flush_tlbs_assert m = true := by
  intro ha
  by_contra hne
  have hf : pmap_flush_tlbs_assert m = false := by
    cases hb : pmap_flush_tlbs_assert m
    · rfl
    · exact absurd hb hne
  unfold pmap_flush_tlbs at h
  rw [if_pos ⟨ha, hf⟩] at h
  cases h

/-- A normal return of `pmap_flush_tlbs`: the state is reached from the start
of the wait by pauses, during which every processor of `cpus_to_signal` was seen
acknowledging. -/
theorem pmap_flush_tlbs_returned (env : Env) (fuel : Nat) (s : State) (m : Mp)
    (pmap sv ev : Nat) (m' : Mp)
    (h : pmap_flush_tlbs env fuel s m pmap sv ev = Outcome.returned () m') :
    ∃ k, m' = cpu_pauses env k (pmap_flush_tlbs_signalled s m pmap) ∧
      ∀ b, (pmap_flush_tlbs_scanned s m pmap).1.testBit b = true → b < 32 →
        ∃ j, j < k ∧ cpu_acked ((cpu_pauses env j (pmap_flush_tlbs_signalled s m pmap)).cpus b) := by
  have hassert := pmap_flush_tlbs_returned_assert env fuel s m pmap sv ev m' h
  rw [pmap_flush_tlbs_eq env fuel s m pmap sv ev hassert] at h
  by_cases hz : (pmap_flush_tlbs_scanned s m pmap).1 ≠ 0
  · rw [if_pos hz] at h
    generalize hw : pmap_flush_tlbs_wait env
        ((env.mach_absolute_time (pmap_flush_tlbs_signalled s m pmap).tick + env.LockTimeOut)
          % 2 ^ 64)
        fuel (pmap_flush_tlbs_scanned s m pmap).1 (pmap_flush_tlbs_signalled s m pmap) = w at h
    cases w with
    | returned u m2 =>
      simp only [] at h
      split at h
      · cases h
      · injection h with _ h
        subst h
        exact pmap_flush_tlbs_wait_returned env _ _ _ _ _ hw
    | panicked m2 => cases h
    | timeout => cases h
  · rw [if_neg hz] at h
    simp only [] at h
    split at h
    · cases h
    · injection h with _ h
      subst h
      refine ⟨0, rfl, ?_⟩
      intro b hb
      have : (pmap_flush_tlbs_scanned s m pmap).1 = 0 := by
        by_contra hne; exact hz hne
      rw [this] at hb
      simp at hb

theorem not_mem_scan_events_of (s : State) (pmap : Nat) (cpus : Nat → cpu_data) (my n cpu : Nat)
    (e : Event) (h : ∀ c, e ∉ scan_cpu_events s pmap cpus my c) :
    e ∉ scan_events s pmap cpus my n cpu := by
  intro he
  obtain ⟨c, -, -, hc⟩ := (mem_scan_events s pmap cpus my e n cpu).1 he
  exact h c hc

theorem mem_scan_cpu_events (s : State) (pmap : Nat) (cpus : Nat → cpu_data) (my c : Nat)
    (e : Event) (h : e ∈ scan_cpu_events s pmap cpus my c) :
    c ≠ my ∧ flush_matches s pmap (cpus c) = true ∧
      (e = Event.mfence ∨ e = flush_mark_event s pmap c ∨
        (e = Event.signal_cpu c ∧ flush_signals s pmap (cpus c) = true)) := by
  unfold scan_cpu_events at h
  split at h
  · rename_i hc
    refine ⟨hc.1, hc.2, ?_⟩
    split at h
    · rename_i hs
      simp only [List.mem_cons, List.mem_singleton, List.not_mem_nil, or_false] at h
      rcases h with h | h | h
      · exact Or.inr (Or.inr ⟨h, hs⟩)
      · exact Or.inl h
      · exact Or.inr (Or.inl h)
    · simp only [List.mem_cons, List.mem_singleton, List.not_mem_nil, or_false] at h
      rcases h with h | h
      · exact Or.inl h
      · exact Or.inr (Or.inl h)
  · cases h

theorem flush_mark_event_cases (s : State) (pmap c : Nat) :
    flush_mark_event s pmap c = Event.tlb_invalid_global c ∨
      flush_mark_event s pmap c = Event.tlb_invalid_local c := by
  unfold flush_mark_event
  split
  · exact Or.inl rfl
  · exact Or.inr rfl

theorem mem_flush_self_events (s : State) (pmap my : Nat) (fs : Bool) (e : Event)
    (h : e ∈ flush_self_events s pmap my fs) :
    e = Event.tlb_flush_global my ∨ e = Event.flush_tlb_raw my ∨
      e = Event.pcid_validate_cpu pmap my := by
  unfold flush_self_events at h
  split at h
  · split at h
    · simp only [List.mem_cons, List.mem_singleton, List.not_mem_nil, or_false] at h
      rcases h with h | h
      · split at h
        · exact Or.inl h
        · exact Or.inr (Or.inl h)
      · exact Or.inr (Or.inr h)
    · simp only [List.mem_singleton] at h
      exact Or.inr (Or.inl h)
  · cases h

theorem mem_flush_enter_events (s : State) (pmap : Nat) (e : Event)
    (h : e ∈ flush_enter_events s pmap) :
    e = Event.mfence ∨ e = Event.pcid_invalidate_all_cpus pmap := by
  unfold flush_enter_events at h
  split at h
  · simp only [List.mem_cons, List.mem_singleton, List.not_mem_nil, or_false] at h
    exact h
  · cases h

theorem set_pmap_self (s : State) (p : Nat) : set_pmap s p (s.pmaps p) = s := by
  cases s
  simp only [set_pmap, State.mk.injEq, true_and, and_true]
  funext h
  split
  · rename_i e; rw [e]
  · rfl

theorem set_pmap_set_pmap (s : State) (p : Nat) (q1 q2 : pmap) :
    set_pmap (set_pmap s p q1) p q2 = set_pmap s p q2 := by
  simp only [set_pmap, State.mk.injEq, true_and, and_true]
  funext h
  split <;> rfl

/-- `pmap_destroy` when the count reaches zero, in terms of the shootdown. -/
theorem pmap_destroy_last (env : Env) (fuel : Nat) (s : State) (m : Mp) (p : Nat)
    (hp : p ≠ PMAP_NULL) (hc : (s.pmaps p).ref_count - 1 = 0)
    (hassert : ¬ (s.PMAP_ASSERT = true ∧ m.current_thread_pmap = some p)) :
    pmap_destroy env fuel s m p =
      match pmap_flush_tlbs env fuel
          (set_pmap s p { (s.pmaps p) with ref_count := (s.pmaps p).ref_count - 1 })
          (m.log (Event.update_tlbs p 0 0xFFFFFFFFFFFFF000)) p 0 0xFFFFFFFFFFFFF000 with
      | Outcome.returned _ m1 =>
        Outcome.returned
          (pmap_destroy_teardown
            (PMAP_UPDATE_TLBS
              (set_pmap s p { (s.pmaps p) with ref_count := (s.pmaps p).ref_count - 1 })
              p 0 0xFFFFFFFFFFFFF000)
            (if s.pmap_pcid_ncpus ≠ 0 then m1.log (Event.destroy_pcid_sync p) else m1) p).1
          (pmap_destroy_teardown
            (PMAP_UPDATE_TLBS
              (set_pmap s p { (s.pmaps p) with ref_count := (s.pmaps p).ref_count - 1 })
              p 0 0xFFFFFFFFFFFFF000)
            (if s.pmap_pcid_ncpus ≠ 0 then m1.log (Event.destroy_pcid_sync p) else m1) p).2
      | Outcome.panicked m1 => Outcome.panicked m1
      | Outcome.timeout => Outcome.timeout := by
  unfold pmap_destroy
  rw [if_neg hp]
  simp only []
  rw [if_neg hassert, if_pos hc]
  unfold PMAP_UPDATE_TLBS_sync
  generalize pmap_flush_tlbs env fuel
      (set_pmap s p { (s.pmaps p) with ref_count := (s.pmaps p).ref_count - 1 })
      (m.log (Event.update_tlbs p 0 0xFFFFFFFFFFFFF000)) p 0 0xFFFFFFFFFFFFF000 = o
  cases o <;> rfl

theorem pmap_destroy_teardown_state (s : State) (m : Mp) (p : Nat) :
    (pmap_destroy_teardown s m p).1.pmaps = s.pmaps ∧
    (pmap_destroy_teardown s m p).1.tlb_shootdowns = s.tlb_shootdowns ∧
    (pmap_destroy_teardown s m p).1.pmap_anchor_zone = (s.pmaps p).pm_cr3 :: s.pmap_anchor_zone ∧
    (pmap_destroy_teardown s m p).1.vm_objects_allocated = s.vm_objects_allocated - 1 - 1 - 1 ∧
    (pmap_destroy_teardown s m p).1.vm_objects_avail = s.vm_objects_avail + 1 + 1 + 1 ∧
    (pmap_destroy_teardown s m p).1.freed = (s.pmaps p).pm_obj.map Prod.snd ++
      ((s.pmaps p).pm_obj_pdpt.map Prod.snd ++ ((s.pmaps p).pm_obj_pml4.map Prod.snd ++ s.freed)) ∧
    (pmap_destroy_teardown s m p).1.inuse_ptepages_count = (s.inuse_ptepages_count -
      (((s.pmaps p).pm_obj_pml4.length + (s.pmaps p).pm_obj_pdpt.length +
        (s.pmaps p).pm_obj.length : Nat) : Int)) % 2 ^ 32 ∧
    (pmap_destroy_teardown s m p).1.pmap_zone = p :: s.pmap_zone ∧
    (pmap_destroy_teardown s m p).2.trace =
      Event.zfree_pmap p :: Event.ledger_dereference (s.pmaps p).ledger ::
        Event.vm_object_deallocate (s.pmaps p).pm_obj ::
        Event.vm_object_deallocate (s.pmaps p).pm_obj_pdpt ::
        Event.vm_object_deallocate (s.pmaps p).pm_obj_pml4 ::
        Event.zfree_anchor (s.pmaps p).pm_cr3 :: m.trace :=
  ⟨rfl, rfl, rfl, rfl, rfl, rfl, rfl, rfl, rfl⟩

theorem pmap_destroy_decremented (s : State) (p : Nat) :
    (PMAP_UPDATE_TLBS
      (set_pmap s p { (s.pmaps p) with ref_count := (s.pmaps p).ref_count - 1 })
      p 0 0xFFFFFFFFFFFFF000).pmaps p =
      { (s.pmaps p) with ref_count := (s.pmaps p).ref_count - 1 } := by
  simp [PMAP_UPDATE_TLBS, set_pmap]

/-- `pmap_destroy` when the count stays non-zero and no check of `pmap_assert`
stops the call. -/
theorem pmap_destroy_still_in_use (env : Env) (fuel : Nat) (s : State) (m : Mp) (p : Nat)
    (hp : p ≠ PMAP_NULL) (hc : (s.pmaps p).ref_count - 1 ≠ 0)
    (h1 : ¬ (s.PMAP_ASSERT = true ∧ m.current_thread_pmap = some p))
    (h2 : ¬ (s.PMAP_ASSERT = true ∧ p ≠ s.kernel_pmap)) :
    pmap_destroy env fuel s m p =
      Outcome.returned
        (set_pmap s p { (s.pmaps p) with ref_count := (s.pmaps p).ref_count - 1 }) m := by
  unfold pmap_destroy
  rw [if_neg hp]
  simp only []
  rw [if_neg h1, if_neg hc, if_neg h2]

/-- `pmap_destroy` when the count stays non-zero on a space other than the
kernel pmap, in a build with `pmap_assert`. -/
theorem pmap_destroy_still_in_use_fatal (env : Env) (fuel : Nat) (s : State) (m : Mp) (p : Nat)
    (hp : p ≠ PMAP_NULL) (hc : (s.pmaps p).ref_count - 1 ≠ 0)
    (h2 : s.PMAP_ASSERT = true ∧ p ≠ s.kernel_pmap) :
    pmap_destroy env fuel s m p = Outcome.panicked m := by
  unfold pmap_destroy
  rw [if_neg hp]
  simp only []
  by_cases h1 : s.PMAP_ASSERT = true ∧ m.current_thread_pmap = some p
  · rw [if_pos h1]
  · rw [if_neg h1, if_neg hc, if_pos h2]

theorem pmap_reference_pmaps (s : State) (p : Nat) (hp : p ≠ PMAP_NULL) :
    (pmap_reference s p).pmaps p = { (s.pmaps p) with ref_count := (s.pmaps p).ref_count + 1 } ∧
    (pmap_reference s p).PMAP_ASSERT = s.PMAP_ASSERT ∧
    (pmap_reference s p).kernel_pmap = s.kernel_pmap := by
  unfold pmap_reference
  rw [if_pos hp]
  simp [set_pmap]

/-- Claim C12, as stated, fails in a build with `pmap_assert`: on the sample
space (handle 1, a user space and not the kernel pmap, reference count 1, not
the space of the current thread) `pmap_reference` followed by `pmap_destroy`
does not give the count back: the decremented count is 1, not zero, and the
call stops at `pmap_assert (p == kernel_pmap)`, whatever the other processors
do. -/
theorem pmap_destroy_round_trip_fatal :
    sample_owned.PMAP_ASSERT = true ∧ (1 : Nat) ≠ PMAP_NULL ∧
    (1 : Nat) ≠ sample_owned.kernel_pmap ∧ sample_mp.current_thread_pmap ≠ some 1 ∧
    (sample_owned.pmaps 1).ref_count = 1 ∧
    ((pmap_reference sample_owned 1).pmaps 1).ref_count - 1 = 1 ∧
    ∀ env fuel, pmap_destroy env fuel (pmap_reference sample_owned 1) sample_mp 1 =
      Outcome.panicked sample_mp := by
  refine ⟨by decide, by decide, by decide, by decide, by decide, by decide, ?_⟩
  intro env fuel
  exact pmap_destroy_still_in_use_fatal env fuel (pmap_reference sample_owned 1) sample_mp 1
    (by decide) (by decide) (by decide)

/-- Claim C12, amended: `pmap_destroy` on a non-null space decrements the
reference count by one and then, in a build with `pmap_assert`, stops fatally
if the space is that of the current thread.  Otherwise, when the decremented
count is not zero: in a build with `pmap_assert` and for a space other than the
kernel pmap the call stops fatally at `pmap_assert (p == kernel_pmap)`; in a
build without `pmap_assert`, or for the kernel pmap, it returns with the count
one lower and nothing else changed (nothing freed, no shootdown, the
processors untouched), so that `pmap_reference` followed by `pmap_destroy`
gives back the state as it was.  When the decremented count is zero, the
outcome is that of the shootdown over `[0, 0xFFFFFFFFFFFFF000)`: if the
shootdown stops fatally or does not come back, so does the call; if it returns,
the call returns, and a call that returns has requested that shootdown, given
the top-level page back to its zone, given back the three ownership objects
with their pages freed and taken off `inuse_ptepages_count` (an `unsigned int`,
so modulo `2 ^ 32`), and given the pmap structure back to its zone. -/
theorem pmap_destroy_ref_count (env : Env) (fuel : Nat) (s : State) (m : Mp) (p : Nat)
    (hp : p ≠ PMAP_NULL) :
    (s.PMAP_ASSERT = true → m.current_thread_pmap = some p →
      pmap_destroy env fuel s m p = Outcome.panicked m) ∧
    (¬ (s.PMAP_ASSERT = true ∧ m.current_thread_pmap = some p) →
      (s.pmaps p).ref_count - 1 ≠ 0 →
      (s.PMAP_ASSERT = true ∧ p ≠ s.kernel_pmap →
        pmap_destroy env fuel s m p = Outcome.panicked m) ∧
      (¬ (s.PMAP_ASSERT = true ∧ p ≠ s.kernel_pmap) →
        pmap_destroy env fuel s m p =
          Outcome.returned
            (set_pmap s p { (s.pmaps p) with ref_count := (s.pmaps p).ref_count - 1 }) m)) ∧
    (¬ (s.PMAP_ASSERT = true ∧ m.current_thread_pmap = some p) →
      (s.pmaps p).ref_count ≠ 0 →
      (s.PMAP_ASSERT = true ∧ p ≠ s.kernel_pmap →
        pmap_destroy env fuel (pmap_reference s p) m p = Outcome.panicked m) ∧
      (¬ (s.PMAP_ASSERT = true ∧ p ≠ s.kernel_pmap) →
        pmap_destroy env fuel (pmap_reference s p) m p = Outcome.returned s m)) ∧
    (¬ (s.PMAP_ASSERT = true ∧ m.current_thread_pmap = some p) →
      (s.pmaps p).ref_count - 1 = 0 →
      (∀ s' m', pmap_destroy env fuel s m p = Outcome.returned s' m' →
        (s'.pmaps p).ref_count = 0 ∧
        s'.tlb_shootdowns = (p, 0, 0xFFFFFFFFFFFFF000) :: s.tlb_shootdowns ∧
        s'.pmap_anchor_zone = (s.pmaps p).pm_cr3 :: s.pmap_anchor_zone ∧
        s'.vm_objects_allocated = s.vm_objects_allocated - 1 - 1 - 1 ∧
        s'.vm_objects_avail = s.vm_objects_avail + 1 + 1 + 1 ∧
        s'.freed = (s.pmaps p).pm_obj.map Prod.snd ++ ((s.pmaps p).pm_obj_pdpt.map Prod.snd ++
          ((s.pmaps p).pm_obj_pml4.map Prod.snd ++ s.freed)) ∧
        s'.inuse_ptepages_count = (s.inuse_ptepages_count -
          (((s.pmaps p).pm_obj_pml4.length + (s.pmaps p).pm_obj_pdpt.length +
            (s.pmaps p).pm_obj.length : Nat) : Int)) % 2 ^ 32 ∧
        s'.pmap_zone = p :: s.pmap_zone) ∧
      (∀ m1, pmap_flush_tlbs env fuel
          (set_pmap s p { (s.pmaps p) with ref_count := (s.pmaps p).ref_count - 1 })
          (m.log (Event.update_tlbs p 0 0xFFFFFFFFFFFFF000)) p 0 0xFFFFFFFFFFFFF000 =
            Outcome.returned () m1 →
        ∃ s' m', pmap_destroy env fuel s m p = Outcome.returned s' m') ∧
      (∀ m1, pmap_flush_tlbs env fuel
          (set_pmap s p { (s.pmaps p) with ref_count := (s.pmaps p).ref_count - 1 })
          (m.log (Event.update_tlbs p 0 0xFFFFFFFFFFFFF000)) p 0 0xFFFFFFFFFFFFF000 =
            Outcome.panicked m1 →
        pmap_destroy env fuel s m p = Outcome.panicked m1) ∧
      (pmap_flush_tlbs env fuel
          (set_pmap s p { (s.pmaps p) with ref_count := (s.pmaps p).ref_count - 1 })
          (m.log (Event.update_tlbs p 0 0xFFFFFFFFFFFFF000)) p 0 0xFFFFFFFFFFFFF000 =
            Outcome.timeout →
        pmap_destroy env fuel s m p = Outcome.timeout)) := by
  refine ⟨?_, ?_, ?_, ?_⟩
  · intro h1 h2
    unfold pmap_destroy
    rw [if_neg hp]
    simp only []
    rw [if_pos ⟨h1, h2⟩]
  · intro hcur hc
    exact ⟨fun h2 => pmap_destroy_still_in_use_fatal env fuel s m p hp hc h2,
      fun h2 => pmap_destroy_still_in_use env fuel s m p hp hc hcur h2⟩
  · intro hcur hc
    obtain ⟨hpm, hpa, hpk⟩ := pmap_reference_pmaps s p hp
    have hc' : ((pmap_reference s p).pmaps p).ref_count - 1 ≠ 0 := by
      rw [hpm]
      show (s.pmaps p).ref_count + 1 - 1 ≠ 0
      omega
    constructor
    · intro h2
      exact pmap_destroy_still_in_use_fatal env fuel (pmap_reference s p) m p hp hc'
        (by rw [hpa, hpk]; exact h2)
    · intro h2
      rw [pmap_destroy_still_in_use env fuel (pmap_reference s p) m p hp hc'
        (by rw [hpa]; exact hcur) (by rw [hpa, hpk]; exact h2), hpm]
      have hq : ({ ({ (s.pmaps p) with ref_count := (s.pmaps p).ref_count + 1 } : pmap) with
          ref_count := ({ (s.pmaps p) with ref_count := (s.pmaps p).ref_count + 1 } : pmap).ref_count
            - 1 } : pmap) = s.pmaps p := by
        cases hq : s.pmaps p
        simp only [pmap.mk.injEq, true_and, and_true]
        omega
      rw [hq]
      unfold pmap_reference
      rw [if_pos hp, set_pmap_set_pmap, set_pmap_self]
  · intro ha hc
    rw [pmap_destroy_last env fuel s m p hp hc ha]
    refine ⟨?_, ?_, ?_, ?_⟩
    · intro s' m' h
      split at h
      · injection h with h1 h2
        subst h1
        rename_i m1 _
        obtain ⟨t1, t2, t3, t4, t5, t6, t7, t8, -⟩ := pmap_destroy_teardown_state
          (PMAP_UPDATE_TLBS
            (set_pmap s p { (s.pmaps p) with ref_count := (s.pmaps p).ref_count - 1 })
            p 0 0xFFFFFFFFFFFFF000)
          (if s.pmap_pcid_ncpus ≠ 0 then m1.log (Event.destroy_pcid_sync p) else m1) p
        have hd := pmap_destroy_decremented s p
        rw [t1, t2, t3, t4, t5, t6, t7, t8, hd]
        exact ⟨hc, rfl, rfl, rfl, rfl, rfl, rfl, rfl⟩
      · cases h
      · cases h
    · intro m1 h
      rw [h]
      exact ⟨_, _, rfl⟩
    · intro m1 h
      rw [h]
    · intro h
      rw [h]

theorem pmap_destroy_ref_count_witness :
    ((sample_state.pmaps 1).ref_count = 1 ∧
      ((pmap_reference sample_state 1).pmaps 1).ref_count = 2 ∧
      pmap_destroy sample_env 4 (pmap_reference sample_state 1) sample_mp 1 =
        Outcome.returned sample_state sample_mp) ∧
    (sample_owned.PMAP_ASSERT = true ∧ sample_owned.kernel_pmap = 2 ∧
      ((pmap_reference sample_owned 2).pmaps 2).ref_count = 2 ∧
      pmap_destroy sample_env 4 (pmap_reference sample_owned 2)
          { sample_mp with current_thread_pmap := some 1 } 2 =
        Outcome.returned sample_owned { sample_mp with current_thread_pmap := some 1 }) ∧
    (pmap_destroy sample_env 4 (pmap_reference sample_owned 1) sample_mp 1 =
        Outcome.panicked sample_mp) ∧
    (∃ s' m', pmap_destroy sample_env 4 sample_owned sample_mp 1 = Outcome.returned s' m' ∧
      (s'.pmaps 1).ref_count = 0 ∧
      s'.tlb_shootdowns = [(1, 0, 0xFFFFFFFFFFFFF000)] ∧
      s'.pmap_anchor_zone = [0x1000, 0xA000] ∧
      s'.freed = [4, 3, 2] ∧
      s'.inuse_ptepages_count = 0 ∧
      s'.pmap_zone = [1, 3]) ∧
    (∃ s' m', pmap_destroy sample_env 4 { sample_owned with inuse_ptepages_count := 2 }
        sample_mp 1 = Outcome.returned s' m' ∧
      s'.inuse_ptepages_count = 4294967295) := by
  refine ⟨⟨by decide, by decide, ?_⟩, ⟨by decide, by decide, by decide, ?_⟩, ?_, ?_, ?_⟩
  · exact ((pmap_destroy_ref_count sample_env 4 sample_state sample_mp 1 (by decide)).2.2.1
      (by decide) (by decide)).2 (by decide)
  · exact ((pmap_destroy_ref_count sample_env 4 sample_owned
      { sample_mp with current_thread_pmap := some 1 } 2 (by decide)).2.2.1
      (by decide) (by decide)).2 (by decide)
  · exact ((pmap_destroy_ref_count sample_env 4 sample_owned sample_mp 1 (by decide)).2.2.1
      (by decide) (by decide)).1 (by decide)
  · have h : (match pmap_destroy sample_env 4 sample_owned sample_mp 1 with
        | Outcome.returned _ _ => true
        | _ => false) = true := by decide
    generalize ho : pmap_destroy sample_env 4 sample_owned sample_mp 1 = o at h
    cases o with
    | returned s' m' =>
      obtain ⟨t1, t2, t3, _, _, t6, t7, t8⟩ :=
        ((pmap_destroy_ref_count sample_env 4 sample_owned sample_mp 1 (by decide)).2.2.2
          (by decide) (by decide)).1 s' m' ho
      refine ⟨s', m', rfl, t1, ?_, ?_, ?_, ?_, ?_⟩
      · rw [t2]; rfl
      · rw [t3]; rfl
      · rw [t6]; rfl
      · rw [t7]; decide
      · rw [t8]; rfl
    | panicked m' => cases h
    | timeout => cases h
  · have h : (match pmap_destroy sample_env 4 { sample_owned with inuse_ptepages_count := 2 }
          sample_mp 1 with
        | Outcome.returned _ _ => true
        | _ => false) = true := by decide
    generalize ho : pmap_destroy sample_env 4 { sample_owned with inuse_ptepages_count := 2 }
      sample_mp 1 = o at h
    cases o with
    | returned s' m' =>
      obtain ⟨_, _, _, _, _, _, t7, _⟩ :=
        ((pmap_destroy_ref_count sample_env 4 { sample_owned with inuse_ptepages_count := 2 }
          sample_mp 1 (by decide)).2.2.2 (by decide) (by decide)).1 s' m' ho
      refine ⟨s', m', rfl, ?_⟩
      rw [t7]; decide
    | panicked m' => cases h
    | timeout => cases h

/-- Claim C13, as stated, fails: tearing down the sample space with one page
in each ownership object, `pmap_destroy` gives the top-level page back before
it deallocates the ownership objects, not after. -/
theorem pmap_destroy_anchor_before_objects :
    ∃ s' m', pmap_destroy sample_env 4 sample_owned sample_mp 1 = Outcome.returned s' m' ∧
      m'.trace = [Event.zfree_pmap 1, Event.ledger_dereference 0,
        Event.vm_object_deallocate [(0, 4)], Event.vm_object_deallocate [(0, 3)],
        Event.vm_object_deallocate [(0, 2)], Event.zfree_anchor 0x1000,
        Event.mfence, Event.tlb_invalid_local 2, Event.signal_cpu 1, Event.mfence,
        Event.tlb_invalid_local 1, Event.update_tlbs 1 0 0xFFFFFFFFFFFFF000] ∧
      happens_before (Event.zfree_anchor 0x1000) (Event.vm_object_deallocate [(0, 2)]) m'.trace
        = true ∧
      happens_before (Event.vm_object_deallocate [(0, 2)]) (Event.zfree_anchor 0x1000) m'.trace
        = false := by
  have h : (match pmap_destroy sample_env 4 sample_owned sample_mp 1 with
      | Outcome.returned _ m' => decide (m'.trace = [Event.zfree_pmap 1, Event.ledger_dereference 0,
        Event.vm_object_deallocate [(0, 4)], Event.vm_object_deallocate [(0, 3)],
        Event.vm_object_deallocate [(0, 2)], Event.zfree_anchor 0x1000,
        Event.mfence, Event.tlb_invalid_local 2, Event.signal_cpu 1, Event.mfence,
        Event.tlb_invalid_local 1, Event.update_tlbs 1 0 0xFFFFFFFFFFFFF000])
      | _ => false) = true := by decide
  generalize pmap_destroy sample_env 4 sample_owned sample_mp 1 = o at h
  cases o with
  | returned s' m' =>
    simp only [decide_eq_true_eq] at h
    refine ⟨s', m', rfl, h, ?_, ?_⟩
    · rw [h]; decide
    · rw [h]; decide
  | panicked m' => cases h
  | timeout => cases h

/-- Claim C13, amended: when `pmap_destroy` tears a space down (count reaching
zero, assertion on the current thread passed), the effects of a call that
returns occur in this order: first the TLB shootdown over
`[0, 0xFFFFFFFFFFFFF000)` of the space (request, signals and local flush, none
of which releases memory), then the release of the top-level table page, then
the deallocation of the three ownership objects (top, upper, middle level) with
the table-level pages they hold, then the ledger dereference, and last the
release of the pmap structure; every page of the ownership objects is freed. The
call returns whenever the shootdown does. -/
theorem pmap_destroy_teardown_order (env : Env) (fuel : Nat) (s : State) (m : Mp) (p : Nat)
    (hp : p ≠ PMAP_NULL) (hc : (s.pmaps p).ref_count - 1 = 0)
    (hassert : ¬ (s.PMAP_ASSERT = true ∧ m.current_thread_pmap = some p)) :
    (∀ s' m', pmap_destroy env fuel s m p = Outcome.returned s' m' →
      (∃ shoot, m'.trace =
          Event.zfree_pmap p :: Event.ledger_dereference (s.pmaps p).ledger ::
          Event.vm_object_deallocate (s.pmaps p).pm_obj ::
          Event.vm_object_deallocate (s.pmaps p).pm_obj_pdpt ::
          Event.vm_object_deallocate (s.pmaps p).pm_obj_pml4 ::
          Event.zfree_anchor (s.pmaps p).pm_cr3 ::
          (shoot ++ Event.update_tlbs p 0 0xFFFFFFFFFFFFF000 :: m.trace) ∧
        ∀ e ∈ shoot, e.is_release = false) ∧
      s'.freed = (s.pmaps p).pm_obj.map Prod.snd ++ ((s.pmaps p).pm_obj_pdpt.map Prod.snd ++
        ((s.pmaps p).pm_obj_pml4.map Prod.snd ++ s.freed))) ∧
    (∀ m1, pmap_flush_tlbs env fuel
        (set_pmap s p { (s.pmaps p) with ref_count := (s.pmaps p).ref_count - 1 })
        (m.log (Event.update_tlbs p 0 0xFFFFFFFFFFFFF000)) p 0 0xFFFFFFFFFFFFF000 =
          Outcome.returned () m1 →
      ∃ s' m', pmap_destroy env fuel s m p = Outcome.returned s' m') := by
  rw [pmap_destroy_last env fuel s m p hp hc hassert]
  constructor
  · intro s' m' h
    generalize hf : pmap_flush_tlbs env fuel
        (set_pmap s p { (s.pmaps p) with ref_count := (s.pmaps p).ref_count - 1 })
        (m.log (Event.update_tlbs p 0 0xFFFFFFFFFFFFF000)) p 0 0xFFFFFFFFFFFFF000 = o at h
    cases o with
    | returned u m1 =>
      simp only [] at h
      injection h with h1 h2
      subst h1 h2
      obtain ⟨-, -, -, -, -, t6, -, -, t9⟩ := pmap_destroy_teardown_state
        (PMAP_UPDATE_TLBS
          (set_pmap s p { (s.pmaps p) with ref_count := (s.pmaps p).ref_count - 1 })
          p 0 0xFFFFFFFFFFFFF000)
        (if s.pmap_pcid_ncpus ≠ 0 then m1.log (Event.destroy_pcid_sync p) else m1) p
      have hd := pmap_destroy_decremented s p
      rw [t6, t9, hd]
      refine ⟨?_, rfl⟩
      have hma := pmap_flush_tlbs_returned_assert env fuel _ _ p 0 0xFFFFFFFFFFFFF000 m1 hf
      obtain ⟨nm, htr, -, -, hnil⟩ :=
        pmap_flush_tlbs_trace env fuel _ _ p 0 0xFFFFFFFFFFFFF000 hma m1 (Or.inl hf)
      rw [hnil hf, List.nil_append] at htr
      refine ⟨(if s.pmap_pcid_ncpus ≠ 0 then [Event.destroy_pcid_sync p] else []) ++
        (flush_self_events
            (set_pmap s p { (s.pmaps p) with ref_count := (s.pmaps p).ref_count - 1 }) p
            (m.log (Event.update_tlbs p 0 0xFFFFFFFFFFFFF000)).cpu_number
            (pmap_flush_tlbs_scanned
              (set_pmap s p { (s.pmaps p) with ref_count := (s.pmaps p).ref_count - 1 })
              (m.log (Event.update_tlbs p 0 0xFFFFFFFFFFFFF000)) p).2.1 ++
          (scan_events
              (set_pmap s p { (s.pmaps p) with ref_count := (s.pmaps p).ref_count - 1 }) p
              (m.log (Event.update_tlbs p 0 0xFFFFFFFFFFFFF000)).cpus
              (m.log (Event.update_tlbs p 0 0xFFFFFFFFFFFFF000)).cpu_number
              (m.log (Event.update_tlbs p 0 0xFFFFFFFFFFFFF000)).real_ncpus 0 ++
            flush_enter_events
              (set_pmap s p { (s.pmaps p) with ref_count := (s.pmaps p).ref_count - 1 }) p)),
        ?_, ?_⟩
      · have hm3 : (if s.pmap_pcid_ncpus ≠ 0 then m1.log (Event.destroy_pcid_sync p)
            else m1).trace =
            (if s.pmap_pcid_ncpus ≠ 0 then [Event.destroy_pcid_sync p] else []) ++ m1.trace := by
          split <;> rfl
        rw [hm3, htr]
        simp only [Mp.log, List.append_assoc, List.cons_append, List.nil_append]
      · intro e he
        simp only [List.mem_append] at he
        rcases he with h | h | h | h
        · split at h
          · simp only [List.mem_singleton] at h
            subst h; rfl
          · cases h
        · rcases mem_flush_self_events _ _ _ _ _ h with h | h | h <;> subst h <;> rfl
        · obtain ⟨c, -, -, hc⟩ := (mem_scan_events _ _ _ _ _ _ _).1 h
          obtain ⟨-, -, hc | hc | ⟨hc, -⟩⟩ := mem_scan_cpu_events _ _ _ _ _ _ hc
          · subst hc; rfl
          · rcases flush_mark_event_cases
              (set_pmap s p { (s.pmaps p) with ref_count := (s.pmaps p).ref_count - 1 }) p c
              with h' | h' <;> rw [hc, h'] <;> rfl
          · subst hc; rfl
        · rcases mem_flush_enter_events _ _ _ h with h | h <;> subst h <;> rfl
    | panicked m1 => cases h
    | timeout => cases h
  · intro m1 h
    rw [h]
    exact ⟨_, _, rfl⟩

theorem pmap_destroy_teardown_order_witness :
    ((1 : Nat) ≠ PMAP_NULL ∧ (sample_owned.pmaps 1).ref_count - 1 = 0 ∧
      ¬ (sample_owned.PMAP_ASSERT = true ∧ sample_mp.current_thread_pmap = some 1)) ∧
    ((∀ s' m', pmap_destroy sample_env 4 sample_owned sample_mp 1 = Outcome.returned s' m' →
      (∃ shoot, m'.trace =
          Event.zfree_pmap 1 :: Event.ledger_dereference (sample_owned.pmaps 1).ledger ::
          Event.vm_object_deallocate (sample_owned.pmaps 1).pm_obj ::
          Event.vm_object_deallocate (sample_owned.pmaps 1).pm_obj_pdpt ::
          Event.vm_object_deallocate (sample_owned.pmaps 1).pm_obj_pml4 ::
          Event.zfree_anchor (sample_owned.pmaps 1).pm_cr3 ::
          (shoot ++ Event.update_tlbs 1 0 0xFFFFFFFFFFFFF000 :: sample_mp.trace) ∧
        ∀ e ∈ shoot, e.is_release = false) ∧
      s'.freed = (sample_owned.pmaps 1).pm_obj.map Prod.snd ++
        ((sample_owned.pmaps 1).pm_obj_pdpt.map Prod.snd ++
          ((sample_owned.pmaps 1).pm_obj_pml4.map Prod.snd ++ sample_owned.freed))) ∧
    (∀ m1, pmap_flush_tlbs sample_env 4
        (set_pmap sample_owned 1
          { (sample_owned.pmaps 1) with ref_count := (sample_owned.pmaps 1).ref_count - 1 })
        (sample_mp.log (Event.update_tlbs 1 0 0xFFFFFFFFFFFFF000)) 1 0 0xFFFFFFFFFFFFF000 =
          Outcome.returned () m1 →
      ∃ s' m', pmap_destroy sample_env 4 sample_owned sample_mp 1 = Outcome.returned s' m')) :=
  ⟨⟨by decide, by decide, by decide⟩,
    pmap_destroy_teardown_order sample_env 4 sample_owned sample_mp 1 (by decide) (by decide)
      (by decide)⟩

/-- Claim C14, as stated, fails: with `pmap_assert` compiled in, processor 1 of
the sample is running with the root of the sample space as its active root
and as its task root, and `pmap_destroy` of that space still goes through the
teardown: the top-level page and the pmap structure are released. -/
theorem pmap_destroy_active_elsewhere :
    sample_owned.PMAP_ASSERT = true ∧
    (sample_mp.cpus 1).cpu_running = true ∧
    (sample_mp.cpus 1).cpu_active_cr3 = (sample_owned.pmaps 1).pm_cr3 ∧
    (sample_mp.cpus 1).cpu_task_cr3 = (sample_owned.pmaps 1).pm_cr3 ∧
    ∃ s' m', pmap_destroy sample_env 4 sample_owned sample_mp 1 = Outcome.returned s' m' ∧
      s'.pmap_zone = [1, 3] ∧ s'.pmap_anchor_zone = [0x1000, 0xA000] ∧
      Event.zfree_pmap 1 ∈ m'.trace := by
  refine ⟨rfl, rfl, rfl, rfl, ?_⟩
  have h : (match pmap_destroy sample_env 4 sample_owned sample_mp 1 with
      | Outcome.returned s' m' => decide (s'.pmap_zone = [1, 3]) &&
          decide (s'.pmap_anchor_zone = [0x1000, 0xA000]) &&
          decide (Event.zfree_pmap 1 ∈ m'.trace)
      | _ => false) = true := by decide
  generalize pmap_destroy sample_env 4 sample_owned sample_mp 1 = o at h
  cases o with
  | returned s' m' =>
    simp only [Bool.and_eq_true, decide_eq_true_eq] at h
    exact ⟨s', m', rfl, h.1.1, h.1.2, h.2⟩
  | panicked m' => cases h
  | timeout => cases h

/-- Claim C14, amended: with `pmap_assert` compiled in, `pmap_destroy` of a
non-null space fails fatally, before any shootdown or release, whenever the
space is the pmap of the current thread's map; the active and task roots of the
processors are not checked: when the current thread's map is another space and
the count reaches zero, the call tears the space down as soon as the shootdown
returns, whatever roots the processors hold. -/
theorem pmap_destroy_checks_current_thread (env : Env) (fuel : Nat) (s : State) (m : Mp)
    (p : Nat) (hp : p ≠ PMAP_NULL) (hassert : s.PMAP_ASSERT = true) :
    (m.current_thread_pmap = some p → pmap_destroy env fuel s m p = Outcome.panicked m) ∧
    (m.current_thread_pmap ≠ some p → (s.pmaps p).ref_count - 1 = 0 →
      ∀ m1, pmap_flush_tlbs env fuel
          (set_pmap s p { (s.pmaps p) with ref_count := (s.pmaps p).ref_count - 1 })
          (m.log (Event.update_tlbs p 0 0xFFFFFFFFFFFFF000)) p 0 0xFFFFFFFFFFFFF000 =
            Outcome.returned () m1 →
        ∃ s' m', pmap_destroy env fuel s m p = Outcome.returned s' m' ∧
          s'.pmap_zone = p :: s.pmap_zone ∧
          s'.pmap_anchor_zone = (s.pmaps p).pm_cr3 :: s.pmap_anchor_zone ∧
          Event.zfree_pmap p ∈ m'.trace) := by
  constructor
  · intro hcur
    unfold pmap_destroy
    rw [if_neg hp]
    simp only []
    rw [if_pos ⟨hassert, hcur⟩]
  · intro hcur hc m1 hf
    rw [pmap_destroy_last env fuel s m p hp hc (fun h => hcur h.2), hf]
    refine ⟨_, _, rfl, ?_⟩
    obtain ⟨-, -, t3, -, -, -, -, t8, t9⟩ := pmap_destroy_teardown_state
        (PMAP_UPDATE_TLBS
          (set_pmap s p { (s.pmaps p) with ref_count := (s.pmaps p).ref_count - 1 })
          p 0 0xFFFFFFFFFFFFF000)
        (if s.pmap_pcid_ncpus ≠ 0 then m1.log (Event.destroy_pcid_sync p) else m1) p
    have hd := pmap_destroy_decremented s p
    rw [t3, t8, t9, hd]
    refine ⟨rfl, rfl, ?_⟩
    simp

theorem pmap_destroy_checks_current_thread_witness :
    ((1 : Nat) ≠ PMAP_NULL ∧ sample_owned.PMAP_ASSERT = true) ∧
    ((sample_mp.current_thread_pmap = some 1 →
      pmap_destroy sample_env 4 sample_owned sample_mp 1 = Outcome.panicked sample_mp) ∧
    (sample_mp.current_thread_pmap ≠ some 1 → (sample_owned.pmaps 1).ref_count - 1 = 0 →
      ∀ m1, pmap_flush_tlbs sample_env 4
          (set_pmap sample_owned 1
            { (sample_owned.pmaps 1) with ref_count := (sample_owned.pmaps 1).ref_count - 1 })
          (sample_mp.log (Event.update_tlbs 1 0 0xFFFFFFFFFFFFF000)) 1 0 0xFFFFFFFFFFFFF000 =
            Outcome.returned () m1 →
        ∃ s' m', pmap_destroy sample_env 4 sample_owned sample_mp 1 = Outcome.returned s' m' ∧
          s'.pmap_zone = 1 :: sample_owned.pmap_zone ∧
          s'.pmap_anchor_zone = (sample_owned.pmaps 1).pm_cr3 :: sample_owned.pmap_anchor_zone ∧
          Event.zfree_pmap 1 ∈ m'.trace)) :=
  ⟨⟨by decide, rfl⟩,
    pmap_destroy_checks_current_thread sample_env 4 sample_owned sample_mp 1 (by decide) rfl⟩

/-- Claim C15, as stated, fails: in an initialised module, frame 5 is not
marked managed and `pmap_verify_free` returns FALSE for it. -/
theorem pmap_verify_free_unmanaged_false :
    sample_pv.managed 5 = false ∧
    pmap_verify_free sample_state sample_pv 5 = Result.ret false sample_state :=
  ⟨rfl, rfl⟩

/-- Claim C15, amended: for a physical frame that is not marked managed (and
is not the fictitious address where `assert` checks it), `pmap_verify_free`
returns TRUE exactly when the module is not yet initialised or the frame is the
guard-page address, and FALSE in every other state; it changes nothing. -/
theorem pmap_verify_free_unmanaged (s : State) (pv : PvState) (pn : Nat)
    (hm : pv.managed pn = false)
    (hassert : s.MACH_ASSERT = true → pn ≠ pv.vm_page_fictitious_addr) :
    pmap_verify_free s pv pn =
      Result.ret (decide (pv.pmap_initialized = false ∨ pn = pv.vm_page_guard_addr)) s := by
  unfold pmap_verify_free
  rw [if_neg (fun h => hassert h.1 h.2)]
  by_cases hi : pv.pmap_initialized = false
  · rw [if_pos hi]
    simp [hi]
  · rw [if_neg hi]
    by_cases hg : pn = pv.vm_page_guard_addr
    · rw [if_pos hg]
      simp [hg]
    · rw [if_neg hg, if_pos hm]
      simp [hi, hg]

theorem pmap_verify_free_unmanaged_witness :
    (sample_pv.managed 5 = false ∧
      (sample_state.MACH_ASSERT = true → 5 ≠ sample_pv.vm_page_fictitious_addr)) ∧
    pmap_verify_free sample_state sample_pv 5 =
      Result.ret (decide (sample_pv.pmap_initialized = false ∨ 5 = sample_pv.vm_page_guard_addr))
        sample_state :=
  ⟨⟨rfl, fun _ => by decide⟩,
    pmap_verify_free_unmanaged sample_state sample_pv 5 rfl (fun _ => by decide)⟩

/-- Claim C16, as stated, fails: on the sample processors, for the user space
of root 0x1000, processor 2 is running, is not the invoker and has the root as
its task root, its pending flag is set by `pmap_flush_tlbs`, and yet it is sent
no interrupt (its active root is marked inactive); processor 1 is. -/
theorem pmap_flush_tlbs_marks_without_signal :
    (sample_mp.cpus 2).cpu_running = true ∧ 2 ≠ sample_mp.cpu_number ∧ 2 < sample_mp.real_ncpus ∧
    (sample_state.pmaps 1).pm_cr3 = (sample_mp.cpus 2).cpu_task_cr3 ∧
    ∃ m', pmap_flush_tlbs sample_env 4 sample_state sample_mp 1 0 0x1000 = Outcome.returned () m' ∧
      m'.trace = [Event.mfence, Event.tlb_invalid_local 2,
        Event.signal_cpu 1, Event.mfence, Event.tlb_invalid_local 1] ∧
      Event.signal_cpu 2 ∉ m'.trace := by
  refine ⟨rfl, by decide, by decide, rfl,
    cpu_pauses sample_env 2 (pmap_flush_tlbs_signalled sample_state sample_mp 1), rfl, rfl, ?_⟩
  show Event.signal_cpu 2 ∉ [Event.mfence, Event.tlb_invalid_local 2,
        Event.signal_cpu 1, Event.mfence, Event.tlb_invalid_local 1]
  decide

/-- Claim C16, amended: in `pmap_flush_tlbs` (entry assertion passed), for every
processor other than the invoker that is running and matches the space (its
active root or its task root is the root of the space, or the space is the
kernel pmap or flagged shared), the pending flag is set when the scan is done:
the global sub-flag when PCID is in effect and the space is shared, the local
one otherwise.  The store is in the trace of any call that ended; the
processor is sent the interrupt exactly when moreover its active root is marked
active and the root of the space is its active or task root or the space is
flagged shared, and then the store and a fence precede the signal. -/
theorem pmap_flush_tlbs_marks_and_signals (env : Env) (fuel : Nat) (s : State) (m : Mp)
    (pmap startv endv cpu : Nat)
    (hassert : s.MACH_ASSERT = true → pmap_flush_tlbs_assert m = true)
    (hcpu : cpu < m.real_ncpus) (hother : cpu ≠ m.cpu_number)
    (hrun : (m.cpus cpu).cpu_running = true)
    (hmatch : (s.pmaps pmap).pm_cr3 = (m.cpus cpu).cpu_active_cr3 ∨
      (s.pmaps pmap).pm_cr3 = (m.cpus cpu).cpu_task_cr3 ∨ pmap_is_shared s pmap = true) :
    ((s.pmap_pcid_ncpus ≠ 0 ∧ pmap_is_shared s pmap = true →
        ((pmap_flush_tlbs_scanned s m pmap).2.2.cpus cpu).cpu_tlb_invalid_global = true) ∧
      (¬ (s.pmap_pcid_ncpus ≠ 0 ∧ pmap_is_shared s pmap = true) →
        ((pmap_flush_tlbs_scanned s m pmap).2.2.cpus cpu).cpu_tlb_invalid_local = true)) ∧
    ∀ m', (pmap_flush_tlbs env fuel s m pmap startv endv = Outcome.returned () m' ∨
        pmap_flush_tlbs env fuel s m pmap startv endv = Outcome.panicked m') →
      ∃ evs, m'.trace = evs ++ m.trace ∧
        (if s.pmap_pcid_ncpus ≠ 0 ∧ pmap_is_shared s pmap = true
          then Event.tlb_invalid_global cpu else Event.tlb_invalid_local cpu) ∈ evs ∧
        (Event.signal_cpu cpu ∈ evs ↔
          ((m.cpus cpu).cpu_cr3_is_active = true ∧
            ((s.pmaps pmap).pm_cr3 = (m.cpus cpu).cpu_active_cr3 ∨
              (s.pmaps pmap).pm_shared = true ∨
              (s.pmaps pmap).pm_cr3 = (m.cpus cpu).cpu_task_cr3))) ∧
        (Event.signal_cpu cpu ∈ evs → ∃ post pre, evs = post ++
          (Event.signal_cpu cpu :: Event.mfence ::
            (if s.pmap_pcid_ncpus ≠ 0 ∧ pmap_is_shared s pmap = true
              then Event.tlb_invalid_global cpu else Event.tlb_invalid_local cpu) :: pre)) := by
  have hm : flush_matches s pmap (m.cpus cpu) = true :=
    (flush_matches_iff s pmap _).2 ⟨hrun, by tauto⟩
  have hmark : flush_mark_event s pmap cpu =
      (if s.pmap_pcid_ncpus ≠ 0 ∧ pmap_is_shared s pmap = true
        then Event.tlb_invalid_global cpu else Event.tlb_invalid_local cpu) := by
    unfold flush_mark_event
    by_cases hg : s.pmap_pcid_ncpus ≠ 0 ∧ pmap_is_shared s pmap = true
    · rw [if_pos ((flush_global_iff s pmap).2 hg), if_pos hg]
    · rw [if_neg (fun h => hg ((flush_global_iff s pmap).1 h)), if_neg hg]
  constructor
  · rw [pmap_flush_tlbs_scanned_cpus, if_pos ⟨hcpu, hother, hm⟩]
    unfold flush_marked
    constructor
    · intro hg
      rw [if_pos ((flush_global_iff s pmap).2 hg)]
    · intro hg
      rw [if_neg (fun h => hg ((flush_global_iff s pmap).1 h))]
  · intro m' hout
    obtain ⟨nm, htr, -, hnm, -⟩ := pmap_flush_tlbs_trace env fuel s m pmap startv endv hassert m' hout
    rw [← hmark]
    have hsigmem : ∀ evs0 : List Event, Event.signal_cpu cpu ∈
        nm ++ (flush_self_events s pmap m.cpu_number (pmap_flush_tlbs_scanned s m pmap).2.1 ++
          (scan_events s pmap m.cpus m.cpu_number m.real_ncpus 0 ++ evs0)) →
        Event.signal_cpu cpu ∈ evs0 ∨ flush_signals s pmap (m.cpus cpu) = true := by
      intro evs0 h
      simp only [List.mem_append] at h
      rcases h with h | h | h | h
      · obtain ⟨c, hc, -⟩ := hnm _ h
        cases hc
      · rcases mem_flush_self_events _ _ _ _ _ h with h | h | h <;> cases h
      · obtain ⟨c, -, -, hc⟩ := (mem_scan_events _ _ _ _ _ _ _).1 h
        obtain ⟨-, -, hc | hc | ⟨hc, hs⟩⟩ := mem_scan_cpu_events _ _ _ _ _ _ hc
        · cases hc
        · rcases flush_mark_event_cases s pmap c with e | e <;> rw [e] at hc <;> cases hc
        · injection hc with hc
          subst hc
          exact Or.inr hs
      · exact Or.inl h
    have hev : scan_cpu_events s pmap m.cpus m.cpu_number cpu =
        if flush_signals s pmap (m.cpus cpu) = true then
          [Event.signal_cpu cpu, Event.mfence, flush_mark_event s pmap cpu]
        else [Event.mfence, flush_mark_event s pmap cpu] := by
      unfold scan_cpu_events
      rw [if_pos ⟨hother, hm⟩]
    obtain ⟨post, pre, hsplit⟩ := scan_events_split s pmap m.cpus m.cpu_number cpu m.real_ncpus 0
      (Nat.zero_le _) (by omega)
    refine ⟨nm ++ (flush_self_events s pmap m.cpu_number (pmap_flush_tlbs_scanned s m pmap).2.1 ++
      (scan_events s pmap m.cpus m.cpu_number m.real_ncpus 0 ++ flush_enter_events s pmap)),
      ?_, ?_, ?_, ?_⟩
    · rw [htr]; simp only [List.append_assoc]
    · simp only [List.mem_append]
      right; right; left
      rw [hsplit, hev]
      simp only [List.mem_append]
      right; left
      split <;> simp
    · constructor
      · intro h
        rcases hsigmem _ h with h | h
        · rcases mem_flush_enter_events _ _ _ h with h | h <;> cases h
        · exact (flush_signals_iff s pmap _).1 h
      · intro h
        have hs := (flush_signals_iff s pmap _).2 h
        simp only [List.mem_append]
        right; right; left
        rw [hsplit, hev, if_pos hs]
        simp
    · intro h
      have hs : flush_signals s pmap (m.cpus cpu) = true := by
        rcases hsigmem _ h with h | h
        · rcases mem_flush_enter_events _ _ _ h with h | h <;> cases h
        · exact h
      rw [hsplit, hev, if_pos hs]
      refine ⟨nm ++ (flush_self_events s pmap m.cpu_number (pmap_flush_tlbs_scanned s m pmap).2.1
        ++ post), pre ++ flush_enter_events s pmap, ?_⟩
      simp only [List.append_assoc, List.cons_append, List.nil_append]

theorem pmap_flush_tlbs_marks_and_signals_witness :
    ((sample_state.MACH_ASSERT = true → pmap_flush_tlbs_assert sample_mp = true) ∧
      1 < sample_mp.real_ncpus ∧ 1 ≠ sample_mp.cpu_number ∧
      (sample_mp.cpus 1).cpu_running = true ∧
      ((sample_state.pmaps 1).pm_cr3 = (sample_mp.cpus 1).cpu_active_cr3 ∨
        (sample_state.pmaps 1).pm_cr3 = (sample_mp.cpus 1).cpu_task_cr3 ∨
        pmap_is_shared sample_state 1 = true)) ∧
    (((sample_state.pmap_pcid_ncpus ≠ 0 ∧ pmap_is_shared sample_state 1 = true →
        ((pmap_flush_tlbs_scanned sample_state sample_mp 1).2.2.cpus 1).cpu_tlb_invalid_global
          = true) ∧
      (¬ (sample_state.pmap_pcid_ncpus ≠ 0 ∧ pmap_is_shared sample_state 1 = true) →
        ((pmap_flush_tlbs_scanned sample_state sample_mp 1).2.2.cpus 1).cpu_tlb_invalid_local
          = true)) ∧
    ∀ m', (pmap_flush_tlbs sample_env 4 sample_state sample_mp 1 0 0x1000 = Outcome.returned () m' ∨
        pmap_flush_tlbs sample_env 4 sample_state sample_mp 1 0 0x1000 = Outcome.panicked m') →
      ∃ evs, m'.trace = evs ++ sample_mp.trace ∧
        (if sample_state.pmap_pcid_ncpus ≠ 0 ∧ pmap_is_shared sample_state 1 = true
          then Event.tlb_invalid_global 1 else Event.tlb_invalid_local 1) ∈ evs ∧
        (Event.signal_cpu 1 ∈ evs ↔
          ((sample_mp.cpus 1).cpu_cr3_is_active = true ∧
            ((sample_state.pmaps 1).pm_cr3 = (sample_mp.cpus 1).cpu_active_cr3 ∨
              (sample_state.pmaps 1).pm_shared = true ∨
              (sample_state.pmaps 1).pm_cr3 = (sample_mp.cpus 1).cpu_task_cr3))) ∧
        (Event.signal_cpu 1 ∈ evs → ∃ post pre, evs = post ++
          (Event.signal_cpu 1 :: Event.mfence ::
            (if sample_state.pmap_pcid_ncpus ≠ 0 ∧ pmap_is_shared sample_state 1 = true
              then Event.tlb_invalid_global 1 else Event.tlb_invalid_local 1) :: pre))) :=
  ⟨⟨by decide, by decide, by decide, rfl, Or.inl rfl⟩,
    pmap_flush_tlbs_marks_and_signals sample_env 4 sample_state sample_mp 1 0 0x1000 1
      (by decide) (by decide) (by decide) rfl (Or.inl rfl)⟩

/-- Claim C18: with at most 32 processors in use (the width of `cpu_bit`),
`pmap_flush_tlbs` returns normally only after every processor it signalled has
been observed, at one of the pauses made after the signals and before the
return, with its pending flag clear, or not running, or with its active root
marked inactive; and while a signalled processor satisfies none of these at
every pause, no amount of fuel makes the call return. -/
theorem pmap_flush_tlbs_caller_synchronous (env : Env) (s : State) (m : Mp)
    (pmap startv endv : Nat) (hncpus : m.real_ncpus ≤ 32) :
    (∀ fuel m', pmap_flush_tlbs env fuel s m pmap startv endv = Outcome.returned () m' →
      ∀ evs, m'.trace = evs ++ m.trace → ∀ cpu, Event.signal_cpu cpu ∈ evs →
        ∃ j, m.tick + j < m'.tick ∧
          cpu_acked ((cpu_pauses env j (pmap_flush_tlbs_signalled s m pmap)).cpus cpu)) ∧
    (∀ cpu, cpu < m.real_ncpus → cpu ≠ m.cpu_number → (m.cpus cpu).cpu_running = true →
      (m.cpus cpu).cpu_cr3_is_active = true →
      ((s.pmaps pmap).pm_cr3 = (m.cpus cpu).cpu_active_cr3 ∨ (s.pmaps pmap).pm_shared = true ∨
        (s.pmaps pmap).pm_cr3 = (m.cpus cpu).cpu_task_cr3) →
      (∀ j, ¬ cpu_acked ((cpu_pauses env j (pmap_flush_tlbs_signalled s m pmap)).cpus cpu)) →
      ∀ fuel m', pmap_flush_tlbs env fuel s m pmap startv endv ≠ Outcome.returned () m') := by
  constructor
  · intro fuel m' hret evs hevs cpu hmem
    have hassert := pmap_flush_tlbs_returned_assert env fuel s m pmap startv endv m' hret
    obtain ⟨nm, htr, -, -, hnil⟩ :=
      pmap_flush_tlbs_trace env fuel s m pmap startv endv hassert m' (Or.inl hret)
    rw [hnil hret, List.nil_append, hevs] at htr
    have hevs' : evs = flush_self_events s pmap m.cpu_number
          (pmap_flush_tlbs_scanned s m pmap).2.1 ++
        (scan_events s pmap m.cpus m.cpu_number m.real_ncpus 0 ++ flush_enter_events s pmap) := by
      have h2 : evs ++ m.trace = (flush_self_events s pmap m.cpu_number
            (pmap_flush_tlbs_scanned s m pmap).2.1 ++
          (scan_events s pmap m.cpus m.cpu_number m.real_ncpus 0 ++ flush_enter_events s pmap))
          ++ m.trace := by
        rw [htr]; simp only [List.append_assoc]
      exact List.append_cancel_right h2
    rw [hevs'] at hmem
    simp only [List.mem_append] at hmem
    have hsig : cpu < m.real_ncpus ∧ cpu ≠ m.cpu_number ∧
        flush_matches s pmap (m.cpus cpu) = true ∧ flush_signals s pmap (m.cpus cpu) = true := by
      rcases hmem with h | h | h
      · rcases mem_flush_self_events _ _ _ _ _ h with h | h | h <;> cases h
      · obtain ⟨c, -, hc2, hc⟩ := (mem_scan_events _ _ _ _ _ _ _).1 h
        obtain ⟨hne, hm, hc | hc | ⟨hc, hs⟩⟩ := mem_scan_cpu_events _ _ _ _ _ _ hc
        · cases hc
        · rcases flush_mark_event_cases s pmap c with e | e <;> rw [e] at hc <;> cases hc
        · injection hc with hc
          subst hc
          exact ⟨by omega, hne, hm, hs⟩
      · rcases mem_flush_enter_events _ _ _ h with h | h <;> cases h
    have hbit : (pmap_flush_tlbs_scanned s m pmap).1.testBit cpu = true :=
      (pmap_flush_tlbs_scanned_sig s m pmap cpu).2 ⟨by omega, hsig.1, hsig.2.1, hsig.2.2.1, hsig.2.2.2⟩
    obtain ⟨k, hk, hall⟩ := pmap_flush_tlbs_returned env fuel s m pmap startv endv m' hret
    obtain ⟨j, hjk, hj⟩ := hall cpu hbit (by omega)
    refine ⟨j, ?_, hj⟩
    rw [hk, (cpu_pauses_frame env k _).2.2.2.2, pmap_flush_tlbs_signalled_eq]
    show m.tick + j < (pmap_flush_tlbs_scanned s m pmap).2.2.tick + k
    rw [(pmap_flush_tlbs_scanned_frame s m pmap).2.2.1]
    omega
  · intro cpu hcpu hother hrun hact hroot hstuck fuel m' hret
    have hm : flush_matches s pmap (m.cpus cpu) = true := by
      rw [flush_matches_iff]
      refine ⟨hrun, ?_⟩
      rcases hroot with h | h | h
      · exact Or.inr (Or.inl h)
      · right; right
        unfold pmap_is_shared; rw [h]; rfl
      · exact Or.inl h
    have hs : flush_signals s pmap (m.cpus cpu) = true :=
      (flush_signals_iff s pmap _).2 ⟨hact, hroot⟩
    have hbit : (pmap_flush_tlbs_scanned s m pmap).1.testBit cpu = true :=
      (pmap_flush_tlbs_scanned_sig s m pmap cpu).2 ⟨by omega, hcpu, hother, hm, hs⟩
    obtain ⟨k, -, hall⟩ := pmap_flush_tlbs_returned env fuel s m pmap startv endv m' hret
    obtain ⟨j, -, hj⟩ := hall cpu hbit (by omega)
    exact hstuck j hj

theorem pmap_flush_tlbs_caller_synchronous_witness :
    sample_mp.real_ncpus ≤ 32 ∧
    ((∀ fuel m', pmap_flush_tlbs sample_env fuel sample_state sample_mp 1 0 0x1000 =
        Outcome.returned () m' →
      ∀ evs, m'.trace = evs ++ sample_mp.trace → ∀ cpu, Event.signal_cpu cpu ∈ evs →
        ∃ j, sample_mp.tick + j < m'.tick ∧
          cpu_acked ((cpu_pauses sample_env j
            (pmap_flush_tlbs_signalled sample_state sample_mp 1)).cpus cpu)) ∧
    (∀ cpu, cpu < sample_mp.real_ncpus → cpu ≠ sample_mp.cpu_number →
      (sample_mp.cpus cpu).cpu_running = true →
      (sample_mp.cpus cpu).cpu_cr3_is_active = true →
      ((sample_state.pmaps 1).pm_cr3 = (sample_mp.cpus cpu).cpu_active_cr3 ∨
        (sample_state.pmaps 1).pm_shared = true ∨
        (sample_state.pmaps 1).pm_cr3 = (sample_mp.cpus cpu).cpu_task_cr3) →
      (∀ j, ¬ cpu_acked ((cpu_pauses sample_env j
        (pmap_flush_tlbs_signalled sample_state sample_mp 1)).cpus cpu)) →
      ∀ fuel m', pmap_flush_tlbs sample_env fuel sample_state sample_mp 1 0 0x1000 ≠
        Outcome.returned () m')) :=
  ⟨by decide, pmap_flush_tlbs_caller_synchronous sample_env sample_state sample_mp 1 0 0x1000
    (by decide)⟩

/-- Claim C19: at a pass of the wait loop of `pmap_flush_tlbs` that leaves
processors unacknowledged with the deadline passed, when machine timeouts are
not suspended the loop never returns normally from there: it records the
timeout, sends a non-maskable interrupt to exactly the processors still in
`cpus_to_respond` (nothing else is added to the trace) and panics, as soon as
the clock ends the spin of `pmap_cpuset_NMIPI`; when machine timeouts are
suspended it goes on waiting with the same set.  A call of `pmap_flush_tlbs`
that returns normally has sent no non-maskable interrupt and has not recorded a
timeout. -/
theorem pmap_flush_tlbs_deadline_escalation (env : Env) (deadline fuel r : Nat) (m : Mp)
    (hr : r ≠ 0)
    (hleft : (pmap_flush_tlbs_acks env m.real_ncpus 0 r m).1 ≠ 0)
    (hlate : env.mach_absolute_time (pmap_flush_tlbs_acks env m.real_ncpus 0 r m).2.tick >
      deadline) :
    (env.machine_timeout_suspended (pmap_flush_tlbs_acks env m.real_ncpus 0 r m).2.tick = false →
      (∀ m', pmap_flush_tlbs_wait env deadline (fuel + 1) r m ≠ Outcome.returned () m') ∧
      (∀ m', pmap_flush_tlbs_wait env deadline (fuel + 1) r m = Outcome.panicked m' →
        m'.pmap_tlb_flush_timeout = true ∧
        ∃ evs, m'.trace = evs ++ m.trace ∧
          (∀ e, e ∈ evs ↔ ∃ c, e = Event.NMI_interrupt c ∧ c < m.real_ncpus ∧
            (pmap_flush_tlbs_acks env m.real_ncpus 0 r m).1 &&& cpu_bit c ≠ 0)) ∧
      ((∃ k, k < fuel ∧ ¬ (env.mach_absolute_time
          ((pmap_flush_tlbs_acks env m.real_ncpus 0 r m).2.tick + k) <
          (env.mach_absolute_time (pmap_flush_tlbs_acks env m.real_ncpus 0 r m).2.tick +
            env.LockTimeOut) % 2 ^ 64)) →
        ∃ m', pmap_flush_tlbs_wait env deadline (fuel + 1) r m = Outcome.panicked m')) ∧
    (env.machine_timeout_suspended (pmap_flush_tlbs_acks env m.real_ncpus 0 r m).2.tick = true →
      pmap_flush_tlbs_wait env deadline (fuel + 1) r m =
        pmap_flush_tlbs_wait env deadline fuel (pmap_flush_tlbs_acks env m.real_ncpus 0 r m).1
          (pmap_flush_tlbs_acks env m.real_ncpus 0 r m).2) ∧
    (∀ s m0 pmap startv endv mF,
      pmap_flush_tlbs env fuel s m0 pmap startv endv = Outcome.returned () mF →
      mF.pmap_tlb_flush_timeout = m0.pmap_tlb_flush_timeout ∧
      ∀ evs, mF.trace = evs ++ m0.trace → ∀ c, Event.NMI_interrupt c ∉ evs) := by
  obtain ⟨k, hk, -, -⟩ := pmap_flush_tlbs_acks_spec env m.real_ncpus 0 r m
  have hfr := cpu_pauses_frame env k m
  have hunf : ∀ (hsus : env.machine_timeout_suspended
      (pmap_flush_tlbs_acks env m.real_ncpus 0 r m).2.tick = false),
      pmap_flush_tlbs_wait env deadline (fuel + 1) r m =
        match pmap_cpuset_NMIPI env fuel (pmap_flush_tlbs_acks env m.real_ncpus 0 r m).1
          { (pmap_flush_tlbs_acks env m.real_ncpus 0 r m).2 with pmap_tlb_flush_timeout := true } with
        | none => Outcome.timeout
        | some m3 => Outcome.panicked m3 := by
    intro hsus
    rw [pmap_flush_tlbs_wait, if_pos hr]
    simp only []
    rw [if_pos ⟨hleft, hlate⟩, hsus]
    simp only [Bool.false_eq_true, if_false]
  refine ⟨?_, ?_, ?_⟩
  · intro hsus
    refine ⟨?_, ?_, ?_⟩
    · intro m' h
      rw [hunf hsus] at h
      split at h <;> cases h
    · intro m' h
      rw [hunf hsus] at h
      split at h
      · cases h
      · rename_i m3 hnm
        injection h with h
        subst h
        unfold pmap_cpuset_NMIPI at hnm
        simp only [] at hnm
        obtain ⟨j, hj⟩ := pmap_cpuset_NMIPI_spin_pauses env _ _ _ _ hnm
        rw [pmap_cpuset_NMIPI_send_eq] at hj
        have hfj := cpu_pauses_frame env j
          { ({ (pmap_flush_tlbs_acks env m.real_ncpus 0 r m).2 with
              pmap_tlb_flush_timeout := true } : Mp) with
            trace := nmi_events (pmap_flush_tlbs_acks env m.real_ncpus 0 r m).1 0
              ({ (pmap_flush_tlbs_acks env m.real_ncpus 0 r m).2 with
                pmap_tlb_flush_timeout := true } : Mp).real_ncpus ++
              ({ (pmap_flush_tlbs_acks env m.real_ncpus 0 r m).2 with
                pmap_tlb_flush_timeout := true } : Mp).trace }
        rw [← hj] at hfj
        refine ⟨hfj.2.2.2.1, nmi_events (pmap_flush_tlbs_acks env m.real_ncpus 0 r m).1 0
          m.real_ncpus, ?_, ?_⟩
        · rw [hfj.1]
          show nmi_events _ 0 (pmap_flush_tlbs_acks env m.real_ncpus 0 r m).2.real_ncpus ++
            (pmap_flush_tlbs_acks env m.real_ncpus 0 r m).2.trace = _
          rw [hk, hfr.1, hfr.2.1]
        · intro e
          exact mem_nmi_events _ _ e
    · intro hclock
      rw [hunf hsus]
      unfold pmap_cpuset_NMIPI
      simp only []
      obtain ⟨m', hm'⟩ := pmap_cpuset_NMIPI_spin_terminates env
        ((env.mach_absolute_time (pmap_cpuset_NMIPI_send
            ({ (pmap_flush_tlbs_acks env m.real_ncpus 0 r m).2 with
              pmap_tlb_flush_timeout := true } : Mp).real_ncpus 0
            (pmap_flush_tlbs_acks env m.real_ncpus 0 r m).1
            { (pmap_flush_tlbs_acks env m.real_ncpus 0 r m).2 with
              pmap_tlb_flush_timeout := true }).tick + env.LockTimeOut) % 2 ^ 64)
        fuel
        (pmap_cpuset_NMIPI_send
            ({ (pmap_flush_tlbs_acks env m.real_ncpus 0 r m).2 with
              pmap_tlb_flush_timeout := true } : Mp).real_ncpus 0
            (pmap_flush_tlbs_acks env m.real_ncpus 0 r m).1
            { (pmap_flush_tlbs_acks env m.real_ncpus 0 r m).2 with
              pmap_tlb_flush_timeout := true })
        (by rw [pmap_cpuset_NMIPI_send_eq]; exact hclock)
      rw [hm']
      exact ⟨m', rfl⟩
  · intro hsus
    rw [pmap_flush_tlbs_wait, if_pos hr]
    simp only []
    rw [if_pos ⟨hleft, hlate⟩, if_pos hsus]
  · intro s m0 pmap startv endv mF hret
    have hassert := pmap_flush_tlbs_returned_assert env fuel s m0 pmap startv endv mF hret
    obtain ⟨nm, htr, -, -, hnil⟩ :=
      pmap_flush_tlbs_trace env fuel s m0 pmap startv endv hassert mF (Or.inl hret)
    obtain ⟨k', hk', -⟩ := pmap_flush_tlbs_returned env fuel s m0 pmap startv endv mF hret
    constructor
    · rw [hk', (cpu_pauses_frame env k' _).2.2.2.1, pmap_flush_tlbs_signalled_eq]
      exact (pmap_flush_tlbs_scanned_frame s m0 pmap).2.2.2
    · intro evs hevs c hmem
      rw [hnil hret, List.nil_append, hevs] at htr
      have hevs' : evs = flush_self_events s pmap m0.cpu_number
            (pmap_flush_tlbs_scanned s m0 pmap).2.1 ++
          (scan_events s pmap m0.cpus m0.cpu_number m0.real_ncpus 0 ++
            flush_enter_events s pmap) := by
        have h2 : evs ++ m0.trace = (flush_self_events s pmap m0.cpu_number
              (pmap_flush_tlbs_scanned s m0 pmap).2.1 ++
            (scan_events s pmap m0.cpus m0.cpu_number m0.real_ncpus 0 ++
              flush_enter_events s pmap)) ++ m0.trace := by
          rw [htr]; simp only [List.append_assoc]
        exact List.append_cancel_right h2
      rw [hevs'] at hmem
      simp only [List.mem_append] at hmem
      rcases hmem with h | h | h
      · rcases mem_flush_self_events _ _ _ _ _ h with h | h | h <;> cases h
      · obtain ⟨c', -, -, hc⟩ := (mem_scan_events _ _ _ _ _ _ _).1 h
        obtain ⟨-, -, hc | hc | ⟨hc, -⟩⟩ := mem_scan_cpu_events _ _ _ _ _ _ hc
        · cases hc
        · rcases flush_mark_event_cases s pmap c' with e | e <;> rw [e] at hc <;> cases hc
        · cases hc
      · rcases mem_flush_enter_events _ _ _ h with h | h <;> cases h

theorem pmap_flush_tlbs_deadline_escalation_witness :
    ((2 : Nat) ≠ 0 ∧
      (pmap_flush_tlbs_acks stuck_env (pmap_flush_tlbs_signalled sample_state sample_mp 1).real_ncpus
        0 2 (pmap_flush_tlbs_signalled sample_state sample_mp 1)).1 ≠ 0 ∧
      stuck_env.mach_absolute_time (pmap_flush_tlbs_acks stuck_env
        (pmap_flush_tlbs_signalled sample_state sample_mp 1).real_ncpus 0 2
        (pmap_flush_tlbs_signalled sample_state sample_mp 1)).2.tick > 5) ∧
    ((stuck_env.machine_timeout_suspended (pmap_flush_tlbs_acks stuck_env
        (pmap_flush_tlbs_signalled sample_state sample_mp 1).real_ncpus 0 2
        (pmap_flush_tlbs_signalled sample_state sample_mp 1)).2.tick = false →
      (∀ m', pmap_flush_tlbs_wait stuck_env 5 (12 + 1) 2
        (pmap_flush_tlbs_signalled sample_state sample_mp 1) ≠ Outcome.returned () m') ∧
      (∀ m', pmap_flush_tlbs_wait stuck_env 5 (12 + 1) 2
          (pmap_flush_tlbs_signalled sample_state sample_mp 1) = Outcome.panicked m' →
        m'.pmap_tlb_flush_timeout = true ∧
        ∃ evs, m'.trace = evs ++ (pmap_flush_tlbs_signalled sample_state sample_mp 1).trace ∧
          (∀ e, e ∈ evs ↔ ∃ c, e = Event.NMI_interrupt c ∧
            c < (pmap_flush_tlbs_signalled sample_state sample_mp 1).real_ncpus ∧
            (pmap_flush_tlbs_acks stuck_env
              (pmap_flush_tlbs_signalled sample_state sample_mp 1).real_ncpus 0 2
              (pmap_flush_tlbs_signalled sample_state sample_mp 1)).1 &&& cpu_bit c ≠ 0)) ∧
      ((∃ k, k < 12 ∧ ¬ (stuck_env.mach_absolute_time
          ((pmap_flush_tlbs_acks stuck_env
            (pmap_flush_tlbs_signalled sample_state sample_mp 1).real_ncpus 0 2
            (pmap_flush_tlbs_signalled sample_state sample_mp 1)).2.tick + k) <
          (stuck_env.mach_absolute_time (pmap_flush_tlbs_acks stuck_env
            (pmap_flush_tlbs_signalled sample_state sample_mp 1).real_ncpus 0 2
            (pmap_flush_tlbs_signalled sample_state sample_mp 1)).2.tick +
            stuck_env.LockTimeOut) % 2 ^ 64)) →
        ∃ m', pmap_flush_tlbs_wait stuck_env 5 (12 + 1) 2
          (pmap_flush_tlbs_signalled sample_state sample_mp 1) = Outcome.panicked m')) ∧
    (stuck_env.machine_timeout_suspended (pmap_flush_tlbs_acks stuck_env
        (pmap_flush_tlbs_signalled sample_state sample_mp 1).real_ncpus 0 2
        (pmap_flush_tlbs_signalled sample_state sample_mp 1)).2.tick = true →
      pmap_flush_tlbs_wait stuck_env 5 (12 + 1) 2
          (pmap_flush_tlbs_signalled sample_state sample_mp 1) =
        pmap_flush_tlbs_wait stuck_env 5 12
          (pmap_flush_tlbs_acks stuck_env
            (pmap_flush_tlbs_signalled sample_state sample_mp 1).real_ncpus 0 2
            (pmap_flush_tlbs_signalled sample_state sample_mp 1)).1
          (pmap_flush_tlbs_acks stuck_env
            (pmap_flush_tlbs_signalled sample_state sample_mp 1).real_ncpus 0 2
            (pmap_flush_tlbs_signalled sample_state sample_mp 1)).2) ∧
    (∀ s m0 pmap startv endv mF,
      pmap_flush_tlbs stuck_env 12 s m0 pmap startv endv = Outcome.returned () mF →
      mF.pmap_tlb_flush_timeout = m0.pmap_tlb_flush_timeout ∧
      ∀ evs, mF.trace = evs ++ m0.trace → ∀ c, Event.NMI_interrupt c ∉ evs)) :=
  ⟨⟨by decide, by decide, by decide⟩,
    pmap_flush_tlbs_deadline_escalation stuck_env 5 12 2
      (pmap_flush_tlbs_signalled sample_state sample_mp 1) (by decide) (by decide) (by decide)⟩

/-- Claim C20: `process_pmap_updates` (its assertion passed) returns, and then
both sub-flags of the pending-invalidation flag of the executing processor are
clear, the records of the other processors and the rest of its own record are as
before, the call has made exactly one TLB flush, on the executing processor,
which is the global flush exactly when PCID is in effect and the global
sub-flag was set on entry, and the processor satisfies the acknowledgement
test of the wait loop of `pmap_flush_tlbs`: a pass of that loop over it drops
it from `cpus_to_respond`. -/
theorem process_pmap_updates_acknowledges (s : State) (m : Mp)
    (hassert : s.PMAP_ASSERT = true →
      (m.interrupts_enabled = false ∨ m.preemption_level ≠ 0)) :
    ∃ m', process_pmap_updates s m = Outcome.returned () m' ∧
      (m'.cpus m.cpu_number).cpu_tlb_invalid_local = false ∧
      (m'.cpus m.cpu_number).cpu_tlb_invalid_global = false ∧
      (m'.cpus m.cpu_number).cpu_running = (m.cpus m.cpu_number).cpu_running ∧
      (m'.cpus m.cpu_number).cpu_active_cr3 = (m.cpus m.cpu_number).cpu_active_cr3 ∧
      (m'.cpus m.cpu_number).cpu_cr3_is_active = (m.cpus m.cpu_number).cpu_cr3_is_active ∧
      (m'.cpus m.cpu_number).cpu_task_cr3 = (m.cpus m.cpu_number).cpu_task_cr3 ∧
      (∀ c, c ≠ m.cpu_number → m'.cpus c = m.cpus c) ∧
      (∃ evs, m'.trace = evs ++ m.trace ∧
        evs.filter Event.is_tlb_flush =
          [if s.pmap_pcid_ncpus ≠ 0 ∧ (m.cpus m.cpu_number).cpu_tlb_invalid_global = true
            then Event.tlb_flush_global m.cpu_number else Event.flush_tlb_raw m.cpu_number]) ∧
      ((m'.cpus m.cpu_number).cpu_running = false ∨
        (m'.cpus m.cpu_number).cpu_tlb_invalid = false ∨
        (m'.cpus m.cpu_number).cpu_cr3_is_active = false) ∧
      (∀ env n r, m.cpu_number < 32 →
        (pmap_flush_tlbs_acks env (n + 1) m.cpu_number r m').1.testBit m.cpu_number = false) := by
  have ha : ¬ (s.PMAP_ASSERT = true ∧ ¬ (m.interrupts_enabled = false ∨ m.preemption_level ≠ 0)) :=
    fun h => h.2 (hassert h.1)
  have hacks : ∀ (m' : Mp), (m'.cpus m.cpu_number).cpu_tlb_invalid = false →
      ∀ (env : Env) (n r : Nat), m.cpu_number < 32 →
        (pmap_flush_tlbs_acks env (n + 1) m.cpu_number r m').1.testBit m.cpu_number = false := by
    intro m' hinv env n r h32
    cases hb : (pmap_flush_tlbs_acks env (n + 1) m.cpu_number r m').1.testBit m.cpu_number
    · rfl
    · exfalso
      unfold pmap_flush_tlbs_acks at hb
      by_cases hbit : r &&& cpu_bit m.cpu_number ≠ 0
      · rw [if_pos hbit, if_pos (Or.inr (Or.inl hinv))] at hb
        simp only [] at hb
        split at hb
        · rename_i hz
          rw [hz] at hb
          simp at hb
        · obtain ⟨-, -, hsub, -⟩ := pmap_flush_tlbs_acks_spec env n (m.cpu_number + 1)
            (r &&& (cpu_bit m.cpu_number ^^^ 0xFFFFFFFF)) (cpu_pause env m')
          have := hsub _ hb
          rw [testBit_clear_cpu_bit r m.cpu_number m.cpu_number h32] at this
          simp at this
      · rw [if_neg hbit] at hb
        have hrb : r.testBit m.cpu_number = true := by
          split at hb
          · exact hb
          · obtain ⟨-, -, hsub, -⟩ := pmap_flush_tlbs_acks_spec env n (m.cpu_number + 1) r m'
            exact hsub _ hb
        exact hbit ((and_cpu_bit_ne_zero r m.cpu_number).2 ⟨h32, hrb⟩)
  unfold process_pmap_updates
  simp only []
  rw [if_neg ha]
  by_cases hp : s.pmap_pcid_ncpus ≠ 0
  · rw [if_pos hp]
    by_cases hg : (m.cpus m.cpu_number).cpu_tlb_invalid_global = true
    · have hg' : ((m.log (Event.pcid_validate_current m.cpu_number)).cpus m.cpu_number).cpu_tlb_invalid_global
          = true := hg
      rw [if_pos hg']
      refine ⟨_, rfl, ?_, ?_, ?_, ?_, ?_, ?_, ?_, ?_, ?_, ?_⟩
      · simp [Mp.log]
      · simp [Mp.log]
      · simp [Mp.log]
      · simp [Mp.log]
      · simp [Mp.log]
      · simp [Mp.log]
      · intro c hc; simp [Mp.log, hc]
      · refine ⟨[Event.mfence, Event.tlb_flush_global m.cpu_number,
          Event.pcid_validate_current m.cpu_number], by simp [Mp.log], ?_⟩
        rw [if_pos ⟨hp, hg⟩]
        simp [List.filter, Event.is_tlb_flush]
      · right; left
        simp [Mp.log, cpu_data.cpu_tlb_invalid]
      · apply hacks
        simp [Mp.log, cpu_data.cpu_tlb_invalid]
    · have hg' : ¬ (((m.log (Event.pcid_validate_current m.cpu_number)).cpus
          m.cpu_number).cpu_tlb_invalid_global = true) := hg
      have hgf : (m.cpus m.cpu_number).cpu_tlb_invalid_global = false := by
        cases h : (m.cpus m.cpu_number).cpu_tlb_invalid_global
        · rfl
        · exact absurd h hg
      rw [if_neg hg']
      refine ⟨_, rfl, ?_, ?_, ?_, ?_, ?_, ?_, ?_, ?_, ?_, ?_⟩
      · simp [Mp.log]
      · simp [Mp.log, hgf]
      · simp [Mp.log]
      · simp [Mp.log]
      · simp [Mp.log]
      · simp [Mp.log]
      · intro c hc; simp [Mp.log, hc]
      · refine ⟨[Event.mfence, Event.flush_tlb_raw m.cpu_number,
          Event.pcid_validate_current m.cpu_number], by simp [Mp.log], ?_⟩
        rw [if_neg (fun h => hg h.2)]
        simp [List.filter, Event.is_tlb_flush]
      · right; left
        simp [Mp.log, cpu_data.cpu_tlb_invalid, hgf]
      · apply hacks
        simp [Mp.log, cpu_data.cpu_tlb_invalid, hgf]
  · rw [if_neg hp]
    refine ⟨_, rfl, ?_, ?_, ?_, ?_, ?_, ?_, ?_, ?_, ?_, ?_⟩
    · simp [Mp.log]
    · simp [Mp.log]
    · simp [Mp.log]
    · simp [Mp.log]
    · simp [Mp.log]
    · simp [Mp.log]
    · intro c hc; simp [Mp.log, hc]
    · refine ⟨[Event.mfence, Event.flush_tlb_raw m.cpu_number], by simp [Mp.log], ?_⟩
      rw [if_neg (fun h => hp h.1)]
      simp [List.filter, Event.is_tlb_flush]
    · right; left
      simp [Mp.log, cpu_data.cpu_tlb_invalid]
    · apply hacks
      simp [Mp.log, cpu_data.cpu_tlb_invalid]

theorem process_pmap_updates_acknowledges_witness :
    (sample_owned.PMAP_ASSERT = true →
      (sample_mp.interrupts_enabled = false ∨ sample_mp.preemption_level ≠ 0)) ∧
    ∃ m', process_pmap_updates sample_owned sample_mp = Outcome.returned () m' ∧
      (m'.cpus sample_mp.cpu_number).cpu_tlb_invalid_local = false ∧
      (m'.cpus sample_mp.cpu_number).cpu_tlb_invalid_global = false ∧
      (m'.cpus sample_mp.cpu_number).cpu_running = (sample_mp.cpus sample_mp.cpu_number).cpu_running ∧
      (m'.cpus sample_mp.cpu_number).cpu_active_cr3 =
        (sample_mp.cpus sample_mp.cpu_number).cpu_active_cr3 ∧
      (m'.cpus sample_mp.cpu_number).cpu_cr3_is_active =
        (sample_mp.cpus sample_mp.cpu_number).cpu_cr3_is_active ∧
      (m'.cpus sample_mp.cpu_number).cpu_task_cr3 =
        (sample_mp.cpus sample_mp.cpu_number).cpu_task_cr3 ∧
      (∀ c, c ≠ sample_mp.cpu_number → m'.cpus c = sample_mp.cpus c) ∧
      (∃ evs, m'.trace = evs ++ sample_mp.trace ∧
        evs.filter Event.is_tlb_flush =
          [if sample_owned.pmap_pcid_ncpus ≠ 0 ∧
              (sample_mp.cpus sample_mp.cpu_number).cpu_tlb_invalid_global = true
            then Event.tlb_flush_global sample_mp.cpu_number
            else Event.flush_tlb_raw sample_mp.cpu_number]) ∧
      ((m'.cpus sample_mp.cpu_number).cpu_running = false ∨
        (m'.cpus sample_mp.cpu_number).cpu_tlb_invalid = false ∨
        (m'.cpus sample_mp.cpu_number).cpu_cr3_is_active = false) ∧
      (∀ env n r, sample_mp.cpu_number < 32 →
        (pmap_flush_tlbs_acks env (n + 1) sample_mp.cpu_number r m').1.testBit
          sample_mp.cpu_number = false) :=
  ⟨fun _ => Or.inr (by decide),
    process_pmap_updates_acknowledges sample_owned sample_mp (fun _ => Or.inr (by decide))⟩

/-! ## Range marking, boot finalization and the permission audit: lemmas and claims -/

theorem pmap_protect_ptes_out (prot : Nat) (set_NX : Bool) :
    ∀ (n spte : Nat) (s : State) (nf a : Nat), (∀ k, k < n → a ≠ spte + 8 * k) →
      (pmap_protect_ptes prot set_NX n spte s nf).1.mem a = s.mem a := by
  intro n
  induction n with
  | zero => intro spte s nf a _; rfl
  | succ n ih =>
    intro spte s nf a h
    have h0 : a ≠ spte := by have := h 0 (by omega); simpa using this
    have hr : ∀ k, k < n → a ≠ spte + 8 + 8 * k := by
      intro k hk; have := h (k + 1) (by omega); omega
    by_cases hv : s.mem spte &&& INTEL_PTE_VALID = 0
    · simp only [pmap_protect_ptes, hv, if_true]
      exact ih _ _ _ _ hr
    · simp only [pmap_protect_ptes, hv, if_false]
      rw [pmap_protect_ptes_step_mem, ih _ _ _ _ hr]
      simp [pmap_store_pte, h0]

theorem pmap_protect_ptes_in (prot : Nat) (set_NX : Bool) :
    ∀ (n spte : Nat) (s : State) (nf k : Nat), k < n →
      (pmap_protect_ptes prot set_NX n spte s nf).1.mem (spte + 8 * k) =
        if s.mem (spte + 8 * k) &&& INTEL_PTE_VALID ≠ 0
        then protect_word prot set_NX (s.mem (spte + 8 * k)) else s.mem (spte + 8 * k) := by
  intro n
  induction n with
  | zero => intro spte s nf k hk; omega
  | succ n ih =>
    intro spte s nf k hk
    by_cases hv : s.mem spte &&& INTEL_PTE_VALID = 0
    · simp only [pmap_protect_ptes, hv, if_true]
      cases k with
      | zero =>
        rw [pmap_protect_ptes_out prot set_NX n (spte + 8) s nf (spte + 8 * 0)
          (by intro k _; omega)]
        simp [hv]
      | succ k =>
        have e : spte + 8 * (k + 1) = spte + 8 + 8 * k := by omega
        rw [e]
        exact ih (spte + 8) s nf k (by omega)
    · simp only [pmap_protect_ptes, hv, if_false]
      rw [pmap_protect_ptes_step_mem]
      cases k with
      | zero =>
        rw [pmap_protect_ptes_out prot set_NX n (spte + 8) _ (nf + 1) (spte + 8 * 0)
          (by intro k _; omega)]
        simp [pmap_store_pte, hv]
      | succ k =>
        have e : spte + 8 * (k + 1) = spte + 8 + 8 * k := by omega
        rw [e, ih (spte + 8) _ (nf + 1) k (by omega)]
        have hne : spte + 8 + 8 * k ≠ spte := by omega
        simp [pmap_store_pte, hne]

theorem protect_target_congr {s s1 : State} {map : Nat} (hm : SameWalk s.mem s1.mem)
    (hp : (s1.pmaps map).pm_cr3 = (s.pmaps map).pm_cr3) (lo hi a : Nat) :
    protect_target s1 map lo hi a ↔ protect_target s map lo hi a := by
  unfold protect_target
  constructor
  · rintro ⟨va, h1, h2, h3, h4⟩
    refine ⟨va, h1, h2, by rw [← pmap_pte_congr hm hp va]; exact h3, ?_⟩
    rcases h4 with ⟨h5, h6⟩ | h4
    · left
      refine ⟨by
        have := pmap64_pde_congr hm hp va
        unfold pmap_pde at h5 ⊢
        rw [← this]; exact h5, ?_⟩
      rw [← (hm a).2.1]; exact h6
    · right; exact h4
  · rintro ⟨va, h1, h2, h3, h4⟩
    refine ⟨va, h1, h2, by rw [pmap_pte_congr hm hp va]; exact h3, ?_⟩
    rcases h4 with ⟨h5, h6⟩ | h4
    · left
      refine ⟨by
        have := pmap64_pde_congr hm hp va
        unfold pmap_pde at h5 ⊢
        rw [this]; exact h5, ?_⟩
      rw [(hm a).2.1]; exact h6
    · right; exact h4

theorem protect_target_split (s : State) (map sva lva eva a : Nat) (h1 : sva ≤ lva)
    (h2 : lva ≤ eva) (h3 : lva % 4096 = 0 ∨ eva ≤ lva) :
    protect_target s map sva eva a ↔
      (protect_target s map sva lva a ∨ protect_target s map lva eva a) := by
  unfold protect_target
  constructor
  · rintro ⟨va, a1, a2, a3, a4⟩
    by_cases hin : va < lva
    · left
      refine ⟨va, a1, hin, a3, ?_⟩
      rcases a4 with a4 | ⟨a5, a6⟩
      · left; exact a4
      · right; simp only [PAGE_SIZE] at a5 a6 ⊢; omega
    · right
      exact ⟨va, by omega, a2, a3, a4⟩
  · rintro (⟨va, a1, a2, a3, a4⟩ | ⟨va, a1, a2, a3, a4⟩)
    · refine ⟨va, a1, by omega, a3, ?_⟩
      rcases a4 with a4 | ⟨a5, a6⟩
      · left; exact a4
      · right; exact ⟨a5, by omega⟩
    · exact ⟨va, by omega, a2, a3, a4⟩

theorem pmap_protect_loop_exact (map prot : Nat) (set_NX : Bool) (eva : Nat)
    (heva : eva ≤ 2 ^ 64 - 2097152) :
    ∀ (fuel sva : Nat) (s : State) (nf nf' : Nat) (s' : State), (sva % 4096 = 0 ∨ eva ≤ sva) →
      pmap_protect_loop map prot set_NX eva fuel sva s nf = Result.ret nf' s' →
      ∀ a, (protect_target s map sva eva a ∧ s.mem a &&& INTEL_PTE_VALID ≠ 0 ∧
              s'.mem a = protect_word prot set_NX (s.mem a)) ∨
           (¬ (protect_target s map sva eva a ∧ s.mem a &&& INTEL_PTE_VALID ≠ 0) ∧
              s'.mem a = s.mem a) := by
  intro fuel
  induction fuel with
  | zero => intro sva s nf nf' s' _ h; simp [pmap_protect_loop] at h
  | succ fuel ih =>
    intro sva s nf nf' s' hsa' h a
    unfold pmap_protect_loop at h
    by_cases hsva : sva < eva
    swap
    · simp only [hsva, if_false] at h
      injection h with _ h
      subst h
      right
      refine ⟨?_, rfl⟩
      rintro ⟨⟨va, h1, h2, _⟩, _⟩
      omega
    have hsa : sva % 4096 = 0 := by omega
    simp only [hsva, if_true] at h
    have hnw : sva + 2097152 < 2 ^ 64 := by omega
    have hlva := pmap_protect_lva_nowrap sva eva hnw
    have hl1 : pmap_protect_lva sva eva % 4096 = 0 ∨ eva ≤ pmap_protect_lva sva eva := by
      rw [hlva]; split <;> omega
    have hl2 : pmap_protect_lva sva eva ≤ (sva / 2097152 + 1) * 2097152 := by
      rw [hlva]; split <;> omega
    have hl3 : sva < pmap_protect_lva sva eva ∧ pmap_protect_lva sva eva ≤ eva := by
      rw [hlva]; split <;> omega
    have hstride : ∀ va, sva ≤ va → va < pmap_protect_lva sva eva →
        va / 2097152 = sva / 2097152 := by
      intro va h1 h2; omega
    -- composition of one stride with the rest of the loop
    have key : ∀ (s1 : State) (nf1 : Nat),
        s1 = { s with mem := s1.mem } → ProtRel prot set_NX s.mem s1.mem →
        ((protect_target s map sva (pmap_protect_lva sva eva) a ∧
            s.mem a &&& INTEL_PTE_VALID ≠ 0 ∧ s1.mem a = protect_word prot set_NX (s.mem a)) ∨
          (¬ (protect_target s map sva (pmap_protect_lva sva eva) a ∧
            s.mem a &&& INTEL_PTE_VALID ≠ 0) ∧ s1.mem a = s.mem a)) →
        pmap_protect_loop map prot set_NX eva fuel (pmap_protect_lva sva eva) s1 nf1
          = Result.ret nf' s' →
        (protect_target s map sva eva a ∧ s.mem a &&& INTEL_PTE_VALID ≠ 0 ∧
              s'.mem a = protect_word prot set_NX (s.mem a)) ∨
           (¬ (protect_target s map sva eva a ∧ s.mem a &&& INTEL_PTE_VALID ≠ 0) ∧
              s'.mem a = s.mem a) := by
      intro s1 nf1 e1 r1 hst hrun
      have hpm : (s1.pmaps map).pm_cr3 = (s.pmaps map).pm_cr3 := by rw [e1]
      have hw := protRel_sameWalk r1
      have hc := protect_target_congr hw hpm (pmap_protect_lva sva eva) eva a
      have hsp := protect_target_split s map sva (pmap_protect_lva sva eva) eva a
        (by omega) hl3.2 hl1
      have hval : s1.mem a &&& INTEL_PTE_VALID = s.mem a &&& INTEL_PTE_VALID := (hw a).1
      rcases ih _ s1 nf1 nf' s' hl1 hrun a with ⟨t1, v1, m1⟩ | ⟨n1, m1⟩
      · left
        rcases hst with ⟨t0, v0, m0⟩ | ⟨n0, m0⟩
        · refine ⟨hsp.2 (Or.inl t0), v0, ?_⟩
          rw [m1, m0, protect_word_idem]
        · refine ⟨hsp.2 (Or.inr (hc.1 t1)), by rw [← hval]; exact v1, ?_⟩
          rw [m1, m0]
      · rcases hst with ⟨t0, v0, m0⟩ | ⟨n0, m0⟩
        · left
          exact ⟨hsp.2 (Or.inl t0), v0, by rw [m1, m0]⟩
        · right
          refine ⟨?_, by rw [m1, m0]⟩
          rintro ⟨t, v⟩
          rcases hsp.1 t with t | t
          · exact n0 ⟨t, v⟩
          · exact n1 ⟨hc.2 t, by rw [hval]; exact v⟩
    have hnone : ∀ (hno : ∀ va, sva ≤ va → va < pmap_protect_lva sva eva →
        pmap_pte s map va = none),
        (protect_target s map sva (pmap_protect_lva sva eva) a ∧
            s.mem a &&& INTEL_PTE_VALID ≠ 0 ∧ s.mem a = protect_word prot set_NX (s.mem a)) ∨
          (¬ (protect_target s map sva (pmap_protect_lva sva eva) a ∧
            s.mem a &&& INTEL_PTE_VALID ≠ 0) ∧ s.mem a = s.mem a) := by
      intro hno
      right
      refine ⟨?_, rfl⟩
      rintro ⟨⟨va, h1, h2, h3, _⟩, _⟩
      rw [hno va h1 h2] at h3
      cases h3
    cases hpde : pmap_pde s map sva with
    | none =>
      simp only [hpde] at h
      refine key s nf rfl (protRel_refl _ _ _) (hnone ?_) h
      intro va h1 h2
      exact pmap_pte_none_of_pde (by
        rw [pmap_pde_same_stride s map va sva (hstride va h1 h2)]; exact hpde)
    | some pde =>
      simp only [hpde] at h
      have hpv : ∀ va, sva ≤ va → va < pmap_protect_lva sva eva →
          pmap_pde s map va = some pde := by
        intro va h1 h2
        rw [pmap_pde_same_stride s map va sva (hstride va h1 h2)]; exact hpde
      by_cases hv : s.mem pde &&& INTEL_PTE_VALID ≠ 0
      · rw [if_pos hv] at h
        by_cases hps : s.mem pde &&& INTEL_PTE_PS ≠ 0
        · rw [if_pos hps] at h
          obtain ⟨a1, a2, _, _⟩ := pmap_protect_ptes_spec prot set_NX 1 pde s nf
          refine key _ _ a1 a2 ?_ h
          by_cases hap : a = pde
          · subst hap
            left
            refine ⟨⟨sva, le_refl _, hl3.1, ?_, Or.inl ⟨hpde, hps⟩⟩, hv, ?_⟩
            · rw [pmap_pte_of_pde hpde, if_pos hv, if_pos hps]
            · have := pmap_protect_ptes_in prot set_NX 1 a s nf 0 (by omega)
              simpa [hv] using this
          · right
            refine ⟨?_, ?_⟩
            · rintro ⟨⟨va, h1, h2, h3, _⟩, _⟩
              rw [pmap_pte_of_pde (hpv va h1 h2), if_pos hv, if_pos hps] at h3
              injection h3 with h3
              exact hap h3.symm
            · exact pmap_protect_ptes_out prot set_NX 1 pde s nf a (by
                intro k hk; have : k = 0 := by omega
                subst this; simpa using hap)
        · rw [if_neg hps] at h
          have hal : sva &&& ((pde_mapped_size - 1) ^^^ UINT64_MAX) = sva / 2097152 * 2097152 :=
            align_down_eq sva (by omega)
          have hpte0 : pmap_pte s map (sva &&& ((pde_mapped_size - 1) ^^^ UINT64_MAX)) =
              some ((s.mem pde &&& PG_FRAME) +
                8 * (intel_btop (sva / 2097152 * 2097152) &&& (NPTEPG - 1))) := by
            rw [hal, pmap_pte_of_pde (by
              rw [pmap_pde_same_stride s map (sva / 2097152 * 2097152) sva (by omega)]; exact hpde),
              if_pos hv, if_neg hps]
          simp only [hpte0] at h
          obtain ⟨a1, a2, _, _⟩ := pmap_protect_ptes_spec prot set_NX
            (intel_btop ((pmap_protect_lva sva eva + 2 ^ 64 - sva) % 2 ^ 64))
            ((s.mem pde &&& PG_FRAME) +
                8 * (intel_btop (sva / 2097152 * 2097152) &&& (NPTEPG - 1)) + 8 * ptenum sva) s nf
          refine key _ _ a1 a2 ?_ h
          have hn : intel_btop ((pmap_protect_lva sva eva + 2 ^ 64 - sva) % 2 ^ 64) =
              (pmap_protect_lva sva eva - sva) / 4096 := by
            simp only [intel_btop, PTESHIFT, Nat.shiftRight_eq_div_pow]
            omega
          have haddr : ∀ va, va % 4096 = 0 → sva ≤ va → va < pmap_protect_lva sva eva →
              (s.mem pde &&& PG_FRAME) +
                8 * (intel_btop (sva / 2097152 * 2097152) &&& (NPTEPG - 1)) + 8 * ptenum sva
                + 8 * ((va - sva) / 4096)
              = (s.mem pde &&& PG_FRAME) + 8 * (intel_btop va &&& (NPTEPG - 1)) := by
            intro va _ _ _
            simp only [intel_btop, ptenum, PTESHIFT, Nat.shiftRight_eq_div_pow, and_NPTEPG]
            omega
          by_cases hex : ∃ k, k < (pmap_protect_lva sva eva - sva) / 4096 ∧
              a = (s.mem pde &&& PG_FRAME) +
                8 * (intel_btop (sva / 2097152 * 2097152) &&& (NPTEPG - 1)) + 8 * ptenum sva
                + 8 * k
          · obtain ⟨k, hk, hak⟩ := hex
            have hin := pmap_protect_ptes_in prot set_NX
              (intel_btop ((pmap_protect_lva sva eva + 2 ^ 64 - sva) % 2 ^ 64))
              ((s.mem pde &&& PG_FRAME) +
                8 * (intel_btop (sva / 2097152 * 2097152) &&& (NPTEPG - 1)) + 8 * ptenum sva)
              s nf k (by rw [hn]; exact hk)
            rw [← hak] at hin
            have hva1 : sva ≤ sva + 4096 * k := by omega
            have hva2 : sva + 4096 * k + 4096 ≤ pmap_protect_lva sva eva := by omega
            have htgt : protect_target s map sva (pmap_protect_lva sva eva) a := by
              refine ⟨sva + 4096 * k, hva1, by omega, ?_, Or.inr ⟨by simp only [PAGE_SIZE]; omega,
                by simp only [PAGE_SIZE]; omega⟩⟩
              rw [pmap_pte_of_pde (hpv _ hva1 (by omega)), if_pos hv, if_neg hps, hak,
                ← haddr (sva + 4096 * k) (by omega) hva1 (by omega)]
              congr 2
              omega
            by_cases hva : s.mem a &&& INTEL_PTE_VALID ≠ 0
            · left
              rw [if_pos hva] at hin
              exact ⟨htgt, hva, hin⟩
            · right
              rw [if_neg hva] at hin
              exact ⟨fun hc => hva hc.2, hin⟩
          · right
            refine ⟨?_, ?_⟩
            · rintro ⟨⟨va, h1, h2, h3, h4⟩, _⟩
              rw [pmap_pte_of_pde (hpv va h1 h2), if_pos hv, if_neg hps] at h3
              injection h3 with h3
              rcases h4 with ⟨h5, h6⟩ | ⟨h5, h6⟩
              · rw [hpv va h1 h2] at h5
                injection h5 with h5
                subst h5
                exact hps h6
              · simp only [PAGE_SIZE] at h5 h6
                apply hex
                refine ⟨(va - sva) / 4096, by omega, ?_⟩
                rw [haddr va h5 h1 h2]
                exact h3.symm
            · refine pmap_protect_ptes_out prot set_NX _ _ s nf a ?_
              intro k hk hak
              rw [hn] at hk
              exact hex ⟨k, hk, hak⟩
      · rw [if_neg hv] at h
        refine key s nf rfl (protRel_refl _ _ _) (hnone ?_) h
        intro va h1 h2
        rw [pmap_pte_of_pde (hpv va h1 h2), if_neg hv]

theorem pmap_protect_loop_ne_panic (map prot : Nat) (set_NX : Bool) (eva : Nat) :
    ∀ (fuel sva : Nat) (s : State) (nf : Nat), (sva < 2 ^ 64 ∨ eva ≤ sva) →
      pmap_protect_loop map prot set_NX eva fuel sva s nf ≠ Result.panic := by
  intro fuel
  induction fuel with
  | zero => intro sva s nf _ h; simp [pmap_protect_loop] at h
  | succ fuel ih =>
    intro sva s nf h64 h
    unfold pmap_protect_loop at h
    by_cases hsva : sva < eva
    swap
    · simp [hsva] at h
    have hs64 : sva < 2 ^ 64 := by omega
    have hl : pmap_protect_lva sva eva < 2 ^ 64 ∨ eva ≤ pmap_protect_lva sva eva := by
      unfold pmap_protect_lva
      simp only []
      split
      · right; exact le_refl _
      · left
        exact lt_of_le_of_lt Nat.and_le_left (Nat.mod_lt _ (by norm_num))
    simp only [hsva, if_true] at h
    cases hpde : pmap_pde s map sva with
    | none =>
      simp only [hpde] at h
      exact ih _ _ _ hl h
    | some pde =>
      simp only [hpde] at h
      by_cases hv : s.mem pde &&& INTEL_PTE_VALID ≠ 0
      · rw [if_pos hv] at h
        by_cases hps : s.mem pde &&& INTEL_PTE_PS ≠ 0
        · rw [if_pos hps] at h
          exact ih _ _ _ hl h
        · rw [if_neg hps] at h
          have hal : sva &&& ((pde_mapped_size - 1) ^^^ UINT64_MAX) = sva / 2097152 * 2097152 :=
            align_down_eq sva hs64
          have hpte0 : pmap_pte s map (sva &&& ((pde_mapped_size - 1) ^^^ UINT64_MAX)) =
              some ((s.mem pde &&& PG_FRAME) +
                8 * (intel_btop (sva / 2097152 * 2097152) &&& (NPTEPG - 1))) := by
            rw [hal, pmap_pte_of_pde (by
              rw [pmap_pde_same_stride s map (sva / 2097152 * 2097152) sva (by omega)]; exact hpde),
              if_pos hv, if_neg hps]
          simp only [hpte0] at h
          exact ih _ _ _ hl h
      · rw [if_neg hv] at h
        exact ih _ _ _ hl h

theorem pmap_protect_loop_top_timeout (map prot : Nat) (set_NX : Bool) (sva eva : Nat)
    (heva : 2 ^ 64 - 2097152 < eva) (hlt : sva < eva) (h64 : sva < 2 ^ 64) (fuel : Nat)
    (s : State) (nf : Nat) :
    pmap_protect_loop map prot set_NX eva fuel sva s nf = Result.timeout := by
  cases h : pmap_protect_loop map prot set_NX eva fuel sva s nf with
  | ret v st => exact absurd h (pmap_protect_loop_wrap_diverges map prot set_NX eva heva fuel sva s nf hlt h64 v st)
  | panic => exact absurd h (pmap_protect_loop_ne_panic map prot set_NX eva fuel sva s nf (Or.inl h64))
  | timeout => rfl

/-- Claim C29 fails at the top of the address space: for the range
`[0xFFFFFFFFFFE00000, 0xFFFFFFFFFFFFF000)`, which lies in the last 2 MiB
stride, the first iteration of the stride loop of `pmap_protect` computes
`lva = 0` (the 64-bit sum `sva + pde_mapped_size` wraps and the clamp
`if (lva > eva)` does not fire), a value smaller than `sva`, and the call on
the sample space does not return for any amount of fuel. -/
theorem pmap_protect_top_stride_never_returns :
    (0xFFFFFFFFFFE00000 : Nat) < 0xFFFFFFFFFFFFF000 ∧
    pmap_protect_lva 0xFFFFFFFFFFE00000 0xFFFFFFFFFFFFF000 = 0 ∧
    ∀ fuel, pmap_protect sample_remove fuel sample_state 1 0xFFFFFFFFFFE00000
      0xFFFFFFFFFFFFF000 VM_PROT_READ = Result.timeout := by
  refine ⟨by decide, pmap_protect_lva_wrap _ _ (by norm_num) (by norm_num), ?_⟩
  intro fuel
  unfold pmap_protect
  rw [if_neg (by decide), if_neg (by decide),
    pmap_protect_loop_top_timeout 1 VM_PROT_READ _ 0xFFFFFFFFFFE00000 0xFFFFFFFFFFFFF000
      (by norm_num) (by norm_num) (by norm_num) fuel sample_state 0]

/-- Claim C24, as stated, fails for a start that is not page-aligned: on the
sample space `pmap_protect (map, 0x2800, 0x4000, VM_PROT_READ | VM_PROT_EXECUTE)`
returns with the leaf entry of the page at 0x3000, which lies wholly inside
the range and is present and writable, unchanged, while the leaf entry of the
page at 0x2000, which starts outside the range, has lost its writable bit. -/
theorem pmap_protect_unaligned_skips_page :
    ∃ s', pmap_protect sample_remove 2 sample_state 1 0x2800 0x4000
        (VM_PROT_READ ||| VM_PROT_EXECUTE) = Result.ret () s' ∧
      pmap_pte sample_state 1 0x3000 = some 0x4018 ∧
      0x2800 ≤ 0x3000 ∧ 0x3000 + PAGE_SIZE ≤ 0x4000 ∧
      sample_state.mem 0x4018 &&& INTEL_PTE_VALID ≠ 0 ∧
      sample_state.mem 0x4018 &&& INTEL_PTE_WRITE ≠ 0 ∧
      s'.mem 0x4018 = sample_state.mem 0x4018 ∧
      pmap_pte sample_state 1 0x2000 = some 0x4010 ∧
      sample_state.mem 0x4010 = 0x6003 ∧ s'.mem 0x4010 = 0x6001 := by
  refine ⟨_, rfl, ?_, ?_, ?_, ?_, ?_, ?_, ?_, ?_, ?_⟩ <;> decide

/-- Claim C24, amended: for a non-null map, a page-aligned 64-bit `sva` and a
protection other than `VM_PROT_NONE`, when the stride loop of `pmap_protect`
has come to its end it has changed the word at `a` if and only if that word is
a valid entry that translates an address of `[sva, eva)` and is either the
large-page directory entry of that address or the leaf entry of a page lying
wholly inside `[sva, eva)`; such a word has become `protect_word` of its old
value, which differs from it at most in the writable bit (bit 1) and the
no-execute bit (bit 63) and has the same frame number.  Every other word
(invalid entries and the leaf entries of pages outside the range among them) is
unchanged.  This is the state of the page tables in every run that returns.
The stride loop does come to its end when `eva` is at most `2 ^ 64 - 2 ^ 21`;
what remains of the call is the shootdown. -/
theorem pmap_protect_updates_exactly (pmap_remove : State → Nat → Nat → Nat → Result Unit)
    (s : State) (map sva eva prot : Nat)
    (hmap : map ≠ PMAP_NULL) (hnone : prot ≠ VM_PROT_NONE)
    (hsva : sva % PAGE_SIZE = 0) (hs64 : sva < 2 ^ 64) :
    (∀ fuel s', pmap_protect pmap_remove fuel s map sva eva prot = Result.ret () s' →
      ∀ a, (protect_target s map sva eva a ∧ s.mem a &&& INTEL_PTE_VALID ≠ 0 ∧
              s'.mem a = protect_word prot (pmap_protect_set_NX s map prot) (s.mem a)) ∨
           (¬ (protect_target s map sva eva a ∧ s.mem a &&& INTEL_PTE_VALID ≠ 0) ∧
              s'.mem a = s.mem a)) ∧
    (∀ e i, i ≠ 1 → i ≠ 63 → i < 64 →
      (protect_word prot (pmap_protect_set_NX s map prot) e).testBit i = e.testBit i) ∧
    (∀ e, protect_word prot (pmap_protect_set_NX s map prot) e &&& PG_FRAME = e &&& PG_FRAME) ∧
    (eva ≤ 2 ^ 64 - 2 ^ 21 →
      ∃ nf s1, pmap_protect_loop map prot (pmap_protect_set_NX s map prot) eva
          (eva / 2 ^ 21 + 2) sva s 0 = Result.ret nf s1 ∧
        ∀ a, (protect_target s map sva eva a ∧ s.mem a &&& INTEL_PTE_VALID ≠ 0 ∧
                s1.mem a = protect_word prot (pmap_protect_set_NX s map prot) (s.mem a)) ∨
             (¬ (protect_target s map sva eva a ∧ s.mem a &&& INTEL_PTE_VALID ≠ 0) ∧
                s1.mem a = s.mem a)) := by
  have core : ∀ fuel nf s1,
      pmap_protect_loop map prot (pmap_protect_set_NX s map prot) eva fuel sva s 0
        = Result.ret nf s1 →
      ∀ a, (protect_target s map sva eva a ∧ s.mem a &&& INTEL_PTE_VALID ≠ 0 ∧
              s1.mem a = protect_word prot (pmap_protect_set_NX s map prot) (s.mem a)) ∨
           (¬ (protect_target s map sva eva a ∧ s.mem a &&& INTEL_PTE_VALID ≠ 0) ∧
              s1.mem a = s.mem a) := by
    intro fuel nf s1 hl a
    by_cases hlt : sva < eva
    · by_cases hbig : eva ≤ 2 ^ 64 - 2097152
      · exact pmap_protect_loop_exact map prot _ eva hbig fuel sva s 0 nf s1
          (Or.inl (by simpa [PAGE_SIZE] using hsva)) hl a
      · exact absurd hl (pmap_protect_loop_wrap_diverges map prot _ eva (by omega) fuel sva s 0
          hlt hs64 nf s1)
    · right
      cases fuel with
      | zero => simp [pmap_protect_loop] at hl
      | succ fuel =>
        unfold pmap_protect_loop at hl
        rw [if_neg hlt] at hl
        injection hl with _ hl
        subst hl
        refine ⟨?_, rfl⟩
        rintro ⟨⟨va, h1, h2, _⟩, _⟩
        omega
  refine ⟨?_, ?_, fun e => protect_word_frame _ _ e, ?_⟩
  · intro fuel s' hrun a
    obtain ⟨nf, s1, hl, hm, _, _, _⟩ := pmap_protect_ret_mem pmap_remove fuel s map sva eva
      prot s' hmap hnone hrun
    rw [hm]
    exact core fuel nf s1 hl a
  · intro e i h1 h63 h64
    rw [testBit_protect_word, if_neg h1, if_neg h63]
    simp [h64]
  · intro h
    obtain ⟨nf, s1, hl⟩ := pmap_protect_loop_terminates map prot
      (pmap_protect_set_NX s map prot) eva h (eva / 2 ^ 21 + 2) sva s 0 (by omega)
    exact ⟨nf, s1, hl, core _ nf s1 hl⟩

theorem pmap_protect_updates_exactly_witness :
    ((1 : Nat) ≠ PMAP_NULL ∧ VM_PROT_READ ≠ VM_PROT_NONE ∧ 0x2000 % PAGE_SIZE = 0 ∧
      0x2000 < 2 ^ 64 ∧ 0x4000 ≤ 2 ^ 64 - 2 ^ 21) ∧
    ((∀ fuel s', pmap_protect sample_remove fuel sample_state 1 0x2000 0x4000 VM_PROT_READ
          = Result.ret () s' →
      ∀ a, (protect_target sample_state 1 0x2000 0x4000 a ∧
              sample_state.mem a &&& INTEL_PTE_VALID ≠ 0 ∧
              s'.mem a = protect_word VM_PROT_READ
                (pmap_protect_set_NX sample_state 1 VM_PROT_READ) (sample_state.mem a)) ∨
           (¬ (protect_target sample_state 1 0x2000 0x4000 a ∧
              sample_state.mem a &&& INTEL_PTE_VALID ≠ 0) ∧
              s'.mem a = sample_state.mem a)) ∧
    (∀ e i, i ≠ 1 → i ≠ 63 → i < 64 →
      (protect_word VM_PROT_READ (pmap_protect_set_NX sample_state 1 VM_PROT_READ) e).testBit i
        = e.testBit i) ∧
    (∀ e, protect_word VM_PROT_READ (pmap_protect_set_NX sample_state 1 VM_PROT_READ) e
        &&& PG_FRAME = e &&& PG_FRAME) ∧
    ∃ nf s1, pmap_protect_loop 1 VM_PROT_READ (pmap_protect_set_NX sample_state 1 VM_PROT_READ)
        0x4000 (0x4000 / 2 ^ 21 + 2) 0x2000 sample_state 0 = Result.ret nf s1 ∧
      ∀ a, (protect_target sample_state 1 0x2000 0x4000 a ∧
              sample_state.mem a &&& INTEL_PTE_VALID ≠ 0 ∧
              s1.mem a = protect_word VM_PROT_READ
                (pmap_protect_set_NX sample_state 1 VM_PROT_READ) (sample_state.mem a)) ∨
           (¬ (protect_target sample_state 1 0x2000 0x4000 a ∧
              sample_state.mem a &&& INTEL_PTE_VALID ≠ 0) ∧
              s1.mem a = sample_state.mem a)) :=
  ⟨by decide,
    (pmap_protect_updates_exactly sample_remove sample_state 1 0x2000 0x4000 VM_PROT_READ
      (by decide) (by decide) (by decide) (by decide)).1,
    (pmap_protect_updates_exactly sample_remove sample_state 1 0x2000 0x4000 VM_PROT_READ
      (by decide) (by decide) (by decide) (by decide)).2.1,
    (pmap_protect_updates_exactly sample_remove sample_state 1 0x2000 0x4000 VM_PROT_READ
      (by decide) (by decide) (by decide) (by decide)).2.2.1,
    (pmap_protect_updates_exactly sample_remove sample_state 1 0x2000 0x4000 VM_PROT_READ
      (by decide) (by decide) (by decide) (by decide)).2.2.2 (by decide)⟩

/-! ## `pmap_protect`: write with execute, and the shootdown request -/

theorem pmap_protect_ptes_found (prot : Nat) (set_NX : Bool) :
    ∀ (n spte : Nat) (s : State) (nf : Nat),
      (nf < (pmap_protect_ptes prot set_NX n spte s nf).2 ↔
        ∃ k, k < n ∧ s.mem (spte + 8 * k) &&& INTEL_PTE_VALID ≠ 0) := by
  intro n
  induction n with
  | zero =>
    intro spte s nf
    simp [pmap_protect_ptes]
  | succ n ih =>
    intro spte s nf
    by_cases hv : s.mem spte &&& INTEL_PTE_VALID = 0
    · simp only [pmap_protect_ptes, hv, if_true]
      rw [ih (spte + 8) s nf]
      constructor
      · rintro ⟨k, hk, hkv⟩
        refine ⟨k + 1, by omega, ?_⟩
        have e : spte + 8 * (k + 1) = spte + 8 + 8 * k := by omega
        rw [e]; exact hkv
      · rintro ⟨k, hk, hkv⟩
        cases k with
        | zero => exact absurd hv hkv
        | succ k =>
          refine ⟨k, by omega, ?_⟩
          have e : spte + 8 * (k + 1) = spte + 8 + 8 * k := by omega
          rw [e] at hkv; exact hkv
    · simp only [pmap_protect_ptes, hv, if_false]
      rw [pmap_protect_ptes_step_mem]
      have h3 := (pmap_protect_ptes_spec prot set_NX n (spte + 8)
        (pmap_store_pte s spte (protect_word prot set_NX (s.mem spte))) (nf + 1)).2.2.1
      constructor
      · intro _
        exact ⟨0, by omega, hv⟩
      · intro _
        omega

theorem pmap_protect_loop_found (map prot : Nat) (set_NX : Bool) (eva : Nat)
    (heva : eva ≤ 2 ^ 64 - 2097152) :
    ∀ (fuel sva : Nat) (s : State) (nf nf' : Nat) (s' : State), (sva % 4096 = 0 ∨ eva ≤ sva) →
      pmap_protect_loop map prot set_NX eva fuel sva s nf = Result.ret nf' s' →
      (nf < nf' ↔ ∃ a, protect_target s map sva eva a ∧ s.mem a &&& INTEL_PTE_VALID ≠ 0) := by
  intro fuel
  induction fuel with
  | zero => intro sva s nf nf' s' _ h; simp [pmap_protect_loop] at h
  | succ fuel ih =>
    intro sva s nf nf' s' hsa' h
    unfold pmap_protect_loop at h
    by_cases hsva : sva < eva
    swap
    · simp only [hsva, if_false] at h
      injection h with h _
      subst h
      constructor
      · intro hc; omega
      · rintro ⟨a, ⟨va, h1, h2, _⟩, _⟩
        omega
    have hsa : sva % 4096 = 0 := by omega
    simp only [hsva, if_true] at h
    have hnw : sva + 2097152 < 2 ^ 64 := by omega
    have hlva := pmap_protect_lva_nowrap sva eva hnw
    have hl1 : pmap_protect_lva sva eva % 4096 = 0 ∨ eva ≤ pmap_protect_lva sva eva := by
      rw [hlva]; split <;> omega
    have hl2 : pmap_protect_lva sva eva ≤ (sva / 2097152 + 1) * 2097152 := by
      rw [hlva]; split <;> omega
    have hl3 : sva < pmap_protect_lva sva eva ∧ pmap_protect_lva sva eva ≤ eva := by
      rw [hlva]; split <;> omega
    have hstride : ∀ va, sva ≤ va → va < pmap_protect_lva sva eva →
        va / 2097152 = sva / 2097152 := by
      intro va h1 h2; omega
    -- composition of one stride with the rest of the loop
    have key : ∀ (s1 : State) (nf1 : Nat),
        s1 = { s with mem := s1.mem } → ProtRel prot set_NX s.mem s1.mem → nf ≤ nf1 →
        (nf < nf1 ↔ ∃ a, protect_target s map sva (pmap_protect_lva sva eva) a ∧
          s.mem a &&& INTEL_PTE_VALID ≠ 0) →
        pmap_protect_loop map prot set_NX eva fuel (pmap_protect_lva sva eva) s1 nf1
          = Result.ret nf' s' →
        (nf < nf' ↔ ∃ a, protect_target s map sva eva a ∧ s.mem a &&& INTEL_PTE_VALID ≠ 0) := by
      intro s1 nf1 e1 r1 hle hst hrun
      have hpm : (s1.pmaps map).pm_cr3 = (s.pmaps map).pm_cr3 := by rw [e1]
      have hw := protRel_sameWalk r1
      have hle' := (pmap_protect_loop_spec map prot set_NX eva fuel _ s1 nf1 nf' s' hrun).2.2.1
      have hrest := ih _ s1 nf1 nf' s' hl1 hrun
      constructor
      · intro hlt
        by_cases h1 : nf < nf1
        · obtain ⟨a, t, v⟩ := hst.1 h1
          exact ⟨a, (protect_target_split s map sva (pmap_protect_lva sva eva) eva a
            (by omega) hl3.2 hl1).2 (Or.inl t), v⟩
        · obtain ⟨a, t, v⟩ := hrest.1 (by omega)
          refine ⟨a, (protect_target_split s map sva (pmap_protect_lva sva eva) eva a
            (by omega) hl3.2 hl1).2 (Or.inr
              ((protect_target_congr hw hpm (pmap_protect_lva sva eva) eva a).1 t)), ?_⟩
          rw [← (hw a).1]; exact v
      · rintro ⟨a, t, v⟩
        rcases (protect_target_split s map sva (pmap_protect_lva sva eva) eva a
            (by omega) hl3.2 hl1).1 t with t | t
        · have := hst.2 ⟨a, t, v⟩
          omega
        · have := hrest.2 ⟨a, (protect_target_congr hw hpm (pmap_protect_lva sva eva) eva a).2 t,
            by rw [(hw a).1]; exact v⟩
          omega
    have hnone : (∀ va, sva ≤ va → va < pmap_protect_lva sva eva → pmap_pte s map va = none) →
        (nf < nf ↔ ∃ a, protect_target s map sva (pmap_protect_lva sva eva) a ∧
          s.mem a &&& INTEL_PTE_VALID ≠ 0) := by
      intro hno
      constructor
      · intro hc; omega
      · rintro ⟨a, ⟨va, h1, h2, h3, _⟩, _⟩
        rw [hno va h1 h2] at h3
        cases h3
    cases hpde : pmap_pde s map sva with
    | none =>
      simp only [hpde] at h
      refine key s nf rfl (protRel_refl _ _ _) (le_refl _) (hnone ?_) h
      intro va h1 h2
      exact pmap_pte_none_of_pde (by
        rw [pmap_pde_same_stride s map va sva (hstride va h1 h2)]; exact hpde)
    | some pde =>
      simp only [hpde] at h
      have hpv : ∀ va, sva ≤ va → va < pmap_protect_lva sva eva →
          pmap_pde s map va = some pde := by
        intro va h1 h2
        rw [pmap_pde_same_stride s map va sva (hstride va h1 h2)]; exact hpde
      by_cases hv : s.mem pde &&& INTEL_PTE_VALID ≠ 0
      · rw [if_pos hv] at h
        by_cases hps : s.mem pde &&& INTEL_PTE_PS ≠ 0
        · rw [if_pos hps] at h
          obtain ⟨a1, a2, a3, _⟩ := pmap_protect_ptes_spec prot set_NX 1 pde s nf
          refine key _ _ a1 a2 a3 ?_ h
          rw [pmap_protect_ptes_found]
          constructor
          · intro _
            refine ⟨pde, ⟨sva, le_refl _, hl3.1, ?_, Or.inl ⟨hpde, hps⟩⟩, hv⟩
            rw [pmap_pte_of_pde hpde, if_pos hv, if_pos hps]
          · intro _
            exact ⟨0, by omega, by simpa using hv⟩
        · rw [if_neg hps] at h
          have hal : sva &&& ((pde_mapped_size - 1) ^^^ UINT64_MAX) = sva / 2097152 * 2097152 :=
            align_down_eq sva (by omega)
          have hpte0 : pmap_pte s map (sva &&& ((pde_mapped_size - 1) ^^^ UINT64_MAX)) =
              some ((s.mem pde &&& PG_FRAME) +
                8 * (intel_btop (sva / 2097152 * 2097152) &&& (NPTEPG - 1))) := by
            rw [hal, pmap_pte_of_pde (by
              rw [pmap_pde_same_stride s map (sva / 2097152 * 2097152) sva (by omega)]; exact hpde),
              if_pos hv, if_neg hps]
          simp only [hpte0] at h
          obtain ⟨a1, a2, a3, _⟩ := pmap_protect_ptes_spec prot set_NX
            (intel_btop ((pmap_protect_lva sva eva + 2 ^ 64 - sva) % 2 ^ 64))
            ((s.mem pde &&& PG_FRAME) +
                8 * (intel_btop (sva / 2097152 * 2097152) &&& (NPTEPG - 1)) + 8 * ptenum sva) s nf
          refine key _ _ a1 a2 a3 ?_ h
          rw [pmap_protect_ptes_found]
          have hn : intel_btop ((pmap_protect_lva sva eva + 2 ^ 64 - sva) % 2 ^ 64) =
              (pmap_protect_lva sva eva - sva) / 4096 := by
            simp only [intel_btop, PTESHIFT, Nat.shiftRight_eq_div_pow]
            omega
          have haddr : ∀ va, va % 4096 = 0 → sva ≤ va → va < pmap_protect_lva sva eva →
              (s.mem pde &&& PG_FRAME) +
                8 * (intel_btop (sva / 2097152 * 2097152) &&& (NPTEPG - 1)) + 8 * ptenum sva
                + 8 * ((va - sva) / 4096)
              = (s.mem pde &&& PG_FRAME) + 8 * (intel_btop va &&& (NPTEPG - 1)) := by
            intro va _ _ _
            simp only [intel_btop, ptenum, PTESHIFT, Nat.shiftRight_eq_div_pow, and_NPTEPG]
            omega
          rw [hn]
          constructor
          · rintro ⟨k, hk, hkv⟩
            have hva1 : sva ≤ sva + 4096 * k := by omega
            have hva2 : sva + 4096 * k + 4096 ≤ pmap_protect_lva sva eva := by omega
            refine ⟨_, ⟨sva + 4096 * k, hva1, by omega, ?_, Or.inr ⟨by simp only [PAGE_SIZE]; omega,
                by simp only [PAGE_SIZE]; omega⟩⟩, hkv⟩
            rw [pmap_pte_of_pde (hpv _ hva1 (by omega)), if_pos hv, if_neg hps,
              ← haddr (sva + 4096 * k) (by omega) hva1 (by omega)]
            congr 2
            omega
          · rintro ⟨a, ⟨va, h1, h2, h3, h4⟩, hav⟩
            rw [pmap_pte_of_pde (hpv va h1 h2), if_pos hv, if_neg hps] at h3
            injection h3 with h3
            rcases h4 with ⟨h5, h6⟩ | ⟨h5, h6⟩
            · rw [hpv va h1 h2] at h5
              injection h5 with h5
              subst h5
              exact absurd h6 hps
            · simp only [PAGE_SIZE] at h5 h6
              refine ⟨(va - sva) / 4096, by omega, ?_⟩
              rw [haddr va h5 h1 h2, h3]
              exact hav
      · rw [if_neg hv] at h
        refine key s nf rfl (protRel_refl _ _ _) (le_refl _) (hnone ?_) h
        intro va h1 h2
        rw [pmap_pte_of_pde (hpv va h1 h2), if_neg hv]

/-- Claim C4, as stated, fails in two ways on the sample space (a user space
with no-execute enabled).  A request for read+write+execute over the page at
0x2000 returns with that page's entry present, writable and executable.  And
a request for read only over `[0x1800, 0x3000)`, a range that does not start on
a page boundary, returns with the entry of the page at 0x2000, which lies
wholly inside the range, still present, writable and executable. -/
theorem pmap_protect_leaves_wx :
    (1 : Nat) ≠ sample_state.kernel_pmap ∧ sample_state.nx_enabled = true ∧
    (sample_state.pmaps 1).nx_enabled = true ∧
    (∃ s', pmap_protect sample_remove 2 sample_state 1 0x2000 0x3000
        (VM_PROT_READ ||| VM_PROT_WRITE ||| VM_PROT_EXECUTE) = Result.ret () s' ∧
      pmap_pte s' 1 0x2000 = some 0x4010 ∧
      s'.mem 0x4010 &&& INTEL_PTE_VALID ≠ 0 ∧
      s'.mem 0x4010 &&& INTEL_PTE_WRITE ≠ 0 ∧
      s'.mem 0x4010 &&& INTEL_PTE_NX = 0) ∧
    (∃ s', pmap_protect sample_remove 2 sample_state 1 0x1800 0x3000 VM_PROT_READ
        = Result.ret () s' ∧
      0x1800 ≤ 0x2000 ∧ 0x2000 + PAGE_SIZE ≤ 0x3000 ∧
      pmap_pte s' 1 0x2000 = some 0x4010 ∧
      s'.mem 0x4010 &&& INTEL_PTE_VALID ≠ 0 ∧
      s'.mem 0x4010 &&& INTEL_PTE_WRITE ≠ 0 ∧
      s'.mem 0x4010 &&& INTEL_PTE_NX = 0) := by
  refine ⟨by decide, by decide, by decide, ⟨_, rfl, ?_, ?_, ?_, ?_⟩,
    ⟨_, rfl, ?_, ?_, ?_, ?_, ?_, ?_⟩⟩ <;> decide

/-- Claim C4, amended: with no-execute enabled system-wide and for the space, a
non-null map, a page-aligned 64-bit `sva` and a requested protection other than
`VM_PROT_NONE` that does not include both `VM_PROT_WRITE` and
`VM_PROT_EXECUTE`, when the stride loop of `pmap_protect` has come to its end
no present entry (leaf entry or superpage entry) of a page lying in
`[sva, eva)` is simultaneously writable and executable, and every word of the
page tables is either the word it was before the call or
not simultaneously writable and executable.  This is the state of the page
tables in every run that returns.  The stride loop does come to its end when
`eva` is at most `2 ^ 64 - 2 ^ 21`; what remains of the call is the
shootdown. -/
theorem pmap_protect_no_new_wx (pmap_remove : State → Nat → Nat → Nat → Result Unit)
    (s : State) (map sva eva prot : Nat)
    (hmap : map ≠ PMAP_NULL) (hnone : prot ≠ VM_PROT_NONE)
    (hnx : s.nx_enabled = true) (hmnx : (s.pmaps map).nx_enabled = true)
    (hprot : ¬ (prot &&& VM_PROT_WRITE ≠ 0 ∧ prot &&& VM_PROT_EXECUTE ≠ 0))
    (hsva : sva % PAGE_SIZE = 0) (hs64 : sva < 2 ^ 64) :
    (∀ fuel s', pmap_protect pmap_remove fuel s map sva eva prot = Result.ret () s' →
      (∀ va p, va % PAGE_SIZE = 0 → sva ≤ va → va + PAGE_SIZE ≤ eva →
        pmap_pte s' map va = some p → s'.mem p &&& INTEL_PTE_VALID ≠ 0 →
        ¬ (s'.mem p &&& INTEL_PTE_WRITE ≠ 0 ∧ s'.mem p &&& INTEL_PTE_NX = 0)) ∧
      (∀ a, s'.mem a = s.mem a ∨
        ¬ (s'.mem a &&& INTEL_PTE_WRITE ≠ 0 ∧ s'.mem a &&& INTEL_PTE_NX = 0))) ∧
    (eva ≤ 2 ^ 64 - 2 ^ 21 →
      ∃ nf s1, pmap_protect_loop map prot (pmap_protect_set_NX s map prot) eva
          (eva / 2 ^ 21 + 2) sva s 0 = Result.ret nf s1 ∧
        (∀ va p, va % PAGE_SIZE = 0 → sva ≤ va → va + PAGE_SIZE ≤ eva →
          pmap_pte s1 map va = some p → s1.mem p &&& INTEL_PTE_VALID ≠ 0 →
          ¬ (s1.mem p &&& INTEL_PTE_WRITE ≠ 0 ∧ s1.mem p &&& INTEL_PTE_NX = 0)) ∧
        (∀ a, s1.mem a = s.mem a ∨
          ¬ (s1.mem a &&& INTEL_PTE_WRITE ≠ 0 ∧ s1.mem a &&& INTEL_PTE_NX = 0))) := by
  have hword : ∀ e, ¬ (protect_word prot (pmap_protect_set_NX s map prot) e &&& INTEL_PTE_WRITE ≠ 0 ∧
      protect_word prot (pmap_protect_set_NX s map prot) e &&& INTEL_PTE_NX = 0) := by
    rintro e ⟨h1, h2⟩
    have hW := (protect_word_write prot _ e).1 h1
    have hX : prot &&& VM_PROT_EXECUTE = 0 := by
      by_contra hx; exact hprot ⟨hW, hx⟩
    have hset : pmap_protect_set_NX s map prot = true := by
      simp [pmap_protect_set_NX, hX, hnx, hmnx]
    exact ((protect_word_nx prot _ e).2 hset) h2
  have core : ∀ fuel nf s1,
      pmap_protect_loop map prot (pmap_protect_set_NX s map prot) eva fuel sva s 0
        = Result.ret nf s1 →
      (∀ va p, va % PAGE_SIZE = 0 → sva ≤ va → va + PAGE_SIZE ≤ eva →
        pmap_pte s1 map va = some p → s1.mem p &&& INTEL_PTE_VALID ≠ 0 →
        ¬ (s1.mem p &&& INTEL_PTE_WRITE ≠ 0 ∧ s1.mem p &&& INTEL_PTE_NX = 0)) ∧
      (∀ a, s1.mem a = s.mem a ∨
        ¬ (s1.mem a &&& INTEL_PTE_WRITE ≠ 0 ∧ s1.mem a &&& INTEL_PTE_NX = 0)) := by
    intro fuel nf s1 hl
    obtain ⟨e1, r1, _, _⟩ := pmap_protect_loop_spec map prot _ eva fuel sva s 0 nf s1 hl
    constructor
    · intro va p hva hle hlt hp hv
      have hlt' : sva < eva := by unfold PAGE_SIZE at hlt; omega
      by_cases hbig : eva ≤ 2 ^ 64 - 2097152
      · have hw := protRel_sameWalk r1
        have hpm : (s1.pmaps map).pm_cr3 = (s.pmaps map).pm_cr3 := by rw [e1]
        have hp0 : pmap_pte s map va = some p := by
          rw [← pmap_pte_congr hw hpm va]; exact hp
        have hv0 : s.mem p &&& INTEL_PTE_VALID ≠ 0 := by
          rw [← (hw p).1]; exact hv
        have ht : protect_target s map sva eva p :=
          ⟨va, hle, by unfold PAGE_SIZE at hlt; omega, hp0, Or.inr ⟨hva, hlt⟩⟩
        rcases pmap_protect_loop_exact map prot _ eva hbig fuel sva s 0 nf s1
          (Or.inl (by simpa [PAGE_SIZE] using hsva)) hl p with ⟨_, _, hm⟩ | ⟨hn, _⟩
        · rw [hm]; exact hword _
        · exact absurd ⟨ht, hv0⟩ hn
      · exact absurd hl (pmap_protect_loop_wrap_diverges map prot _ eva (by omega) fuel sva s 0
          hlt' hs64 nf s1)
    · intro a
      rcases r1 a with h | ⟨_, h⟩
      · exact Or.inl h
      · right; rw [h]; exact hword _
  refine ⟨?_, ?_⟩
  · intro fuel s' hrun
    obtain ⟨nf, s1, hl, hm, hpte, _, _⟩ := pmap_protect_ret_mem pmap_remove fuel s map sva eva
      prot s' hmap hnone hrun
    obtain ⟨c1, c2⟩ := core fuel nf s1 hl
    constructor
    · intro va p hva hle hlt hp
      rw [hm]
      rw [hpte] at hp
      exact c1 va p hva hle hlt hp
    · intro a
      rw [hm]
      exact c2 a
  · intro h
    obtain ⟨nf, s1, hl⟩ := pmap_protect_loop_terminates map prot
      (pmap_protect_set_NX s map prot) eva h (eva / 2 ^ 21 + 2) sva s 0 (by omega)
    exact ⟨nf, s1, hl, core _ nf s1 hl⟩

theorem pmap_protect_no_new_wx_witness :
    ((1 : Nat) ≠ PMAP_NULL ∧ VM_PROT_READ ||| VM_PROT_WRITE ≠ VM_PROT_NONE ∧
      sample_state.nx_enabled = true ∧ (sample_state.pmaps 1).nx_enabled = true ∧
      ¬ ((VM_PROT_READ ||| VM_PROT_WRITE) &&& VM_PROT_WRITE ≠ 0 ∧
        (VM_PROT_READ ||| VM_PROT_WRITE) &&& VM_PROT_EXECUTE ≠ 0) ∧
      0x1000 % PAGE_SIZE = 0 ∧ 0x1000 < 2 ^ 64 ∧ 0x4000 ≤ 2 ^ 64 - 2 ^ 21) ∧
    ((∀ fuel s', pmap_protect sample_remove fuel sample_state 1 0x1000 0x4000
          (VM_PROT_READ ||| VM_PROT_WRITE) = Result.ret () s' →
      (∀ va p, va % PAGE_SIZE = 0 → 0x1000 ≤ va → va + PAGE_SIZE ≤ 0x4000 →
        pmap_pte s' 1 va = some p → s'.mem p &&& INTEL_PTE_VALID ≠ 0 →
        ¬ (s'.mem p &&& INTEL_PTE_WRITE ≠ 0 ∧ s'.mem p &&& INTEL_PTE_NX = 0)) ∧
      (∀ a, s'.mem a = sample_state.mem a ∨
        ¬ (s'.mem a &&& INTEL_PTE_WRITE ≠ 0 ∧ s'.mem a &&& INTEL_PTE_NX = 0))) ∧
    ∃ nf s1, pmap_protect_loop 1 (VM_PROT_READ ||| VM_PROT_WRITE)
        (pmap_protect_set_NX sample_state 1 (VM_PROT_READ ||| VM_PROT_WRITE))
        0x4000 (0x4000 / 2 ^ 21 + 2) 0x1000 sample_state 0 = Result.ret nf s1 ∧
      (∀ va p, va % PAGE_SIZE = 0 → 0x1000 ≤ va → va + PAGE_SIZE ≤ 0x4000 →
        pmap_pte s1 1 va = some p → s1.mem p &&& INTEL_PTE_VALID ≠ 0 →
        ¬ (s1.mem p &&& INTEL_PTE_WRITE ≠ 0 ∧ s1.mem p &&& INTEL_PTE_NX = 0)) ∧
      (∀ a, s1.mem a = sample_state.mem a ∨
        ¬ (s1.mem a &&& INTEL_PTE_WRITE ≠ 0 ∧ s1.mem a &&& INTEL_PTE_NX = 0))) :=
  ⟨by decide,
    (pmap_protect_no_new_wx sample_remove sample_state 1 0x1000 0x4000
      (VM_PROT_READ ||| VM_PROT_WRITE) (by decide) (by decide) (by decide) (by decide)
      (by decide) (by decide) (by decide)).1,
    (pmap_protect_no_new_wx sample_remove sample_state 1 0x1000 0x4000
      (VM_PROT_READ ||| VM_PROT_WRITE) (by decide) (by decide) (by decide) (by decide)
      (by decide) (by decide) (by decide)).2 (by decide)⟩

/-- Claim C5, as stated, fails: on the sample space `pmap_protect` with
protection read over the page at 0x1000, whose entry is already read-only and
no-execute, returns with every page-table word equal to its value before the
call and yet has requested a shootdown. -/
theorem pmap_protect_shootdown_without_change :
    VM_PROT_READ ≠ VM_PROT_NONE ∧
    ∃ s', pmap_protect sample_remove 2 sample_state 1 0x1000 0x2000 VM_PROT_READ
        = Result.ret () s' ∧
      (∀ a, s'.mem a = sample_state.mem a) ∧
      sample_state.tlb_shootdowns = [] ∧
      s'.tlb_shootdowns = [(1, 0x1000, 0x2000)] := by
  refine ⟨by decide, _, rfl, ?_, rfl, rfl⟩
  intro a
  by_cases ha : a = 0x4008
  · subst ha; decide
  · show (if a = 0x4008 then _ else if a = 0x4008 then _ else sample_mem a) = sample_mem a
    rw [if_neg ha, if_neg ha]

/-- Claim C5, amended: for a non-null map and a protection other than
`VM_PROT_NONE`, a returning `pmap_protect` has requested at most one shootdown,
for `[sva, eva)`; a run that requested none has left every page-table word
unchanged; and for a page-aligned 64-bit `sva` it has requested one exactly
when the range holds a present entry to process (a valid word that is the
large-page directory entry of an address of the range or the leaf entry of a
page lying wholly inside it), whether or not the call changed that entry.  When
no page of a page-aligned 64-bit range has a present entry the state is left as
it was.  The stride loop comes to its end when `eva` is at most
`2 ^ 64 - 2 ^ 21`, and for a page-aligned `sva` it ends with `num_found`
non-zero exactly when the range holds a present entry to process. -/
theorem pmap_protect_shootdown_iff_found
    (pmap_remove : State → Nat → Nat → Nat → Result Unit)
    (s : State) (map sva eva prot : Nat)
    (hmap : map ≠ PMAP_NULL) (hnone : prot ≠ VM_PROT_NONE) :
    (∀ fuel s', pmap_protect pmap_remove fuel s map sva eva prot = Result.ret () s' →
      (s'.tlb_shootdowns = s.tlb_shootdowns ∨
        s'.tlb_shootdowns = (map, sva, eva) :: s.tlb_shootdowns) ∧
      (s'.tlb_shootdowns = s.tlb_shootdowns → s'.mem = s.mem) ∧
      (sva % PAGE_SIZE = 0 → sva < 2 ^ 64 →
        (s'.tlb_shootdowns = (map, sva, eva) :: s.tlb_shootdowns ↔
          ∃ a, protect_target s map sva eva a ∧ s.mem a &&& INTEL_PTE_VALID ≠ 0)) ∧
      (sva % PAGE_SIZE = 0 → eva % PAGE_SIZE = 0 → sva < 2 ^ 64 → eva < 2 ^ 64 →
        (∀ va p, va % PAGE_SIZE = 0 → sva ≤ va → va < eva → pmap_pte s map va = some p →
          s.mem p &&& INTEL_PTE_VALID = 0) →
        s' = s)) ∧
    (eva ≤ 2 ^ 64 - 2 ^ 21 →
      ∃ nf s1, pmap_protect_loop map prot (pmap_protect_set_NX s map prot) eva
          (eva / 2 ^ 21 + 2) sva s 0 = Result.ret nf s1 ∧
        (sva % PAGE_SIZE = 0 →
          (nf ≠ 0 ↔ ∃ a, protect_target s map sva eva a ∧ s.mem a &&& INTEL_PTE_VALID ≠ 0))) := by
  have core : ∀ fuel nf s1, sva % PAGE_SIZE = 0 → sva < 2 ^ 64 →
      pmap_protect_loop map prot (pmap_protect_set_NX s map prot) eva fuel sva s 0
        = Result.ret nf s1 →
      (nf ≠ 0 ↔ ∃ a, protect_target s map sva eva a ∧ s.mem a &&& INTEL_PTE_VALID ≠ 0) := by
    intro fuel nf s1 hsa hs64 hl
    by_cases hlt : sva < eva
    · by_cases hbig : eva ≤ 2 ^ 64 - 2097152
      · have := pmap_protect_loop_found map prot _ eva hbig fuel sva s 0 nf s1
          (Or.inl (by simpa [PAGE_SIZE] using hsa)) hl
        rw [← this]
        omega
      · exact absurd hl (pmap_protect_loop_wrap_diverges map prot _ eva (by omega) fuel sva s 0
          hlt hs64 nf s1)
    · cases fuel with
      | zero => simp [pmap_protect_loop] at hl
      | succ fuel =>
        unfold pmap_protect_loop at hl
        rw [if_neg hlt] at hl
        injection hl with h1 _
        subst h1
        constructor
        · intro hc; exact absurd rfl hc
        · rintro ⟨a, ⟨va, h1, h2, _⟩, _⟩
          omega
  refine ⟨?_, ?_⟩
  · intro fuel s' hrun
    obtain ⟨nf, s1, hl, hm, _, h0, h1⟩ := pmap_protect_ret_mem pmap_remove fuel s map sva eva
      prot s' hmap hnone hrun
    have hcases : (nf = 0 ∧ s' = s) ∨
        (nf ≠ 0 ∧ s'.tlb_shootdowns = (map, sva, eva) :: s.tlb_shootdowns) := by
      by_cases hnf : nf = 0
      · exact Or.inl ⟨hnf, h0 hnf⟩
      · exact Or.inr ⟨hnf, h1 hnf⟩
    refine ⟨?_, ?_, ?_, ?_⟩
    · rcases hcases with ⟨_, e⟩ | ⟨_, e⟩
      · left; rw [e]
      · right; exact e
    · intro hc
      rcases hcases with ⟨_, e⟩ | ⟨_, e⟩
      · rw [e]
      · rw [e] at hc
        exact absurd hc (List.cons_ne_self _ _)
    · intro hsa hs64
      rw [← core fuel nf s1 hsa hs64 hl]
      rcases hcases with ⟨hnf, e⟩ | ⟨hnf, e⟩
      · constructor
        · intro hc
          rw [e] at hc
          exact absurd hc.symm (List.cons_ne_self _ _)
        · intro hc; exact absurd hnf hc
      · exact ⟨fun _ => hnf, fun _ => e⟩
    · intro hsa hea hs64 he64 hinv
      rcases hcases with ⟨_, e⟩ | ⟨hnf, _⟩
      · exact e
      · exfalso
        obtain ⟨a, ⟨va, t1, t2, t3, t4⟩, hv⟩ := (core fuel nf s1 hsa hs64 hl).1 hnf
        rcases t4 with ⟨t5, t6⟩ | ⟨t5, _⟩
        · -- a large-page entry: the page holding `va` has it as its entry
          have hva : pmap_pte s map (va / 4096 * 4096) = some a := by
            have hst : (va / 4096 * 4096) / 2097152 = va / 2097152 := by omega
            have hpde : pmap_pde s map (va / 4096 * 4096) = some a := by
              rw [pmap_pde_same_stride s map _ va hst]; exact t5
            rw [pmap_pte_of_pde hpde, if_pos hv, if_pos t6]
          simp only [PAGE_SIZE] at hsa hea hinv
          exact hv (hinv (va / 4096 * 4096) a (by omega) (by omega) (by omega) hva)
        · simp only [PAGE_SIZE] at t5 hinv
          exact hv (hinv va a t5 t1 t2 t3)
  · intro h
    obtain ⟨nf, s1, hl⟩ := pmap_protect_loop_terminates map prot
      (pmap_protect_set_NX s map prot) eva h (eva / 2 ^ 21 + 2) sva s 0 (by omega)
    refine ⟨nf, s1, hl, fun hsa => ?_⟩
    by_cases hs64 : sva < 2 ^ 64
    · exact core _ nf s1 hsa hs64 hl
    · -- `sva` beyond the range: the loop has not run
      have hge : ¬ sva < eva := by omega
      have e : eva / 2 ^ 21 + 2 = (eva / 2 ^ 21 + 1) + 1 := by omega
      rw [e] at hl
      unfold pmap_protect_loop at hl
      rw [if_neg hge] at hl
      injection hl with h1 _
      subst h1
      constructor
      · intro hc; exact absurd rfl hc
      · rintro ⟨a, ⟨va, h1, h2, _⟩, _⟩
        omega

theorem pmap_protect_shootdown_iff_found_witness :
    ((1 : Nat) ≠ PMAP_NULL ∧ VM_PROT_READ ≠ VM_PROT_NONE) ∧
    (∃ s', pmap_protect sample_remove 2 sample_state 1 0x1000 0x2000 VM_PROT_READ
        = Result.ret () s' ∧
      (protect_target sample_state 1 0x1000 0x2000 0x4008 ∧
        sample_state.mem 0x4008 &&& INTEL_PTE_VALID ≠ 0) ∧
      s'.mem = sample_state.mem ∧
      s'.tlb_shootdowns = (1, 0x1000, 0x2000) :: sample_state.tlb_shootdowns) ∧
    (∃ s', pmap_protect sample_remove 2 sample_state 1 0x5000 0x6000 VM_PROT_READ
        = Result.ret () s' ∧
      (¬ ∃ a, protect_target sample_state 1 0x5000 0x6000 a ∧
        sample_state.mem a &&& INTEL_PTE_VALID ≠ 0) ∧
      s'.tlb_shootdowns = sample_state.tlb_shootdowns ∧ s'.mem = sample_state.mem) := by
  have ht : protect_target sample_state 1 0x1000 0x2000 0x4008 ∧
      sample_state.mem 0x4008 &&& INTEL_PTE_VALID ≠ 0 :=
    ⟨⟨0x1000, by decide, by decide, by decide, Or.inr ⟨by decide, by decide⟩⟩, by decide⟩
  have h1 := (pmap_protect_shootdown_iff_found sample_remove sample_state 1 0x1000 0x2000
    VM_PROT_READ (by decide) (by decide)).1 2 _ rfl
  have h2 := (pmap_protect_shootdown_iff_found sample_remove sample_state 1 0x5000 0x6000
    VM_PROT_READ (by decide) (by decide)).1 2 _ rfl
  refine ⟨by decide, ⟨_, rfl, ht, ?_, (h1.2.2.1 (by decide) (by decide)).2 ⟨_, ht⟩⟩,
    ⟨_, rfl, ?_, ?_, ?_⟩⟩
  · funext a
    by_cases ha : a = 0x4008
    · subst ha; decide
    · show (if a = 0x4008 then _ else if a = 0x4008 then _ else sample_mem a) = sample_mem a
      rw [if_neg ha, if_neg ha]
  · intro hc
    have h3 := (h2.2.2.1 (by decide) (by decide)).2 hc
    exact absurd h3 (by decide)
  · rfl
  · exact h2.2.1 rfl

theorem expand_effect_mono {P Q : Nat → Prop} {s s' : State} (h : expand_effect P s s')
    (hpq : ∀ a, P a → Q a) : expand_effect Q s s' := by
  obtain ⟨h1, h2, h3⟩ := h
  refine ⟨h1, h2, fun a => ?_⟩
  rcases h3 a with h | h | ⟨hp, h⟩
  · exact Or.inl h
  · exact Or.inr (Or.inl h)
  · exact Or.inr (Or.inr ⟨hpq a hp, h⟩)

theorem expand_effect_trans {P : Nat → Prop} {s s1 s' : State}
    (h1 : expand_effect P s s1) (h2 : expand_effect P s1 s') : expand_effect P s s' := by
  obtain ⟨o1, g1, m1⟩ := h1
  obtain ⟨o2, g2, m2⟩ := h2
  refine ⟨by rw [o2, o1], by omega, fun a => ?_⟩
  rcases m2 a with ⟨e2, n2⟩ | ⟨e2, i, hi1, hi2, hi3⟩ | ⟨hp, i, pn, hi1, hi2, hi3, e2⟩
  · rcases m1 a with ⟨e1, n1⟩ | ⟨e1, i, hi1, hi2, hi3⟩ | ⟨hp, i, pn, hi1, hi2, hi3, e1⟩
    · left
      refine ⟨by rw [e2, e1], fun i hi1 hi2 => ?_⟩
      by_cases hlt : i < s1.grabs
      · exact n1 i hi1 hlt
      · have := n2 i (by omega) hi2
        rw [o1] at this; exact this
    · right; left
      exact ⟨by rw [e2, e1], i, hi1, by omega, hi3⟩
    · right; right
      exact ⟨hp, i, pn, hi1, by omega, hi3, by rw [e2, e1]⟩
  · right; left
    exact ⟨e2, i, by omega, hi2, by rw [← o1]; exact hi3⟩
  · right; right
    exact ⟨hp, i, pn, by omega, hi2, by rw [← o1]; exact hi3, e2⟩

/-- One allocation followed by the zeroing of the page and at most one store of
an entry for it. -/
theorem expand_effect_stage {P : Nat → Prop} {options fuel : Nat} {s sg s' : State} {pn : Nat}
    (hg : vm_page_grab_loop options fuel s = Result.ret (some pn) sg)
    (ho : s'.vm_page_grab_oracle = sg.vm_page_grab_oracle) (hgr : s'.grabs = sg.grabs)
    (hmem : (∀ a, s'.mem a = if a / PAGE_SIZE = pn then 0 else sg.mem a) ∨
      (∃ p, P p ∧ ∀ a, s'.mem a =
        if a = p then table_entry pn else if a / PAGE_SIZE = pn then 0 else sg.mem a)) :
    expand_effect P s s' := by
  obtain ⟨e, hlt, hlast, hnone, _, _⟩ := vm_page_grab_loop_spec options fuel s (some pn) sg hg
  have hsm : sg.mem = s.mem := by rw [e]
  have hso : sg.vm_page_grab_oracle = s.vm_page_grab_oracle := by rw [e]
  refine ⟨by rw [ho, hso], by omega, fun a => ?_⟩
  have hlastin : s.grabs ≤ sg.grabs - 1 ∧ sg.grabs - 1 < s'.grabs := by omega
  have hout : a / PAGE_SIZE ≠ pn →
      ∀ i, s.grabs ≤ i → i < s'.grabs → s.vm_page_grab_oracle i ≠ some (a / PAGE_SIZE) := by
    intro hne i hi1 hi2
    by_cases hl : i + 1 < sg.grabs
    · rw [hnone i hi1 hl]; exact fun h => by cases h
    · have hi : i = sg.grabs - 1 := by omega
      rw [hi, hlast]
      intro h; injection h with h; exact hne h.symm
  rcases hmem with hm | ⟨p, hp, hm⟩
  · by_cases ha : a / PAGE_SIZE = pn
    · right; left
      exact ⟨by rw [hm, if_pos ha], sg.grabs - 1, hlastin.1, hlastin.2, by rw [hlast, ha]⟩
    · left
      exact ⟨by rw [hm, if_neg ha, hsm], hout ha⟩
  · by_cases hap : a = p
    · right; right
      refine ⟨by rw [hap]; exact hp, sg.grabs - 1, pn, hlastin.1, hlastin.2, hlast, ?_⟩
      rw [hm, if_pos hap]
    · by_cases ha : a / PAGE_SIZE = pn
      · right; left
        exact ⟨by rw [hm, if_neg hap, if_pos ha], sg.grabs - 1, hlastin.1, hlastin.2,
          by rw [hlast, ha]⟩
      · left
        exact ⟨by rw [hm, if_neg hap, if_neg ha, hsm], hout ha⟩

theorem grab_loop_frame {options fuel : Nat} {s sg : State} {v : Option Nat}
    (hg : vm_page_grab_loop options fuel s = Result.ret v sg) :
    sg.mem = s.mem ∧ sg.pmaps = s.pmaps := by
  obtain ⟨e, _⟩ := vm_page_grab_loop_spec options fuel s v sg hg
  constructor <;> rw [e]

theorem pmap_expand_pml4_effect (fuel : Nat) (s : State) (map vaddr options : Nat) (s' : State)
    (h : pmap_expand_pml4 fuel s map vaddr options = Result.ret KERN_SUCCESS s') :
    expand_effect (fun a => pmap64_pml4 s' map vaddr = some a) s s' ∧
      (s'.pmaps map).pm_cr3 = (s.pmaps map).pm_cr3 := by
  obtain ⟨sg, pn, hg, hgr⟩ := pmap_expand_pml4_success fuel s map vaddr options s' h
  obtain ⟨ho, hgs, _, _⟩ := pmap_expand_pml4_grabbed_alloc sg map vaddr pn _ s' hgr
  obtain ⟨hsm, hsp⟩ := grab_loop_frame hg
  rcases pmap_expand_pml4_grabbed_cases sg map vaddr pn with ⟨_, he⟩ | ⟨_, _, he⟩ | ⟨_, p, h4, he⟩
  · rw [he] at hgr; injection hgr with _ h2
    subst h2
    exact ⟨expand_effect_stage hg ho hgs (Or.inl fun a => rfl), by
      rw [lost_race_pmaps, prepare_pmaps, hsp]⟩
  · rw [he] at hgr; cases hgr
  · rw [he] at hgr; injection hgr with _ h2
    subst h2
    have hc : ((installed_pml4 sg map vaddr pn p).pmaps map).pm_cr3 = (sg.pmaps map).pm_cr3 :=
      installed_pml4_cr3 ..
    refine ⟨expand_effect_stage hg ho hgs (Or.inr ⟨p, ?_, fun a => rfl⟩), by rw [hc, hsp]⟩
    show pmap64_pml4 (installed_pml4 sg map vaddr pn p) map vaddr = some p
    rw [pmap64_pml4_cr3 hc]; exact h4

theorem pmap_expand_pdpt_grabbed_effect {options fuel : Nat} {s sg : State} {pn : Nat}
    (map vaddr : Nat) (s' : State)
    (hg : vm_page_grab_loop options fuel s = Result.ret (some pn) sg)
    (h : pmap_expand_pdpt_grabbed sg map vaddr pn = Result.ret KERN_SUCCESS s') :
    expand_effect (fun a => pmap64_pdpt s' map vaddr = some a) s s' ∧
      (s'.pmaps map).pm_cr3 = (s.pmaps map).pm_cr3 ∧
      pmap64_pdpt s' map vaddr = pmap64_pdpt s map vaddr := by
  obtain ⟨ho, hgs, _, _⟩ := pmap_expand_pdpt_grabbed_alloc sg map vaddr pn _ s' h
  obtain ⟨hsm, hsp⟩ := grab_loop_frame hg
  have hsg : pmap64_pdpt sg map vaddr = pmap64_pdpt s map vaddr :=
    pmap64_pdpt_eq hsm (by rw [hsp]) vaddr
  rcases pmap_expand_pdpt_grabbed_cases sg map vaddr pn with ⟨hp, he⟩ | ⟨_, _, he⟩ | ⟨hn, p, h3, he⟩
  · rw [he] at h; injection h with _ h2
    subst h2
    refine ⟨expand_effect_stage hg ho hgs (Or.inl fun a => rfl), by
      rw [lost_race_pmaps, prepare_pmaps, hsp], ?_⟩
    cases hd : pmap64_pde (pmap_expand_prepare sg pn) map vaddr with
    | none => exact absurd hd hp
    | some p2 =>
      obtain ⟨p3, h3, _, _⟩ := pmap64_pde_some hd
      rw [pmap64_pdpt_eq (lost_race_mem _ _) (by rw [lost_race_pmaps]), h3, ← hsg,
        pmap64_pdpt_unprepare h3]
  · rw [he] at h; cases h
  · rw [he] at h; injection h with _ h2
    subst h2
    obtain ⟨p4, h4, hv4, hp3⟩ := pmap64_pdpt_some h3
    have hinv : (pmap_expand_prepare sg pn).mem p &&& INTEL_PTE_VALID = 0 := by
      by_contra hc
      rw [pmap64_pde_of h3, if_pos hc] at hn
      cases hn
    have hne : p4 ≠ p := by
      intro e; rw [e] at hv4; exact hv4 hinv
    have hc : ((installed_pdpt sg map vaddr pn p).pmaps map).pm_cr3 = (sg.pmaps map).pm_cr3 :=
      installed_pdpt_cr3 ..
    have h4' : pmap64_pml4 (installed_pdpt sg map vaddr pn p) map vaddr = some p4 := by
      rw [pmap64_pml4_cr3 hc]; exact h4
    have hm4 : (installed_pdpt sg map vaddr pn p).mem p4 = (pmap_expand_prepare sg pn).mem p4 := by
      rw [installed_pdpt_mem, if_neg hne, prepare_mem]
    have h3' : pmap64_pdpt (installed_pdpt sg map vaddr pn p) map vaddr = some p := by
      rw [pmap64_pdpt_of h4', hm4, if_pos hv4, hp3]
    refine ⟨expand_effect_stage hg ho hgs (Or.inr ⟨p, h3', fun a => rfl⟩), by rw [hc, hsp], ?_⟩
    rw [h3', ← hsg, pmap64_pdpt_unprepare h3]

theorem pmap_expand_grabbed_effect {options fuel : Nat} {s sg : State} {pn : Nat}
    (map vaddr : Nat) (s' : State)
    (hg : vm_page_grab_loop options fuel s = Result.ret (some pn) sg)
    (h : pmap_expand_grabbed sg map vaddr pn = Result.ret KERN_SUCCESS s') :
    expand_effect (fun a => pmap64_pde s' map vaddr = some a) s s' ∧
      (s'.pmaps map).pm_cr3 = (s.pmaps map).pm_cr3 ∧
      pmap64_pdpt s' map vaddr = pmap64_pdpt s map vaddr ∧
      pmap64_pde s' map vaddr = pmap64_pde s map vaddr := by
  obtain ⟨ho, hgs, _, _⟩ := pmap_expand_grabbed_alloc sg map vaddr pn _ s' h
  obtain ⟨hsm, hsp⟩ := grab_loop_frame hg
  have hsg3 : pmap64_pdpt sg map vaddr = pmap64_pdpt s map vaddr :=
    pmap64_pdpt_eq hsm (by rw [hsp]) vaddr
  have hsg2 : pmap64_pde sg map vaddr = pmap64_pde s map vaddr :=
    pmap64_pde_eq hsm (by rw [hsp]) vaddr
  rcases pmap_expand_grabbed_cases sg map vaddr pn with ⟨hp, he⟩ | ⟨_, _, he⟩ | ⟨hn, p, h2, he⟩
  · rw [he] at h; injection h with _ h2
    subst h2
    obtain ⟨p2, hd, _⟩ := pmap_pte_ne_none_iff.1 hp
    obtain ⟨p3, h3, _, _⟩ := pmap64_pde_some hd
    refine ⟨expand_effect_stage hg ho hgs (Or.inl fun a => rfl), by
      rw [lost_race_pmaps, prepare_pmaps, hsp], ?_, ?_⟩
    · rw [pmap64_pdpt_eq (lost_race_mem _ _) (by rw [lost_race_pmaps]), h3, ← hsg3,
        pmap64_pdpt_unprepare h3]
    · rw [pmap64_pde_eq (lost_race_mem _ _) (by rw [lost_race_pmaps]), hd, ← hsg2,
        pmap64_pde_unprepare hd]
  · rw [he] at h; cases h
  · rw [he] at h; injection h with _ h2'
    subst h2'
    obtain ⟨p3, h3, hv3, hp2⟩ := pmap64_pde_some h2
    obtain ⟨p4, h4, hv4, hp3⟩ := pmap64_pdpt_some h3
    have hinv : (pmap_expand_prepare sg pn).mem p &&& INTEL_PTE_VALID = 0 := by
      by_contra hc
      exact (pmap_pte_ne_none_iff.2 ⟨p, h2, hc⟩) hn
    have hne4 : p4 ≠ p := by
      intro e; rw [e] at hv4; exact hv4 hinv
    have hne3 : p3 ≠ p := by
      intro e; rw [e] at hv3; exact hv3 hinv
    have hc : ((installed_pde sg map vaddr pn p).pmaps map).pm_cr3 = (sg.pmaps map).pm_cr3 :=
      installed_pde_cr3 ..
    have h4' : pmap64_pml4 (installed_pde sg map vaddr pn p) map vaddr = some p4 := by
      rw [pmap64_pml4_cr3 hc]; exact h4
    have hm4 : (installed_pde sg map vaddr pn p).mem p4 = (pmap_expand_prepare sg pn).mem p4 := by
      rw [installed_pde_mem, if_neg hne4, prepare_mem]
    have hm3 : (installed_pde sg map vaddr pn p).mem p3 = (pmap_expand_prepare sg pn).mem p3 := by
      rw [installed_pde_mem, if_neg hne3, prepare_mem]
    have h3' : pmap64_pdpt (installed_pde sg map vaddr pn p) map vaddr = some p3 := by
      rw [pmap64_pdpt_of h4', hm4, if_pos hv4, hp3]
    have h2' : pmap64_pde (installed_pde sg map vaddr pn p) map vaddr = some p := by
      rw [pmap64_pde_of h3', hm3, if_pos hv3, hp2]
    refine ⟨expand_effect_stage hg ho hgs (Or.inr ⟨p, h2', fun a => rfl⟩), by rw [hc, hsp], ?_, ?_⟩
    · rw [h3', ← hsg3, pmap64_pdpt_unprepare h3]
    · rw [h2', ← hsg2, pmap64_pde_unprepare h2]

theorem pmap_expand_pdpt_effect (fuel : Nat) (s : State) (map vaddr options : Nat) (s' : State)
    (h : pmap_expand_pdpt map vaddr options fuel s = Result.ret KERN_SUCCESS s') :
    expand_effect (fun a => pmap64_pml4 s' map vaddr = some a ∨
        pmap64_pdpt s' map vaddr = some a) s s' ∧
      (s'.pmaps map).pm_cr3 = (s.pmaps map).pm_cr3 := by
  cases h3 : pmap64_pdpt s map vaddr with
  | none =>
    obtain ⟨f, s1, h1, h2⟩ := pmap_expand_pdpt_success_none fuel s map vaddr options s' h3 h
    obtain ⟨e1, c1⟩ := pmap_expand_pml4_effect f s map vaddr options s1 h1
    have hne := (pmap_expand_pml4_contract f s map vaddr options _ s1 h1).2.1 rfl
    cases h3' : pmap64_pdpt s1 map vaddr with
    | none => exact absurd h3' hne
    | some p3 =>
      obtain ⟨f', sg, pn, hg, hgr⟩ :=
        pmap_expand_pdpt_success_some f s1 map vaddr options s' p3 h3' h2
      obtain ⟨e2, c2, _⟩ := pmap_expand_pdpt_grabbed_effect map vaddr s' hg hgr
      refine ⟨expand_effect_trans (expand_effect_mono e1 fun a ha => Or.inl ?_)
        (expand_effect_mono e2 fun a ha => Or.inr ha), by rw [c2, c1]⟩
      rw [pmap64_pml4_cr3 c2]; exact ha
  | some p3 =>
    obtain ⟨f', sg, pn, hg, hgr⟩ :=
      pmap_expand_pdpt_success_some fuel s map vaddr options s' p3 h3 h
    obtain ⟨e2, c2, _⟩ := pmap_expand_pdpt_grabbed_effect map vaddr s' hg hgr
    exact ⟨expand_effect_mono e2 fun a ha => Or.inr ha, c2⟩

theorem pmap_expand_body_effect (fuel : Nat) (s : State) (map vaddr options : Nat) (s' : State)
    (h : pmap_expand_body map vaddr options fuel s = Result.ret KERN_SUCCESS s') :
    expand_effect (on_path s' map vaddr) s s' := by
  cases h2 : pmap64_pde s map vaddr with
  | none =>
    obtain ⟨f, s1, h1, hb⟩ := pmap_expand_body_success_none fuel s map vaddr options s' h2 h
    obtain ⟨e1, c1⟩ := pmap_expand_pdpt_effect f s map vaddr options s1 h1
    have hne := (pmap_expand_pdpt_contract map vaddr options f s _ s1 h1).2.1 rfl
    cases h2' : pmap64_pde s1 map vaddr with
    | none => exact absurd h2' hne
    | some p2 =>
      obtain ⟨f', sg, pn, hg, hgr⟩ :=
        pmap_expand_body_success_some f s1 map vaddr options s' p2 h2' hb
      obtain ⟨e2, c2, k3, _⟩ := pmap_expand_grabbed_effect map vaddr s' hg hgr
      refine expand_effect_trans (expand_effect_mono e1 fun a ha => ?_)
        (expand_effect_mono e2 fun a ha => Or.inr (Or.inr ha))
      rcases ha with ha | ha
      · left; rw [pmap64_pml4_cr3 c2]; exact ha
      · right; left; rw [k3]; exact ha
  | some p2 =>
    obtain ⟨f', sg, pn, hg, hgr⟩ :=
      pmap_expand_body_success_some fuel s map vaddr options s' p2 h2 h
    obtain ⟨e2, _⟩ := pmap_expand_grabbed_effect map vaddr s' hg hgr
    exact expand_effect_mono e2 fun a ha => Or.inr (Or.inr ha)

theorem table_entry_user_write (pn : Nat) :
    table_entry pn &&& INTEL_PTE_USER ≠ 0 ∧ table_entry pn &&& INTEL_PTE_WRITE ≠ 0 := by
  constructor
  · have hU : INTEL_PTE_USER = 2 ^ 2 := rfl
    rw [hU, and_two_pow_ne_zero]
    simp [table_entry, Nat.testBit_or, testBit_USER]
  · rw [write_iff]
    simp [table_entry, Nat.testBit_or, testBit_WRITE]

/-- Claim C23: whenever `pmap_expand (map, vaddr, options)` returns
`KERN_SUCCESS`, the entries of `vaddr` at the top, upper and middle level are
all present and `pmap_pte (map, vaddr)` is non-null; and the call changed the
table words as `expand_effect` says: a word outside the pages the allocator
handed out during the call is unchanged unless it is a slot on the path of
`vaddr`, a word inside such a page is zero unless it is a slot on the path of
`vaddr`, and a changed slot on the path holds `table_entry pn` for a page `pn`
handed out during the call, which is the frame `pn` (a 32-bit page number)
with `INTEL_PTE_VALID`, `INTEL_PTE_USER` and `INTEL_PTE_WRITE` set.  For the
kernel pmap and a `vaddr` outside `[KERNEL_BASEMENT, VM_MAX_KERNEL_ADDRESS]`
the call is a fatal stop. -/
theorem pmap_expand_success (fuel : Nat) (s : State) (map vaddr options : Nat) :
    (∀ s', pmap_expand fuel s map vaddr options = Result.ret KERN_SUCCESS s' →
      (∃ p4 p3 p2, pmap64_pml4 s' map vaddr = some p4 ∧ s'.mem p4 &&& INTEL_PTE_VALID ≠ 0 ∧
        pmap64_pdpt s' map vaddr = some p3 ∧ s'.mem p3 &&& INTEL_PTE_VALID ≠ 0 ∧
        pmap64_pde s' map vaddr = some p2 ∧ s'.mem p2 &&& INTEL_PTE_VALID ≠ 0) ∧
      pmap_pte s' map vaddr ≠ none ∧
      expand_effect (on_path s' map vaddr) s s') ∧
    (∀ pn, table_entry pn &&& INTEL_PTE_VALID ≠ 0 ∧ table_entry pn &&& INTEL_PTE_USER ≠ 0 ∧
      table_entry pn &&& INTEL_PTE_WRITE ≠ 0 ∧
      (pn < 2 ^ 32 → table_entry pn &&& PG_FRAME = pn * PAGE_SIZE)) ∧
    (map = s.kernel_pmap → ¬ (vaddr ≥ KERNEL_BASEMENT ∧ vaddr ≤ VM_MAX_KERNEL_ADDRESS) →
      pmap_expand fuel s map vaddr options = Result.panic) := by
  refine ⟨?_, ?_, ?_⟩
  · intro s' h
    obtain ⟨_, hb⟩ := pmap_expand_kernel_pmap fuel s map vaddr options _ s' h
    have hpte := (pmap_expand_contract fuel s map vaddr options _ s' h).2.1 rfl
    obtain ⟨p2, h2, hv2⟩ := pmap_pte_ne_none_iff.1 hpte
    obtain ⟨p3, h3, hv3, _⟩ := pmap64_pde_some h2
    obtain ⟨p4, h4, hv4, _⟩ := pmap64_pdpt_some h3
    exact ⟨⟨p4, p3, p2, h4, hv4, h3, hv3, h2, hv2⟩, hpte,
      pmap_expand_body_effect fuel s map vaddr options s' hb⟩
  · intro pn
    exact ⟨table_entry_valid pn, (table_entry_user_write pn).1, (table_entry_user_write pn).2,
      table_entry_frame pn⟩
  · intro hk hout
    unfold pmap_expand
    rw [if_pos ⟨hk, hout⟩]

theorem pmap_expand_success_witness :
    (∃ s', pmap_expand 4 sample_empty 1 0x1000 0 = Result.ret KERN_SUCCESS s' ∧
      ((∃ p4 p3 p2, pmap64_pml4 s' 1 0x1000 = some p4 ∧ s'.mem p4 &&& INTEL_PTE_VALID ≠ 0 ∧
        pmap64_pdpt s' 1 0x1000 = some p3 ∧ s'.mem p3 &&& INTEL_PTE_VALID ≠ 0 ∧
        pmap64_pde s' 1 0x1000 = some p2 ∧ s'.mem p2 &&& INTEL_PTE_VALID ≠ 0) ∧
      pmap_pte s' 1 0x1000 ≠ none ∧
      expand_effect (on_path s' 1 0x1000) sample_empty s')) ∧
    ((2 : Nat) = sample_state.kernel_pmap ∧
      ¬ (0x1000 ≥ KERNEL_BASEMENT ∧ 0x1000 ≤ VM_MAX_KERNEL_ADDRESS) ∧
      pmap_expand 4 sample_state 2 0x1000 0 = Result.panic) :=
  ⟨⟨_, rfl, (pmap_expand_success 4 sample_empty 1 0x1000 0).1 _ rfl⟩, rfl, by decide,
    (pmap_expand_success 4 sample_state 2 0x1000 0).2.2 rfl (by decide)⟩

theorem pmap_pte_same_page (s : State) (map va va' : Nat) (h : va / 4096 = va' / 4096) :
    pmap_pte s map va = pmap_pte s map va' := by
  have hb : intel_btop va = intel_btop va' := by
    simp only [intel_btop, PTESHIFT, Nat.shiftRight_eq_div_pow]; omega
  unfold pmap_pte
  rw [pmap_pde_same_stride s map va va' (by omega), hb]

theorem pmap_pte_hole (s : State) (map va : Nat)
    (h : 0x00007FFFFFFFFFFF < va ∧ va < 0xFFFF800000000000) : pmap_pte s map va = none := by
  unfold pmap_pte pmap_pde pmap64_pde pmap64_pdpt pmap64_pml4
  rw [if_pos h]

theorem and_PDMASK (x : Nat) : x &&& PDMASK = x % 2097152 :=
  Nat.and_pow_two_sub_one_eq_mod x 21

/-- What the entry scan of `pmap_permissions_verify` establishes: it either
ends with `KERN_FAILURE`, or keeps `rv` and no page from that of the cursor up
to `ev` has a present entry that is writable and executable. -/
theorem pmap_permissions_verify_scan_spec (s : State) (ipmap ev : Nat) (hev : ev % 4096 = 0)
    (hev2 : ev < 2 ^ 64) :
    ∀ (fuel cv0 rv rv' : Nat), pmap_permissions_verify_scan s ipmap ev fuel cv0 rv = some rv' →
      rv' = KERN_FAILURE ∨ (rv' = rv ∧ ∀ va p, cv0 / 4096 ≤ va / 4096 → va < ev →
        pmap_pte s ipmap va = some p → s.mem p &&& INTEL_PTE_VALID ≠ 0 →
        s.mem p &&& INTEL_PTE_WRITE ≠ 0 → s.mem p &&& INTEL_PTE_NX ≠ 0) := by
  intro fuel
  induction fuel with
  | zero => intro cv0 rv rv' h; simp [pmap_permissions_verify_scan] at h
  | succ fuel ih =>
    intro cv0 rv rv' h
    unfold pmap_permissions_verify_scan at h
    by_cases hlt : cv0 < ev
    swap
    · rw [if_neg hlt] at h
      injection h with h
      right
      refine ⟨h.symm, ?_⟩
      intro va p h1 h2
      omega
    rw [if_pos hlt] at h
    simp only [] at h
    generalize hcv : (if cv0 > 0x00007FFFFFFFFFFF ∧ cv0 < 0xFFFF800000000000
      then 0xFFFF800000000000 else cv0) = cv at h
    have hcv1 : cv0 ≤ cv ∧ cv < 2 ^ 64 - 4096 ∧
        ¬ (0x00007FFFFFFFFFFF < cv ∧ cv < 0xFFFF800000000000) ∧
        (∀ va, cv0 / 4096 ≤ va / 4096 → va / 4096 < cv / 4096 →
          0x00007FFFFFFFFFFF < va ∧ va < 0xFFFF800000000000) := by
      rw [← hcv]
      split
      · refine ⟨by omega, by norm_num, by omega, ?_⟩
        intro va h1 h2; omega
      · refine ⟨le_refl _, by omega, by omega, ?_⟩
        intro va h1 h2; omega
    obtain ⟨hc1, hc2, hc3, hc4⟩ := hcv1
    have hpml4 : pmap64_pml4 s ipmap cv ≠ none := by
      unfold pmap64_pml4
      rw [if_neg hc3]
      exact fun h => by cases h
    rw [if_neg (fun hh => hpml4 hh.2)] at h
    by_cases hskip : cv &&& PDMASK = 0 ∧ pmap_pde s ipmap cv = none
    · rw [if_pos hskip] at h
      obtain ⟨hal, hpde⟩ := hskip
      rw [and_PDMASK] at hal
      have hstride : ∀ va p, cv / 4096 ≤ va / 4096 → va < cv + 2097152 →
          pmap_pte s ipmap va = some p → False := by
        intro va p h1 h2 h3
        rw [pmap_pte_none_of_pde (by
          rw [pmap_pde_same_stride s ipmap va cv (by omega)]; exact hpde)] at h3
        cases h3
      by_cases hw : (cv + NBPD) % 2 ^ 64 > cv
      · rw [if_pos hw] at h
        have hnw : (cv + NBPD) % 2 ^ 64 = cv + 2097152 := by
          unfold NBPD at hw ⊢; omega
        rw [hnw] at h
        rcases ih _ _ _ h with hf | ⟨he, hcl⟩
        · exact Or.inl hf
        · right
          refine ⟨he, ?_⟩
          intro va p h1 h2 h3
          by_cases ha : va / 4096 < cv / 4096
          · rw [pmap_pte_hole s ipmap va (hc4 va h1 ha)] at h3; cases h3
          · by_cases hb : va < cv + 2097152
            · exact absurd (hstride va p (by omega) hb h3) id
            · exact hcl va p (by omega) h2 h3
      · rw [if_neg hw] at h
        injection h with h
        right
        refine ⟨h.symm, ?_⟩
        intro va p h1 h2 h3
        by_cases ha : va / 4096 < cv / 4096
        · rw [pmap_pte_hole s ipmap va (hc4 va h1 ha)] at h3; cases h3
        · exact absurd (hstride va p (by omega) (by unfold NBPD at hw; omega) h3) id
    · rw [if_neg hskip] at h
      have hnw : (cv + PAGE_SIZE) % 2 ^ 64 = cv + 4096 := by
        unfold PAGE_SIZE; omega
      rw [hnw] at h
      rcases ih _ _ _ h with hf | ⟨he, hcl⟩
      · exact Or.inl hf
      · -- the page at the cursor
        have hpage : rv' = KERN_FAILURE ∨ (rv' = rv ∧ ∀ p, pmap_pte s ipmap cv = some p →
            s.mem p &&& INTEL_PTE_VALID ≠ 0 → s.mem p &&& INTEL_PTE_WRITE ≠ 0 →
            s.mem p &&& INTEL_PTE_NX ≠ 0) := by
          rw [he]
          cases hp : pmap_pte s ipmap cv with
          | none => right; exact ⟨rfl, fun p h => by cases h⟩
          | some q =>
            simp only []
            by_cases h1 : s.mem q &&& INTEL_PTE_VALID ≠ 0
            · rw [if_pos h1]
              by_cases h2 : s.mem q &&& INTEL_PTE_WRITE ≠ 0
              · rw [if_pos h2]
                by_cases h3 : s.mem q &&& INTEL_PTE_NX = 0
                · rw [if_pos h3]; left; rfl
                · rw [if_neg h3]; right
                  refine ⟨rfl, fun p hpq _ _ => ?_⟩
                  injection hpq with hpq; rw [← hpq]; exact h3
              · rw [if_neg h2]; right
                refine ⟨rfl, fun p hpq _ hw => ?_⟩
                injection hpq with hpq; rw [← hpq] at hw; exact absurd hw h2
            · rw [if_neg h1]; right
              refine ⟨rfl, fun p hpq hv => ?_⟩
              injection hpq with hpq; rw [← hpq] at hv; exact absurd hv h1
        rcases hpage with hf | ⟨he2, hcur⟩
        · exact Or.inl hf
        · right
          refine ⟨he2, ?_⟩
          intro va p h1 h2 h3
          by_cases ha : va / 4096 < cv / 4096
          · rw [pmap_pte_hole s ipmap va (hc4 va h1 ha)] at h3; cases h3
          · by_cases hb : va / 4096 = cv / 4096
            · rw [pmap_pte_same_page s ipmap va cv hb] at h3
              exact hcur p h3
            · exact hcl va p (by omega) h2 h3

/-- What the page loop of `pmap_permissions_verify` establishes for one region:
it either ends with `KERN_FAILURE`, or keeps `rv` and every page it steps
through that has a present entry has the derived protection `prot`. -/
theorem pmap_permissions_verify_pages_spec (s : State) (ipmap prot lim : Nat)
    (hlim : lim < 2 ^ 64) :
    ∀ (fuel pcv rv rv' : Nat),
      pmap_permissions_verify_pages s ipmap prot lim fuel pcv rv = some rv' →
      rv' = KERN_FAILURE ∨ (rv' = rv ∧ ∀ k p, pcv + k * 4096 < lim →
        pmap_pte s ipmap (pcv + k * 4096) = some p → s.mem p &&& INTEL_PTE_VALID ≠ 0 →
        pte_tprot (s.mem p) = prot) := by
  intro fuel
  induction fuel with
  | zero => intro pcv rv rv' h; simp [pmap_permissions_verify_pages] at h
  | succ fuel ih =>
    intro pcv rv rv' h
    unfold pmap_permissions_verify_pages at h
    by_cases hlt : pcv < lim
    swap
    · rw [if_neg hlt] at h
      injection h with h
      right
      refine ⟨h.symm, ?_⟩
      intro k p h1
      omega
    rw [if_pos hlt] at h
    have hstep : ∀ k p, pcv + (k + 1) * 4096 < lim →
        pmap_pte s ipmap (pcv + (k + 1) * 4096) = some p →
        pmap_pte s ipmap ((pcv + PAGE_SIZE) % 2 ^ 64 + k * 4096) = some p := by
      intro k p h1 h2
      have e : (pcv + PAGE_SIZE) % 2 ^ 64 + k * 4096 = pcv + (k + 1) * 4096 := by
        unfold PAGE_SIZE; omega
      rw [e]; exact h2
    have hstep2 : ∀ k, pcv + (k + 1) * 4096 < lim →
        (pcv + PAGE_SIZE) % 2 ^ 64 + k * 4096 < lim := by
      intro k h1
      unfold PAGE_SIZE; omega
    -- the rest of the loop, given what the page at `pcv` contributes
    have key : ∀ rv1, pmap_permissions_verify_pages s ipmap prot lim fuel
          ((pcv + PAGE_SIZE) % 2 ^ 64) rv1 = some rv' →
        (rv1 = KERN_FAILURE ∨ (rv1 = rv ∧ ∀ p, pmap_pte s ipmap pcv = some p →
          s.mem p &&& INTEL_PTE_VALID ≠ 0 → pte_tprot (s.mem p) = prot)) →
        rv' = KERN_FAILURE ∨ (rv' = rv ∧ ∀ k p, pcv + k * 4096 < lim →
          pmap_pte s ipmap (pcv + k * 4096) = some p → s.mem p &&& INTEL_PTE_VALID ≠ 0 →
          pte_tprot (s.mem p) = prot) := by
      intro rv1 hrun h1
      rcases ih _ _ _ hrun with hf | ⟨he, hcl⟩
      · exact Or.inl hf
      · rcases h1 with hf | ⟨he1, hcur⟩
        · left; rw [he, hf]
        · right
          refine ⟨by rw [he, he1], ?_⟩
          intro k p hk hp hv
          cases k with
          | zero => exact hcur p (by simpa using hp) hv
          | succ k => exact hcl k p (hstep2 k hk) (hstep k p hk hp) hv
    cases hp : pmap_pte s ipmap pcv with
    | none =>
      simp only [hp] at h
      exact key rv h (Or.inr ⟨rfl, fun p h => by rw [hp] at h; cases h⟩)
    | some q =>
      simp only [hp] at h
      by_cases hv : s.mem q &&& INTEL_PTE_VALID = 0
      · rw [if_pos hv] at h
        refine key rv h (Or.inr ⟨rfl, fun p hpq hv' => ?_⟩)
        rw [hp] at hpq; injection hpq with hpq; rw [← hpq] at hv'; exact absurd hv hv'
      · rw [if_neg hv] at h
        refine key _ h ?_
        by_cases ht : pte_tprot (s.mem q) = prot
        · right
          refine ⟨by
            show (if pte_tprot (s.mem q) ≠ prot then KERN_FAILURE else rv) = rv
            rw [if_neg (by simpa using ht)], fun p hpq _ => ?_⟩
          rw [hp] at hpq; injection hpq with hpq; rw [← hpq]; exact ht
        · left
          show (if pte_tprot (s.mem q) ≠ prot then KERN_FAILURE else rv) = KERN_FAILURE
          rw [if_pos ht]

/-- The findings of the audit for one enumerated region: it is not declared
writable and executable, and when its declared protection is not
`VM_PROT_NONE` every page the loop steps through that has a present entry has
that protection as its derived protection. -/
theorem pmap_permissions_verify_regions_spec
    (mach_vm_region_recurse : Nat → Nat → Nat → Option vm_region_submap_info)
    (s : State) (ipmap ivmmap ev : Nat) :
    ∀ (fuel cv nesting_depth rv rv' : Nat),
      pmap_permissions_verify_regions mach_vm_region_recurse s ipmap ivmmap ev fuel cv
        nesting_depth rv = some rv' →
      rv' = KERN_FAILURE ∨ (rv' = rv ∧
        ∀ r ∈ verify_regions mach_vm_region_recurse ivmmap ev fuel cv nesting_depth,
          r.protection &&& (VM_PROT_WRITE ||| VM_PROT_EXECUTE) ≠ (VM_PROT_WRITE ||| VM_PROT_EXECUTE) ∧
          (r.protection ≠ VM_PROT_NONE → ∀ k p,
            r.address + k * 4096 < (r.address + r.size) % 2 ^ 64 →
            pmap_pte s ipmap (r.address + k * 4096) = some p →
            s.mem p &&& INTEL_PTE_VALID ≠ 0 → pte_tprot (s.mem p) = r.protection)) := by
  intro fuel
  induction fuel with
  | zero => intro cv d rv rv' h; simp [pmap_permissions_verify_regions] at h
  | succ fuel ih =>
    intro cv d rv rv' h
    unfold pmap_permissions_verify_regions at h
    unfold verify_regions
    by_cases hlt : cv < ev
    swap
    · rw [if_neg hlt] at h
      injection h with h
      right
      rw [if_neg hlt]
      exact ⟨h.symm, fun r hr => by cases hr⟩
    rw [if_pos hlt] at h
    rw [if_pos hlt]
    cases hl : pmap_permissions_verify_recurse mach_vm_region_recurse ivmmap fuel cv d with
    | none => simp only [hl] at h; cases h
    | some o =>
      cases o with
      | none =>
        simp only [hl] at h
        injection h with h
        right
        exact ⟨h.symm, fun r hr => by cases hr⟩
      | some vbr =>
        simp only [hl] at h
        by_cases hwx : vbr.protection &&& (VM_PROT_WRITE ||| VM_PROT_EXECUTE)
            = (VM_PROT_WRITE ||| VM_PROT_EXECUTE)
        · -- a failure once recorded is kept
          left
          rw [if_pos hwx] at h
          by_cases hp0 : vbr.protection ≠ 0
          · rw [if_pos hp0] at h
            cases hpg : pmap_permissions_verify_pages s ipmap vbr.protection
                ((vbr.address + vbr.size) % 2 ^ 64) fuel vbr.address KERN_FAILURE with
            | none => simp only [hpg] at h; cases h
            | some rv2 =>
              simp only [hpg] at h
              have h2 : rv2 = KERN_FAILURE := by
                rcases pmap_permissions_verify_pages_spec s ipmap vbr.protection _
                  (Nat.mod_lt _ (by norm_num)) fuel vbr.address _ rv2 hpg with hf | ⟨he2, _⟩
                · exact hf
                · exact he2
              rcases ih _ _ _ _ h with hf | ⟨he, _⟩
              · exact hf
              · rw [he, h2]
          · rw [if_neg hp0] at h
            simp only [] at h
            rcases ih _ _ _ _ h with hf | ⟨he, _⟩
            · exact hf
            · exact he
        · rw [if_neg hwx] at h
          by_cases hp0 : vbr.protection ≠ 0
          · rw [if_pos hp0] at h
            cases hpg : pmap_permissions_verify_pages s ipmap vbr.protection
                ((vbr.address + vbr.size) % 2 ^ 64) fuel vbr.address rv with
            | none => simp only [hpg] at h; cases h
            | some rv2 =>
              simp only [hpg] at h
              rcases ih _ _ _ _ h with hf | ⟨he, hcl⟩
              · exact Or.inl hf
              · rcases pmap_permissions_verify_pages_spec s ipmap vbr.protection _
                  (Nat.mod_lt _ (by norm_num)) fuel vbr.address rv rv2 hpg with hf | ⟨he2, hpgs⟩
                · left; rw [he, hf]
                · right
                  refine ⟨by rw [he, he2], ?_⟩
                  intro r hr
                  rcases List.mem_cons.1 hr with hr | hr
                  · subst hr
                    exact ⟨hwx, fun _ => hpgs⟩
                  · exact hcl r hr
          · rw [if_neg hp0] at h
            simp only [] at h
            rcases ih _ _ _ _ h with hf | ⟨he, hcl⟩
            · exact Or.inl hf
            · right
              refine ⟨he, ?_⟩
              intro r hr
              rcases List.mem_cons.1 hr with hr | hr
              · subst hr
                refine ⟨hwx, fun hne => absurd ?_ hp0⟩
                exact hne
              · exact hcl r hr

theorem pte_tprot_bits (e : Nat) :
    pte_tprot e &&& VM_PROT_READ ≠ 0 ∧
    (pte_tprot e &&& VM_PROT_WRITE ≠ 0 ↔ e &&& INTEL_PTE_WRITE ≠ 0) ∧
    (pte_tprot e &&& VM_PROT_EXECUTE ≠ 0 ↔ e &&& INTEL_PTE_NX = 0) := by
  unfold pte_tprot
  by_cases h1 : e &&& INTEL_PTE_WRITE ≠ 0 <;> by_cases h2 : e &&& INTEL_PTE_NX = 0 <;>
    simp [h1, h2] <;> decide

theorem and_PAGE_MASK_64 (x : Nat) :
    (x &&& (PAGE_MASK_64 ^^^ UINT64_MAX)) % 4096 = 0 ∧ x &&& (PAGE_MASK_64 ^^^ UINT64_MAX) < 2 ^ 64 := by
  have hm : PAGE_MASK_64 ^^^ UINT64_MAX = 2 ^ 12 * (2 ^ 52 - 1) := by decide
  constructor
  · have h : (x &&& (PAGE_MASK_64 ^^^ UINT64_MAX)) % 2 ^ 12 = 0 := by
      apply Nat.eq_of_testBit_eq
      intro i
      rw [Nat.testBit_mod_two_pow, Nat.testBit_and, hm, Nat.testBit_mul_pow_two]
      by_cases hi : i < 12
      · have : ¬ 12 ≤ i := by omega
        simp [hi, this]
      · simp [hi]
    simpa using h
  · exact lt_of_le_of_lt Nat.and_le_right (by decide)

/-- Claim C21, as stated, fails for a region declared `VM_PROT_NONE`: the page
loop is guarded by `if (prot)`.  On the sample space the entry of the page at
0x1000 is present with derived protection `VM_PROT_READ`, the map declares the
region of that page with `VM_PROT_NONE`, and
`pmap_permissions_verify (ipmap, ivmmap, 0x1000, 0x2000)` returns
`KERN_SUCCESS`. -/
theorem pmap_permissions_verify_none_region :
    pmap_permissions_verify (sample_regions VM_PROT_NONE) 4 sample_state 1 0 0x1000 0x2000
      = some KERN_SUCCESS ∧
    (verify_regions (sample_regions VM_PROT_NONE) 0 0x2000 4 0x1000 0).map
      (fun r => (r.address, r.size, r.protection)) = [(0x1000, 4096, VM_PROT_NONE)] ∧
    pmap_pte sample_state 1 0x1000 = some 0x4008 ∧
    sample_state.mem 0x4008 &&& INTEL_PTE_VALID ≠ 0 ∧
    pte_tprot (sample_state.mem 0x4008) = VM_PROT_READ ∧ VM_PROT_READ ≠ VM_PROT_NONE := by
  refine ⟨?_, ?_, ?_, ?_, ?_, ?_⟩ <;> decide

/-- Claim C21, amended: when `pmap_permissions_verify` returns `KERN_SUCCESS`,
no present entry translating an address from `sv` up to the page-aligned `ev`
is writable and executable, no enumerated region is declared writable and
executable, and in every enumerated region whose declared protection is not
`VM_PROT_NONE` every page the loop steps through that has a present entry has
the declared protection as its derived protection. -/
theorem pmap_permissions_verify_success
    (mach_vm_region_recurse : Nat → Nat → Nat → Option vm_region_submap_info)
    (fuel : Nat) (s : State) (ipmap ivmmap sv ev : Nat)
    (h : pmap_permissions_verify mach_vm_region_recurse fuel s ipmap ivmmap sv ev
      = some KERN_SUCCESS) :
    (∀ va p, sv ≤ va → va < ev &&& (PAGE_MASK_64 ^^^ UINT64_MAX) →
      pmap_pte s ipmap va = some p → s.mem p &&& INTEL_PTE_VALID ≠ 0 →
      ¬ (s.mem p &&& INTEL_PTE_WRITE ≠ 0 ∧ s.mem p &&& INTEL_PTE_NX = 0)) ∧
    (∀ r ∈ verify_regions mach_vm_region_recurse ivmmap (ev &&& (PAGE_MASK_64 ^^^ UINT64_MAX))
        fuel (sv &&& (PAGE_MASK_64 ^^^ UINT64_MAX)) 0,
      r.protection &&& (VM_PROT_WRITE ||| VM_PROT_EXECUTE) ≠ (VM_PROT_WRITE ||| VM_PROT_EXECUTE) ∧
      (r.protection ≠ VM_PROT_NONE → ∀ k p,
        r.address + k * PAGE_SIZE < (r.address + r.size) % 2 ^ 64 →
        pmap_pte s ipmap (r.address + k * PAGE_SIZE) = some p →
        s.mem p &&& INTEL_PTE_VALID ≠ 0 → pte_tprot (s.mem p) = r.protection)) := by
  unfold pmap_permissions_verify at h
  simp only [] at h
  cases hs : pmap_permissions_verify_scan s ipmap (ev &&& (PAGE_MASK_64 ^^^ UINT64_MAX)) fuel sv
      KERN_SUCCESS with
  | none => simp only [hs] at h; cases h
  | some rv =>
    simp only [hs] at h
    have hne : KERN_SUCCESS ≠ KERN_FAILURE := by decide
    rcases pmap_permissions_verify_regions_spec mach_vm_region_recurse s ipmap ivmmap _ fuel _ _
      _ _ h with hf | ⟨he, hreg⟩
    · exact absurd hf hne
    · rcases pmap_permissions_verify_scan_spec s ipmap _ (and_PAGE_MASK_64 ev).1
        (and_PAGE_MASK_64 ev).2 fuel sv _ rv hs with hf | ⟨_, hcl⟩
      · rw [hf] at he; exact absurd he hne
      · refine ⟨?_, hreg⟩
        intro va p h1 h2 h3 h4 h5
        exact hcl va p (Nat.div_le_div_right h1) h2 h3 h4 h5.1 h5.2

theorem pmap_permissions_verify_success_witness :
    pmap_permissions_verify (sample_regions (VM_PROT_READ ||| VM_PROT_WRITE)) 4 sample_state 1 0
      0x3000 0x4000 = some KERN_SUCCESS ∧
    ((∀ va p, 0x3000 ≤ va → va < 0x4000 &&& (PAGE_MASK_64 ^^^ UINT64_MAX) →
      pmap_pte sample_state 1 va = some p → sample_state.mem p &&& INTEL_PTE_VALID ≠ 0 →
      ¬ (sample_state.mem p &&& INTEL_PTE_WRITE ≠ 0 ∧ sample_state.mem p &&& INTEL_PTE_NX = 0)) ∧
    (∀ r ∈ verify_regions (sample_regions (VM_PROT_READ ||| VM_PROT_WRITE)) 0
        (0x4000 &&& (PAGE_MASK_64 ^^^ UINT64_MAX)) 4 (0x3000 &&& (PAGE_MASK_64 ^^^ UINT64_MAX)) 0,
      r.protection &&& (VM_PROT_WRITE ||| VM_PROT_EXECUTE) ≠ (VM_PROT_WRITE ||| VM_PROT_EXECUTE) ∧
      (r.protection ≠ VM_PROT_NONE → ∀ k p,
        r.address + k * PAGE_SIZE < (r.address + r.size) % 2 ^ 64 →
        pmap_pte sample_state 1 (r.address + k * PAGE_SIZE) = some p →
        sample_state.mem p &&& INTEL_PTE_VALID ≠ 0 →
        pte_tprot (sample_state.mem p) = r.protection))) :=
  ⟨by decide, pmap_permissions_verify_success (sample_regions (VM_PROT_READ ||| VM_PROT_WRITE)) 4
    sample_state 1 0 0x3000 0x4000 (by decide)⟩

/-- Claim C22, as stated, fails for a region declared `VM_PROT_NONE`: on the
sample space the entry of the page at 0x3000 is present with derived
protection read and write, the map declares the region of that page with
`VM_PROT_NONE`, and `pmap_permissions_verify (ipmap, ivmmap, 0x3000, 0x4000)`
does not return `KERN_FAILURE`. -/
theorem pmap_permissions_verify_none_not_flagged :
    (∃ r, r ∈ verify_regions (sample_regions VM_PROT_NONE) 0 0x4000 4 0x3000 0 ∧
      r.address = 0x3000 ∧ r.size = 4096 ∧ r.protection = VM_PROT_NONE) ∧
    pmap_pte sample_state 1 0x3000 = some 0x4018 ∧
    sample_state.mem 0x4018 &&& INTEL_PTE_VALID ≠ 0 ∧
    pte_tprot (sample_state.mem 0x4018) = VM_PROT_READ ||| VM_PROT_WRITE ∧
    pte_tprot (sample_state.mem 0x4018) ≠ VM_PROT_NONE ∧
    pmap_permissions_verify (sample_regions VM_PROT_NONE) 4 sample_state 1 0 0x3000 0x4000
      ≠ some KERN_FAILURE := by
  refine ⟨⟨_, List.mem_cons_self _ _, rfl, rfl, rfl⟩, ?_, ?_, ?_, ?_, ?_⟩ <;> decide

/-- Claim C22, amended: for every region enumerated by a returning
`pmap_permissions_verify` whose declared protection is not `VM_PROT_NONE`, and
every page of it the loop steps through that has a present entry, the derived
protection `pte_tprot` of the entry contains `VM_PROT_READ`, contains
`VM_PROT_WRITE` exactly when the writable bit is set and `VM_PROT_EXECUTE`
exactly when the no-execute bit is clear, and the result is `KERN_FAILURE`
whenever it differs from the declared protection of the region. -/
theorem pmap_permissions_verify_flags_mismatch
    (mach_vm_region_recurse : Nat → Nat → Nat → Option vm_region_submap_info)
    (fuel : Nat) (s : State) (ipmap ivmmap sv ev rv : Nat)
    (h : pmap_permissions_verify mach_vm_region_recurse fuel s ipmap ivmmap sv ev = some rv) :
    ∀ r ∈ verify_regions mach_vm_region_recurse ivmmap (ev &&& (PAGE_MASK_64 ^^^ UINT64_MAX))
        fuel (sv &&& (PAGE_MASK_64 ^^^ UINT64_MAX)) 0,
      r.protection ≠ VM_PROT_NONE → ∀ k p,
        r.address + k * PAGE_SIZE < (r.address + r.size) % 2 ^ 64 →
        pmap_pte s ipmap (r.address + k * PAGE_SIZE) = some p →
        s.mem p &&& INTEL_PTE_VALID ≠ 0 →
        (pte_tprot (s.mem p) &&& VM_PROT_READ ≠ 0 ∧
          (pte_tprot (s.mem p) &&& VM_PROT_WRITE ≠ 0 ↔ s.mem p &&& INTEL_PTE_WRITE ≠ 0) ∧
          (pte_tprot (s.mem p) &&& VM_PROT_EXECUTE ≠ 0 ↔ s.mem p &&& INTEL_PTE_NX = 0)) ∧
        (pte_tprot (s.mem p) ≠ r.protection → rv = KERN_FAILURE) := by
  intro r hr hne k p hk hp hv
  refine ⟨pte_tprot_bits _, fun hmis => ?_⟩
  unfold pmap_permissions_verify at h
  simp only [] at h
  cases hs : pmap_permissions_verify_scan s ipmap (ev &&& (PAGE_MASK_64 ^^^ UINT64_MAX)) fuel sv
      KERN_SUCCESS with
  | none => simp only [hs] at h; cases h
  | some rv1 =>
    simp only [hs] at h
    rcases pmap_permissions_verify_regions_spec mach_vm_region_recurse s ipmap ivmmap _ fuel _ _
      _ _ h with hf | ⟨_, hreg⟩
    · exact hf
    · exact absurd ((hreg r hr).2 hne k p hk hp hv) hmis

theorem pmap_permissions_verify_flags_mismatch_witness :
    pmap_permissions_verify (sample_regions (VM_PROT_READ ||| VM_PROT_WRITE)) 4 sample_state 1 0
      0x1000 0x2000 = some KERN_FAILURE ∧
    (∀ r ∈ verify_regions (sample_regions (VM_PROT_READ ||| VM_PROT_WRITE)) 0
        (0x2000 &&& (PAGE_MASK_64 ^^^ UINT64_MAX)) 4 (0x1000 &&& (PAGE_MASK_64 ^^^ UINT64_MAX)) 0,
      r.protection ≠ VM_PROT_NONE → ∀ k p,
        r.address + k * PAGE_SIZE < (r.address + r.size) % 2 ^ 64 →
        pmap_pte sample_state 1 (r.address + k * PAGE_SIZE) = some p →
        sample_state.mem p &&& INTEL_PTE_VALID ≠ 0 →
        (pte_tprot (sample_state.mem p) &&& VM_PROT_READ ≠ 0 ∧
          (pte_tprot (sample_state.mem p) &&& VM_PROT_WRITE ≠ 0 ↔
            sample_state.mem p &&& INTEL_PTE_WRITE ≠ 0) ∧
          (pte_tprot (sample_state.mem p) &&& VM_PROT_EXECUTE ≠ 0 ↔
            sample_state.mem p &&& INTEL_PTE_NX = 0)) ∧
        (pte_tprot (sample_state.mem p) ≠ r.protection → KERN_FAILURE = KERN_FAILURE)) :=
  ⟨by decide, pmap_permissions_verify_flags_mismatch
    (sample_regions (VM_PROT_READ ||| VM_PROT_WRITE)) 4 sample_state 1 0 0x1000 0x2000
    KERN_FAILURE (by decide)⟩

theorem pmap_mark_range_ptes_stuck (npmap : Nat) (NX ro : Bool) (pdev ev : Nat) (fuel cv : Nat)
    (s : State) (h : pmap_pte s npmap cv = none) :
    pmap_mark_range_ptes npmap NX ro pdev ev (fuel + 1) cv s = some (cv, s) := by
  unfold pmap_mark_range_ptes
  rw [h]

/-- When the cursor stands at an address with no leaf slot under a directory
entry without the large-page bit, the outer loop of `pmap_mark_range` makes no
progress: it runs out of any amount of fuel. -/
theorem pmap_mark_range_loop_stuck (npmap : Nat) (NX ro : Bool) (ev pde cv : Nat) (s : State)
    (hlt : cv < ev) (hps : s.mem pde &&& INTEL_PTE_PS = 0) (h : pmap_pte s npmap cv = none) :
    ∀ fuel, pmap_mark_range_loop npmap NX ro ev fuel (some pde) cv s = Result.timeout := by
  intro fuel
  induction fuel with
  | zero => rfl
  | succ fuel ih =>
    unfold pmap_mark_range_loop
    simp only [hlt, if_true]
    rw [if_neg (by simpa using hps)]
    cases fuel with
    | zero => rfl
    | succ fuel =>
      rw [pmap_mark_range_ptes_stuck npmap NX ro _ ev fuel cv s h]
      exact ih

/-- Claim C30 fails when the range holds an address with no leaf table: on the
sample space the directory entry of 0x200000 exists and is not present, so
`pmap_pde` is non-null, `pmap_pte` is null, the inner loop does not run and the
outer loop, which has no increment, repeats with the same `pdep` and `cv`;
`pmap_mark_range (npmap, 0x200000, 0x1000, TRUE, FALSE)` does not return for
any amount of fuel. -/
theorem pmap_mark_range_no_leaf_table_hangs :
    (0x200000 &&& 0xFFF) ||| (0x1000 &&& 0xFFF) = 0 ∧
    pmap_pde sample_state 1 0x200000 = some 0x3008 ∧
    sample_state.mem 0x3008 = 0 ∧
    pmap_pte sample_state 1 0x200000 = none ∧
    ∀ fuel, pmap_mark_range fuel sample_state 1 0x200000 0x1000 true false = Result.timeout := by
  refine ⟨by decide, by decide, by decide, by decide, ?_⟩
  intro fuel
  unfold pmap_mark_range
  simp only []
  rw [if_neg (by decide), show pmap_pde sample_state 1 0x200000 = some 0x3008 from by decide]
  exact pmap_mark_range_loop_stuck 1 true false _ 0x3008 0x200000 sample_state (by decide)
    (by decide) (by decide) fuel

theorem mark_word_testBit (NX ro : Bool) (e i : Nat) :
    (mark_word NX ro e).testBit i =
      if i = 63 then (NX || e.testBit 63)
      else if i = 1 then (e.testBit 1 && !ro)
      else (e.testBit i && (!ro || decide (i < 64))) := by
  unfold mark_word
  by_cases h63 : i = 63
  · subst h63
    cases NX <;> cases ro <;>
      simp [Nat.testBit_or, Nat.testBit_and, Nat.testBit_xor, testBit_UINT64_MAX, testBit_WRITE,
        testBit_NX]
  · by_cases h1 : i = 1
    · subst h1
      cases NX <;> cases ro <;>
        simp [Nat.testBit_or, Nat.testBit_and, Nat.testBit_xor, testBit_UINT64_MAX, testBit_WRITE,
          testBit_NX]
    · have h63' : ¬ 63 = i := fun h => h63 h.symm
      have h1' : ¬ 1 = i := fun h => h1 h.symm
      cases NX <;> cases ro <;>
        simp [h63, h1, h63', h1', Nat.testBit_or, Nat.testBit_and, Nat.testBit_xor,
          testBit_UINT64_MAX, testBit_WRITE, testBit_NX]

theorem mark_word_idem (NX ro : Bool) (e : Nat) :
    mark_word NX ro (mark_word NX ro e) = mark_word NX ro e := by
  apply Nat.eq_of_testBit_eq
  intro i
  simp only [mark_word_testBit]
  by_cases h63 : i = 63 <;> by_cases h1 : i = 1 <;> cases NX <;> cases ro <;> simp [h63, h1]

theorem mark_word_valid (NX ro : Bool) (e : Nat) :
    mark_word NX ro e &&& INTEL_PTE_VALID = e &&& INTEL_PTE_VALID := by
  apply Nat.eq_of_testBit_eq
  intro i
  rw [Nat.testBit_and, Nat.testBit_and, mark_word_testBit, testBit_VALID]
  by_cases h0 : 0 = i
  · subst h0; simp
  · simp [h0]

theorem mark_word_ps (NX ro : Bool) (e : Nat) :
    mark_word NX ro e &&& INTEL_PTE_PS = e &&& INTEL_PTE_PS := by
  apply Nat.eq_of_testBit_eq
  intro i
  have hV : INTEL_PTE_PS = 2 ^ 7 := rfl
  rw [Nat.testBit_and, Nat.testBit_and, mark_word_testBit, hV, Nat.testBit_two_pow]
  by_cases h0 : 7 = i
  · subst h0; simp
  · simp [h0]

theorem mark_word_frame (NX ro : Bool) (e : Nat) :
    mark_word NX ro e &&& PG_FRAME = e &&& PG_FRAME := by
  apply Nat.eq_of_testBit_eq
  intro i
  rw [Nat.testBit_and, Nat.testBit_and, mark_word_testBit, testBit_PG_FRAME]
  by_cases h63 : i = 63
  · subst h63; simp
  · by_cases h1 : i = 1
    · subst h1; simp
    · by_cases h64 : i < 64
      · simp [h1, h63, h64]
      · have : ¬ i < 52 := by omega
        simp [h1, h63, h64, this]

theorem pmap_mark_range_entry_mem (s : State) (p : Nat) (NX ro : Bool) (a : Nat) :
    (pmap_mark_range_entry s p NX ro).mem a =
      if a = p then mark_word NX ro (s.mem p) else s.mem a := by
  unfold pmap_mark_range_entry mark_word pmap_store_pte
  cases NX <;> cases ro <;> simp <;> split <;> simp_all

theorem pmap_mark_range_entry_frame (s : State) (p : Nat) (NX ro : Bool) :
    pmap_mark_range_entry s p NX ro =
      { s with mem := (pmap_mark_range_entry s p NX ro).mem } := by
  unfold pmap_mark_range_entry pmap_store_pte
  cases NX <;> cases ro <;> rfl

theorem mark_word_bits (NX ro : Bool) (e : Nat) :
    (NX = true → mark_word NX ro e &&& INTEL_PTE_NX ≠ 0) ∧
    (ro = true → mark_word NX ro e &&& INTEL_PTE_WRITE = 0) ∧
    (NX = false → (mark_word NX ro e).testBit 63 = e.testBit 63) ∧
    (ro = false → (mark_word NX ro e).testBit 1 = e.testBit 1) ∧
    (∀ i, i ≠ 1 → i ≠ 63 → i < 64 → (mark_word NX ro e).testBit i = e.testBit i) := by
  refine ⟨?_, ?_, ?_, ?_, ?_⟩
  · intro h
    rw [nx_iff, mark_word_testBit, if_pos rfl, h]; rfl
  · intro h
    by_contra hc
    have hc' := (write_iff _).1 hc
    rw [mark_word_testBit, if_neg (by decide), if_pos rfl, h] at hc'
    simp at hc'
  · intro h
    rw [mark_word_testBit, if_pos rfl, h]; simp
  · intro h
    rw [mark_word_testBit, if_neg (by decide), if_pos rfl, h]; simp
  · intro i h1 h63 h64
    rw [mark_word_testBit, if_neg h63, if_neg h1]
    simp [h64]

theorem mark_effect_sameWalk {NX ro : Bool} {npmap lo hi : Nat} {s s' : State}
    (h : mark_effect NX ro npmap lo hi s s') : SameWalk s.mem s'.mem := by
  intro a
  rcases h.2 a with ⟨_, e⟩ | ⟨_, e⟩
  · rw [e]; exact ⟨mark_word_valid _ _ _, mark_word_ps _ _ _, mark_word_frame _ _ _⟩
  · rw [e]; exact ⟨rfl, rfl, rfl⟩

theorem mark_target_congr {s s1 : State} {npmap : Nat} (hm : SameWalk s.mem s1.mem)
    (hp : (s1.pmaps npmap).pm_cr3 = (s.pmaps npmap).pm_cr3) (lo hi a : Nat) :
    mark_target s1 npmap lo hi a ↔ mark_target s npmap lo hi a := by
  have hpde : ∀ va, pmap_pde s1 npmap va = pmap_pde s npmap va := fun va =>
    pmap64_pde_congr hm hp va
  unfold mark_target
  constructor
  · rintro ⟨va, h1, h2, h3⟩
    refine ⟨va, h1, h2, ?_⟩
    rcases h3 with h3 | ⟨h3, h4⟩
    · left; rw [← pmap_pte_congr hm hp va]; exact h3
    · right; exact ⟨by rw [← hpde]; exact h3, by rw [← (hm a).2.1]; exact h4⟩
  · rintro ⟨va, h1, h2, h3⟩
    refine ⟨va, h1, h2, ?_⟩
    rcases h3 with h3 | ⟨h3, h4⟩
    · left; rw [pmap_pte_congr hm hp va]; exact h3
    · right; exact ⟨by rw [hpde]; exact h3, by rw [(hm a).2.1]; exact h4⟩

theorem mark_effect_empty (NX ro : Bool) (npmap lo hi : Nat) (s : State) (h : hi ≤ lo) :
    mark_effect NX ro npmap lo hi s s := by
  refine ⟨rfl, fun a => Or.inr ⟨?_, rfl⟩⟩
  rintro ⟨va, h1, h2, _⟩
  omega

theorem mark_effect_of_empty {NX ro : Bool} {npmap lo hi lo' hi' : Nat} {s s' : State}
    (h : hi ≤ lo) (h' : hi' ≤ lo') (he : mark_effect NX ro npmap lo hi s s') :
    mark_effect NX ro npmap lo' hi' s s' := by
  refine ⟨he.1, fun a => Or.inr ⟨?_, ?_⟩⟩
  · rintro ⟨va, h1, h2, _⟩
    omega
  · rcases he.2 a with ⟨⟨va, h1, h2, _⟩, _⟩ | ⟨_, e⟩
    · omega
    · exact e

theorem mark_effect_trans {NX ro : Bool} {npmap lo mid hi : Nat} {s s1 s' : State}
    (h1 : lo ≤ mid) (h2 : mid ≤ hi) (e1 : mark_effect NX ro npmap lo mid s s1)
    (e2 : mark_effect NX ro npmap mid hi s1 s') : mark_effect NX ro npmap lo hi s s' := by
  have hw := mark_effect_sameWalk e1
  have hp : (s1.pmaps npmap).pm_cr3 = (s.pmaps npmap).pm_cr3 := by rw [e1.1]
  refine ⟨by rw [e2.1, e1.1], fun a => ?_⟩
  have hc := mark_target_congr hw hp mid hi a
  have hsplit : mark_target s npmap lo hi a ↔
      (mark_target s npmap lo mid a ∨ mark_target s npmap mid hi a) := by
    unfold mark_target
    constructor
    · rintro ⟨va, a1, a2, a3⟩
      by_cases hin : va < mid
      · exact Or.inl ⟨va, a1, hin, a3⟩
      · exact Or.inr ⟨va, by omega, a2, a3⟩
    · rintro (⟨va, a1, a2, a3⟩ | ⟨va, a1, a2, a3⟩)
      · exact ⟨va, a1, by omega, a3⟩
      · exact ⟨va, by omega, a2, a3⟩
  rcases e2.2 a with ⟨t2, m2⟩ | ⟨n2, m2⟩
  · left
    refine ⟨hsplit.2 (Or.inr (hc.1 t2)), ?_⟩
    rcases e1.2 a with ⟨_, m1⟩ | ⟨_, m1⟩
    · rw [m2, m1, mark_word_idem]
    · rw [m2, m1]
  · rcases e1.2 a with ⟨t1, m1⟩ | ⟨n1, m1⟩
    · left
      exact ⟨hsplit.2 (Or.inl t1), by rw [m2, m1]⟩
    · right
      refine ⟨?_, by rw [m2, m1]⟩
      intro t
      rcases hsplit.1 t with t | t
      · exact n1 t
      · exact n2 (hc.2 t)

/-- The effect of marking the leaf slot of the page at `cv`. -/
theorem mark_effect_page (NX ro : Bool) (npmap cv ptep : Nat) (s : State) (hal : cv % 4096 = 0)
    (hp : pmap_pte s npmap cv = some ptep) :
    mark_effect NX ro npmap cv (cv + 4096) s (pmap_mark_range_entry s ptep NX ro) := by
  refine ⟨pmap_mark_range_entry_frame s ptep NX ro, fun a => ?_⟩
  rw [pmap_mark_range_entry_mem]
  by_cases ha : a = ptep
  · subst ha
    left
    exact ⟨⟨cv, le_refl _, by omega, Or.inl hp⟩, by rw [if_pos rfl]⟩
  · right
    refine ⟨?_, by rw [if_neg ha]⟩
    rintro ⟨va, h1, h2, h3⟩
    have hpg : pmap_pte s npmap va = some ptep := by
      rw [pmap_pte_same_page s npmap va cv (by omega)]; exact hp
    rcases h3 with h3 | ⟨h3, h4⟩
    · rw [hpg] at h3; injection h3 with h3; exact ha h3.symm
    · have hpde : pmap_pde s npmap cv = some a := by
        rw [pmap_pde_same_stride s npmap cv va (by omega)]; exact h3
      rw [pmap_pte_of_pde hpde] at hp
      by_cases hv : s.mem a &&& INTEL_PTE_VALID ≠ 0
      · rw [if_pos hv, if_pos h4] at hp
        injection hp with hp; exact ha hp
      · rw [if_neg hv] at hp; cases hp

/-- The effect of marking the large-page directory entry of the stride of `cv`. -/
theorem mark_effect_stride (NX ro : Bool) (npmap cv hi pde : Nat) (s : State)
    (h1 : cv < hi) (h2 : hi ≤ (cv / 2097152 + 1) * 2097152)
    (hpde : pmap_pde s npmap cv = some pde) (hps : s.mem pde &&& INTEL_PTE_PS ≠ 0) :
    mark_effect NX ro npmap cv hi s (pmap_mark_range_entry s pde NX ro) := by
  refine ⟨pmap_mark_range_entry_frame s pde NX ro, fun a => ?_⟩
  rw [pmap_mark_range_entry_mem]
  by_cases ha : a = pde
  · subst ha
    left
    exact ⟨⟨cv, le_refl _, h1, Or.inr ⟨hpde, hps⟩⟩, by rw [if_pos rfl]⟩
  · right
    refine ⟨?_, by rw [if_neg ha]⟩
    rintro ⟨va, a1, a2, a3⟩
    have hpv : pmap_pde s npmap va = some pde := by
      rw [pmap_pde_same_stride s npmap va cv (by omega)]; exact hpde
    rcases a3 with a3 | ⟨a3, _⟩
    · rw [pmap_pte_of_pde hpv] at a3
      by_cases hv : s.mem pde &&& INTEL_PTE_VALID ≠ 0
      · rw [if_pos hv, if_pos hps] at a3
        injection a3 with a3; exact ha a3.symm
      · rw [if_neg hv] at a3; cases a3
    · rw [hpv] at a3; injection a3 with a3; exact ha a3.symm

theorem pmap_mark_range_ptes_spec (npmap : Nat) (NX ro : Bool) (pdev ev : Nat)
    (hev : ev % 4096 = 0) (hev2 : ev ≤ 2 ^ 64 - 2097152) :
    ∀ (fuel cv : Nat) (s : State) (cv1 : Nat) (s1 : State), cv % 4096 = 0 →
      pmap_mark_range_ptes npmap NX ro pdev ev fuel cv s = some (cv1, s1) →
      cv ≤ cv1 ∧ cv1 % 4096 = 0 ∧ (cv1 ≤ ev ∨ cv1 = cv) ∧
        mark_effect NX ro npmap cv cv1 s s1 := by
  intro fuel
  induction fuel with
  | zero => intro cv s cv1 s1 _ h; simp [pmap_mark_range_ptes] at h
  | succ fuel ih =>
    intro cv s cv1 s1 hal h
    unfold pmap_mark_range_ptes at h
    have hstop : some (cv, s) = some (cv1, s1) →
        cv ≤ cv1 ∧ cv1 % 4096 = 0 ∧ (cv1 ≤ ev ∨ cv1 = cv) ∧
          mark_effect NX ro npmap cv cv1 s s1 := by
      intro h
      injection h with h
      injection h with h1 h2
      subst h1; subst h2
      exact ⟨le_refl _, hal, Or.inr rfl, mark_effect_empty NX ro npmap cv cv s (le_refl _)⟩
    cases hp : pmap_pte s npmap cv with
    | none => simp only [hp] at h; exact hstop h
    | some ptep =>
      simp only [hp] at h
      by_cases hc : cv < (pdev + NBPD) % 2 ^ 64 ∧ cv < ev
      · rw [if_pos hc] at h
        have hnw : (cv + NBPT) % 2 ^ 64 = cv + 4096 := by
          unfold NBPT; omega
        rw [hnw] at h
        obtain ⟨a1, a2, a3, a4⟩ := ih _ _ _ _ (by omega) h
        refine ⟨by omega, a2, ?_, ?_⟩
        · left; omega
        · exact mark_effect_trans (by omega) a1 (mark_effect_page NX ro npmap cv ptep s hal hp) a4
      · rw [if_neg hc] at h; exact hstop h

theorem align_down_PDEMASK (x : Nat) (h : x < 2 ^ 64) :
    x &&& (PDEMASK ^^^ UINT64_MAX) = x / 2097152 * 2097152 :=
  align_down_eq x h

theorem pmap_mark_range_loop_spec (npmap : Nat) (NX ro : Bool) (ev : Nat)
    (hev : ev % 4096 = 0) (hev2 : ev ≤ 2 ^ 64 - 2097152) :
    ∀ (fuel : Nat) (pdep : Option Nat) (cv : Nat) (s : State) (cv' : Nat) (s' : State),
      cv % 4096 = 0 →
      (pdep = none → pmap_pde s npmap cv = none) →
      (∀ pde, pdep = some pde → s.mem pde &&& INTEL_PTE_PS ≠ 0 →
        pmap_pde s npmap cv = some pde) →
      pmap_mark_range_loop npmap NX ro ev fuel pdep cv s = Result.ret cv' s' →
      cv ≤ cv' ∧ mark_effect NX ro npmap cv (min cv' ev) s s' ∧
        (ev ≤ cv' ∨ pmap_pde s' npmap cv' = none) := by
  intro fuel
  induction fuel with
  | zero => intro pdep cv s cv' s' _ _ _ h; simp [pmap_mark_range_loop] at h
  | succ fuel ih =>
    intro pdep cv s cv' s' hal hnone hfresh h
    unfold pmap_mark_range_loop at h
    cases pdep with
    | none =>
      simp only [] at h
      injection h with h1 h2
      subst h1; subst h2
      exact ⟨le_refl _, mark_effect_empty NX ro npmap cv _ s (Nat.min_le_left _ _),
        Or.inr (hnone rfl)⟩
    | some pde =>
      simp only [] at h
      by_cases hlt : cv < ev
      swap
      · rw [if_neg hlt] at h
        injection h with h1 h2
        subst h1; subst h2
        exact ⟨le_refl _, mark_effect_empty NX ro npmap cv _ s (Nat.min_le_left _ _),
          Or.inl (by omega)⟩
      rw [if_pos hlt] at h
      by_cases hps : s.mem pde &&& INTEL_PTE_PS ≠ 0
      · rw [if_pos hps] at h
        have hpde := hfresh pde rfl hps
        have hcv1 : ((cv + NBPD) % 2 ^ 64) &&& (PDEMASK ^^^ UINT64_MAX)
            = (cv / 2097152 + 1) * 2097152 := by
          rw [align_down_PDEMASK _ (Nat.mod_lt _ (by norm_num))]
          unfold NBPD; omega
        rw [hcv1] at h
        obtain ⟨b1, b2, b3⟩ := ih _ _ _ _ _ (by omega) (fun hh => hh)
          (fun q hq _ => hq) h
        refine ⟨by omega, ?_, b3⟩
        by_cases hin : (cv / 2097152 + 1) * 2097152 ≤ ev
        · exact mark_effect_trans (by omega) (by omega)
            (mark_effect_stride NX ro npmap cv _ pde s (by omega) (le_refl _) hpde hps) b2
        · have hmin : min cv' ev = ev := by omega
          rw [hmin] at b2 ⊢
          have e1 := mark_effect_stride NX ro npmap cv ev pde s hlt (by omega) hpde hps
          have e2 : mark_effect NX ro npmap ev ev (pmap_mark_range_entry s pde NX ro) s' :=
            mark_effect_of_empty (by omega) (le_refl _) b2
          exact mark_effect_trans (by omega) (le_refl _) e1 e2
      · rw [if_neg hps] at h
        cases hin : pmap_mark_range_ptes npmap NX ro (cv &&& (PDEMASK ^^^ UINT64_MAX)) ev fuel
            cv s with
        | none => simp only [hin] at h; cases h
        | some r =>
          obtain ⟨cv1, s1⟩ := r
          simp only [hin] at h
          obtain ⟨a1, a2, a3, a4⟩ := pmap_mark_range_ptes_spec npmap NX ro _ ev hev hev2 fuel cv s
            cv1 s1 hal hin
          have hps1 : ¬ s1.mem pde &&& INTEL_PTE_PS ≠ 0 := by
            rw [((mark_effect_sameWalk a4) pde).2.1]; exact hps
          obtain ⟨b1, b2, b3⟩ := ih _ _ _ _ _ a2 (fun hh => by cases hh)
            (fun q hq hq2 => by
              injection hq with hq; subst hq; exact absurd hq2 hps1) h
          refine ⟨by omega, ?_, b3⟩
          exact mark_effect_trans a1 (by omega) a4 b2

/-- Claim C25, as stated, fails when the range starts where no page directory
exists: in the sample space with a gap the first GiB has no page directory, so
`pmap_pde (npmap, 0)` is null and `pmap_mark_range (npmap, 0, 0x40001000, TRUE, TRUE)`
returns at once with the state unchanged, although the page at 0x40000000,
which lies in the range, has a present entry that is writable and executable. -/
theorem pmap_mark_range_stops_at_gap :
    (0 &&& 0xFFF) ||| (0x40001000 &&& 0xFFF) = 0 ∧
    (∀ fuel, pmap_mark_range (fuel + 1) sample_gap 1 0 0x40001000 true true
      = Result.ret 0 sample_gap) ∧
    (0 : Nat) ≤ 0x40000000 ∧ 0x40000000 < 0 + 0x40001000 ∧
    pmap_pte sample_gap 1 0x40000000 = some 0x4000 ∧
    sample_gap.mem 0x4000 &&& INTEL_PTE_VALID ≠ 0 ∧
    sample_gap.mem 0x4000 &&& INTEL_PTE_WRITE ≠ 0 ∧
    sample_gap.mem 0x4000 &&& INTEL_PTE_NX = 0 := by
  refine ⟨by decide, ?_, by decide, by decide, by decide, by decide, by decide, by decide⟩
  intro fuel
  unfold pmap_mark_range
  simp only []
  rw [if_neg (by decide), show pmap_pde sample_gap 1 0 = none from by decide]
  rfl

/-- Claim C25, amended: for a page-aligned `sv` and size with `sv + nxrosz` at
most `2 ^ 64 - 2 ^ 21`, a returning `pmap_mark_range (npmap, sv, nxrosz, NX, ro)`
ends with its cursor `cv` at or beyond `sv + nxrosz`, or at an address that has
no page directory.  Every word standing for an address of
`[sv, min (cv, sv + nxrosz))` (the slot `pmap_pte` yields for it, present or
not, or its directory entry with the large-page bit) has become `mark_word` of
its old value: the no-execute bit is set when `NX` is requested, the writable
bit is clear when `ro` is requested, and no other bit differs.  Every other
word is unchanged. -/
theorem pmap_mark_range_marks (fuel : Nat) (s : State) (npmap sv nxrosz : Nat) (NX ro : Bool)
    (cv : Nat) (s' : State)
    (hsv : sv % PAGE_SIZE = 0) (hsz : nxrosz % PAGE_SIZE = 0)
    (hev : sv + nxrosz ≤ 2 ^ 64 - 2 ^ 21)
    (hrun : pmap_mark_range fuel s npmap sv nxrosz NX ro = Result.ret cv s') :
    sv ≤ cv ∧ (sv + nxrosz ≤ cv ∨ pmap_pde s' npmap cv = none) ∧
    mark_effect NX ro npmap sv (min cv (sv + nxrosz)) s s' ∧
    (∀ e, (NX = true → mark_word NX ro e &&& INTEL_PTE_NX ≠ 0) ∧
      (ro = true → mark_word NX ro e &&& INTEL_PTE_WRITE = 0) ∧
      (NX = false → (mark_word NX ro e).testBit 63 = e.testBit 63) ∧
      (ro = false → (mark_word NX ro e).testBit 1 = e.testBit 1) ∧
      (∀ i, i ≠ 1 → i ≠ 63 → i < 64 → (mark_word NX ro e).testBit i = e.testBit i)) := by
  unfold PAGE_SIZE at hsv hsz
  unfold pmap_mark_range at hrun
  simp only [] at hrun
  have hal : (sv &&& 0xFFF) ||| (nxrosz &&& 0xFFF) = 0 := by
    rw [show (0xFFF : Nat) = 2 ^ 12 - 1 from rfl, Nat.and_pow_two_sub_one_eq_mod,
      Nat.and_pow_two_sub_one_eq_mod]
    simp [hsv, hsz]
  rw [if_neg (fun hh => hh.2 hal), Nat.mod_eq_of_lt (by omega)] at hrun
  obtain ⟨h1, h2, h3⟩ := pmap_mark_range_loop_spec npmap NX ro (sv + nxrosz) (by omega)
    (by omega) fuel _ sv s cv s' hsv (fun hh => hh) (fun q hq _ => hq) hrun
  exact ⟨h1, h3, h2, fun e => mark_word_bits NX ro e⟩

theorem pmap_mark_range_marks_witness :
    ∃ s', pmap_mark_range 5 sample_state 1 0x1000 0x3000 true true = Result.ret 0x4000 s' ∧
      (0x1000 % PAGE_SIZE = 0 ∧ 0x3000 % PAGE_SIZE = 0 ∧ 0x1000 + 0x3000 ≤ 2 ^ 64 - 2 ^ 21) ∧
      (0x1000 ≤ 0x4000 ∧ (0x1000 + 0x3000 ≤ 0x4000 ∨ pmap_pde s' 1 0x4000 = none) ∧
      mark_effect true true 1 0x1000 (min 0x4000 (0x1000 + 0x3000)) sample_state s' ∧
      (∀ e, (true = true → mark_word true true e &&& INTEL_PTE_NX ≠ 0) ∧
        (true = true → mark_word true true e &&& INTEL_PTE_WRITE = 0) ∧
        (true = false → (mark_word true true e).testBit 63 = e.testBit 63) ∧
        (true = false → (mark_word true true e).testBit 1 = e.testBit 1) ∧
        (∀ i, i ≠ 1 → i ≠ 63 → i < 64 → (mark_word true true e).testBit i = e.testBit i))) :=
  ⟨_, rfl, by decide, pmap_mark_range_marks 5 sample_state 1 0x1000 0x3000 true true 0x4000 _
    (by decide) (by decide) (by decide) rfl⟩

theorem pmap_lowmem_finalize_regions_eq (ml_static_ptovirt : Nat → Nat)
    (pmap_memory_regions : Nat → pmap_memory_region) (vm_kernel_base_page n : Nat)
    (hbelow : ∀ i, i < n → (pmap_memory_regions i).end_ < vm_kernel_base_page)
    (hstop : ¬ (pmap_memory_regions n).end_ < vm_kernel_base_page) :
    ∀ d k, k + d = n →
      pmap_lowmem_finalize_regions ml_static_ptovirt pmap_memory_regions vm_kernel_base_page
          (d + 1) k
        = some ((List.range' k d).flatMap fun i =>
            pmap_lowmem_finalize_region ml_static_ptovirt (pmap_memory_regions i)) := by
  intro d
  induction d with
  | zero =>
    intro k hk
    have : k = n := by omega
    subst this
    unfold pmap_lowmem_finalize_regions
    rw [if_neg hstop]
    rfl
  | succ d ih =>
    intro k hk
    unfold pmap_lowmem_finalize_regions
    rw [if_pos (hbelow k (by omega)), ih (k + 1) (by omega), List.range'_succ,
      List.flatMap_cons]

theorem pmap_lowmem_finalize_region_ptovirt (ml_static_ptovirt : Nat → Nat)
    (r : pmap_memory_region) :
    pmap_lowmem_finalize_region ml_static_ptovirt r =
      (pmap_lowmem_finalize_region (fun x => x) r).map fun b => (ml_static_ptovirt b.1, b.2) := by
  unfold pmap_lowmem_finalize_region
  simp only []
  split
  · rfl
  · split
    · rfl
    · split <;> rfl

theorem pmap_lowmem_finalize_region_spec (r : pmap_memory_region)
    (hbe : r.base ≤ r.end_) (h32 : r.end_ + 1 < 2 ^ 32)
    (hres : r.attribute_ &&& EFI_MEMORY_KERN_RESERVED = 0) :
    (∀ x, (∃ b ∈ pmap_lowmem_finalize_region (fun x => x) r, b.1 ≤ x ∧ x < b.1 + b.2) ↔
      (i386_ptob r.base ≤ x ∧ x < i386_ptob (r.end_ + 1) ∧ ¬ (0xc0000 ≤ x ∧ x < 0x100000))) ∧
    (∀ b ∈ pmap_lowmem_finalize_region (fun x => x) r,
      0 < b.2 ∧ (b.1 + b.2 ≤ 0xc0000 ∨ 0x100000 ≤ b.1)) := by
  have hb : i386_ptob r.base = r.base * 4096 := by
    unfold i386_ptob PAGE_SIZE; omega
  have he : i386_ptob (r.end_ + 1) = (r.end_ + 1) * 4096 := by
    unfold i386_ptob PAGE_SIZE; omega
  have hm : (r.end_ + 1) % 2 ^ 32 = r.end_ + 1 := Nat.mod_eq_of_lt h32
  unfold pmap_lowmem_finalize_region
  simp only [hm, hb, he]
  rw [if_neg (by simpa using hres)]
  by_cases hA : r.base * 4096 ≥ 0xc0000 ∧ (r.end_ + 1) * 4096 ≤ 0x100000
  · rw [if_pos hA]
    constructor
    · intro x
      constructor
      · rintro ⟨b, hb, _⟩; cases hb
      · intro h; omega
    · intro b hb; cases hb
  · rw [if_neg hA]
    by_cases hB : r.base * 4096 < 0xc0000 ∧ (r.end_ + 1) * 4096 > 0x100000
    · simp only [if_pos hB]
      split_ifs
      all_goals
        constructor
        · intro x
          simp only [List.cons_append, List.nil_append, List.mem_cons, List.mem_singleton,
            List.not_mem_nil, or_false, exists_eq_or_imp, exists_eq_left]
          constructor
          · intro h; omega
          · intro h; omega
        · intro b hb
          simp only [List.cons_append, List.nil_append, List.mem_cons, List.mem_singleton,
            List.not_mem_nil, or_false] at hb
          rcases hb with hb | hb <;> subst hb <;> simp only [] <;> omega
    · simp only [if_neg hB]
      split_ifs
      all_goals
        constructor
        · intro x
          simp only [List.nil_append, List.mem_singleton, exists_eq_left]
          constructor
          · intro h; omega
          · intro h; omega
        · intro b hb
          simp only [List.nil_append, List.mem_singleton] at hb
          subst hb
          simp only []
          omega

/-- Claim C26: when the first `n` elements of the platform table lie below the
kernel base page (page numbers are 32-bit, each region has `base` at most
`end`) and the next one does not, the loop of `pmap_lowmem_finalize` ends and
the calls of `ml_static_mfree` it makes are those of its body for these `n`
regions, in order.  For each of them the calls are made on the images under
`ml_static_ptovirt` of physical ranges `(start, size)`; for a region with the
kernel-reserved attribute there is none; otherwise a byte lies in one of the
ranges exactly when it lies in `[ptob (base), ptob (end + 1))` and not in
`[0xc0000, 0x100000)`, and every range is non-empty and lies wholly below
0xc0000 or wholly from 0x100000 on. -/
theorem pmap_lowmem_finalize_frees (ml_static_ptovirt : Nat → Nat)
    (pmap_memory_regions : Nat → pmap_memory_region) (vm_kernel_base_page n : Nat)
    (hbelow : ∀ i, i < n → (pmap_memory_regions i).end_ < vm_kernel_base_page)
    (hstop : ¬ (pmap_memory_regions n).end_ < vm_kernel_base_page)
    (hwf : ∀ i, i < n → (pmap_memory_regions i).base ≤ (pmap_memory_regions i).end_)
    (h32 : vm_kernel_base_page < 2 ^ 32) :
    pmap_lowmem_finalize_regions ml_static_ptovirt pmap_memory_regions vm_kernel_base_page
        (n + 1) 0
      = some ((List.range n).flatMap fun i =>
          pmap_lowmem_finalize_region ml_static_ptovirt (pmap_memory_regions i)) ∧
    ∀ i, i < n →
      pmap_lowmem_finalize_region ml_static_ptovirt (pmap_memory_regions i) =
        (pmap_lowmem_finalize_region (fun x => x) (pmap_memory_regions i)).map
          (fun b => (ml_static_ptovirt b.1, b.2)) ∧
      ((pmap_memory_regions i).attribute_ &&& EFI_MEMORY_KERN_RESERVED ≠ 0 →
        pmap_lowmem_finalize_region ml_static_ptovirt (pmap_memory_regions i) = []) ∧
      ((pmap_memory_regions i).attribute_ &&& EFI_MEMORY_KERN_RESERVED = 0 →
        (∀ x, (∃ b ∈ pmap_lowmem_finalize_region (fun x => x) (pmap_memory_regions i),
            b.1 ≤ x ∧ x < b.1 + b.2) ↔
          (i386_ptob (pmap_memory_regions i).base ≤ x ∧
            x < i386_ptob ((pmap_memory_regions i).end_ + 1) ∧
            ¬ (0xc0000 ≤ x ∧ x < 0x100000))) ∧
        (∀ b ∈ pmap_lowmem_finalize_region (fun x => x) (pmap_memory_regions i),
          0 < b.2 ∧ (b.1 + b.2 ≤ 0xc0000 ∨ 0x100000 ≤ b.1))) := by
  constructor
  · rw [List.range_eq_range']
    exact pmap_lowmem_finalize_regions_eq ml_static_ptovirt pmap_memory_regions
      vm_kernel_base_page n hbelow hstop n 0 (by omega)
  · intro i hi
    refine ⟨pmap_lowmem_finalize_region_ptovirt _ _, ?_, ?_⟩
    · intro hres
      unfold pmap_lowmem_finalize_region
      simp only []
      rw [if_pos hres]
    · intro hres
      have := hbelow i hi
      exact pmap_lowmem_finalize_region_spec (pmap_memory_regions i) (hwf i hi) (by omega) hres

theorem pmap_lowmem_finalize_frees_witness :
    ((∀ i, i < 2 → (sample_memory_regions i).end_ < 0x1000) ∧
      ¬ (sample_memory_regions 2).end_ < 0x1000 ∧
      (∀ i, i < 2 → (sample_memory_regions i).base ≤ (sample_memory_regions i).end_) ∧
      (0x1000 : Nat) < 2 ^ 32) ∧
    pmap_lowmem_finalize_regions (fun x => x + 0xFFFFFF8000000000) sample_memory_regions 0x1000
        3 0 = some [(0xFFFFFF8000090000, 0x30000), (0xFFFFFF8000100000, 0x100000)] ∧
    (pmap_lowmem_finalize_regions (fun x => x + 0xFFFFFF8000000000) sample_memory_regions 0x1000
        (2 + 1) 0
      = some ((List.range 2).flatMap fun i =>
          pmap_lowmem_finalize_region (fun x => x + 0xFFFFFF8000000000)
            (sample_memory_regions i)) ∧
    ∀ i, i < 2 →
      pmap_lowmem_finalize_region (fun x => x + 0xFFFFFF8000000000) (sample_memory_regions i) =
        (pmap_lowmem_finalize_region (fun x => x) (sample_memory_regions i)).map
          (fun b => ((fun x => x + 0xFFFFFF8000000000) b.1, b.2)) ∧
      ((sample_memory_regions i).attribute_ &&& EFI_MEMORY_KERN_RESERVED ≠ 0 →
        pmap_lowmem_finalize_region (fun x => x + 0xFFFFFF8000000000) (sample_memory_regions i)
          = []) ∧
      ((sample_memory_regions i).attribute_ &&& EFI_MEMORY_KERN_RESERVED = 0 →
        (∀ x, (∃ b ∈ pmap_lowmem_finalize_region (fun x => x) (sample_memory_regions i),
            b.1 ≤ x ∧ x < b.1 + b.2) ↔
          (i386_ptob (sample_memory_regions i).base ≤ x ∧
            x < i386_ptob ((sample_memory_regions i).end_ + 1) ∧
            ¬ (0xc0000 ≤ x ∧ x < 0x100000))) ∧
        (∀ b ∈ pmap_lowmem_finalize_region (fun x => x) (sample_memory_regions i),
          0 < b.2 ∧ (b.1 + b.2 ≤ 0xc0000 ∨ 0x100000 ≤ b.1)))) :=
  ⟨by decide, by decide, pmap_lowmem_finalize_frees (fun x => x + 0xFFFFFF8000000000)
    sample_memory_regions 0x1000 2 (by decide) (by decide) (by decide) (by decide)⟩

theorem mark_word_twice (x y : Bool) (e : Nat) :
    mark_word true x (mark_word true y e) = mark_word true (x || y) e := by
  apply Nat.eq_of_testBit_eq
  intro i
  simp only [mark_word_testBit]
  by_cases h63 : i = 63 <;> by_cases h1 : i = 1 <;> cases x <;> cases y <;> simp [h63, h1]

theorem data_target_congr {s s1 : State} (hm : SameWalk s.mem s1.mem)
    (hk : s1.kernel_pmap = s.kernel_pmap) (hp : s1.pmaps = s.pmaps) (lo hi a : Nat) :
    data_target s1 lo hi a ↔ data_target s lo hi a := by
  unfold data_target
  have e : ∀ dva, pmap_pte s1 s1.kernel_pmap dva = pmap_pte s s.kernel_pmap dva := by
    intro dva
    rw [hk]
    exact pmap_pte_congr hm (by rw [hp]) dva
  simp only [e]

theorem data_target_step (s : State) (dva hi p a : Nat) (hal : dva % 4096 = 0) (hlt : dva < hi)
    (hp : pmap_pte s s.kernel_pmap dva = some p) :
    data_target s dva hi a ↔ (a = p ∨ data_target s (dva + 4096) hi a) := by
  unfold data_target PAGE_SIZE
  constructor
  · rintro ⟨d, h1, h2, h3, h4⟩
    by_cases hd : d = dva
    · subst hd
      rw [hp] at h4; injection h4 with h4
      exact Or.inl h4.symm
    · exact Or.inr ⟨d, by omega, h2, h3, h4⟩
  · rintro (h | ⟨d, h1, h2, h3, h4⟩)
    · subst h; exact ⟨dva, le_refl _, hlt, hal, hp⟩
    · exact ⟨d, by omega, h2, h3, h4⟩

theorem data_target_const_step (s : State) (dva hi sc ec p a : Nat) (hal : dva % 4096 = 0)
    (hlt : dva < hi) (hp : pmap_pte s s.kernel_pmap dva = some p) :
    data_target s (max dva sc) (min hi ec) a ↔
      ((a = p ∧ sc ≤ dva ∧ dva < ec) ∨ data_target s (max (dva + 4096) sc) (min hi ec) a) := by
  unfold data_target PAGE_SIZE
  constructor
  · rintro ⟨d, h1, h2, h3, h4⟩
    by_cases hd : d = dva
    · subst hd
      rw [hp] at h4; injection h4 with h4
      exact Or.inl ⟨h4.symm, by omega, by omega⟩
    · exact Or.inr ⟨d, by omega, h2, h3, h4⟩
  · rintro (⟨h, h5, h6⟩ | ⟨d, h1, h2, h3, h4⟩)
    · subst h; exact ⟨dva, by omega, by omega, hal, hp⟩
    · exact ⟨d, by omega, h2, h3, h4⟩

theorem data_target_const_sub {s : State} {lo hi sc ec a : Nat}
    (h : data_target s (max lo sc) (min hi ec) a) : data_target s lo hi a := by
  obtain ⟨d, h1, h2, h3, h4⟩ := h
  exact ⟨d, by omega, by omega, h3, h4⟩

theorem data_effect_skip (doconstro : Bool) (sc ec dva hi p : Nat) (s s' : State)
    (hal : dva % 4096 = 0) (hlt : dva < hi) (hp : pmap_pte s s.kernel_pmap dva = some p)
    (hinv : s.mem p &&& INTEL_PTE_VALID = 0)
    (rest : data_effect doconstro sc ec (dva + 4096) hi s s') :
    data_effect doconstro sc ec dva hi s s' := by
  refine ⟨rest.1, fun a => ?_⟩
  have T1 := data_target_step s dva hi p a hal hlt hp
  have T2 := data_target_const_step s dva hi sc ec p a hal hlt hp
  rcases rest.2 a with ⟨n, m⟩ | ⟨v, t, n, m⟩ | ⟨v, d, t, m⟩
  · left
    refine ⟨?_, m⟩
    rintro ⟨t, v⟩
    rcases T1.1 t with h | h
    · subst h; exact v hinv
    · exact n ⟨h, v⟩
  · right; left
    refine ⟨v, T1.2 (Or.inr t), ?_, m⟩
    rintro ⟨d, c⟩
    rcases T2.1 c with ⟨h, _⟩ | h
    · subst h; exact v hinv
    · exact n ⟨d, h⟩
  · right; right
    exact ⟨v, d, T2.2 (Or.inr t), m⟩

theorem data_effect_store (doconstro : Bool) (sc ec dva hi p : Nat) (c : Bool) (s s' : State)
    (hal : dva % 4096 = 0) (hlt : dva < hi) (hp : pmap_pte s s.kernel_pmap dva = some p)
    (hv : s.mem p &&& INTEL_PTE_VALID ≠ 0)
    (hc : c = true ↔ (doconstro = true ∧ sc ≤ dva ∧ dva < ec))
    (rest : data_effect doconstro sc ec (dva + 4096) hi
      (pmap_store_pte s p (mark_word true c (s.mem p))) s') :
    data_effect doconstro sc ec dva hi s s' := by
  have hmem : ∀ a, (pmap_store_pte s p (mark_word true c (s.mem p))).mem a =
      if a = p then mark_word true c (s.mem p) else s.mem a := fun a => rfl
  have hw : SameWalk s.mem (pmap_store_pte s p (mark_word true c (s.mem p))).mem := by
    intro a
    rw [hmem]
    by_cases ha : a = p
    · rw [if_pos ha, ha]
      exact ⟨mark_word_valid _ _ _, mark_word_ps _ _ _, mark_word_frame _ _ _⟩
    · rw [if_neg ha]; exact ⟨rfl, rfl, rfl⟩
  have hcg := fun lo hi a => data_target_congr hw
    (show (pmap_store_pte s p (mark_word true c (s.mem p))).kernel_pmap = s.kernel_pmap from rfl)
    (show (pmap_store_pte s p (mark_word true c (s.mem p))).pmaps = s.pmaps from rfl) lo hi a
  refine ⟨by rw [rest.1]; rfl, fun a => ?_⟩
  have T1 := data_target_step s dva hi p a hal hlt hp
  have T2 := data_target_const_step s dva hi sc ec p a hal hlt hp
  have hval : (pmap_store_pte s p (mark_word true c (s.mem p))).mem a &&& INTEL_PTE_VALID
      = s.mem a &&& INTEL_PTE_VALID := (hw a).1
  by_cases ha : a = p
  · subst ha
    have hm1 : (pmap_store_pte s a (mark_word true c (s.mem a))).mem a
        = mark_word true c (s.mem a) := by rw [hmem, if_pos rfl]
    -- the value the entry of the page at `dva` ends with, when the rest adds nothing
    have fin : ∀ (hnr : ¬ (doconstro = true ∧
          data_target s (max (dva + 4096) sc) (min hi ec) a)),
        s'.mem a = mark_word true c (s.mem a) →
        (¬ (data_target s dva hi a ∧ s.mem a &&& INTEL_PTE_VALID ≠ 0) ∧ s'.mem a = s.mem a) ∨
        (s.mem a &&& INTEL_PTE_VALID ≠ 0 ∧ data_target s dva hi a ∧
          ¬ (doconstro = true ∧ data_target s (max dva sc) (min hi ec) a) ∧
          s'.mem a = mark_word true false (s.mem a)) ∨
        (s.mem a &&& INTEL_PTE_VALID ≠ 0 ∧ doconstro = true ∧
          data_target s (max dva sc) (min hi ec) a ∧
          s'.mem a = mark_word true true (s.mem a)) := by
      intro hnr m
      cases c with
      | true =>
        have h3 := hc.1 rfl
        right; right
        exact ⟨hv, h3.1, T2.2 (Or.inl ⟨rfl, h3.2⟩), m⟩
      | false =>
        right; left
        refine ⟨hv, T1.2 (Or.inl rfl), ?_, m⟩
        rintro ⟨d, t⟩
        rcases T2.1 t with ⟨_, h⟩ | h
        · have := hc.2 ⟨d, h⟩
          cases this
        · exact hnr ⟨d, h⟩
    rcases rest.2 a with ⟨n, m⟩ | ⟨v, t, n, m⟩ | ⟨v, d, t, m⟩
    · refine fin ?_ (by rw [m, hm1])
      rintro ⟨_, t⟩
      exact n ⟨(hcg _ _ _).2 (data_target_const_sub t), by rw [hval]; exact hv⟩
    · refine fin ?_ (by rw [m, hm1, mark_word_twice]; simp)
      rintro ⟨d, t⟩
      exact n ⟨d, (hcg _ _ _).2 t⟩
    · right; right
      refine ⟨hv, d, T2.2 (Or.inr ((hcg _ _ _).1 t)), ?_⟩
      rw [m, hm1, mark_word_twice]; simp
  · have hm1 : (pmap_store_pte s p (mark_word true c (s.mem p))).mem a = s.mem a := by
      rw [hmem, if_neg ha]
    rw [hm1] at hval
    rcases rest.2 a with ⟨n, m⟩ | ⟨v, t, n, m⟩ | ⟨v, d, t, m⟩
    · left
      refine ⟨?_, by rw [m, hm1]⟩
      rintro ⟨t, v⟩
      rcases T1.1 t with h | h
      · exact ha h
      · exact n ⟨(hcg _ _ _).2 h, by rw [hm1]; exact v⟩
    · right; left
      rw [hm1] at v m
      refine ⟨v, T1.2 (Or.inr ((hcg _ _ _).1 t)), ?_, m⟩
      rintro ⟨d, c'⟩
      rcases T2.1 c' with ⟨h, _⟩ | h
      · exact ha h
      · exact n ⟨d, (hcg _ _ _).2 h⟩
    · right; right
      rw [hm1] at v m
      exact ⟨v, d, T2.2 (Or.inr ((hcg _ _ _).1 t)), m⟩

theorem or_and_PAGE_MASK (x y : Nat) (hx : x % 4096 = 0) (hy : y % 4096 = 0) :
    (x ||| y) &&& PAGE_MASK = 0 := by
  have h : PAGE_MASK = 2 ^ 12 - 1 := rfl
  rw [h, Nat.and_pow_two_sub_one_eq_mod]
  have hx' : x = 2 ^ 12 * (x / 4096) := by omega
  have hy' : y = 2 ^ 12 * (y / 4096) := by omega
  apply Nat.eq_of_testBit_eq
  intro i
  rw [Nat.testBit_mod_two_pow, Nat.testBit_or, hx', hy', Nat.testBit_mul_pow_two,
    Nat.testBit_mul_pow_two]
  by_cases hi : i < 12
  · have : ¬ 12 ≤ i := by omega
    simp [hi, this]
  · simp [hi]

theorem data_word_eq (doconstro : Bool) (sc ec dva e : Nat) :
    (if doconstro = true ∧ dva ≥ sc ∧ dva < ec then
        (e ||| INTEL_PTE_NX) &&& (INTEL_PTE_WRITE ^^^ UINT64_MAX)
      else e ||| INTEL_PTE_NX)
      = mark_word true (decide (doconstro = true ∧ sc ≤ dva ∧ dva < ec)) e := by
  unfold mark_word
  by_cases h : doconstro = true ∧ sc ≤ dva ∧ dva < ec
  · simp [h]
  · have h' : ¬ (doconstro = true ∧ dva ≥ sc ∧ dva < ec) := h
    rw [if_neg h']
    simp [h]

theorem pmap_lowmem_finalize_data_spec (doconstro : Bool) (sdata edata sc ec : Nat)
    (hs : sdata % 4096 = 0) (he : edata % 4096 = 0) (he2 : edata < 2 ^ 64) :
    ∀ (fuel dva : Nat) (s s' : State), dva % 4096 = 0 →
      pmap_lowmem_finalize_data doconstro sdata edata sc ec fuel dva s = Result.ret () s' →
      data_effect doconstro sc ec dva edata s s' := by
  have hmask := or_and_PAGE_MASK sdata edata hs he
  intro fuel
  induction fuel with
  | zero => intro dva s s' _ h; simp [pmap_lowmem_finalize_data] at h
  | succ fuel ih =>
    intro dva s s' hal h
    unfold pmap_lowmem_finalize_data at h
    by_cases hlt : dva < edata
    swap
    · rw [if_neg hlt] at h
      injection h with _ h
      subst h
      refine ⟨rfl, fun a => Or.inl ⟨?_, rfl⟩⟩
      rintro ⟨⟨d, h1, h2, _⟩, _⟩
      omega
    rw [if_pos hlt, if_neg (fun hh => hh.2 hmask), if_neg (fun hh => hh hmask)] at h
    have hnw : (dva + I386_PGBYTES) % 2 ^ 64 = dva + 4096 := by
      unfold I386_PGBYTES; omega
    cases hp : pmap_pte s s.kernel_pmap dva with
    | none => simp only [hp] at h; cases h
    | some p =>
      simp only [hp, hnw] at h
      by_cases hassert : s.MACH_ASSERT = true ∧ s.mem p &&& INTEL_PTE_VALID = 0
      · rw [if_pos hassert] at h; cases h
      · rw [if_neg hassert] at h
        by_cases hv : s.mem p &&& INTEL_PTE_VALID = 0
        · rw [if_pos hv] at h
          exact data_effect_skip doconstro sc ec dva edata p s s' hal hlt hp hv
            (ih _ _ _ (by omega) h)
        · rw [if_neg hv, data_word_eq] at h
          exact data_effect_store doconstro sc ec dva edata p _ s s' hal hlt hp hv
            (by simp) (ih _ _ _ (by omega) h)

theorem pmap_lowmem_finalize_data_returns (doconstro : Bool) (sdata edata sc ec : Nat)
    (hs : sdata % 4096 = 0) (he : edata % 4096 = 0) (he2 : edata < 2 ^ 64) :
    ∀ (n dva : Nat) (s : State), dva % 4096 = 0 → edata ≤ dva + n * 4096 →
      (∀ d, dva ≤ d → d < edata → d % 4096 = 0 → pmap_pte s s.kernel_pmap d ≠ none) →
      (s.MACH_ASSERT = true → ∀ d p, dva ≤ d → d < edata → d % 4096 = 0 →
        pmap_pte s s.kernel_pmap d = some p → s.mem p &&& INTEL_PTE_VALID ≠ 0) →
      ∃ s', pmap_lowmem_finalize_data doconstro sdata edata sc ec (n + 1) dva s
        = Result.ret () s' := by
  have hmask := or_and_PAGE_MASK sdata edata hs he
  intro n
  induction n with
  | zero =>
    intro dva s _ hn _ _
    unfold pmap_lowmem_finalize_data
    rw [if_neg (by omega)]
    exact ⟨s, rfl⟩
  | succ n ih =>
    intro dva s hal hn hpte hassert
    unfold pmap_lowmem_finalize_data
    by_cases hlt : dva < edata
    swap
    · rw [if_neg hlt]; exact ⟨s, rfl⟩
    rw [if_pos hlt, if_neg (fun hh => hh.2 hmask), if_neg (fun hh => hh hmask)]
    have hnw : (dva + I386_PGBYTES) % 2 ^ 64 = dva + 4096 := by
      unfold I386_PGBYTES; omega
    cases hp : pmap_pte s s.kernel_pmap dva with
    | none => exact absurd hp (hpte dva (le_refl _) hlt hal)
    | some p =>
      simp only [hnw]
      have hna : ¬ (s.MACH_ASSERT = true ∧ s.mem p &&& INTEL_PTE_VALID = 0) := by
        rintro ⟨h1, h2⟩
        exact hassert h1 dva p (le_refl _) hlt hal hp h2
      rw [if_neg hna]
      by_cases hv : s.mem p &&& INTEL_PTE_VALID = 0
      · rw [if_pos hv]
        exact ih _ s (by omega) (by omega) (fun d h1 h2 h3 => hpte d (by omega) h2 h3)
          (fun h d q h1 h2 h3 h4 => hassert h d q (by omega) h2 h3 h4)
      · rw [if_neg hv, data_word_eq]
        generalize hc : decide (doconstro = true ∧ sc ≤ dva ∧ dva < ec) = c
        have hmem : ∀ a, (pmap_store_pte s p (mark_word true c (s.mem p))).mem a =
            if a = p then mark_word true c (s.mem p) else s.mem a := fun a => rfl
        have hw : SameWalk s.mem (pmap_store_pte s p (mark_word true c (s.mem p))).mem := by
          intro a
          rw [hmem]
          by_cases ha : a = p
          · rw [if_pos ha, ha]
            exact ⟨mark_word_valid _ _ _, mark_word_ps _ _ _, mark_word_frame _ _ _⟩
          · rw [if_neg ha]; exact ⟨rfl, rfl, rfl⟩
        have hpc : ∀ d, pmap_pte (pmap_store_pte s p (mark_word true c (s.mem p)))
            (pmap_store_pte s p (mark_word true c (s.mem p))).kernel_pmap d
            = pmap_pte s s.kernel_pmap d := fun d => pmap_pte_congr hw rfl d
        refine ih _ _ (by omega) (by omega) (fun d h1 h2 h3 => ?_) (fun h d q h1 h2 h3 h4 => ?_)
        · rw [hpc]; exact hpte d (by omega) h2 h3
        · rw [hpc] at h4
          rw [(hw q).1]
          exact hassert h d q (by omega) h2 h3 h4

theorem or_and_PAGE_MASK_zero (x y : Nat) (h : (x ||| y) &&& PAGE_MASK = 0) :
    x % 4096 = 0 ∧ y % 4096 = 0 := by
  have hm : PAGE_MASK = 2 ^ 12 - 1 := rfl
  rw [hm, Nat.and_pow_two_sub_one_eq_mod] at h
  have hb : ∀ i, i < 12 → (x ||| y).testBit i = false := by
    intro i hi
    have := congrArg (fun n => n.testBit i) h
    simp only [Nat.testBit_mod_two_pow, hi, decide_True, Bool.true_and, Nat.zero_testBit] at this
    exact this
  have hz : ∀ z, (∀ i, i < 12 → z.testBit i = false) → z % 4096 = 0 := by
    intro z hzb
    have : z % 2 ^ 12 = 0 := by
      apply Nat.eq_of_testBit_eq
      intro i
      rw [Nat.testBit_mod_two_pow, Nat.zero_testBit]
      by_cases hi : i < 12
      · simp [hi, hzb i hi]
      · simp [hi]
    simpa using this
  constructor
  · apply hz
    intro i hi
    have := hb i hi
    rw [Nat.testBit_or, Bool.or_eq_false_iff] at this
    exact this.1
  · apply hz
    intro i hi
    have := hb i hi
    rw [Nat.testBit_or, Bool.or_eq_false_iff] at this
    exact this.2

theorem and_PAGE_MASK (x : Nat) : x &&& PAGE_MASK = x % 4096 :=
  Nat.and_pow_two_sub_one_eq_mod x 12

theorem pmap_lowmem_finalize_doconstro_true (dataconstro : Option Bool)
    (doconstro_override : Bool) (sdata edata sc ec : Nat)
    (h : pmap_lowmem_finalize_doconstro dataconstro doconstro_override sdata edata sc ec = true) :
    dataconstro ≠ some false ∧ sc % PAGE_SIZE = 0 ∧
      (ec % PAGE_SIZE = 0 ∨ doconstro_override = true) ∧
      sdata ≤ sc ∧ sc ≤ edata ∧
      (ec + 2 ^ 64 - sc) % 2 ^ 64 < (edata + 2 ^ 64 - sdata) % 2 ^ 64 := by
  unfold pmap_lowmem_finalize_doconstro at h
  simp only [] at h
  unfold PAGE_SIZE
  by_cases hr : sc > edata ∨ sc < sdata ∨
      (ec + 2 ^ 64 - sc) % 2 ^ 64 ≥ (edata + 2 ^ 64 - sdata) % 2 ^ 64
  · rw [if_pos hr] at h; cases h
  · rw [if_neg hr] at h
    have hdc : dataconstro ≠ some false := by
      intro hc
      subst hc
      simp at h
    by_cases hm : (sc ||| ec) &&& PAGE_MASK ≠ 0
    · rw [if_pos hm] at h
      by_cases ho : sc &&& PAGE_MASK ≠ 0 ∨ doconstro_override = false
      · rw [if_pos ho] at h; cases h
      · rw [if_neg ho] at h
        refine ⟨hdc, ?_, Or.inr ?_, by omega, by omega, by omega⟩
        · rw [← and_PAGE_MASK]
          by_contra hc
          exact ho (Or.inl hc)
        · cases hov : doconstro_override with
          | true => rfl
          | false => exact absurd (Or.inr hov) ho
    · rw [if_neg hm] at h
      have hz := or_and_PAGE_MASK_zero sc ec (by
        by_contra hc; exact hm hc)
      exact ⟨hdc, hz.1, Or.inl hz.2, by omega, by omega, by omega⟩

/-- Claim C27, as stated, fails: with `doconstro_override` set, a page-aligned
`sconstdata` inside the data region and an `econstdata` that is neither
page-aligned nor inside the data region (but less than the size of the data
region away from `sconstdata`), `doconstro` stays true and the data page at
0x3000 of the sample kernel space loses its writable bit. -/
theorem pmap_lowmem_finalize_constro_not_validated :
    pmap_lowmem_finalize_doconstro none true 0x1000 0x4000 0x3000 0x4800 = true ∧
    0x4800 % PAGE_SIZE ≠ 0 ∧ ¬ (0x4800 ≤ 0x4000) ∧
    ∃ s', pmap_lowmem_finalize_data_pass none true 0x1000 0x4000 0x3000 0x4800 4 sample_kernel
        = Result.ret () s' ∧
      pmap_pte sample_kernel sample_kernel.kernel_pmap 0x3000 = some 0x4018 ∧
      sample_kernel.mem 0x4018 &&& INTEL_PTE_WRITE ≠ 0 ∧
      s'.mem 0x4018 &&& INTEL_PTE_WRITE = 0 := by
  refine ⟨by decide, by decide, by decide, _, rfl, ?_, ?_, ?_⟩ <;> decide

/-- Claim C27, amended: `doconstro` is true at the loop over the data pages only
when the boot-arg `dataconstro` has not cleared it, `sconstdata` is
page-aligned, `econstdata` is page-aligned or `doconstro_override` is set,
`sconstdata` lies in `[sdata, edata]` and the 64-bit difference
`econstdata - sconstdata` is less than `edata - sdata`.  For page-aligned
`sdata` and `edata`, in a returning pass a word loses its writable bit only when
`doconstro` is true and the word is the present entry of a data page of
`[sconstdata, econstdata)`; so when the validation fails no entry loses its
writable bit, while the present entry of every data page still gets the
no-execute bit. -/
theorem pmap_lowmem_finalize_constro_validation (dataconstro : Option Bool)
    (doconstro_override : Bool) (sdata edata sconstdata econstdata : Nat)
    (hs : sdata % PAGE_SIZE = 0) (he : edata % PAGE_SIZE = 0) (he2 : edata < 2 ^ 64) :
    (pmap_lowmem_finalize_doconstro dataconstro doconstro_override sdata edata sconstdata
        econstdata = true →
      dataconstro ≠ some false ∧ sconstdata % PAGE_SIZE = 0 ∧
      (econstdata % PAGE_SIZE = 0 ∨ doconstro_override = true) ∧
      sdata ≤ sconstdata ∧ sconstdata ≤ edata ∧
      (econstdata + 2 ^ 64 - sconstdata) % 2 ^ 64 < (edata + 2 ^ 64 - sdata) % 2 ^ 64) ∧
    (∀ fuel s s',
      pmap_lowmem_finalize_data_pass dataconstro doconstro_override sdata edata sconstdata
        econstdata fuel s = Result.ret () s' →
      (∀ a, s.mem a &&& INTEL_PTE_WRITE ≠ 0 → s'.mem a &&& INTEL_PTE_WRITE = 0 →
        pmap_lowmem_finalize_doconstro dataconstro doconstro_override sdata edata sconstdata
          econstdata = true ∧
        s.mem a &&& INTEL_PTE_VALID ≠ 0 ∧
        data_target s (max sdata sconstdata) (min edata econstdata) a) ∧
      (∀ a, data_target s sdata edata a → s.mem a &&& INTEL_PTE_VALID ≠ 0 →
        s'.mem a &&& INTEL_PTE_NX ≠ 0)) := by
  refine ⟨pmap_lowmem_finalize_doconstro_true _ _ _ _ _ _, ?_⟩
  intro fuel s s' hrun
  have heff := pmap_lowmem_finalize_data_spec _ sdata edata sconstdata econstdata
    (by simpa [PAGE_SIZE] using hs) (by simpa [PAGE_SIZE] using he) he2 fuel sdata s s'
    (by simpa [PAGE_SIZE] using hs) hrun
  constructor
  · intro a hw hw'
    rcases heff.2 a with ⟨_, m⟩ | ⟨_, _, _, m⟩ | ⟨v, d, t, _⟩
    · rw [m] at hw'; exact absurd hw' hw
    · exfalso
      rw [m] at hw'
      have h1 := (write_iff _).1 hw
      have h2 := (mark_word_bits true false (s.mem a)).2.2.2.1 rfl
      rw [← h2] at h1
      exact (write_iff _).2 h1 hw'
    · exact ⟨d, v, t⟩
  · intro a t v
    rcases heff.2 a with ⟨n, _⟩ | ⟨_, _, _, m⟩ | ⟨_, _, _, m⟩
    · exact absurd ⟨t, v⟩ n
    · rw [m]; exact (mark_word_bits true false _).1 rfl
    · rw [m]; exact (mark_word_bits true true _).1 rfl

theorem pmap_lowmem_finalize_constro_validation_witness :
    (0x1000 % PAGE_SIZE = 0 ∧ 0x4000 % PAGE_SIZE = 0 ∧ 0x4000 < 2 ^ 64) ∧
    (∃ s', pmap_lowmem_finalize_data_pass none false 0x1000 0x4000 0x3000 0x4000 4 sample_kernel
      = Result.ret () s') ∧
    ((pmap_lowmem_finalize_doconstro none false 0x1000 0x4000 0x3000 0x4000 = true →
      (none : Option Bool) ≠ some false ∧ 0x3000 % PAGE_SIZE = 0 ∧
      (0x4000 % PAGE_SIZE = 0 ∨ false = true) ∧
      0x1000 ≤ 0x3000 ∧ 0x3000 ≤ 0x4000 ∧
      (0x4000 + 2 ^ 64 - 0x3000) % 2 ^ 64 < (0x4000 + 2 ^ 64 - 0x1000) % 2 ^ 64) ∧
    (∀ fuel s s',
      pmap_lowmem_finalize_data_pass none false 0x1000 0x4000 0x3000 0x4000 fuel s
        = Result.ret () s' →
      (∀ a, s.mem a &&& INTEL_PTE_WRITE ≠ 0 → s'.mem a &&& INTEL_PTE_WRITE = 0 →
        pmap_lowmem_finalize_doconstro none false 0x1000 0x4000 0x3000 0x4000 = true ∧
        s.mem a &&& INTEL_PTE_VALID ≠ 0 ∧
        data_target s (max 0x1000 0x3000) (min 0x4000 0x4000) a) ∧
      (∀ a, data_target s 0x1000 0x4000 a → s.mem a &&& INTEL_PTE_VALID ≠ 0 →
        s'.mem a &&& INTEL_PTE_NX ≠ 0))) :=
  ⟨by decide, ⟨_, rfl⟩, pmap_lowmem_finalize_constro_validation none false 0x1000 0x4000 0x3000
    0x4000 (by decide) (by decide) (by decide)⟩

/-- Claim C28: for page-aligned `sdata` and `edata`, after a returning data pass
of `pmap_lowmem_finalize` the present entry of every data page of
`[sdata, edata)` has the no-execute bit set, so it is not writable and
executable; its frame number and every bit other than the writable and the
no-execute bit are unchanged; its writable bit is clear when `doconstro` holds
and it is the entry of a data page of `[sconstdata, econstdata)`, and unchanged
otherwise.  The pass returns within one unit of fuel per data page plus one
when every data page has a leaf slot and, where `assert` is compiled in, a
present entry. -/
theorem pmap_lowmem_finalize_data_nx (dataconstro : Option Bool)
    (doconstro_override : Bool) (sdata edata sconstdata econstdata : Nat)
    (hs : sdata % PAGE_SIZE = 0) (he : edata % PAGE_SIZE = 0) (he2 : edata < 2 ^ 64) :
    (∀ fuel s s',
      pmap_lowmem_finalize_data_pass dataconstro doconstro_override sdata edata sconstdata
        econstdata fuel s = Result.ret () s' →
      ∀ a, data_target s sdata edata a → s.mem a &&& INTEL_PTE_VALID ≠ 0 →
        s'.mem a &&& INTEL_PTE_NX ≠ 0 ∧
        ¬ (s'.mem a &&& INTEL_PTE_WRITE ≠ 0 ∧ s'.mem a &&& INTEL_PTE_NX = 0) ∧
        s'.mem a &&& PG_FRAME = s.mem a &&& PG_FRAME ∧
        (∀ i, i ≠ 1 → i ≠ 63 → i < 64 → (s'.mem a).testBit i = (s.mem a).testBit i) ∧
        ((pmap_lowmem_finalize_doconstro dataconstro doconstro_override sdata edata sconstdata
            econstdata = true ∧
          data_target s (max sdata sconstdata) (min edata econstdata) a) →
          s'.mem a &&& INTEL_PTE_WRITE = 0) ∧
        (¬ (pmap_lowmem_finalize_doconstro dataconstro doconstro_override sdata edata
            sconstdata econstdata = true ∧
          data_target s (max sdata sconstdata) (min edata econstdata) a) →
          (s'.mem a).testBit 1 = (s.mem a).testBit 1)) ∧
    (∀ s : State,
      (∀ d, sdata ≤ d → d < edata → d % PAGE_SIZE = 0 → pmap_pte s s.kernel_pmap d ≠ none) →
      (s.MACH_ASSERT = true → ∀ d p, sdata ≤ d → d < edata → d % PAGE_SIZE = 0 →
        pmap_pte s s.kernel_pmap d = some p → s.mem p &&& INTEL_PTE_VALID ≠ 0) →
      ∃ s', pmap_lowmem_finalize_data_pass dataconstro doconstro_override sdata edata sconstdata
        econstdata ((edata - sdata) / PAGE_SIZE + 1) s = Result.ret () s') := by
  have hs' : sdata % 4096 = 0 := by simpa [PAGE_SIZE] using hs
  have he' : edata % 4096 = 0 := by simpa [PAGE_SIZE] using he
  constructor
  · intro fuel s s' hrun a t v
    have heff := pmap_lowmem_finalize_data_spec _ sdata edata sconstdata econstdata
      hs' he' he2 fuel sdata s s' hs' hrun
    have key : ∀ c : Bool, s'.mem a = mark_word true c (s.mem a) →
        s'.mem a &&& INTEL_PTE_NX ≠ 0 ∧
        ¬ (s'.mem a &&& INTEL_PTE_WRITE ≠ 0 ∧ s'.mem a &&& INTEL_PTE_NX = 0) ∧
        s'.mem a &&& PG_FRAME = s.mem a &&& PG_FRAME ∧
        (∀ i, i ≠ 1 → i ≠ 63 → i < 64 → (s'.mem a).testBit i = (s.mem a).testBit i) := by
      intro c m
      have hnx : s'.mem a &&& INTEL_PTE_NX ≠ 0 := by
        rw [m]; exact (mark_word_bits true c _).1 rfl
      refine ⟨hnx, fun hh => hnx hh.2, by rw [m, mark_word_frame], ?_⟩
      rw [m]
      exact (mark_word_bits true c _).2.2.2.2
    rcases heff.2 a with ⟨n, _⟩ | ⟨_, _, n, m⟩ | ⟨_, d, t', m⟩
    · exact absurd ⟨t, v⟩ n
    · obtain ⟨k1, k2, k3, k4⟩ := key false m
      refine ⟨k1, k2, k3, k4, fun hh => absurd hh n, fun _ => ?_⟩
      rw [m]
      exact (mark_word_bits true false _).2.2.2.1 rfl
    · obtain ⟨k1, k2, k3, k4⟩ := key true m
      refine ⟨k1, k2, k3, k4, fun _ => ?_, fun hh => absurd ⟨d, t'⟩ hh⟩
      rw [m]
      exact (mark_word_bits true true _).2.1 rfl
  · intro s hpte hassert
    unfold pmap_lowmem_finalize_data_pass
    exact pmap_lowmem_finalize_data_returns _ sdata edata sconstdata econstdata hs' he' he2
      ((edata - sdata) / PAGE_SIZE) sdata s hs' (by unfold PAGE_SIZE; omega)
      (fun d h1 h2 h3 => hpte d h1 h2 (by simpa [PAGE_SIZE] using h3))
      (fun h d p h1 h2 h3 h4 => hassert h d p h1 h2 (by simpa [PAGE_SIZE] using h3) h4)

theorem pmap_lowmem_finalize_data_nx_witness :
    (0x1000 % PAGE_SIZE = 0 ∧ 0x4000 % PAGE_SIZE = 0 ∧ 0x4000 < 2 ^ 64) ∧
    (∃ s', pmap_lowmem_finalize_data_pass none false 0x1000 0x4000 0x3000 0x4000 4 sample_kernel
        = Result.ret () s' ∧
      s'.mem 0x4008 = 0x8000000000005001 ∧ s'.mem 0x4010 = 0x8000000000006003 ∧
      s'.mem 0x4018 = 0x8000000000007001) ∧
    ((∀ fuel s s',
      pmap_lowmem_finalize_data_pass none false 0x1000 0x4000 0x3000 0x4000 fuel s
        = Result.ret () s' →
      ∀ a, data_target s 0x1000 0x4000 a → s.mem a &&& INTEL_PTE_VALID ≠ 0 →
        s'.mem a &&& INTEL_PTE_NX ≠ 0 ∧
        ¬ (s'.mem a &&& INTEL_PTE_WRITE ≠ 0 ∧ s'.mem a &&& INTEL_PTE_NX = 0) ∧
        s'.mem a &&& PG_FRAME = s.mem a &&& PG_FRAME ∧
        (∀ i, i ≠ 1 → i ≠ 63 → i < 64 → (s'.mem a).testBit i = (s.mem a).testBit i) ∧
        ((pmap_lowmem_finalize_doconstro none false 0x1000 0x4000 0x3000 0x4000 = true ∧
          data_target s (max 0x1000 0x3000) (min 0x4000 0x4000) a) →
          s'.mem a &&& INTEL_PTE_WRITE = 0) ∧
        (¬ (pmap_lowmem_finalize_doconstro none false 0x1000 0x4000 0x3000 0x4000 = true ∧
          data_target s (max 0x1000 0x3000) (min 0x4000 0x4000) a) →
          (s'.mem a).testBit 1 = (s.mem a).testBit 1)) ∧
    (∀ s : State,
      (∀ d, 0x1000 ≤ d → d < 0x4000 → d % PAGE_SIZE = 0 → pmap_pte s s.kernel_pmap d ≠ none) →
      (s.MACH_ASSERT = true → ∀ d p, 0x1000 ≤ d → d < 0x4000 → d % PAGE_SIZE = 0 →
        pmap_pte s s.kernel_pmap d = some p → s.mem p &&& INTEL_PTE_VALID ≠ 0) →
      ∃ s', pmap_lowmem_finalize_data_pass none false 0x1000 0x4000 0x3000 0x4000
        ((0x4000 - 0x1000) / PAGE_SIZE + 1) s = Result.ret () s')) :=
  ⟨by decide, ⟨_, rfl, by decide, by decide, by decide⟩,
    pmap_lowmem_finalize_data_nx none false 0x1000 0x4000 0x3000 0x4000 (by decide) (by decide)
      (by decide)⟩

end Pmap
